import Mathlib

/-!
# IREE VM execution stack (`iree/vm/stack.c`, `iree/vm/stack.h`)

A shallow embedding of the fiber stack of the IREE virtual machine: frames,
register views, the ABI and paired register remaps, and the internal and
external enter / leave operations.

Modelling conventions.

* Host memory is split by cell type: `Memory.i32` holds the `int32_t` cells and
  `Memory.ref` the `iree_vm_ref_t` cells, both keyed by byte address;
  `Memory.counter` is the reference counter of the object at a payload pointer.
* Pointers are byte addresses (`Nat`); the explicit `uintptr_t` arithmetic of
  the rebasing helpers is taken modulo `2 ^ 64`.
* A register list is the list of its `registers`; its `size` is the length.
* A pointer that may be `NULL` is an `Option`; dereferencing `NULL` or indexing
  `frames` outside `[0, 32)` is a fault, and a faulting call has no result
  (`none`).
* `VMCHECK` is modelled as in a release build (`NDEBUG`), where it expands to
  nothing.
-/

namespace Iree

/-- Status codes of `iree_status_t`. -/
inductive iree_status_t where
  | IREE_STATUS_OK
  | IREE_STATUS_CANCELLED
  | IREE_STATUS_UNKNOWN
  | IREE_STATUS_INVALID_ARGUMENT
  | IREE_STATUS_DEADLINE_EXCEEDED
  | IREE_STATUS_NOT_FOUND
  | IREE_STATUS_ALREADY_EXISTS
  | IREE_STATUS_PERMISSION_DENIED
  | IREE_STATUS_RESOURCE_EXHAUSTED
  | IREE_STATUS_FAILED_PRECONDITION
  | IREE_STATUS_ABORTED
  | IREE_STATUS_OUT_OF_RANGE
  | IREE_STATUS_UNIMPLEMENTED
  | IREE_STATUS_INTERNAL
  | IREE_STATUS_UNAVAILABLE
  | IREE_STATUS_DATA_LOSS
  deriving DecidableEq, Repr

open iree_status_t

/-- Maximum stack depth, in frames (`stack.h`). -/
def IREE_MAX_STACK_DEPTH : Nat := 32

/-- Bit 15 of a register ordinal: the register is a reference. -/
def IREE_REF_REGISTER_TYPE_BIT : Nat := 0x8000

/-- Bit 14 of a register ordinal: the reference is moved, not retained. -/
def IREE_REF_REGISTER_MOVE_BIT : Nat := 0x4000

/-- Default size of the register arena (`stack.c`). -/
def IREE_VM_STACK_DEFAULT_ALLOC_SIZE : Nat := 16 * 1024

/-- Modulus of `uintptr_t` arithmetic. -/
def UINTPTR_MOD : Nat := 2 ^ 64

/-- Modulus of `uint16_t` arithmetic. -/
def UINT16_MOD : Nat := 2 ^ 16

/-- Size in bytes of an `int32_t` register cell. -/
def sizeof_i32 : Nat := 4

/-- Size in bytes of an `iree_vm_ref_t` register cell: `stack.c` notes that ref
registers are `2 * sizeof(void*)`. -/
def sizeof_iree_vm_ref_t : Nat := 16

/-- Modelled from the spec: a reference handle cell `iree_vm_ref_t` (declared in
`iree/vm/ref.h`, which is not part of the sources): a payload pointer and a
type id; the empty cell has type id 0 and a null payload. -/
structure iree_vm_ref_t where
  ptr : Nat
  type : Nat
  deriving DecidableEq, Repr

/-- The all-zero reference cell, as left by `memset(ref, 0, sizeof(*ref))`. -/
def iree_vm_ref_null : iree_vm_ref_t := { ptr := 0, type := 0 }

/-- Pointers to typed register storage (`iree_vm_registers_t`). -/
structure iree_vm_registers_t where
  i32 : Nat
  i32_mask : Nat
  ref : Nat
  ref_mask : Nat
  deriving DecidableEq, Repr

/-- The all-zero register view, as left by `memset`. -/
def iree_vm_registers_zero : iree_vm_registers_t :=
  { i32 := 0, i32_mask := 0, ref := 0, ref_mask := 0 }

/-- A function reference (`iree_vm_function_t`, `module.h`); `module` is the
module pointer, 0 for `NULL`. -/
structure iree_vm_function_t where
  module : Nat
  linkage : Nat
  ordinal : Int
  i32_register_count : Nat
  ref_register_count : Nat
  deriving DecidableEq, Repr

/-- The all-zero function reference. -/
def iree_vm_function_zero : iree_vm_function_t :=
  { module := 0, linkage := 0, ordinal := 0, i32_register_count := 0,
    ref_register_count := 0 }

/-- A variable-length list of 16-bit register ordinals
(`iree_vm_register_list_t`, `module.h`). -/
abbrev iree_vm_register_list_t := List Nat

/-- A single stack frame (`iree_vm_stack_frame_t`); `module_state` is a pointer,
0 for `NULL`; `return_registers` is a pointer to a register list. -/
structure iree_vm_stack_frame_t where
  pc : Int
  register_base : iree_vm_registers_t
  function : iree_vm_function_t
  module_state : Nat
  return_registers : Option iree_vm_register_list_t
  deriving DecidableEq, Repr

/-- The all-zero frame. -/
def iree_vm_stack_frame_zero : iree_vm_stack_frame_t :=
  { pc := 0, register_base := iree_vm_registers_zero,
    function := iree_vm_function_zero, module_state := 0,
    return_registers := none }

/-- A state resolver (`iree_vm_state_resolver_t`): `query_module_state self
module` returns the status and, when the status is OK, the state pointer it
stores into `*out_module_state`. -/
structure iree_vm_state_resolver_t where
  self : Nat
  query_module_state : Nat → Nat → iree_status_t × Nat

/-- The fiber stack (`iree_vm_stack_t`). -/
structure iree_vm_stack_t where
  register_storage_capacity : Nat
  register_storage_size : Nat
  register_storage : Nat
  depth : Int
  frames : List iree_vm_stack_frame_t
  allocator : Nat
  state_resolver : iree_vm_state_resolver_t

/-- Typed host memory: `int32_t` cells and reference cells by byte address, and
the reference counter of the object at each payload pointer. The two kinds of
cell are kept apart and every address can be read and written: the model is
exact for register views whose i32 bank and reference bank do not overlap, and
it has no notion of an access that faults on an invalid address. -/
structure Memory where
  i32 : Nat → Int
  ref : Nat → iree_vm_ref_t
  counter : Nat → Nat

/-- Address of `base[k]` for an `int32_t*` base. -/
def i32_addr (base k : Nat) : Nat := base + sizeof_i32 * k

/-- Address of `base[k]` for an `iree_vm_ref_t*` base. -/
def ref_addr (base k : Nat) : Nat := base + sizeof_iree_vm_ref_t * k

/-- Store into an `int32_t` cell. -/
def Memory.set_i32 (m : Memory) (a : Nat) (v : Int) : Memory :=
  { m with i32 := Function.update m.i32 a v }

/-- Store into a reference cell. -/
def Memory.set_ref (m : Memory) (a : Nat) (r : iree_vm_ref_t) : Memory :=
  { m with ref := Function.update m.ref a r }

/-- Modelled from the spec: the counter effect of `retain(h)` from
`iree/vm/ref.h` (not part of the sources): increments the counter of a non-null
handle. -/
def Memory.retain (m : Memory) (r : iree_vm_ref_t) : Memory :=
  if r.ptr = 0 then m
  else { m with counter := Function.update m.counter r.ptr (m.counter r.ptr + 1) }

/-- Modelled from the spec: the counter effect of `release(h)` from
`iree/vm/ref.h` (not part of the sources): decrements the counter of a non-null
handle (at zero the payload is destroyed). -/
def Memory.release (m : Memory) (r : iree_vm_ref_t) : Memory :=
  if r.ptr = 0 then m
  else { m with counter := Function.update m.counter r.ptr (m.counter r.ptr - 1) }

/-- Modelled from the spec: `iree_vm_ref_retain(ref, out_ref)` from
`iree/vm/ref.h` (not part of the sources): retains `ref` and stores it into the
cell at `out_ref`, releasing the previous occupant of that cell first. -/
def iree_vm_ref_retain (ref : iree_vm_ref_t) (out_ref : Nat) (m : Memory) : Memory :=
  ((m.release (m.ref out_ref)).retain ref).set_ref out_ref ref

/-- Modelled from the spec: `iree_vm_ref_retain_or_move(is_move, src, dst)` from
`iree/vm/ref.h` (not part of the sources): "if `is_move`, copy src into dst and
null src; else retain src and store into dst. Before writing, dst is released
if non-null." -/
def iree_vm_ref_retain_or_move (is_move : Bool) (src dst : Nat) (m : Memory) : Memory :=
  let s := m.ref src
  let m1 := m.release (m.ref dst)
  if is_move then (m1.set_ref dst s).set_ref src iree_vm_ref_null
  else (m1.retain s).set_ref dst s

/-- Rebases `registers` from the register storage arrays to base offsets
(`iree_vm_registers_to_base`). -/
def iree_vm_registers_to_base (stack : iree_vm_stack_t)
    (registers : iree_vm_registers_t) : iree_vm_registers_t :=
  { i32_mask := registers.i32_mask
    i32 := (registers.i32 % UINTPTR_MOD + (UINTPTR_MOD - stack.register_storage % UINTPTR_MOD))
      % UINTPTR_MOD
    ref_mask := registers.ref_mask
    ref := (registers.ref % UINTPTR_MOD + (UINTPTR_MOD - stack.register_storage % UINTPTR_MOD))
      % UINTPTR_MOD }

/-- Rebases `base_registers` into the register storage arrays
(`iree_vm_registers_from_base`). -/
def iree_vm_registers_from_base (stack : iree_vm_stack_t)
    (base_registers : iree_vm_registers_t) : iree_vm_registers_t :=
  { i32_mask := base_registers.i32_mask
    i32 := (stack.register_storage % UINTPTR_MOD + base_registers.i32 % UINTPTR_MOD) % UINTPTR_MOD
    ref_mask := base_registers.ref_mask
    ref := (stack.register_storage % UINTPTR_MOD + base_registers.ref % UINTPTR_MOD) % UINTPTR_MOD }

/-- Allocates register storage for a frame
(`iree_vm_stack_reserve_register_storage`). In the source every step is a
comment: `frame_size` is 0, nothing is reallocated, `out_registers` is never
written and the status is OK. `out_registers` is therefore the value the
destination held before the call. -/
def iree_vm_stack_reserve_register_storage (stack : iree_vm_stack_t)
    (_function : iree_vm_function_t) (out_registers : iree_vm_registers_t) :
    iree_status_t × iree_vm_stack_t × iree_vm_registers_t :=
  let frame_size : Nat := 0
  let stack1 := if stack.register_storage_size + frame_size ≠ 0 then stack else stack
  (IREE_STATUS_OK, stack1, out_registers)

/-- Releases the register storage of a frame
(`iree_vm_stack_release_register_storage`): the body is empty in the source
(the release loop is commented out). -/
def iree_vm_stack_release_register_storage (stack : iree_vm_stack_t) (m : Memory)
    (_frame : Int) : iree_vm_stack_t × Memory :=
  (stack, m)

/-- Loop of `iree_vm_stack_frame_remap_abi_registers`, from list position `i`
on, with the two running bank offsets. -/
def iree_vm_stack_frame_remap_abi_registers_loop (src_regs dst_regs : iree_vm_registers_t) :
    iree_vm_register_list_t → Nat → Nat → Memory → Memory
  | [], _, _, m => m
  | src_reg :: rest, i32_reg_offset, ref_reg_offset, m =>
    if src_reg &&& IREE_REF_REGISTER_TYPE_BIT ≠ 0 then
      let dst_reg := ref_reg_offset % UINT16_MOD
      let dst := ref_addr dst_regs.ref (dst_reg &&& dst_regs.ref_mask)
      let m1 := m.set_ref dst iree_vm_ref_null
      let m2 := iree_vm_ref_retain_or_move (decide (src_reg &&& IREE_REF_REGISTER_MOVE_BIT ≠ 0))
        (ref_addr src_regs.ref (src_reg &&& src_regs.ref_mask)) dst m1
      iree_vm_stack_frame_remap_abi_registers_loop src_regs dst_regs rest
        i32_reg_offset (ref_reg_offset + 1) m2
    else
      let dst_reg := i32_reg_offset % UINT16_MOD
      let m1 := m.set_i32 (i32_addr dst_regs.i32 (dst_reg &&& dst_regs.i32_mask))
        (m.i32 (i32_addr src_regs.i32 (src_reg &&& src_regs.i32_mask)))
      iree_vm_stack_frame_remap_abi_registers_loop src_regs dst_regs rest
        (i32_reg_offset + 1) ref_reg_offset m1

/-- Remaps argument registers from a source list to the 0-N ABI registers of
the destination (`iree_vm_stack_frame_remap_abi_registers`). -/
def iree_vm_stack_frame_remap_abi_registers (src_regs : iree_vm_registers_t)
    (src_reg_list : iree_vm_register_list_t) (dst_regs : iree_vm_registers_t)
    (m : Memory) : Memory :=
  iree_vm_stack_frame_remap_abi_registers_loop src_regs dst_regs src_reg_list 0 0 m

/-- Loop of `iree_vm_stack_frame_remap_registers` over the two lists in step. -/
def iree_vm_stack_frame_remap_registers_loop (src_regs dst_regs : iree_vm_registers_t) :
    iree_vm_register_list_t → iree_vm_register_list_t → Memory → Memory
  | src_reg :: src_rest, dst_reg :: dst_rest, m =>
    if src_reg &&& IREE_REF_REGISTER_TYPE_BIT ≠ 0 then
      iree_vm_stack_frame_remap_registers_loop src_regs dst_regs src_rest dst_rest
        (iree_vm_ref_retain_or_move (decide (src_reg &&& IREE_REF_REGISTER_MOVE_BIT ≠ 0))
          (ref_addr src_regs.ref (src_reg &&& src_regs.ref_mask))
          (ref_addr dst_regs.ref (dst_reg &&& dst_regs.ref_mask)) m)
    else
      iree_vm_stack_frame_remap_registers_loop src_regs dst_regs src_rest dst_rest
        (m.set_i32 (i32_addr dst_regs.i32 (dst_reg &&& dst_regs.i32_mask))
          (m.i32 (i32_addr src_regs.i32 (src_reg &&& src_regs.i32_mask))))
  | _, _, m => m

/-- Remaps registers from source to destination with the mappings of the two
lists (`iree_vm_stack_frame_remap_registers`). Reading the size of a `NULL`
destination list is a fault; lists of different sizes are left unmapped. -/
def iree_vm_stack_frame_remap_registers (src_regs : iree_vm_registers_t)
    (src_reg_list : iree_vm_register_list_t) (dst_regs : iree_vm_registers_t)
    (dst_reg_list : Option iree_vm_register_list_t) (m : Memory) : Option Memory :=
  match dst_reg_list with
  | none => none
  | some dst_list =>
    if src_reg_list.length ≠ dst_list.length then some m
    else some (iree_vm_stack_frame_remap_registers_loop src_regs dst_regs src_reg_list dst_list m)

/-- Access to `stack->frames[i]`: a fault outside the 32-slot array. -/
def frame_at (frames : List iree_vm_stack_frame_t) (i : Int) : Option iree_vm_stack_frame_t :=
  if 0 ≤ i ∧ i < IREE_MAX_STACK_DEPTH then frames[i.toNat]? else none

/-- Constructs a stack (`iree_vm_stack_init`); `malloc_result` is the status and
pointer produced by `iree_allocator_malloc`. -/
def iree_vm_stack_init (state_resolver : iree_vm_state_resolver_t) (allocator : Nat)
    (malloc_result : iree_status_t × Nat) : iree_status_t × iree_vm_stack_t :=
  let out_stack : iree_vm_stack_t :=
    { register_storage_capacity := IREE_VM_STACK_DEFAULT_ALLOC_SIZE
      register_storage_size := 0
      register_storage := 0
      depth := 0
      frames := List.replicate IREE_MAX_STACK_DEPTH iree_vm_stack_frame_zero
      allocator := allocator
      state_resolver := state_resolver }
  if malloc_result.1 ≠ IREE_STATUS_OK then (malloc_result.1, out_stack)
  else (IREE_STATUS_OK, { out_stack with register_storage := malloc_result.2 })

/-- Index of the parent frame, `none` for `NULL` (`iree_vm_stack_parent_frame`). -/
def iree_vm_stack_parent_frame (stack : iree_vm_stack_t) : Option Int :=
  if stack.depth > 1 then some (stack.depth - 2) else none

/-- Host register view of a frame (`iree_vm_stack_frame_registers`, with a
non-null `out_registers`). -/
def iree_vm_stack_frame_registers (stack : iree_vm_stack_t)
    (stack_frame : iree_vm_stack_frame_t) : iree_status_t × iree_vm_registers_t :=
  (IREE_STATUS_OK, iree_vm_registers_from_base stack stack_frame.register_base)

/-- Outcome of `iree_vm_stack_function_enter`: the status, the stack and memory
afterwards, and what the call stores through `out_callee_frame` (a frame index,
`none` for `NULL`) and `out_callee_registers`. -/
structure EnterResult where
  status : iree_status_t
  stack : iree_vm_stack_t
  mem : Memory
  out_callee_frame : Option Int
  out_callee_registers : iree_vm_registers_t

/-- The callee frame after the function, pc, return registers and the inherited
module state have been stored (`stack.c` lines 222-232). -/
def enter_setup_callee_frame (callee_frame : iree_vm_stack_frame_t)
    (caller_frame : Option iree_vm_stack_frame_t) (function : iree_vm_function_t) :
    iree_vm_stack_frame_t :=
  let callee1 := { callee_frame with function := function, pc := 0, return_registers := none }
  match caller_frame with
  | some caller =>
    if caller.function.module = function.module then
      { callee1 with module_state := caller.module_state }
    else callee1
  | none => callee1

/-- Enters `function`, pushing the callee frame
(`iree_vm_stack_function_enter`). `callee_registers` is the indeterminate
initial value of the local of that name, which the reserve step never
overwrites. -/
def iree_vm_stack_function_enter (stack : iree_vm_stack_t) (m : Memory)
    (function : iree_vm_function_t) (argument_registers : Option iree_vm_register_list_t)
    (callee_registers : iree_vm_registers_t) : Option EnterResult :=
  if stack.depth = IREE_MAX_STACK_DEPTH then
    some { status := IREE_STATUS_RESOURCE_EXHAUSTED, stack := stack, mem := m,
           out_callee_frame := none, out_callee_registers := iree_vm_registers_zero }
  else do
    let callee0 ← frame_at stack.frames stack.depth
    let caller_frame : Option iree_vm_stack_frame_t ←
      if stack.depth ≠ 0 then (frame_at stack.frames (stack.depth - 1)).map some else some none
    let callee1 := enter_setup_callee_frame callee0 caller_frame function
    let pushed (f : iree_vm_stack_frame_t) : iree_vm_stack_t :=
      { stack with depth := stack.depth + 1, frames := stack.frames.set stack.depth.toNat f }
    let query := stack.state_resolver.query_module_state stack.state_resolver.self function.module
    if callee1.module_state = 0 ∧ query.1 ≠ IREE_STATUS_OK then
      some { status := query.1, stack := pushed callee1, mem := m,
             out_callee_frame := none, out_callee_registers := iree_vm_registers_zero }
    else
      let callee2 :=
        if callee1.module_state = 0 then { callee1 with module_state := query.2 } else callee1
      let reserved := iree_vm_stack_reserve_register_storage (pushed callee2) function callee_registers
      if reserved.1 ≠ IREE_STATUS_OK then
        some { status := reserved.1, stack := reserved.2.1, mem := m,
               out_callee_frame := none, out_callee_registers := iree_vm_registers_zero }
      else
        let stack2 := reserved.2.1
        let callee_registers := reserved.2.2
        let callee3 :=
          { callee2 with register_base := iree_vm_registers_to_base stack2 callee_registers }
        let stack3 := { stack2 with frames := stack2.frames.set stack.depth.toNat callee3 }
        let m1 :=
          match caller_frame, argument_registers with
          | some caller, some args =>
            iree_vm_stack_frame_remap_abi_registers
              (iree_vm_registers_from_base stack3 caller.register_base) args callee_registers m
          | _, _ => m
        some { status := IREE_STATUS_OK, stack := stack3, mem := m1,
               out_callee_frame := some stack.depth, out_callee_registers := callee_registers }

/-- Outcome of `iree_vm_stack_function_leave`: the status, the stack and memory
afterwards, and what the call stores through `out_caller_frame` and
`out_caller_registers`. -/
structure LeaveResult where
  status : iree_status_t
  stack : iree_vm_stack_t
  mem : Memory
  out_caller_frame : Option Int
  out_caller_registers : iree_vm_registers_t

/-- Pops the frame at the top of the stack: decrements the depth and zeroes the
function and module state of the popped slot (`stack.c` lines 289-292). -/
def pop_frame (stack : iree_vm_stack_t) (callee_frame : iree_vm_stack_frame_t) :
    iree_vm_stack_t :=
  { stack with
    depth := stack.depth - 1
    frames := stack.frames.set (stack.depth - 1).toNat
      { callee_frame with function := iree_vm_function_zero, module_state := 0 } }

/-- Remap of result registers from the callee frame to the caller frame
(`stack.c` lines 272-284): the caller register view and the memory afterwards.
Without a caller frame or a result list the view stays zeroed. -/
def leave_remap_results (stack : iree_vm_stack_t) (m : Memory)
    (result_registers : Option iree_vm_register_list_t) (callee_frame : iree_vm_stack_frame_t) :
    Option (iree_vm_registers_t × Memory) :=
  if stack.depth > 1 then
    match result_registers with
    | some results => do
      let caller_frame ← frame_at stack.frames (stack.depth - 2)
      let callee_registers := iree_vm_registers_from_base stack callee_frame.register_base
      let caller_registers := iree_vm_registers_from_base stack caller_frame.register_base
      let m1 ← iree_vm_stack_frame_remap_registers callee_registers results
        caller_registers caller_frame.return_registers m
      some (caller_registers, m1)
    | none => some (iree_vm_registers_zero, m)
  else some (iree_vm_registers_zero, m)

/-- Leaves the current stack frame (`iree_vm_stack_function_leave`). -/
def iree_vm_stack_function_leave (stack : iree_vm_stack_t) (m : Memory)
    (result_registers : Option iree_vm_register_list_t) : Option LeaveResult :=
  if stack.depth ≤ 0 then
    some { status := IREE_STATUS_FAILED_PRECONDITION, stack := stack, mem := m,
           out_caller_frame := none, out_caller_registers := iree_vm_registers_zero }
  else do
    let callee_frame ← frame_at stack.frames (stack.depth - 1)
    let remapped ← leave_remap_results stack m result_registers callee_frame
    let released := iree_vm_stack_release_register_storage stack remapped.2 (stack.depth - 1)
    some { status := IREE_STATUS_OK, stack := pop_frame released.1 callee_frame,
           mem := released.2,
           out_caller_frame := if stack.depth > 1 then some (stack.depth - 2) else none,
           out_caller_registers := remapped.1 }

/-- Modelled from the spec: a value at the host boundary (`iree_vm_variant_t`,
declared in `iree/vm/variant_list.h`, which is not part of the sources): "a
discriminated union of {i32 primitive, reference handle}". -/
inductive iree_vm_variant_t where
  | i32 (value : Int)
  | ref (value : iree_vm_ref_t)
  deriving DecidableEq, Repr

/-- Modelled from the spec: the variant list (`iree_vm_variant_list_t`, declared
in `iree/vm/variant_list.h`, which is not part of the sources): "an ordered,
bounded, heap-allocated sequence of values". -/
structure iree_vm_variant_list_t where
  capacity : Nat
  values : List iree_vm_variant_t
  deriving DecidableEq, Repr

/-- Modelled from the spec: `iree_vm_variant_list_size` (not part of the
sources), the number of values in the list. -/
def iree_vm_variant_list_size (list : iree_vm_variant_list_t) : Nat :=
  list.values.length

/-- Modelled from the spec: `iree_vm_variant_list_append_value` (not part of the
sources): appends a primitive to a bounded list; a full list rejects it. The
spec does not name the status of a rejected append. -/
def iree_vm_variant_list_append_value (list : iree_vm_variant_list_t) (value : Int) :
    iree_status_t × iree_vm_variant_list_t :=
  if list.capacity < list.values.length + 1 then (IREE_STATUS_OUT_OF_RANGE, list)
  else (IREE_STATUS_OK, { list with values := list.values ++ [iree_vm_variant_t.i32 value] })

/-- Modelled from the spec: `iree_vm_variant_list_append_ref_move` (not part of
the sources): appends the handle of the cell at `ref` to a bounded list,
transferring it by move (the cell is nulled, the counter untouched); a full list
rejects it and leaves the cell as it is. -/
def iree_vm_variant_list_append_ref_move (list : iree_vm_variant_list_t) (ref : Nat)
    (m : Memory) : iree_status_t × iree_vm_variant_list_t × Memory :=
  if list.capacity < list.values.length + 1 then (IREE_STATUS_OUT_OF_RANGE, list, m)
  else (IREE_STATUS_OK,
        { list with values := list.values ++ [iree_vm_variant_t.ref (m.ref ref)] },
        m.set_ref ref iree_vm_ref_null)

/-- Counts the registers of each type required for a variant list, as
`uint16_t` counters (`iree_vm_stack_frame_count_register_types`). -/
def iree_vm_stack_frame_count_register_types :
    List iree_vm_variant_t → Nat → Nat → Nat × Nat
  | [], i32_reg, ref_reg => (i32_reg, ref_reg)
  | iree_vm_variant_t.ref _ :: rest, i32_reg, ref_reg =>
    iree_vm_stack_frame_count_register_types rest i32_reg ((ref_reg + 1) % UINT16_MOD)
  | iree_vm_variant_t.i32 _ :: rest, i32_reg, ref_reg =>
    iree_vm_stack_frame_count_register_types rest ((i32_reg + 1) % UINT16_MOD) ref_reg

/-- Loop of `iree_vm_stack_frame_marshal_inputs` with the two running
`uint16_t` ordinals; returns the memory and the ordinals written to
`out_dst_reg_list->registers`. -/
def iree_vm_stack_frame_marshal_inputs_loop (dst_regs : iree_vm_registers_t) :
    List iree_vm_variant_t → Nat → Nat → Memory → Memory × List Nat
  | [], _, _, m => (m, [])
  | iree_vm_variant_t.ref value :: rest, i32_reg, ref_reg, m =>
    let entry := (ref_reg ||| IREE_REF_REGISTER_TYPE_BIT ||| IREE_REF_REGISTER_MOVE_BIT) % UINT16_MOD
    let reg_ref := ref_addr dst_regs.ref ref_reg
    let m1 := m.set_ref reg_ref iree_vm_ref_null
    let m2 := iree_vm_ref_retain value reg_ref m1
    let r := iree_vm_stack_frame_marshal_inputs_loop dst_regs rest i32_reg
      ((ref_reg + 1) % UINT16_MOD) m2
    (r.1, entry :: r.2)
  | iree_vm_variant_t.i32 value :: rest, i32_reg, ref_reg, m =>
    let m1 := m.set_i32 (i32_addr dst_regs.i32 i32_reg) value
    let r := iree_vm_stack_frame_marshal_inputs_loop dst_regs rest
      ((i32_reg + 1) % UINT16_MOD) ref_reg m1
    (r.1, i32_reg :: r.2)

/-- Marshals a variant list into callee registers
(`iree_vm_stack_frame_marshal_inputs`); the list read back from
`out_dst_reg_list` has the `uint16_t` size stored there. -/
def iree_vm_stack_frame_marshal_inputs (inputs : iree_vm_variant_list_t)
    (dst_regs : iree_vm_registers_t) (m : Memory) : Memory × iree_vm_register_list_t :=
  let count := iree_vm_variant_list_size inputs
  let r := iree_vm_stack_frame_marshal_inputs_loop dst_regs inputs.values 0 0 m
  (r.1, r.2.take (count % UINT16_MOD))

/-- Loop of `iree_vm_stack_frame_marshal_outputs`: stops at the first append
that fails. -/
def iree_vm_stack_frame_marshal_outputs_loop (src_regs : iree_vm_registers_t) :
    iree_vm_register_list_t → iree_vm_variant_list_t → Memory →
      iree_status_t × iree_vm_variant_list_t × Memory
  | [], outputs, m => (IREE_STATUS_OK, outputs, m)
  | reg :: rest, outputs, m =>
    if reg &&& IREE_REF_REGISTER_TYPE_BIT ≠ 0 then
      let r := iree_vm_variant_list_append_ref_move outputs
        (ref_addr src_regs.ref (reg &&& src_regs.ref_mask)) m
      if r.1 ≠ IREE_STATUS_OK then (r.1, r.2.1, r.2.2)
      else iree_vm_stack_frame_marshal_outputs_loop src_regs rest r.2.1 r.2.2
    else
      let r := iree_vm_variant_list_append_value outputs
        (m.i32 (i32_addr src_regs.i32 (reg &&& src_regs.i32_mask)))
      if r.1 ≠ IREE_STATUS_OK then (r.1, r.2, m)
      else iree_vm_stack_frame_marshal_outputs_loop src_regs rest r.2 m

/-- Marshals callee return registers into a variant list
(`iree_vm_stack_frame_marshal_outputs`); reading the size of a `NULL` register
list is a fault. -/
def iree_vm_stack_frame_marshal_outputs (src_regs : iree_vm_registers_t)
    (src_reg_list : Option iree_vm_register_list_t) (outputs : iree_vm_variant_list_t)
    (m : Memory) : Option (iree_status_t × iree_vm_variant_list_t × Memory) :=
  match src_reg_list with
  | none => none
  | some list => some (iree_vm_stack_frame_marshal_outputs_loop src_regs list outputs m)

/-- Outcome of `iree_vm_stack_function_enter_external`: the status, the stack
and memory afterwards, and the register list read back from
`out_argument_registers`. -/
structure EnterExternalResult where
  status : iree_status_t
  stack : iree_vm_stack_t
  mem : Memory
  out_argument_registers : iree_vm_register_list_t

/-- Enters an external marshaling frame populated with `arguments`
(`iree_vm_stack_function_enter_external`). `max_register_count` is an
identifier the source uses without declaring it; `callee_registers` is the
indeterminate initial value of the local of that name, which the reserve step
never overwrites. -/
def iree_vm_stack_function_enter_external (stack : iree_vm_stack_t) (m : Memory)
    (arguments : Option iree_vm_variant_list_t) (max_register_count : Nat)
    (callee_registers : iree_vm_registers_t) : Option EnterExternalResult :=
  if stack.depth = IREE_MAX_STACK_DEPTH then
    some { status := IREE_STATUS_RESOURCE_EXHAUSTED, stack := stack, mem := m,
           out_argument_registers := [] }
  else do
    let _reg_counts : Nat × Nat :=
      match arguments with
      | some args => iree_vm_stack_frame_count_register_types args.values 0 0
      | none => (0, 0)
    let native_function : iree_vm_function_t :=
      { iree_vm_function_zero with
        i32_register_count := max_register_count % UINT16_MOD
        ref_register_count := max_register_count % UINT16_MOD }
    let callee0 ← frame_at stack.frames stack.depth
    let callee1 := { callee0 with function := native_function, pc := 0, return_registers := none }
    let stack1 : iree_vm_stack_t :=
      { stack with depth := stack.depth + 1, frames := stack.frames.set stack.depth.toNat callee1 }
    let reserved := iree_vm_stack_reserve_register_storage stack1 native_function callee_registers
    if reserved.1 ≠ IREE_STATUS_OK then
      some { status := reserved.1, stack := reserved.2.1, mem := m, out_argument_registers := [] }
    else
      let stack2 := reserved.2.1
      let callee_registers := reserved.2.2
      let callee2 :=
        { callee1 with register_base := iree_vm_registers_to_base stack2 callee_registers }
      let stack3 := { stack2 with frames := stack2.frames.set stack.depth.toNat callee2 }
      match arguments with
      | some args =>
        let r := iree_vm_stack_frame_marshal_inputs args callee_registers m
        some { status := IREE_STATUS_OK, stack := stack3, mem := r.1,
               out_argument_registers := r.2 }
      | none =>
        some { status := IREE_STATUS_OK, stack := stack3, mem := m, out_argument_registers := [] }

/-- Outcome of `iree_vm_stack_function_leave_external`: the status, the stack
and memory afterwards, and the `results` list afterwards (`none` when the
caller passed `NULL`). -/
structure LeaveExternalResult where
  status : iree_status_t
  stack : iree_vm_stack_t
  mem : Memory
  results : Option iree_vm_variant_list_t

/-- Marshaling of the return registers into `results` (`stack.c` lines
422-429): the status, the `results` list and the memory afterwards. -/
def leave_external_marshal (stack : iree_vm_stack_t) (m : Memory)
    (results : Option iree_vm_variant_list_t) (callee_frame : iree_vm_stack_frame_t) :
    Option (iree_status_t × Option iree_vm_variant_list_t × Memory) :=
  match results with
  | some outputs => do
    let r ← iree_vm_stack_frame_marshal_outputs
      (iree_vm_registers_from_base stack callee_frame.register_base)
      callee_frame.return_registers outputs m
    some (r.1, some r.2.1, r.2.2)
  | none => some (IREE_STATUS_OK, none, m)

/-- Leaves an external marshaling frame and populates `results` from its return
registers (`iree_vm_stack_function_leave_external`). -/
def iree_vm_stack_function_leave_external (stack : iree_vm_stack_t) (m : Memory)
    (results : Option iree_vm_variant_list_t) : Option LeaveExternalResult :=
  if stack.depth ≤ 0 then
    some { status := IREE_STATUS_FAILED_PRECONDITION, stack := stack, mem := m,
           results := results }
  else do
    let callee_frame ← frame_at stack.frames (stack.depth - 1)
    let marshaled ← leave_external_marshal stack m results callee_frame
    if marshaled.1 ≠ IREE_STATUS_OK then
      some { status := marshaled.1, stack := stack, mem := marshaled.2.2,
             results := marshaled.2.1 }
    else
      let released := iree_vm_stack_release_register_storage stack marshaled.2.2 (stack.depth - 1)
      some { status := IREE_STATUS_OK, stack := pop_frame released.1 callee_frame,
             mem := released.2, results := marshaled.2.1 }

/-- The calls of the stack API that push or pop frames, with their arguments. -/
inductive StackOp where
  | enter (function : iree_vm_function_t) (argument_registers : Option iree_vm_register_list_t)
      (callee_registers : iree_vm_registers_t)
  | leave (result_registers : Option iree_vm_register_list_t)
  | enter_external (arguments : Option iree_vm_variant_list_t) (max_register_count : Nat)
      (callee_registers : iree_vm_registers_t)
  | leave_external (results : Option iree_vm_variant_list_t)

/-- One call of the stack API on a stack and memory: the status and the stack
and memory afterwards, or `none` when the call faults. -/
def StackOp.step (op : StackOp) (stack : iree_vm_stack_t) (m : Memory) :
    Option (iree_status_t × iree_vm_stack_t × Memory) :=
  match op with
  | StackOp.enter function argument_registers callee_registers =>
    (iree_vm_stack_function_enter stack m function argument_registers callee_registers).map
      fun r => (r.status, r.stack, r.mem)
  | StackOp.leave result_registers =>
    (iree_vm_stack_function_leave stack m result_registers).map
      fun r => (r.status, r.stack, r.mem)
  | StackOp.enter_external arguments max_register_count callee_registers =>
    (iree_vm_stack_function_enter_external stack m arguments max_register_count
      callee_registers).map fun r => (r.status, r.stack, r.mem)
  | StackOp.leave_external results =>
    (iree_vm_stack_function_leave_external stack m results).map
      fun r => (r.status, r.stack, r.mem)

/-- A sequence of calls run in order, each on the stack and memory the previous
one left, whatever status it returned; `none` when some call faults. The
statuses are collected in call order. -/
def run_ops : List StackOp → iree_vm_stack_t → Memory →
    Option (List iree_status_t × iree_vm_stack_t × Memory)
  | [], stack, m => some ([], stack, m)
  | op :: rest, stack, m =>
    match op.step stack m with
    | none => none
    | some r =>
      match run_ops rest r.2.1 r.2.2 with
      | none => none
      | some r2 => some (r.1 :: r2.1, r2.2.1, r2.2.2)

/-- Whether the call pushes a frame. -/
def StackOp.is_enter : StackOp → Bool
  | StackOp.enter _ _ _ => true
  | StackOp.enter_external _ _ _ => true
  | _ => false

/-- A state resolver in the manner of the benchmark harness: every module
resolves, to the state pointer `self`. -/
def resolver_ok : iree_vm_state_resolver_t :=
  { self := 7, query_module_state := fun self _ => (IREE_STATUS_OK, self) }

/-- A state resolver that knows no module: every query is NOT_FOUND, as a
context that does not hold the module answers. -/
def resolver_not_found : iree_vm_state_resolver_t :=
  { self := 7, query_module_state := fun _ _ => (IREE_STATUS_NOT_FOUND, 0) }

/-- Memory with every cell zero and no live object. -/
def memory_zero : Memory :=
  { i32 := fun _ => 0, ref := fun _ => iree_vm_ref_null, counter := fun _ => 0 }

/-- A freshly initialised stack whose arena was allocated at address 4096. -/
def stack_fresh (resolver : iree_vm_state_resolver_t) : iree_vm_stack_t :=
  (iree_vm_stack_init resolver 0 (IREE_STATUS_OK, 4096)).2

/-- A function of module 1 with four registers per bank. -/
def function_f : iree_vm_function_t :=
  { module := 1, linkage := 0, ordinal := 0, i32_register_count := 4, ref_register_count := 4 }

/-- A register view with four registers per bank, i32 cells from `base` and
reference cells from `base + 64`. -/
def window (base : Nat) : iree_vm_registers_t :=
  { i32 := base, i32_mask := 3, ref := base + 64, ref_mask := 3 }

/-- Number of primitive entries (bit 15 clear) of a register list. -/
def count_i32 (list : iree_vm_register_list_t) : Nat :=
  (list.filter fun reg => reg &&& IREE_REF_REGISTER_TYPE_BIT = 0).length

/-- Number of reference entries (bit 15 set) of a register list. -/
def count_ref (list : iree_vm_register_list_t) : Nat :=
  (list.filter fun reg => reg &&& IREE_REF_REGISTER_TYPE_BIT ≠ 0).length

/-- A register mask as `stack.h` describes it: a 16-bit value of the form
`2 ^ k - 1`. -/
def is_register_mask (mask : Nat) : Prop :=
  ∃ k, k ≤ 16 ∧ mask = 2 ^ k - 1

/-- The cells of two register views do not overlap: no register of `a` is the
same cell as a register of `b`, in either bank. -/
def windows_disjoint (a b : iree_vm_registers_t) : Prop :=
  (∀ p, p ≤ a.i32_mask → ∀ q, q ≤ b.i32_mask → i32_addr a.i32 p ≠ i32_addr b.i32 q) ∧
  (∀ p, p ≤ a.ref_mask → ∀ q, q ≤ b.ref_mask → ref_addr a.ref p ≠ ref_addr b.ref q)

/-- No reference register of the source view is named again by a later entry
once an entry has moved it out. -/
def no_use_after_move (src_regs : iree_vm_registers_t) (list : iree_vm_register_list_t) : Prop :=
  list.Pairwise fun ei ej =>
    ei &&& IREE_REF_REGISTER_TYPE_BIT ≠ 0 → ej &&& IREE_REF_REGISTER_TYPE_BIT ≠ 0 →
    ei &&& IREE_REF_REGISTER_MOVE_BIT ≠ 0 →
    ei &&& src_regs.ref_mask ≠ ej &&& src_regs.ref_mask

/-- A stack at the depth limit: the fresh stack with all 32 frames in use. -/
def stack_full : iree_vm_stack_t :=
  { stack_fresh resolver_ok with depth := 32 }

/-- Two nested internal calls of `function_f` without arguments, the callee
register views at 4096 and 4224. -/
def ops_two_enters : List StackOp :=
  [StackOp.enter function_f none (window 4096), StackOp.enter function_f none (window 4224)]

/-- A call sequence that balances to zero: an external call wrapping an
internal one, both left without results. -/
def ops_balanced : List StackOp :=
  [StackOp.enter_external none 4 (window 4096), StackOp.enter function_f none (window 4224),
   StackOp.leave none, StackOp.leave_external none]

/-- The stack after `ops_two_enters` on a fresh stack: depth 2, both frames
with `return_registers = NULL`. -/
def stack_two_frames : iree_vm_stack_t :=
  match run_ops ops_two_enters (stack_fresh resolver_ok) memory_zero with
  | some r => r.2.1
  | none => stack_fresh resolver_ok

/-- The stack after one internal call of `function_f` on a fresh stack, the
callee register view at 4096. -/
def stack_one_frame : iree_vm_stack_t :=
  match run_ops [StackOp.enter function_f none (window 4096)] (stack_fresh resolver_ok)
    memory_zero with
  | some r => r.2.1
  | none => stack_fresh resolver_ok

/-- Memory in which reference register 0 of the view `window 4096` (the cell
at 4160) holds the handle of object 100, whose counter is 1. -/
def memory_one_ref : Memory :=
  (memory_zero.set_ref (ref_addr (window 4096).ref 0) { ptr := 100, type := 1 }).retain
    { ptr := 100, type := 1 }

/-- Memory in which the registers of the view `window 4096` hold arguments:
i32 registers 0 and 1 hold 11 and 22, reference registers 0 and 1 hold the
handles of objects 100 and 200, each with counter 1. -/
def memory_caller_args : Memory :=
  ((((((memory_zero.set_i32 (i32_addr (window 4096).i32 0) 11).set_i32
    (i32_addr (window 4096).i32 1) 22).set_ref
    (ref_addr (window 4096).ref 0) { ptr := 100, type := 1 }).set_ref
    (ref_addr (window 4096).ref 1) { ptr := 200, type := 1 }).retain
    { ptr := 100, type := 1 }).retain { ptr := 200, type := 1 })

/-- Address of the reference register named by ordinal `reg` in a view:
`&regs.ref[reg & regs.ref_mask]`. -/
def ref_cell (regs : iree_vm_registers_t) (reg : Nat) : Nat :=
  ref_addr regs.ref (reg &&& regs.ref_mask)

/-- Address of the i32 register named by ordinal `reg` in a view:
`&regs.i32[reg & regs.i32_mask]`. -/
def i32_cell (regs : iree_vm_registers_t) (reg : Nat) : Nat :=
  i32_addr regs.i32 (reg &&& regs.i32_mask)

/-- The destinations of a paired remap are pairwise distinct registers: two
entries of the same bank (the bank is given by bit 15 of the source entry)
never name the same destination register. -/
def destinations_distinct (dst_regs : iree_vm_registers_t)
    (src_list dst_list : iree_vm_register_list_t) : Prop :=
  (src_list.zip dst_list).Pairwise fun a b =>
    (a.1 &&& IREE_REF_REGISTER_TYPE_BIT = 0 → b.1 &&& IREE_REF_REGISTER_TYPE_BIT = 0 →
      a.2 &&& dst_regs.i32_mask ≠ b.2 &&& dst_regs.i32_mask) ∧
    (a.1 &&& IREE_REF_REGISTER_TYPE_BIT ≠ 0 → b.1 &&& IREE_REF_REGISTER_TYPE_BIT ≠ 0 →
      a.2 &&& dst_regs.ref_mask ≠ b.2 &&& dst_regs.ref_mask)

/-- The store `frame->return_registers = list` a caller performs on its own
frame (slot `frame`) when it sets up a call site. -/
def set_return_registers (stack : iree_vm_stack_t) (frame : Nat)
    (list : iree_vm_register_list_t) : iree_vm_stack_t :=
  { stack with
    frames := List.modify (fun f => { f with return_registers := some list }) frame stack.frames }

/-- The stack after two nested internal calls whose callee register views are
both `window 4096`, as the reserve step allows. -/
def stack_two_frames_same_window : iree_vm_stack_t :=
  match run_ops [StackOp.enter function_f none (window 4096),
      StackOp.enter function_f none (window 4096)] (stack_fresh resolver_ok) memory_zero with
  | some r => r.2.1
  | none => stack_fresh resolver_ok

/-- Memory in which the registers of the view `window 4224` hold results: i32
registers 0 and 1 hold 11 and 22, reference register 0 holds the handle of
object 100 with counter 1. -/
def memory_callee_results : Memory :=
  ((((memory_zero.set_i32 (i32_addr (window 4224).i32 0) 11).set_i32
    (i32_addr (window 4224).i32 1) 22).set_ref
    (ref_addr (window 4224).ref 0) { ptr := 100, type := 1 }).retain
    { ptr := 100, type := 1 })

instance (a b : iree_vm_registers_t) : Decidable (windows_disjoint a b) := by
  unfold windows_disjoint; infer_instance

instance (src_regs : iree_vm_registers_t) (list : iree_vm_register_list_t) :
    Decidable (no_use_after_move src_regs list) := by
  unfold no_use_after_move; infer_instance

instance (dst_regs : iree_vm_registers_t) (src_list dst_list : iree_vm_register_list_t) :
    Decidable (destinations_distinct dst_regs src_list dst_list) := by
  unfold destinations_distinct; infer_instance

/-- Whether a variant holds a reference (`IREE_VM_VARIANT_IS_REF`). -/
def IREE_VM_VARIANT_IS_REF : iree_vm_variant_t → Bool
  | iree_vm_variant_t.ref _ => true
  | iree_vm_variant_t.i32 _ => false

/-- Number of primitive values of a list of variants. -/
def count_variant_i32 (values : List iree_vm_variant_t) : Nat :=
  (values.filter fun v => !IREE_VM_VARIANT_IS_REF v).length

/-- Number of reference values of a list of variants. -/
def count_variant_ref (values : List iree_vm_variant_t) : Nat :=
  (values.filter fun v => IREE_VM_VARIANT_IS_REF v).length

/-- Number of reference values of a list of variants that hold the handle of
the object at `ptr`. -/
def count_handle (ptr : Nat) : List iree_vm_variant_t → Nat
  | [] => 0
  | iree_vm_variant_t.ref r :: rest =>
    if r.ptr = ptr then count_handle ptr rest + 1 else count_handle ptr rest
  | iree_vm_variant_t.i32 _ :: rest => count_handle ptr rest

/-- An argument list that passes the handle of object 100 twice. -/
def arguments_same_handle_twice : iree_vm_variant_list_t :=
  { capacity := 2,
    values := [iree_vm_variant_t.ref { ptr := 100, type := 1 },
               iree_vm_variant_t.ref { ptr := 100, type := 1 }] }

/-- Memory in which object 100 has counter 1 and no register holds it. -/
def memory_object_100 : Memory :=
  memory_zero.retain { ptr := 100, type := 1 }

/-- An argument list of two primitives and two references in mixed order. -/
def arguments_mixed : iree_vm_variant_list_t :=
  { capacity := 4,
    values := [iree_vm_variant_t.i32 5, iree_vm_variant_t.ref { ptr := 100, type := 1 },
               iree_vm_variant_t.i32 6, iree_vm_variant_t.ref { ptr := 200, type := 1 }] }

/-- An empty output list with room for `capacity` values. -/
def outputs_empty (capacity : Nat) : iree_vm_variant_list_t :=
  { capacity := capacity, values := [] }

/-- The round trip of the external marshaling frame: the external enter, the
register list it produced recorded as the new frame's `return_registers`, and
the external leave called immediately with an empty output list of the given
capacity. -/
def external_round_trip (stack : iree_vm_stack_t) (m : Memory)
    (arguments : iree_vm_variant_list_t) (max_register_count : Nat)
    (callee_registers : iree_vm_registers_t) (capacity : Nat) : Option LeaveExternalResult := do
  let r ← iree_vm_stack_function_enter_external stack m (some arguments) max_register_count
    callee_registers
  iree_vm_stack_function_leave_external
    (set_return_registers r.stack stack.depth.toNat r.out_argument_registers) r.mem
    (some (outputs_empty capacity))

/-- The ordinals `iree_vm_stack_frame_marshal_inputs` assigns to a list of
values, from the running ordinals `i32_reg` and `ref_reg` on. -/
def input_ordinals : List iree_vm_variant_t → Nat → Nat → List Nat
  | [], _, _ => []
  | iree_vm_variant_t.ref _ :: rest, i32_reg, ref_reg =>
    ((ref_reg ||| IREE_REF_REGISTER_TYPE_BIT ||| IREE_REF_REGISTER_MOVE_BIT) % UINT16_MOD)
      :: input_ordinals rest i32_reg ((ref_reg + 1) % UINT16_MOD)
  | iree_vm_variant_t.i32 _ :: rest, i32_reg, ref_reg =>
    i32_reg :: input_ordinals rest ((i32_reg + 1) % UINT16_MOD) ref_reg

/-- Two primitive arguments, 5 and 6. -/
def arguments_two_i32 : iree_vm_variant_list_t :=
  { capacity := 2, values := [iree_vm_variant_t.i32 5, iree_vm_variant_t.i32 6] }

/-- A register view whose pointers are those of `window 4096` and whose masks
are zero: one of the values the never-assigned `callee_registers` may hold. -/
def window_zero_masks : iree_vm_registers_t :=
  { i32 := 4096, i32_mask := 0, ref := 4160, ref_mask := 0 }

/-- A register view with i32 cells from `base`, reference cells from
`base + 64` and both masks zero: one of the values the never-assigned
`callee_registers` may hold. -/
def window_masks_unset (base : Nat) : iree_vm_registers_t :=
  { i32 := base, i32_mask := 0, ref := base + 64, ref_mask := 0 }

/-- Largest i32 ordinal mask: i32 ordinals have 15 bits (`stack.h`). -/
def IREE_I32_REGISTER_MASK : Nat := 0x7FFF

/-- Largest reference ordinal mask: reference ordinals have 14 bits (`stack.h`). -/
def IREE_REF_REGISTER_MASK : Nat := 0x3FFF

/-- Linkage of internal functions (`iree_vm_function_linkage_t`). -/
def IREE_VM_FUNCTION_LINKAGE_INTERNAL : Nat := 0

/-- Linkage of imported functions (`iree_vm_function_linkage_t`). -/
def IREE_VM_FUNCTION_LINKAGE_IMPORT : Nat := 1

/-- Linkage of exported functions (`iree_vm_function_linkage_t`). -/
def IREE_VM_FUNCTION_LINKAGE_EXPORT : Nat := 2

/-- The imports, exports and internal functions of a module
(`iree_vm_module_signature_t`). -/
structure iree_vm_module_signature_t where
  import_function_count : Int
  export_function_count : Int
  internal_function_count : Int

/-- The interface of a module (`iree_vm_module_t`, `module.h`): the callbacks
the context and the invocation use, each as the function of its arguments that
gives what it returns and stores through its out-parameters. `name` and
`signature` are what those callbacks return; `get_function linkage ordinal`
gives the status and `out_name`; `lookup_function linkage name` the status and
`out_function`; `alloc_state allocator` the status and `out_module_state`;
`call stack m function argument_registers` the status and the stack and memory
afterwards. -/
structure iree_vm_module_t where
  self : Nat
  name : String
  signature : iree_vm_module_signature_t
  get_function : Nat → Int → iree_status_t × String
  lookup_function : Nat → String → iree_status_t × iree_vm_function_t
  alloc_state : Nat → iree_status_t × Nat
  free_state : Nat → iree_status_t
  resolve_import : Nat → Int → iree_vm_function_t → iree_status_t
  call : iree_vm_stack_t → Memory → iree_vm_function_t → Option iree_vm_register_list_t →
    iree_status_t × iree_vm_stack_t × Memory

/-- The modules in host memory: the module interface a non-null
`iree_vm_module_t*` designates. -/
abbrev ModuleHeap := Nat → iree_vm_module_t

/-- An execution context (`struct iree_vm_context`, `context.c`). `address` is
the address of the context object, the value of the `iree_vm_context_t*` that
designates it. The two arrays of `list` are maps from index to pointer (0 for
`NULL`); the slots they hold are `capacity` many. -/
structure iree_vm_context_t where
  address : Nat
  instance_ptr : Nat
  allocator : Nat
  context_id : Int
  is_static : Bool
  count : Nat
  capacity : Nat
  modules : Nat → Nat
  module_states : Nat → Nat

/-- Linear scan of `iree_vm_context_query_module_state` over the indices
`i, i + 1, ..` below `count`, `fuel` many at most. -/
def iree_vm_context_query_module_state_scan (context : iree_vm_context_t) (module : Nat) :
    Nat → Nat → iree_status_t × Nat
  | 0, _ => (IREE_STATUS_NOT_FOUND, 0)
  | fuel + 1, i =>
    if context.modules i = module then (IREE_STATUS_OK, context.module_states i)
    else iree_vm_context_query_module_state_scan context module fuel (i + 1)

/-- Module state of `module` in the context designated by `state_resolver`
(`iree_vm_context_query_module_state`): the status and the state stored into
`*out_module_state`. -/
def iree_vm_context_query_module_state (state_resolver : Option iree_vm_context_t)
    (module : Nat) : iree_status_t × Nat :=
  match state_resolver with
  | none => (IREE_STATUS_INVALID_ARGUMENT, 0)
  | some context => iree_vm_context_query_module_state_scan context module context.count 0

/-- The state resolver of a context (`iree_vm_context_state_resolver`). -/
def iree_vm_context_state_resolver (context : Option iree_vm_context_t) :
    iree_vm_state_resolver_t :=
  { self := match context with
      | some c => c.address
      | none => 0
    query_module_state := fun self module =>
      iree_vm_context_query_module_state (if self = 0 then none else context) module }

/-- Loop of `iree_vm_stack_deinit`: pops frames while the depth is non-zero,
stopping at the first leave that does not return OK. A successful leave lowers
the depth by one and a leave at a depth below zero fails, so `depth + 1`
iterations always suffice. -/
def iree_vm_stack_deinit_loop : Nat → iree_vm_stack_t → Memory →
    Option (iree_status_t × iree_vm_stack_t × Memory)
  | fuel, stack, m =>
    if stack.depth = 0 then some (IREE_STATUS_OK, stack, m)
    else
      match fuel with
      | 0 => none
      | fuel + 1 =>
        match iree_vm_stack_function_leave stack m none with
        | none => none
        | some r =>
          if r.status ≠ IREE_STATUS_OK then some (r.status, r.stack, r.mem)
          else iree_vm_stack_deinit_loop fuel r.stack r.mem

/-- Destructs a stack (`iree_vm_stack_deinit`): pops all frames, then frees the
register storage; `free_status` is the status of `iree_allocator_free`. -/
def iree_vm_stack_deinit (stack : iree_vm_stack_t) (m : Memory) (free_status : iree_status_t) :
    Option (iree_status_t × iree_vm_stack_t × Memory) :=
  match iree_vm_stack_deinit_loop (stack.depth.toNat + 1) stack m with
  | none => none
  | some r => if r.1 ≠ IREE_STATUS_OK then some r else some (free_status, r.2.1, r.2.2)

/-- Validation of the inputs of an invocation (`iree_vm_validate_function_inputs`):
nothing is validated yet. -/
def iree_vm_validate_function_inputs (_function : iree_vm_function_t)
    (_inputs : Option iree_vm_variant_list_t) : iree_status_t :=
  IREE_STATUS_OK

/-- Outcome of `iree_vm_invoke`: the status, the `outputs` list and the memory
afterwards, the local stack as it is when the call returns, and the status of
`iree_vm_stack_deinit` when the call reached it (`none` when the stack was
never deinitialised). -/
structure InvokeResult where
  status : iree_status_t
  outputs : Option iree_vm_variant_list_t
  mem : Memory
  stack : iree_vm_stack_t
  deinit_status : Option iree_status_t

/-- Synchronous invocation of `function` (`iree_vm_invoke`). `malloc_result`
and `free_status` are what the allocator returns for the register storage;
`max_register_count` and `callee_registers` are the two values the external
enter leaves unset. -/
def iree_vm_invoke (heap : ModuleHeap) (context : Option iree_vm_context_t)
    (function : iree_vm_function_t) (inputs outputs : Option iree_vm_variant_list_t)
    (allocator : Nat) (malloc_result : iree_status_t × Nat) (free_status : iree_status_t)
    (max_register_count : Nat) (callee_registers : iree_vm_registers_t) (m : Memory) :
    Option InvokeResult :=
  let validated := iree_vm_validate_function_inputs function inputs
  let init := iree_vm_stack_init (iree_vm_context_state_resolver context) allocator malloc_result
  if validated ≠ IREE_STATUS_OK then
    some { status := validated, outputs := outputs, mem := m, stack := init.2,
           deinit_status := none }
  else if init.1 ≠ IREE_STATUS_OK then
    some { status := init.1, outputs := outputs, mem := m, stack := init.2,
           deinit_status := none }
  else
    match iree_vm_stack_function_enter_external init.2 m inputs max_register_count
        callee_registers with
    | none => none
    | some entered =>
      if entered.status ≠ IREE_STATUS_OK then
        some { status := entered.status, outputs := outputs, mem := entered.mem,
               stack := entered.stack, deinit_status := none }
      else
        let called := (heap function.module).call entered.stack entered.mem function
          (some entered.out_argument_registers)
        if called.1 ≠ IREE_STATUS_OK then
          some { status := called.1, outputs := outputs, mem := called.2.2,
                 stack := called.2.1, deinit_status := none }
        else
          match iree_vm_stack_function_leave_external called.2.1 called.2.2 outputs with
          | none => none
          | some left =>
            if left.status ≠ IREE_STATUS_OK then
              some { status := left.status, outputs := left.results, mem := left.mem,
                     stack := left.stack, deinit_status := none }
            else
              match iree_vm_stack_deinit left.stack left.mem free_status with
              | none => none
              | some deinit =>
                some { status := deinit.1, outputs := left.results, mem := deinit.2.2,
                       stack := deinit.2.1, deinit_status := some deinit.1 }

/-- A context without modules, with dynamic storage. -/
def context_empty : iree_vm_context_t :=
  { address := 64, instance_ptr := 1, allocator := 0, context_id := 1, is_static := false,
    count := 0, capacity := 0, modules := fun _ => 0, module_states := fun _ => 0 }

/-- A module whose call returns its arguments: it records the argument
register list as the return registers of the external frame (slot 0) and
returns OK. -/
def module_returns_arguments : iree_vm_module_t :=
  { self := 1, name := "echo",
    signature := { import_function_count := 0, export_function_count := 1,
                   internal_function_count := 0 },
    get_function := fun _ _ => (IREE_STATUS_INVALID_ARGUMENT, ""),
    lookup_function := fun _ _ => (IREE_STATUS_NOT_FOUND, iree_vm_function_zero),
    alloc_state := fun _ => (IREE_STATUS_OK, 1000),
    free_state := fun _ => IREE_STATUS_OK,
    resolve_import := fun _ _ _ => IREE_STATUS_FAILED_PRECONDITION,
    call := fun stack m _ argument_registers =>
      (IREE_STATUS_OK, set_return_registers stack 0 (argument_registers.getD []), m) }

/-- A module whose call returns no results: it records the empty list as the
return registers of the external frame and returns OK. -/
def module_returns_nothing : iree_vm_module_t :=
  { module_returns_arguments with
    self := 3, name := "sink",
    call := fun stack m _ _ => (IREE_STATUS_OK, set_return_registers stack 0 [], m) }

/-- A module whose call fails with RESOURCE_EXHAUSTED and leaves the stack as
it found it. -/
def module_call_fails : iree_vm_module_t :=
  { module_returns_arguments with
    self := 2, name := "overflow",
    call := fun stack m _ _ => (IREE_STATUS_RESOURCE_EXHAUSTED, stack, m) }

/-- Host memory with `module_returns_arguments` at address 1,
`module_call_fails` at address 2 and `module_returns_nothing` elsewhere. -/
def heap_invoke : ModuleHeap := fun p =>
  if p = 1 then module_returns_arguments
  else if p = 2 then module_call_fails
  else module_returns_nothing

/-- A function of module 2 with four registers per bank. -/
def function_g : iree_vm_function_t :=
  { module := 2, linkage := 0, ordinal := 0, i32_register_count := 4, ref_register_count := 4 }

/-- A function of module 3 with four registers per bank. -/
def function_h : iree_vm_function_t :=
  { module := 3, linkage := 0, ordinal := 0, i32_register_count := 4, ref_register_count := 4 }

/-- One reference argument, the handle of object 100. -/
def arguments_one_ref : iree_vm_variant_list_t :=
  { capacity := 1, values := [iree_vm_variant_t.ref { ptr := 100, type := 1 }] }

/-- What a context operation does to the world outside the context: the calls
it makes on module callbacks, the retains and releases of modules and of the
instance, and the diagnostics it prints, in the order they happen. -/
inductive ContextEvent where
  | module_retain (module : Nat)
  | module_release (module : Nat)
  | name (module : Nat)
  | signature (module : Nat)
  | get_function (module : Nat) (linkage : Nat) (ordinal : Int)
  | lookup_function (module : Nat) (linkage : Nat) (name : String)
  | alloc_state (module : Nat)
  | free_state (module : Nat) (state : Nat)
  | resolve_import (module : Nat) (state : Nat) (ordinal : Int) (function : iree_vm_function_t)
  | call (module : Nat) (function : iree_vm_function_t)
  | diagnostic (full_name : String)
  | instance_retain (instance_ptr : Nat)
  | instance_release (instance_ptr : Nat)
  deriving DecidableEq, Repr

/-- Modelled from the spec: `iree_string_view_split` (declared in
`iree/base/api.h`, which is not part of the sources): splits at the first
occurrence of `split_char` into the text before and the text after it and
returns the offset of that occurrence, or -1 when the character does not
occur. -/
def iree_string_view_split (value : String) (split_char : Char) : Int × String × String :=
  let chars := value.toList
  if split_char ∈ chars then
    let lhs := chars.takeWhile fun c => decide (c ≠ split_char)
    (lhs.length, String.mk lhs, String.mk (chars.drop (lhs.length + 1)))
  else (-1, "", "")

/-- Modelled from the spec: `iree_vm_module_lookup_function_by_name` (declared
in `module.h`, defined outside the sources): looks the name up through the
module's `lookup_function` callback. -/
def iree_vm_module_lookup_function_by_name (heap : ModuleHeap) (module : Nat) (linkage : Nat)
    (name : String) : iree_status_t × iree_vm_function_t :=
  (heap module).lookup_function linkage name

/-- Reverse scan of `iree_vm_context_resolve_function` over the module indices
below `i`: the status, `out_function` and the callbacks made. -/
def iree_vm_context_resolve_function_scan (heap : ModuleHeap) (context : iree_vm_context_t)
    (module_name function_name : String) :
    Nat → iree_status_t × iree_vm_function_t × List ContextEvent
  | 0 => (IREE_STATUS_NOT_FOUND, iree_vm_function_zero, [])
  | i + 1 =>
    let module := context.modules i
    if module_name = (heap module).name then
      let found := iree_vm_module_lookup_function_by_name heap module
        IREE_VM_FUNCTION_LINKAGE_EXPORT function_name
      (found.1, found.2,
        [ContextEvent.name module,
         ContextEvent.lookup_function module IREE_VM_FUNCTION_LINKAGE_EXPORT function_name])
    else
      let next := iree_vm_context_resolve_function_scan heap context module_name function_name i
      (next.1, next.2.1, ContextEvent.name module :: next.2.2)

/-- Resolves a function by its qualified name
(`iree_vm_context_resolve_function`, with a non-null `out_function`): the
status, `out_function` and the callbacks made. -/
def iree_vm_context_resolve_function (heap : ModuleHeap) (context : iree_vm_context_t)
    (full_name : String) : iree_status_t × iree_vm_function_t × List ContextEvent :=
  let split := iree_string_view_split full_name '.'
  if split.1 = -1 then (IREE_STATUS_INVALID_ARGUMENT, iree_vm_function_zero, [])
  else iree_vm_context_resolve_function_scan heap context split.2.1 split.2.2 context.count

/-- Loop of `iree_vm_context_resolve_module_imports` over the import ordinals
`i, i + 1, ..`, `remaining` many. -/
def iree_vm_context_resolve_module_imports_loop (heap : ModuleHeap)
    (context : iree_vm_context_t) (module : Nat) (module_state : Nat) :
    Nat → Int → iree_status_t × List ContextEvent
  | 0, _ => (IREE_STATUS_OK, [])
  | remaining + 1, i =>
    let got := (heap module).get_function IREE_VM_FUNCTION_LINKAGE_IMPORT i
    let got_event := ContextEvent.get_function module IREE_VM_FUNCTION_LINKAGE_IMPORT i
    if got.1 ≠ IREE_STATUS_OK then (got.1, [got_event])
    else
      let resolved := iree_vm_context_resolve_function heap context got.2
      if resolved.1 ≠ IREE_STATUS_OK then
        (resolved.1, got_event :: resolved.2.2 ++ [ContextEvent.diagnostic got.2])
      else
        let status := (heap module).resolve_import module_state i resolved.2.1
        let resolve_event := ContextEvent.resolve_import module module_state i resolved.2.1
        if status ≠ IREE_STATUS_OK then
          (status, got_event :: resolved.2.2 ++ [resolve_event])
        else
          let next := iree_vm_context_resolve_module_imports_loop heap context module
            module_state remaining (i + 1)
          (next.1, got_event :: resolved.2.2 ++ resolve_event :: next.2)

/-- Resolves the imports of `module` against the context
(`iree_vm_context_resolve_module_imports`). -/
def iree_vm_context_resolve_module_imports (heap : ModuleHeap) (context : iree_vm_context_t)
    (module : Nat) (module_state : Nat) : iree_status_t × List ContextEvent :=
  let resolved := iree_vm_context_resolve_module_imports_loop heap context module module_state
    (heap module).signature.import_function_count.toNat 0
  (resolved.1, ContextEvent.signature module :: resolved.2)

/-- What the allocator returns for the scratch stack of a context operation:
the status of the allocation of the stack object and the status and pointer of
the allocation of its register storage. -/
structure ScratchAllocation where
  stack_malloc : iree_status_t
  storage_malloc : iree_status_t × Nat

/-- The scratch stack of a context operation as a module call receives it:
`iree_vm_stack_init` with the context as state resolver. The effects of module
calls on the scratch stack and on memory are not tracked by the context
operations, which read only the status a call returns. -/
def scratch_stack (context : iree_vm_context_t) (allocs : ScratchAllocation) :
    iree_status_t × iree_vm_stack_t :=
  iree_vm_stack_init (iree_vm_context_state_resolver (some context)) context.allocator
    allocs.storage_malloc

/-- The indices `end_, end_ - 1, .., start` of the loops
`for (int i = (int)end; i >= (int)start; --i)`. -/
def descending_range (start end_ : Nat) : List Nat :=
  ((List.range (end_ + 1 - start)).map fun k => k + start).reverse

/-- First loop of `iree_vm_context_release_modules`: runs the exported
`__deinit` of each module of the index list that has a non-null state. -/
def release_modules_deinit (heap : ModuleHeap) (context : iree_vm_context_t) :
    List Nat → List ContextEvent
  | [] => []
  | i :: rest =>
    let module := context.modules i
    let module_state := context.module_states i
    if module_state = 0 then release_modules_deinit heap context rest
    else
      let deinit := iree_vm_module_lookup_function_by_name heap module
        IREE_VM_FUNCTION_LINKAGE_EXPORT "__deinit"
      let lookup_event :=
        ContextEvent.lookup_function module IREE_VM_FUNCTION_LINKAGE_EXPORT "__deinit"
      if deinit.1 = IREE_STATUS_OK then
        lookup_event :: ContextEvent.call deinit.2.module deinit.2
          :: release_modules_deinit heap context rest
      else lookup_event :: release_modules_deinit heap context rest

/-- Second loop of `iree_vm_context_release_modules`: frees the non-null module
states of the index list and nulls the slots. -/
def release_modules_free_state : List Nat → iree_vm_context_t →
    iree_vm_context_t × List ContextEvent
  | [], context => (context, [])
  | i :: rest, context =>
    let next := release_modules_free_state rest
      { context with module_states := Function.update context.module_states i 0 }
    if context.module_states i ≠ 0 then
      (next.1, ContextEvent.free_state (context.modules i) (context.module_states i) :: next.2)
    else next

/-- Third loop of `iree_vm_context_release_modules`: releases the non-null
modules of the index list and nulls the slots. -/
def release_modules_release : List Nat → iree_vm_context_t →
    iree_vm_context_t × List ContextEvent
  | [], context => (context, [])
  | i :: rest, context =>
    let next := release_modules_release rest
      { context with modules := Function.update context.modules i 0 }
    if context.modules i ≠ 0 then
      (next.1, ContextEvent.module_release (context.modules i) :: next.2)
    else next

/-- Releases the modules at the indices `start .. end_` of the context
(`iree_vm_context_release_modules`): the context afterwards and the callbacks
and releases made. -/
def iree_vm_context_release_modules (heap : ModuleHeap) (context : iree_vm_context_t)
    (start end_ : Nat) : iree_vm_context_t × List ContextEvent :=
  let indices := descending_range start end_
  let deinit_events := release_modules_deinit heap context indices
  let freed := release_modules_free_state indices context
  let released := release_modules_release indices freed.1
  (released.1, deinit_events ++ freed.2 ++ released.2)

/-- The null check `for (i < module_count) if (!modules[i]) return
INVALID_ARGUMENT` shared by registration and creation, from index `i` on:
`some true` when all entries are non-null, `some false` at the first null
entry, and a fault when the array pointer is `NULL` or too short to be read. -/
def modules_null_check (modules : Option (List Nat)) : Nat → Nat → Option Bool
  | 0, _ => some true
  | remaining + 1, i =>
    match modules with
    | none => none
    | some list =>
      match list[i]? with
      | none => none
      | some module =>
        if module = 0 then some false else modules_null_check modules remaining (i + 1)

/-- Outcome of a registration: the status, the context afterwards and the
callbacks and retains made. -/
structure RegisterResult where
  status : iree_status_t
  context : Option iree_vm_context_t
  events : List ContextEvent

/-- The clean-up of a failed registration (`context.c` lines 343-345): releases
the modules appended by the batch, up to batch index `i`, and restores the
count. -/
def register_modules_rollback (heap : ModuleHeap) (context : iree_vm_context_t)
    (original_count i : Nat) : iree_vm_context_t × List ContextEvent :=
  let released := iree_vm_context_release_modules heap context original_count (original_count + i)
  ({ released.1 with count := original_count }, released.2)

/-- Loop of `iree_vm_context_register_modules` over the batch, from batch index
`i` on: retains each module, allocates its state, resolves its imports, counts
it and runs its `__init`, rolling the batch back at the first failure. -/
def register_modules_loop (heap : ModuleHeap) (allocs : ScratchAllocation) (m : Memory)
    (original_count : Nat) :
    List Nat → Nat → iree_vm_context_t → iree_status_t × iree_vm_context_t × List ContextEvent
  | [], _, context => (IREE_STATUS_OK, context, [])
  | module :: rest, i, context =>
    let context1 :=
      { context with
        modules := Function.update context.modules (original_count + i) module
        module_states := Function.update context.module_states (original_count + i) 0 }
    let alloc := (heap module).alloc_state context.allocator
    let head := [ContextEvent.module_retain module, ContextEvent.alloc_state module]
    if alloc.1 ≠ IREE_STATUS_OK then
      let undone := register_modules_rollback heap context1 original_count i
      (alloc.1, undone.1, head ++ undone.2)
    else
      let context2 :=
        { context1 with
          module_states := Function.update context1.module_states (original_count + i) alloc.2 }
      let resolved := iree_vm_context_resolve_module_imports heap context2 module alloc.2
      if resolved.1 ≠ IREE_STATUS_OK then
        let undone := register_modules_rollback heap context2 original_count i
        (resolved.1, undone.1, head ++ resolved.2 ++ undone.2)
      else
        let context3 := { context2 with count := context2.count + 1 }
        let init := iree_vm_module_lookup_function_by_name heap module
          IREE_VM_FUNCTION_LINKAGE_EXPORT "__init"
        let lookup_event :=
          ContextEvent.lookup_function module IREE_VM_FUNCTION_LINKAGE_EXPORT "__init"
        if init.1 = IREE_STATUS_OK then
          let init_status :=
            ((heap init.2.module).call (scratch_stack context3 allocs).2 m init.2 none).1
          let call_event := ContextEvent.call init.2.module init.2
          if init_status ≠ IREE_STATUS_OK then
            let undone := register_modules_rollback heap context3 original_count i
            (init_status, undone.1, head ++ resolved.2 ++ lookup_event :: call_event :: undone.2)
          else
            let next := register_modules_loop heap allocs m original_count rest (i + 1) context3
            (next.1, next.2.1, head ++ resolved.2 ++ lookup_event :: call_event :: next.2.2)
        else
          let next := register_modules_loop heap allocs m original_count rest (i + 1) context3
          (next.1, next.2.1, head ++ resolved.2 ++ lookup_event :: next.2.2)

/-- Growth of the two storage lists (`context.c` lines 287-311): the new
capacity is at least twice the old one; the first `count` entries are copied
and the remaining slots of the new lists are not yet written. -/
def register_modules_grow (context : iree_vm_context_t) (module_count : Nat) :
    iree_vm_context_t :=
  let new_capacity :=
    if context.capacity + module_count < context.capacity * 2 then context.capacity * 2
    else context.capacity + module_count
  { context with
    capacity := new_capacity
    modules := fun j => if j < context.count then context.modules j else 0
    module_states := fun j => if j < context.count then context.module_states j else 0 }

/-- Registers a batch of modules with the context
(`iree_vm_context_register_modules`). `modules` is the array pointer, `none`
for `NULL`. -/
def iree_vm_context_register_modules (heap : ModuleHeap) (context : Option iree_vm_context_t)
    (modules : Option (List Nat)) (module_count : Nat) (allocs : ScratchAllocation)
    (m : Memory) : Option RegisterResult :=
  match context with
  | none => some { status := IREE_STATUS_INVALID_ARGUMENT, context := none, events := [] }
  | some context =>
    if modules = none ∧ module_count > 1 then
      some { status := IREE_STATUS_INVALID_ARGUMENT, context := some context, events := [] }
    else
      match modules_null_check modules module_count 0 with
      | none => none
      | some false =>
        some { status := IREE_STATUS_INVALID_ARGUMENT, context := some context, events := [] }
      | some true =>
        if context.count + module_count > context.capacity ∧ context.is_static = true then
          some { status := IREE_STATUS_FAILED_PRECONDITION, context := some context,
                 events := [] }
        else
          let grown :=
            if context.count + module_count > context.capacity then
              register_modules_grow context module_count
            else context
          if allocs.stack_malloc ≠ IREE_STATUS_OK then
            some { status := allocs.stack_malloc, context := some grown, events := [] }
          else if (scratch_stack grown allocs).1 ≠ IREE_STATUS_OK then
            some { status := (scratch_stack grown allocs).1, context := some grown,
                   events := [] }
          else
            let registered := register_modules_loop heap allocs m grown.count
              ((modules.getD []).take module_count) 0 grown
            some { status := registered.1, context := some registered.2.1,
                   events := registered.2.2 }

/-- Outcome of `iree_vm_context_destroy`: the status, the context object as the
call leaves it, and the callbacks and releases made. -/
structure DestroyResult where
  status : iree_status_t
  context : Option iree_vm_context_t
  events : List ContextEvent

/-- Tears a context down (`iree_vm_context_destroy`). -/
def iree_vm_context_destroy (heap : ModuleHeap) (context : Option iree_vm_context_t)
    (allocs : ScratchAllocation) : DestroyResult :=
  match context with
  | none => { status := IREE_STATUS_INVALID_ARGUMENT, context := none, events := [] }
  | some context =>
    if context.count > 0 ∧ allocs.stack_malloc ≠ IREE_STATUS_OK then
      { status := allocs.stack_malloc, context := some context, events := [] }
    else if context.count > 0 ∧ (scratch_stack context allocs).1 ≠ IREE_STATUS_OK then
      { status := (scratch_stack context allocs).1, context := some context, events := [] }
    else
      let released :=
        if context.count > 0 then
          iree_vm_context_release_modules heap context 0 (context.count - 1)
        else (context, [])
      { status := IREE_STATUS_OK,
        context := some { released.1 with instance_ptr := 0 },
        events := released.2 ++ [ContextEvent.instance_release context.instance_ptr] }

/-- Outcome of `iree_vm_context_create_with_modules`: the status, the value
stored in `*out_context` (`none` for `NULL`), and the callbacks, retains and
releases made. -/
structure CreateResult where
  status : iree_status_t
  context : Option iree_vm_context_t
  events : List ContextEvent

/-- Creates a context over a list of modules
(`iree_vm_context_create_with_modules`). `has_out_context` tells whether
`out_context` is non-null, `context_malloc` is the status and address the
allocator returns for the context object, `next_context_id` the value of the
id counter. -/
def iree_vm_context_create_with_modules (heap : ModuleHeap) (instance_ptr : Nat)
    (modules : Option (List Nat)) (module_count : Nat) (allocator : Nat)
    (has_out_context : Bool) (context_malloc : iree_status_t × Nat) (next_context_id : Int)
    (register_allocs destroy_allocs : ScratchAllocation) (m : Memory) : Option CreateResult :=
  if has_out_context = false then
    some { status := IREE_STATUS_INVALID_ARGUMENT, context := none, events := [] }
  else if instance_ptr = 0 then
    some { status := IREE_STATUS_INVALID_ARGUMENT, context := none, events := [] }
  else if modules = none ∧ module_count > 0 then
    some { status := IREE_STATUS_INVALID_ARGUMENT, context := none, events := [] }
  else
    match modules_null_check modules module_count 0 with
    | none => none
    | some false =>
      some { status := IREE_STATUS_INVALID_ARGUMENT, context := none, events := [] }
    | some true =>
      if context_malloc.1 ≠ IREE_STATUS_OK then
        some { status := context_malloc.1, context := none, events := [] }
      else
        let context : iree_vm_context_t :=
          { address := context_malloc.2, instance_ptr := instance_ptr, allocator := allocator,
            context_id := next_context_id, is_static := decide (module_count > 0), count := 0,
            capacity := module_count, modules := fun _ => 0, module_states := fun _ => 0 }
        match iree_vm_context_register_modules heap (some context) modules module_count
            register_allocs m with
        | none => none
        | some registered =>
          if registered.status ≠ IREE_STATUS_OK then
            let destroyed := iree_vm_context_destroy heap registered.context destroy_allocs
            some { status := registered.status, context := none,
                   events := ContextEvent.instance_retain instance_ptr
                     :: registered.events ++ destroyed.events }
          else
            some { status := IREE_STATUS_OK, context := registered.context,
                   events := ContextEvent.instance_retain instance_ptr :: registered.events }

/-- The exported function of `module` with the given ordinal. -/
def exported_function (module : Nat) (ordinal : Int) : iree_vm_function_t :=
  { module := module, linkage := IREE_VM_FUNCTION_LINKAGE_EXPORT, ordinal := ordinal,
    i32_register_count := 0, ref_register_count := 0 }

/-- A module named `lib` at address 10 without imports, exporting `f`,
`__init` and `__deinit`; its state is at address 110 and its calls return
OK. -/
def module_lib : iree_vm_module_t :=
  { self := 10, name := "lib",
    signature := { import_function_count := 0, export_function_count := 3,
                   internal_function_count := 0 },
    get_function := fun _ _ => (IREE_STATUS_INVALID_ARGUMENT, ""),
    lookup_function := fun _ name =>
      if name = "f" then (IREE_STATUS_OK, exported_function 10 0)
      else if name = "__init" then (IREE_STATUS_OK, exported_function 10 1)
      else if name = "__deinit" then (IREE_STATUS_OK, exported_function 10 2)
      else (IREE_STATUS_NOT_FOUND, iree_vm_function_zero),
    alloc_state := fun _ => (IREE_STATUS_OK, 110),
    free_state := fun _ => IREE_STATUS_OK,
    resolve_import := fun _ _ _ => IREE_STATUS_OK,
    call := fun stack m _ _ => (IREE_STATUS_OK, stack, m) }

/-- A module named `app` at address 11 with the one import `lib.f`, exporting
`__init` and `__deinit`; its state is at address 111 and its calls return
OK. -/
def module_app : iree_vm_module_t :=
  { module_lib with
    self := 11, name := "app",
    signature := { import_function_count := 1, export_function_count := 2,
                   internal_function_count := 0 },
    get_function := fun linkage ordinal =>
      if linkage = IREE_VM_FUNCTION_LINKAGE_IMPORT ∧ ordinal = 0 then (IREE_STATUS_OK, "lib.f")
      else (IREE_STATUS_INVALID_ARGUMENT, ""),
    lookup_function := fun _ name =>
      if name = "__init" then (IREE_STATUS_OK, exported_function 11 0)
      else if name = "__deinit" then (IREE_STATUS_OK, exported_function 11 1)
      else (IREE_STATUS_NOT_FOUND, iree_vm_function_zero),
    alloc_state := fun _ => (IREE_STATUS_OK, 111) }

/-- A module named `bad` at address 12 without imports, exporting `__init` and
`__deinit`; its state is at address 112 and its calls fail with INTERNAL. -/
def module_init_fails : iree_vm_module_t :=
  { module_lib with
    self := 12, name := "bad",
    lookup_function := fun _ name =>
      if name = "__init" then (IREE_STATUS_OK, exported_function 12 0)
      else if name = "__deinit" then (IREE_STATUS_OK, exported_function 12 1)
      else (IREE_STATUS_NOT_FOUND, iree_vm_function_zero),
    alloc_state := fun _ => (IREE_STATUS_OK, 112),
    call := fun stack m _ _ => (IREE_STATUS_INTERNAL, stack, m) }

/-- A module named `bare` at address 13 without imports, exporting `__init`
and `__deinit`, whose `alloc_state` returns OK and a null state. -/
def module_stateless : iree_vm_module_t :=
  { module_lib with
    self := 13, name := "bare",
    lookup_function := fun _ name =>
      if name = "__init" then (IREE_STATUS_OK, exported_function 13 0)
      else if name = "__deinit" then (IREE_STATUS_OK, exported_function 13 1)
      else (IREE_STATUS_NOT_FOUND, iree_vm_function_zero),
    alloc_state := fun _ => (IREE_STATUS_OK, 0) }

/-- A module named `full` at address 14 whose `alloc_state` fails with
RESOURCE_EXHAUSTED. -/
def module_alloc_fails : iree_vm_module_t :=
  { module_lib with
    self := 14, name := "full",
    lookup_function := fun _ _ => (IREE_STATUS_NOT_FOUND, iree_vm_function_zero),
    alloc_state := fun _ => (IREE_STATUS_RESOURCE_EXHAUSTED, 0) }

/-- Host memory with `module_lib` at address 10, `module_app` at 11,
`module_init_fails` at 12, `module_stateless` at 13 and `module_alloc_fails`
elsewhere. -/
def heap_context : ModuleHeap := fun p =>
  if p = 10 then module_lib
  else if p = 11 then module_app
  else if p = 12 then module_init_fails
  else if p = 13 then module_stateless
  else module_alloc_fails

/-- Allocations of a scratch stack that succeed, with the register storage at
address 8192. -/
def allocs_ok : ScratchAllocation :=
  { stack_malloc := IREE_STATUS_OK, storage_malloc := (IREE_STATUS_OK, 8192) }

/-- Allocations of a scratch stack where the stack object cannot be
allocated. -/
def allocs_fail : ScratchAllocation :=
  { stack_malloc := IREE_STATUS_RESOURCE_EXHAUSTED, storage_malloc := (IREE_STATUS_OK, 8192) }

/-- A dynamic context without modules, with room for four. -/
def context_dynamic : iree_vm_context_t :=
  { address := 500, instance_ptr := 7, allocator := 1, context_id := 1, is_static := false,
    count := 0, capacity := 4, modules := fun _ => 0, module_states := fun _ => 0 }

/-- The module a retain event retains. -/
def ContextEvent.retained : ContextEvent → Option Nat
  | ContextEvent.module_retain module => some module
  | _ => none

/-- The module a release event releases. -/
def ContextEvent.released : ContextEvent → Option Nat
  | ContextEvent.module_release module => some module
  | _ => none

/-- The module and state a `free_state` event frees. -/
def ContextEvent.freed : ContextEvent → Option (Nat × Nat)
  | ContextEvent.free_state module state => some (module, state)
  | _ => none

/-- The module and state an `alloc_state` event allocates: the callback's
`out_module_state` when it returns OK and a non-null state. -/
def ContextEvent.allocated (heap : ModuleHeap) (allocator : Nat) :
    ContextEvent → Option (Nat × Nat)
  | ContextEvent.alloc_state module =>
    if ((heap module).alloc_state allocator).1 = IREE_STATUS_OK
        ∧ ((heap module).alloc_state allocator).2 ≠ 0 then
      some (module, ((heap module).alloc_state allocator).2)
    else none
  | _ => none

/-- Whether the event is a call of a function. -/
def ContextEvent.is_call : ContextEvent → Bool
  | ContextEvent.call _ _ => true
  | _ => false

/-- Whether the event is a `resolve_import` callback. -/
def ContextEvent.is_resolve_import : ContextEvent → Bool
  | ContextEvent.resolve_import _ _ _ _ => true
  | _ => false

/-- Whether the event only queries a module or prints: `name`, `signature`,
`get_function`, `lookup_function` and diagnostics. -/
def ContextEvent.is_query : ContextEvent → Bool
  | ContextEvent.name _ => true
  | ContextEvent.signature _ => true
  | ContextEvent.get_function _ _ _ => true
  | ContextEvent.lookup_function _ _ _ => true
  | ContextEvent.diagnostic _ => true
  | _ => false

/-- The modules retained by a trace, in order. -/
def retained_modules (events : List ContextEvent) : List Nat :=
  events.filterMap ContextEvent.retained

/-- The modules released by a trace, in order. -/
def released_modules (events : List ContextEvent) : List Nat :=
  events.filterMap ContextEvent.released

/-- The module states freed by a trace, each with its module, in order. -/
def freed_states (events : List ContextEvent) : List (Nat × Nat) :=
  events.filterMap ContextEvent.freed

/-- The module states allocated by a trace, each with its module, in order. -/
def allocated_states (heap : ModuleHeap) (allocator : Nat) (events : List ContextEvent) :
    List (Nat × Nat) :=
  events.filterMap (ContextEvent.allocated heap allocator)

/-- The function calls of a trace, in order. -/
def call_events (events : List ContextEvent) : List ContextEvent :=
  events.filter ContextEvent.is_call

/-- The function calls and `resolve_import` callbacks of a trace, in order. -/
def call_and_import_events (events : List ContextEvent) : List ContextEvent :=
  events.filter fun e => e.is_call || e.is_resolve_import

/-- The non-null modules in the slots `original_count .. original_count + n - 1`
of the context. -/
def appended_modules (context : iree_vm_context_t) (original_count n : Nat) : List Nat :=
  (List.range n).filterMap fun j =>
    if context.modules (original_count + j) = 0 then none
    else some (context.modules (original_count + j))

/-- The non-null states in the slots `original_count .. original_count + n - 1`
of the context, each with the module of its slot. -/
def appended_states (context : iree_vm_context_t) (original_count n : Nat) :
    List (Nat × Nat) :=
  (List.range n).filterMap fun j =>
    if context.module_states (original_count + j) = 0 then none
    else some (context.modules (original_count + j), context.module_states (original_count + j))

/-- The function the module exports as `__init`, as its lookup returns it. -/
def init_function (heap : ModuleHeap) (module : Nat) : iree_vm_function_t :=
  (iree_vm_module_lookup_function_by_name heap module IREE_VM_FUNCTION_LINKAGE_EXPORT
    "__init").2

/-- The function the module exports as `__deinit`, as its lookup returns it. -/
def deinit_function (heap : ModuleHeap) (module : Nat) : iree_vm_function_t :=
  (iree_vm_module_lookup_function_by_name heap module IREE_VM_FUNCTION_LINKAGE_EXPORT
    "__deinit").2

/-- Whether the module exports the name: its lookup returns OK. -/
def exports (heap : ModuleHeap) (module : Nat) (name : String) : Prop :=
  (iree_vm_module_lookup_function_by_name heap module IREE_VM_FUNCTION_LINKAGE_EXPORT
    name).1 = IREE_STATUS_OK

instance (heap : ModuleHeap) (module : Nat) (name : String) :
    Decidable (exports heap module name) := by
  unfold exports; infer_instance

/-- Whether the event changes what the context owns: a module retain or
release, or the allocation or freeing of a module state. -/
def ContextEvent.is_lifecycle : ContextEvent → Bool
  | ContextEvent.module_retain _ => true
  | ContextEvent.module_release _ => true
  | ContextEvent.alloc_state _ => true
  | ContextEvent.free_state _ _ => true
  | _ => false

/-- The call of the module's `__init` as registration makes it. -/
def init_call (heap : ModuleHeap) (module : Nat) : ContextEvent :=
  ContextEvent.call (init_function heap module).module (init_function heap module)

/-- The call of the module's `__deinit` as the release makes it. -/
def deinit_call (heap : ModuleHeap) (module : Nat) : ContextEvent :=
  ContextEvent.call (deinit_function heap module).module (deinit_function heap module)

/-- The trace of `resolve_import` callbacks and calls in which each module of
the list first receives its `resolve_import` callbacks, the ones given for it,
and then has its `__init` called. -/
def init_order (heap : ModuleHeap) : List Nat → List (List ContextEvent) → List ContextEvent
  | module :: rest, imports :: more =>
    imports ++ init_call heap module :: init_order heap rest more
  | _, _ => []

/-- The events are the `resolve_import` callbacks of the module, one for each
of its imports. -/
def resolves_imports_of (heap : ModuleHeap) (module : Nat) (imports : List ContextEvent) :
    Prop :=
  imports.length = (heap module).signature.import_function_count.toNat ∧
  ∀ e ∈ imports, ∃ state ordinal function,
    e = ContextEvent.resolve_import module state ordinal function

/-- A second module named `lib`, at address 15, that exports nothing. -/
def module_lib_shadow : iree_vm_module_t :=
  { module_lib with
    self := 15,
    lookup_function := fun _ _ => (IREE_STATUS_NOT_FOUND, iree_vm_function_zero),
    alloc_state := fun _ => (IREE_STATUS_OK, 115) }

/-- Host memory of `heap_context` with `module_lib_shadow` at address 15. -/
def heap_shadow : ModuleHeap := fun p =>
  if p = 15 then module_lib_shadow else heap_context p

/-- A dynamic context with two modules named `lib`: `module_lib` in slot 0 and
`module_lib_shadow` in slot 1. -/
def context_shadowed : iree_vm_context_t :=
  { context_dynamic with
    count := 2
    modules := fun j => if j = 0 then 10 else if j = 1 then 15 else 0
    module_states := fun j => if j = 0 then 110 else if j = 1 then 115 else 0 }

/-- A dynamic context with `module_lib` in slot 0 and `module_app` in slot 1,
and `module_stateless` stored in slot 2, above the count. -/
def context_lib_app : iree_vm_context_t :=
  { context_dynamic with
    count := 2
    modules := fun j => if j = 0 then 10 else if j = 1 then 11 else if j = 2 then 13 else 0
    module_states := fun j => if j = 0 then 110 else if j = 1 then 111 else 0 }

/-- The calls `VMLAExecutable::Initialize` (`vmla_executable.cc`) makes on the
VM and on the bytecode module loader, in the order they happen. -/
inductive ExecutableEvent where
  | bytecode_module_create (data : List Nat)
  | lookup_function_by_ordinal (module : Nat) (ordinal : Nat)
  | context_create_with_modules (instance_ptr : Nat) (modules : List Nat)
  | module_release (module : Nat)
  | resolve_module_state (context module : Nat)
  | variant_list_alloc (capacity : Nat)
  | interface_retain (interface_state : Nat)
  | variant_list_append_ref_move (list : Nat)
  deriving DecidableEq, Repr

/-- The functions `VMLAExecutable::Initialize` calls that are defined outside
the sources, each as the function of its arguments that gives what it returns:
`buffer_has_identifier` is the generated `VMLAExecutableDefBufferHasIdentifier`;
`bytecode_module_data` the bytes of `GetRoot(data)->bytecode_module()`, `none`
when the root or the field is null; `bytecode_module_create` the status and
module pointer of `iree_vm_bytecode_module_create`; the others likewise. -/
structure ExecutableEnvironment where
  buffer_has_identifier : List Nat → Bool
  bytecode_module_data : List Nat → Option (List Nat)
  bytecode_module_create : List Nat → iree_status_t × Nat
  export_function_count : Nat → Int
  lookup_function_by_ordinal : Nat → Nat → iree_status_t × iree_vm_function_t
  context_create_with_modules : Nat → List Nat → iree_status_t × Nat
  resolve_module_state : Nat → Nat → iree_status_t × Nat
  variant_list_alloc : Nat → iree_status_t × Nat
  variant_list_append_ref_move : Nat → iree_status_t

/-- The fields of a `VMLAExecutable` that `Initialize` reads and writes: the
bytes of `spec_.executable_data`, `entry_functions_`, `context_` (0 for null),
`interface_` as the module state it wraps, and `interface_inputs_`. -/
structure VMLAExecutable where
  executable_data : List Nat
  entry_functions : List iree_vm_function_t
  context : Nat
  interface_state : Nat
  interface_inputs : Nat

/-- Outcome of `VMLAExecutable::Initialize`: the status, the executable
afterwards and the calls made. -/
structure InitializeResult where
  status : iree_status_t
  executable : VMLAExecutable
  events : List ExecutableEvent

/-- Loop of `VMLAExecutable::Initialize` over the export ordinals `i, i + 1, ..`,
`remaining` many (`vmla_executable.cc` lines 91-97): looks each entry function
up and stops at the first error. -/
def entry_functions_loop (env : ExecutableEnvironment) (module : Nat) :
    Nat → Nat → List iree_vm_function_t →
    iree_status_t × List iree_vm_function_t × List ExecutableEvent
  | 0, _, entries => (IREE_STATUS_OK, entries, [])
  | remaining + 1, i, entries =>
    let found := env.lookup_function_by_ordinal module i
    let event := ExecutableEvent.lookup_function_by_ordinal module i
    if found.1 ≠ IREE_STATUS_OK then (found.1, entries, [event])
    else
      let next := entry_functions_loop env module remaining (i + 1)
        (entries.set i found.2)
      (next.1, next.2.1, event :: next.2.2)

/-- Loads the executable (`VMLAExecutable::Initialize`). The C++ `Status` is
given by its code: `InvalidArgumentErrorBuilder` is INVALID_ARGUMENT and
`FromApiStatus` keeps the code. -/
def VMLAExecutable.Initialize (env : ExecutableEnvironment) (executable : VMLAExecutable)
    (instance_ptr vmla_module : Nat) : InitializeResult :=
  if executable.executable_data.length < 16 then
    { status := IREE_STATUS_INVALID_ARGUMENT, executable := executable, events := [] }
  else if env.buffer_has_identifier executable.executable_data = false then
    { status := IREE_STATUS_INVALID_ARGUMENT, executable := executable, events := [] }
  else
    match env.bytecode_module_data executable.executable_data with
    | none =>
      { status := IREE_STATUS_INVALID_ARGUMENT, executable := executable, events := [] }
    | some module_data =>
      let created := env.bytecode_module_create module_data
      let create_event := ExecutableEvent.bytecode_module_create module_data
      if created.1 ≠ IREE_STATUS_OK then
        { status := created.1, executable := executable, events := [create_event] }
      else
        let bytecode_module := created.2
        let count := (env.export_function_count bytecode_module).toNat
        let looked := entry_functions_loop env bytecode_module count 0
          (List.replicate count iree_vm_function_zero)
        let executable1 := { executable with entry_functions := looked.2.1 }
        if looked.1 ≠ IREE_STATUS_OK then
          { status := looked.1, executable := executable1,
            events := create_event :: looked.2.2 }
        else
          let modules := [vmla_module, bytecode_module]
          let context := env.context_create_with_modules instance_ptr modules
          let executable2 := { executable1 with context := context.2 }
          let events2 := create_event :: looked.2.2 ++
            [ExecutableEvent.context_create_with_modules instance_ptr modules,
             ExecutableEvent.module_release bytecode_module]
          if context.1 ≠ IREE_STATUS_OK then
            { status := context.1, executable := executable2, events := events2 }
          else
            let state := env.resolve_module_state context.2 vmla_module
            let events3 := events2 ++
              [ExecutableEvent.resolve_module_state context.2 vmla_module]
            if state.1 ≠ IREE_STATUS_OK then
              { status := state.1, executable := executable2, events := events3 }
            else
              let executable3 := { executable2 with interface_state := state.2 }
              let list := env.variant_list_alloc 1
              let executable4 := { executable3 with interface_inputs := list.2 }
              let events4 := events3 ++ [ExecutableEvent.variant_list_alloc 1]
              if list.1 ≠ IREE_STATUS_OK then
                { status := list.1, executable := executable4, events := events4 }
              else
                let appended := env.variant_list_append_ref_move list.2
                let events5 := events4 ++
                  [ExecutableEvent.interface_retain state.2,
                   ExecutableEvent.variant_list_append_ref_move list.2]
                { status := appended, executable := executable4, events := events5 }

/-- An environment whose loader accepts every blob that carries the bytes
`VMLA` at offsets 4 to 7 and loads a module with one export. -/
def environment_sample : ExecutableEnvironment :=
  { buffer_has_identifier := fun data => decide ((data.drop 4).take 4 = [86, 77, 76, 65]),
    bytecode_module_data := fun data => some (data.drop 16),
    bytecode_module_create := fun _ => (IREE_STATUS_OK, 20),
    export_function_count := fun _ => 1,
    lookup_function_by_ordinal := fun module i =>
      (IREE_STATUS_OK, exported_function module i),
    context_create_with_modules := fun _ _ => (IREE_STATUS_OK, 500),
    resolve_module_state := fun _ _ => (IREE_STATUS_OK, 600),
    variant_list_alloc := fun _ => (IREE_STATUS_OK, 700),
    variant_list_append_ref_move := fun _ => IREE_STATUS_OK }

/-- An executable over the given bytes, not yet initialised. -/
def executable_of (data : List Nat) : VMLAExecutable :=
  { executable_data := data, entry_functions := [], context := 0, interface_state := 0,
    interface_inputs := 0 }

/-- Twenty bytes with the identifier `VMLA` at offsets 4 to 7. -/
def blob_with_identifier : List Nat :=
  [16, 0, 0, 0, 86, 77, 76, 65, 0, 0, 0, 0, 0, 0, 0, 0, 1, 2, 3, 4]

/-- Twenty bytes without the identifier. -/
def blob_without_identifier : List Nat :=
  [16, 0, 0, 0, 88, 88, 88, 88, 0, 0, 0, 0, 0, 0, 0, 0, 1, 2, 3, 4]

/-- An entry of the dispatch table of a native module (`NativeFunction`,
`module_abi_cc.h`): the exported name and the status its call returns on a
module state. -/
structure NativeFunction where
  name : String
  call : Nat → iree_status_t

/-- A native module (`NativeModule`, `module_abi_cc.h`): its name, the address
of its C interface and its dispatch table. -/
structure NativeModule where
  name : String
  interface_ptr : Nat
  dispatch_table : List NativeFunction

/-- What `NativeModule::ModuleGetFunction` returns: the status and the values
left in `*out_function` and `*out_name`, each `none` when the caller passed a
null pointer. -/
structure GetFunctionResult where
  status : iree_status_t
  out_function : Option iree_vm_function_t
  out_name : Option String

/-- Function at an ordinal of a native module
(`NativeModule::ModuleGetFunction`). The three flags tell which of the output
pointers are non-null. The result is `none` when the call reads
`dispatch_table_[ordinal]` outside the table. The comparison
`ordinal > dispatch_table_.size()` is made on the non-negative ordinal. -/
def NativeModule.ModuleGetFunction (module : NativeModule) (_linkage : Nat) (ordinal : Int)
    (has_out_function has_out_name : Bool) : Option GetFunctionResult :=
  let zero_function := if has_out_function then some iree_vm_function_zero else none
  let zero_name := if has_out_name then some "" else none
  if ordinal < 0 ∨ ordinal > module.dispatch_table.length then
    some { status := IREE_STATUS_INVALID_ARGUMENT, out_function := zero_function,
           out_name := zero_name }
  else
    let out_function :=
      if has_out_function then
        some { iree_vm_function_zero with
               module := module.interface_ptr, linkage := IREE_VM_FUNCTION_LINKAGE_EXPORT,
               ordinal := ordinal }
      else none
    if has_out_name then
      match module.dispatch_table[ordinal.toNat]? with
      | none => none
      | some dispatch_function =>
        some { status := IREE_STATUS_OK, out_function := out_function,
               out_name := some dispatch_function.name }
    else some { status := IREE_STATUS_OK, out_function := out_function, out_name := none }

/-- Loop of `NativeModule::ModuleLookupFunction` over the table entries from
index `i` on: the index of the first entry with the name. -/
def lookup_function_loop (name : String) : List NativeFunction → Nat → Option Nat
  | [], _ => none
  | entry :: rest, i => if name = entry.name then some i else lookup_function_loop name rest (i + 1)

/-- Function of a name in a native module (`NativeModule::ModuleLookupFunction`):
the status and the value left in `*out_function` (`none` when the pointer is
null). `name` is `none` for a view with null data. -/
def NativeModule.ModuleLookupFunction (module : NativeModule) (_linkage : Nat)
    (name : Option String) (has_out_function : Bool) :
    iree_status_t × Option iree_vm_function_t :=
  if has_out_function = false then (IREE_STATUS_INVALID_ARGUMENT, none)
  else
    match name with
    | none => (IREE_STATUS_INVALID_ARGUMENT, some iree_vm_function_zero)
    | some text =>
      if text.length = 0 then (IREE_STATUS_INVALID_ARGUMENT, some iree_vm_function_zero)
      else
        let out_function :=
          { iree_vm_function_zero with
            module := module.interface_ptr, linkage := IREE_VM_FUNCTION_LINKAGE_EXPORT }
        match lookup_function_loop text module.dispatch_table 0 with
        | some i => (IREE_STATUS_OK, some { out_function with ordinal := i })
        | none => (IREE_STATUS_NOT_FOUND, some out_function)

/-- Call of a function of a native module (`NativeModule::ModuleCall`): the
status, or `none` when the call reads `dispatch_table_[function.ordinal]`
outside the table. `module_state` is the state of the frame the source names
`frame` without declaring it. -/
def NativeModule.ModuleCall (module : NativeModule) (has_stack : Bool)
    (function : iree_vm_function_t) (module_state : Nat) (has_out_result : Bool) :
    Option iree_status_t :=
  if has_out_result = false then some IREE_STATUS_INVALID_ARGUMENT
  else if has_stack = false then some IREE_STATUS_INVALID_ARGUMENT
  else if function.ordinal < 0 ∨ function.ordinal > module.dispatch_table.length then
    some IREE_STATUS_INVALID_ARGUMENT
  else
    match module.dispatch_table[function.ordinal.toNat]? with
    | none => none
    | some info =>
      let status := info.call module_state
      if status ≠ IREE_STATUS_OK then some status else some IREE_STATUS_OK

/-- A native module with the two functions `add` and `mul`. -/
def native_module_sample : NativeModule :=
  { name := "math", interface_ptr := 30,
    dispatch_table :=
      [{ name := "add", call := fun _ => IREE_STATUS_OK },
       { name := "mul", call := fun _ => IREE_STATUS_OK }] }

/-- The frame slots at and above the depth hold no module state: what
`iree_vm_stack_init` establishes and every enter and leave keeps. -/
def slots_above_clean (stack : iree_vm_stack_t) : Prop :=
  ∀ (i : Nat) (f : iree_vm_stack_frame_t),
    stack.depth ≤ (i : Int) → stack.frames[i]? = some f → f.module_state = 0

/-- The modules import resolution can see in a context: the modules in the
slots below the count, in slot order. -/
def visible_modules (context : iree_vm_context_t) : List Nat :=
  (List.range context.count).map context.modules

/-- The last module of a list that has the given name, `none` when no module of
the list has it. -/
def last_named (heap : ModuleHeap) (module_name : String) (modules : List Nat) : Option Nat :=
  modules.reverse.find? fun q => decide ((heap q).name = module_name)

/-- Whether the event belongs to the resolution of an import: the
`get_function` query for its name or the `resolve_import` callback. -/
def ContextEvent.is_import_step : ContextEvent → Bool
  | ContextEvent.get_function _ _ _ => true
  | ContextEvent.resolve_import _ _ _ _ => true
  | _ => false

/-- The function is one that a module of the list returns, with OK, for the
lookup of some name among its exports. -/
def exported_by (heap : ModuleHeap) (modules : List Nat) (function : iree_vm_function_t) :
    Prop :=
  ∃ exporter ∈ modules, ∃ name,
    iree_vm_module_lookup_function_by_name heap exporter IREE_VM_FUNCTION_LINKAGE_EXPORT name
      = (IREE_STATUS_OK, function)

/-- Reading of a registration trace from its start, with the modules `original`
registered before the batch and the modules `retained` so far by the batch: a
`module_retain` begins the registration of the next batch module; every
`resolve_import` callback is made on the module retained last and passes a
function exported by an original module or by a batch module retained before
the last one. -/
def imports_from_earlier (heap : ModuleHeap) (original : List Nat) :
    List Nat → List ContextEvent → Prop
  | _, [] => True
  | retained, ContextEvent.module_retain module :: rest =>
    imports_from_earlier heap original (retained ++ [module]) rest
  | retained, ContextEvent.resolve_import module _ _ function :: rest =>
    (retained.getLast? = some module
      ∧ exported_by heap (original ++ retained.dropLast) function)
    ∧ imports_from_earlier heap original retained rest
  | retained, _ :: rest => imports_from_earlier heap original retained rest

/-- The import of the given ordinal resolves against the modules of `visible`:
the module returns its qualified name, the name has a separator, its module
part names a module of `visible`, the last module of `visible` with that name
exports the function part, and the importing module accepts the function. -/
def import_resolves (heap : ModuleHeap) (visible : List Nat) (module : Nat) (ordinal : Int) :
    Prop :=
  ((heap module).get_function IREE_VM_FUNCTION_LINKAGE_IMPORT ordinal).1 = IREE_STATUS_OK
  ∧ (iree_string_view_split
      ((heap module).get_function IREE_VM_FUNCTION_LINKAGE_IMPORT ordinal).2 '.').1 ≠ -1
  ∧ ∃ exporter,
    last_named heap
      (iree_string_view_split
        ((heap module).get_function IREE_VM_FUNCTION_LINKAGE_IMPORT ordinal).2 '.').2.1
      visible = some exporter
    ∧ (iree_vm_module_lookup_function_by_name heap exporter IREE_VM_FUNCTION_LINKAGE_EXPORT
        (iree_string_view_split
          ((heap module).get_function IREE_VM_FUNCTION_LINKAGE_IMPORT ordinal).2 '.').2.2).1
      = IREE_STATUS_OK
    ∧ ∀ state, (heap module).resolve_import state ordinal
        (iree_vm_module_lookup_function_by_name heap exporter
          IREE_VM_FUNCTION_LINKAGE_EXPORT
          (iree_string_view_split
            ((heap module).get_function IREE_VM_FUNCTION_LINKAGE_IMPORT ordinal).2 '.').2.2).2
      = IREE_STATUS_OK

/-- The conditions under which a module registers when the modules of `visible`
are the ones registered before it: its state can be allocated; each of its
imports resolves against `visible`; and its `__init`, when exported, returns
OK. -/
def registers_against (heap : ModuleHeap) (allocator : Nat) (visible : List Nat)
    (module : Nat) : Prop :=
  ((heap module).alloc_state allocator).1 = IREE_STATUS_OK
  ∧ (∀ ordinal : Int, 0 ≤ ordinal →
      ordinal < (heap module).signature.import_function_count →
      import_resolves heap visible module ordinal)
  ∧ (exports heap module "__init" → ∀ stack memory,
      ((heap (init_function heap module).module).call stack memory
        (init_function heap module) none).1 = IREE_STATUS_OK)

end Iree

namespace Iree

open iree_status_t

/-! ## Frame access -/

theorem frame_at_some_bounds {frames : List iree_vm_stack_frame_t} {i : Int}
    {f : iree_vm_stack_frame_t} (h : frame_at frames i = some f) :
    0 ≤ i ∧ i < 32 := by
  unfold frame_at at h
  split at h
  · rename_i hb
    simpa [IREE_MAX_STACK_DEPTH] using hb
  · cases h

theorem frame_at_isSome {frames : List iree_vm_stack_frame_t} {i : Int}
    (hlen : frames.length = 32) (h0 : 0 ≤ i) (h1 : i < 32) :
    ∃ f, frame_at frames i = some f := by
  have hi : i.toNat < frames.length := by omega
  refine ⟨frames[i.toNat], ?_⟩
  unfold frame_at
  rw [if_pos (by simp [IREE_MAX_STACK_DEPTH]; omega)]
  exact List.getElem?_eq_getElem hi

/-! ## Effect of each call on depth, frame array and arena size -/

theorem enter_effect {stack : iree_vm_stack_t} {m : Memory} {function : iree_vm_function_t}
    {argument_registers : Option iree_vm_register_list_t} {callee_registers : iree_vm_registers_t}
    {r : EnterResult}
    (h : iree_vm_stack_function_enter stack m function argument_registers callee_registers = some r) :
    r.stack.frames.length = stack.frames.length ∧
    r.stack.register_storage_size = stack.register_storage_size ∧
    ((stack.depth = 32 ∧ r.stack = stack ∧ r.mem = m ∧ r.status = IREE_STATUS_RESOURCE_EXHAUSTED) ∨
     (0 ≤ stack.depth ∧ stack.depth < 32 ∧ r.stack.depth = stack.depth + 1)) := by
  unfold iree_vm_stack_function_enter at h
  split at h
  · rename_i hd
    cases h
    simp [IREE_MAX_STACK_DEPTH] at hd
    simp [hd]
  · cases hc : frame_at stack.frames stack.depth with
    | none => simp [hc] at h
    | some callee0 =>
      have hb := frame_at_some_bounds hc
      simp only [hc, Option.bind_eq_bind, Option.some_bind] at h
      split at h
      · cases hp : frame_at stack.frames (stack.depth - 1) with
        | none => simp [hp] at h
        | some caller =>
          simp only [hp, Option.map_some', Option.some_bind,
            iree_vm_stack_reserve_register_storage] at h
          split at h
          · cases h; simp [hb.1, hb.2]
          · split at h
            · cases h; simp [hb.1, hb.2]
            · cases h; simp [hb.1, hb.2]
      · simp only [Option.some_bind, iree_vm_stack_reserve_register_storage] at h
        split at h
        · cases h; simp [hb.1, hb.2]
        · split at h
          · cases h; simp [hb.1, hb.2]
          · cases h; simp [hb.1, hb.2]

theorem enter_external_effect {stack : iree_vm_stack_t} {m : Memory}
    {arguments : Option iree_vm_variant_list_t} {max_register_count : Nat}
    {callee_registers : iree_vm_registers_t} {r : EnterExternalResult}
    (h : iree_vm_stack_function_enter_external stack m arguments max_register_count
      callee_registers = some r) :
    r.stack.frames.length = stack.frames.length ∧
    r.stack.register_storage_size = stack.register_storage_size ∧
    ((stack.depth = 32 ∧ r.stack = stack ∧ r.mem = m ∧ r.status = IREE_STATUS_RESOURCE_EXHAUSTED ∧
        r.out_argument_registers = []) ∨
     (0 ≤ stack.depth ∧ stack.depth < 32 ∧ r.stack.depth = stack.depth + 1)) := by
  unfold iree_vm_stack_function_enter_external at h
  split at h
  · rename_i hd
    cases h
    simp [IREE_MAX_STACK_DEPTH] at hd
    simp [hd]
  · cases hc : frame_at stack.frames stack.depth with
    | none => simp [hc] at h
    | some callee0 =>
      have hb := frame_at_some_bounds hc
      simp only [hc, Option.bind_eq_bind, Option.some_bind,
        iree_vm_stack_reserve_register_storage] at h
      split at h
      · cases h; simp [hb.1, hb.2]
      · split at h
        · cases h; simp [hb.1, hb.2]
        · cases h; simp [hb.1, hb.2]

theorem leave_effect {stack : iree_vm_stack_t} {m : Memory}
    {result_registers : Option iree_vm_register_list_t} {r : LeaveResult}
    (h : iree_vm_stack_function_leave stack m result_registers = some r) :
    r.stack.frames.length = stack.frames.length ∧
    r.stack.register_storage_size = stack.register_storage_size ∧
    ((stack.depth ≤ 0 ∧ r.stack = stack ∧ r.mem = m ∧ r.status = IREE_STATUS_FAILED_PRECONDITION) ∨
     (0 < stack.depth ∧ stack.depth ≤ 32 ∧ r.stack.depth = stack.depth - 1 ∧
        r.status = IREE_STATUS_OK)) := by
  unfold iree_vm_stack_function_leave at h
  split at h
  · rename_i hd
    cases h
    simp [hd]
  · rename_i hd
    cases hc : frame_at stack.frames (stack.depth - 1) with
    | none => simp [hc] at h
    | some callee_frame =>
      have hb := frame_at_some_bounds hc
      simp only [hc, Option.bind_eq_bind, Option.some_bind] at h
      cases hr : leave_remap_results stack m result_registers callee_frame with
      | none => simp [hr] at h
      | some remapped =>
        simp only [hr, Option.some_bind, iree_vm_stack_release_register_storage, pop_frame] at h
        cases h
        refine ⟨by simp, rfl, Or.inr ⟨by omega, by omega, rfl, rfl⟩⟩

theorem leave_external_effect {stack : iree_vm_stack_t} {m : Memory}
    {results : Option iree_vm_variant_list_t} {r : LeaveExternalResult}
    (h : iree_vm_stack_function_leave_external stack m results = some r) :
    r.stack.frames.length = stack.frames.length ∧
    r.stack.register_storage_size = stack.register_storage_size ∧
    ((stack.depth ≤ 0 ∧ r.stack = stack ∧ r.mem = m ∧ r.status = IREE_STATUS_FAILED_PRECONDITION) ∨
     (0 < stack.depth ∧ stack.depth ≤ 32 ∧ r.stack = stack ∧ r.status ≠ IREE_STATUS_OK) ∨
     (0 < stack.depth ∧ stack.depth ≤ 32 ∧ r.stack.depth = stack.depth - 1 ∧
        r.status = IREE_STATUS_OK)) := by
  unfold iree_vm_stack_function_leave_external at h
  split at h
  · rename_i hd
    cases h
    simp [hd]
  · rename_i hd
    cases hc : frame_at stack.frames (stack.depth - 1) with
    | none => simp [hc] at h
    | some callee_frame =>
      have hb := frame_at_some_bounds hc
      simp only [hc, Option.bind_eq_bind, Option.some_bind] at h
      cases hr : leave_external_marshal stack m results callee_frame with
      | none => simp [hr] at h
      | some marshaled =>
        simp only [hr, Option.some_bind, iree_vm_stack_release_register_storage, pop_frame] at h
        split at h
        · rename_i hs
          cases h
          exact ⟨rfl, rfl, Or.inr (Or.inl ⟨by omega, by omega, rfl, hs⟩)⟩
        · rename_i hs
          cases h
          exact ⟨by simp, rfl, Or.inr (Or.inr ⟨by omega, by omega, rfl, rfl⟩)⟩

theorem step_effect {op : StackOp} {stack : iree_vm_stack_t} {m : Memory}
    {res : iree_status_t × iree_vm_stack_t × Memory} (h : op.step stack m = some res) :
    res.2.1.frames.length = stack.frames.length ∧
    res.2.1.register_storage_size = stack.register_storage_size ∧
    (0 ≤ stack.depth ∧ stack.depth ≤ 32 → 0 ≤ res.2.1.depth ∧ res.2.1.depth ≤ 32) ∧
    (res.1 = IREE_STATUS_OK →
      res.2.1.depth = stack.depth + (if op.is_enter then 1 else -1)) := by
  cases op with
  | enter function argument_registers callee_registers =>
    simp only [StackOp.step, Option.map_eq_some'] at h
    obtain ⟨r, hr, rfl⟩ := h
    obtain ⟨h1, h2, h3⟩ := enter_effect hr
    refine ⟨h1, h2, ?_, ?_⟩
    · rcases h3 with ⟨_, hs, _⟩ | ⟨_, _, hd⟩
      · intro hi; simpa [hs] using hi
      · intro _; simp only; omega
    · rcases h3 with ⟨_, _, _, hst⟩ | ⟨_, _, hd⟩
      · intro hok; simp only at hok; rw [hst] at hok; cases hok
      · intro _; simp [StackOp.is_enter, hd]
  | leave result_registers =>
    simp only [StackOp.step, Option.map_eq_some'] at h
    obtain ⟨r, hr, rfl⟩ := h
    obtain ⟨h1, h2, h3⟩ := leave_effect hr
    refine ⟨h1, h2, ?_, ?_⟩
    · rcases h3 with ⟨_, hs, _⟩ | ⟨_, _, hd, _⟩
      · intro hi; simpa [hs] using hi
      · intro _; simp only; omega
    · rcases h3 with ⟨_, _, _, hst⟩ | ⟨_, _, hd, _⟩
      · intro hok; simp only at hok; rw [hst] at hok; cases hok
      · intro _; simp only [StackOp.is_enter, hd]; simp; omega
  | enter_external arguments max_register_count callee_registers =>
    simp only [StackOp.step, Option.map_eq_some'] at h
    obtain ⟨r, hr, rfl⟩ := h
    obtain ⟨h1, h2, h3⟩ := enter_external_effect hr
    refine ⟨h1, h2, ?_, ?_⟩
    · rcases h3 with ⟨_, hs, _⟩ | ⟨_, _, hd⟩
      · intro hi; simpa [hs] using hi
      · intro _; simp only; omega
    · rcases h3 with ⟨_, _, _, hst, _⟩ | ⟨_, _, hd⟩
      · intro hok; simp only at hok; rw [hst] at hok; cases hok
      · intro _; simp [StackOp.is_enter, hd]
  | leave_external results =>
    simp only [StackOp.step, Option.map_eq_some'] at h
    obtain ⟨r, hr, rfl⟩ := h
    obtain ⟨h1, h2, h3⟩ := leave_external_effect hr
    refine ⟨h1, h2, ?_, ?_⟩
    · rcases h3 with ⟨_, hs, _⟩ | ⟨_, _, hs, _⟩ | ⟨_, _, hd, _⟩
      · intro hi; simpa [hs] using hi
      · intro hi; simpa [hs] using hi
      · intro _; simp only; omega
    · rcases h3 with ⟨_, _, _, hst⟩ | ⟨_, _, _, hst⟩ | ⟨_, _, hd, _⟩
      · intro hok; simp only at hok; rw [hst] at hok; cases hok
      · intro hok; exact absurd hok hst
      · intro _; simp only [StackOp.is_enter, hd]; simp; omega

theorem run_ops_cons {op : StackOp} {rest : List StackOp} {stack : iree_vm_stack_t} {m : Memory}
    {res : List iree_status_t × iree_vm_stack_t × Memory}
    (h : run_ops (op :: rest) stack m = some res) :
    ∃ r r2, op.step stack m = some r ∧ run_ops rest r.2.1 r.2.2 = some r2 ∧
      res = (r.1 :: r2.1, r2.2.1, r2.2.2) := by
  simp only [run_ops] at h
  cases hs : op.step stack m with
  | none => simp [hs] at h
  | some r =>
    simp only [hs] at h
    cases hr : run_ops rest r.2.1 r.2.2 with
    | none => simp [hr] at h
    | some r2 =>
      simp only [hr, Option.some.injEq] at h
      exact ⟨r, r2, rfl, hr, h.symm⟩

theorem run_ops_invariant (ops : List StackOp) :
    ∀ (stack : iree_vm_stack_t) (m : Memory)
      (res : List iree_status_t × iree_vm_stack_t × Memory),
      run_ops ops stack m = some res →
      res.2.1.frames.length = stack.frames.length ∧
      res.2.1.register_storage_size = stack.register_storage_size ∧
      (0 ≤ stack.depth ∧ stack.depth ≤ 32 → 0 ≤ res.2.1.depth ∧ res.2.1.depth ≤ 32) := by
  induction ops with
  | nil =>
    intro stack m res h
    simp only [run_ops, Option.some.injEq] at h
    subst h
    exact ⟨rfl, rfl, id⟩
  | cons op rest ih =>
    intro stack m res h
    obtain ⟨r, r2, hs, hr, rfl⟩ := run_ops_cons h
    obtain ⟨a1, a2, a3, _⟩ := step_effect hs
    obtain ⟨b1, b2, b3⟩ := ih _ _ _ hr
    exact ⟨b1.trans a1, b2.trans a2, fun hi => b3 (a3 hi)⟩

/-- Net number of frames pushed by a sequence of calls that all succeed. -/
theorem run_ops_depth (ops : List StackOp) :
    ∀ (stack : iree_vm_stack_t) (m : Memory)
      (res : List iree_status_t × iree_vm_stack_t × Memory),
      run_ops ops stack m = some res →
      (∀ st ∈ res.1, st = IREE_STATUS_OK) →
      res.2.1.depth + ((ops.filter fun op => !op.is_enter).length : Int) =
        stack.depth + ((ops.filter fun op => op.is_enter).length : Int) := by
  induction ops with
  | nil =>
    intro stack m res h _
    simp only [run_ops, Option.some.injEq] at h
    subst h
    simp
  | cons op rest ih =>
    intro stack m res h hok
    obtain ⟨r, r2, hs, hr, rfl⟩ := run_ops_cons h
    obtain ⟨_, _, _, a4⟩ := step_effect hs
    have hd := a4 (hok r.1 (by simp))
    have hrest := ih _ _ _ hr (fun st hst => hok st (by simp [hst]))
    cases he : op.is_enter <;> simp [he, List.filter_cons] at hd ⊢ <;> omega

/-! ## Calls that cannot fault -/

theorem enter_total (stack : iree_vm_stack_t) (m : Memory) (function : iree_vm_function_t)
    (argument_registers : Option iree_vm_register_list_t) (callee_registers : iree_vm_registers_t)
    (h0 : 0 ≤ stack.depth) (h1 : stack.depth ≤ 32) (hlen : stack.frames.length = 32) :
    ∃ r, iree_vm_stack_function_enter stack m function argument_registers callee_registers
      = some r := by
  unfold iree_vm_stack_function_enter
  split
  · exact ⟨_, rfl⟩
  · rename_i hd
    have hlt : stack.depth < 32 := by
      simp [IREE_MAX_STACK_DEPTH] at hd; omega
    obtain ⟨callee0, hc⟩ := frame_at_isSome hlen h0 hlt
    simp only [hc, Option.bind_eq_bind, Option.some_bind]
    split
    · rename_i hne
      obtain ⟨caller, hp⟩ := frame_at_isSome (i := stack.depth - 1) hlen (by omega) (by omega)
      simp only [hp, Option.map_some', Option.some_bind]
      split
      · exact ⟨_, rfl⟩
      · split
        · exact ⟨_, rfl⟩
        · exact ⟨_, rfl⟩
    · split
      · exact ⟨_, rfl⟩
      · split
        · exact ⟨_, rfl⟩
        · exact ⟨_, rfl⟩

theorem leave_no_results (stack : iree_vm_stack_t) (m : Memory)
    (h0 : 0 < stack.depth) (h1 : stack.depth ≤ 32) (hlen : stack.frames.length = 32) :
    ∃ r, iree_vm_stack_function_leave stack m none = some r ∧
      r.status = IREE_STATUS_OK ∧ r.mem = m ∧ r.stack.depth = stack.depth - 1 := by
  obtain ⟨callee, hc⟩ := frame_at_isSome (i := stack.depth - 1) hlen (by omega) (by omega)
  have hr : leave_remap_results stack m none callee = some (iree_vm_registers_zero, m) := by
    unfold leave_remap_results
    split <;> rfl
  unfold iree_vm_stack_function_leave
  rw [if_neg (by omega)]
  simp only [hc, hr, Option.bind_eq_bind, Option.some_bind,
    iree_vm_stack_release_register_storage, pop_frame]
  exact ⟨_, rfl, rfl, rfl, rfl⟩

theorem leave_external_no_results (stack : iree_vm_stack_t) (m : Memory)
    (h0 : 0 < stack.depth) (h1 : stack.depth ≤ 32) (hlen : stack.frames.length = 32) :
    ∃ r, iree_vm_stack_function_leave_external stack m none = some r ∧
      r.status = IREE_STATUS_OK ∧ r.mem = m ∧ r.stack.depth = stack.depth - 1 := by
  obtain ⟨callee, hc⟩ := frame_at_isSome (i := stack.depth - 1) hlen (by omega) (by omega)
  unfold iree_vm_stack_function_leave_external
  rw [if_neg (by omega)]
  simp only [hc, leave_external_marshal, Option.bind_eq_bind, Option.some_bind,
    iree_vm_stack_release_register_storage, pop_frame, ne_eq, not_true_eq_false, if_false]
  exact ⟨_, rfl, rfl, rfl, rfl⟩

/-! ## Depth limit, empty stack and the depth invariant -/

/-- C1: on a stack whose depth equals `IREE_MAX_STACK_DEPTH`, both
`iree_vm_stack_function_enter` and `iree_vm_stack_function_enter_external`
return RESOURCE_EXHAUSTED for every function / argument list and leave the
stack (its depth and all frame slots) and the memory exactly as they were; the
external enter also reports an argument register list of size 0. -/
theorem enter_at_max_depth_resource_exhausted (stack : iree_vm_stack_t) (m : Memory)
    (h : stack.depth = IREE_MAX_STACK_DEPTH) :
    (∀ function argument_registers callee_registers, ∃ r,
      iree_vm_stack_function_enter stack m function argument_registers callee_registers = some r ∧
      r.status = IREE_STATUS_RESOURCE_EXHAUSTED ∧ r.stack.depth = stack.depth ∧
      r.stack.frames = stack.frames ∧ r.stack = stack ∧ r.mem = m) ∧
    (∀ arguments max_register_count callee_registers, ∃ r,
      iree_vm_stack_function_enter_external stack m arguments max_register_count
        callee_registers = some r ∧
      r.status = IREE_STATUS_RESOURCE_EXHAUSTED ∧ r.stack.depth = stack.depth ∧
      r.stack.frames = stack.frames ∧ r.stack = stack ∧ r.mem = m ∧
      r.out_argument_registers.length = 0) := by
  constructor
  · intro function argument_registers callee_registers
    unfold iree_vm_stack_function_enter
    rw [if_pos h]
    exact ⟨_, rfl, rfl, rfl, rfl, rfl, rfl⟩
  · intro arguments max_register_count callee_registers
    unfold iree_vm_stack_function_enter_external
    rw [if_pos h]
    exact ⟨_, rfl, rfl, rfl, rfl, rfl, rfl, rfl⟩

theorem enter_at_max_depth_resource_exhausted_witness :
    stack_full.depth = IREE_MAX_STACK_DEPTH ∧
    ((∀ function argument_registers callee_registers, ∃ r,
      iree_vm_stack_function_enter stack_full memory_zero function argument_registers
        callee_registers = some r ∧
      r.status = IREE_STATUS_RESOURCE_EXHAUSTED ∧ r.stack.depth = stack_full.depth ∧
      r.stack.frames = stack_full.frames ∧ r.stack = stack_full ∧ r.mem = memory_zero) ∧
    (∀ arguments max_register_count callee_registers, ∃ r,
      iree_vm_stack_function_enter_external stack_full memory_zero arguments max_register_count
        callee_registers = some r ∧
      r.status = IREE_STATUS_RESOURCE_EXHAUSTED ∧ r.stack.depth = stack_full.depth ∧
      r.stack.frames = stack_full.frames ∧ r.stack = stack_full ∧ r.mem = memory_zero ∧
      r.out_argument_registers.length = 0)) :=
  ⟨by decide, enter_at_max_depth_resource_exhausted stack_full memory_zero (by decide)⟩

/-- On an empty stack (depth zero or below) `iree_vm_stack_function_leave` and
`iree_vm_stack_function_leave_external` return FAILED_PRECONDITION and change
nothing. -/
theorem leave_at_depth_zero (stack : iree_vm_stack_t) (m : Memory) (h : stack.depth ≤ 0) :
    (∀ result_registers, ∃ r,
      iree_vm_stack_function_leave stack m result_registers = some r ∧
      r.status = IREE_STATUS_FAILED_PRECONDITION ∧ r.stack = stack ∧ r.mem = m) ∧
    (∀ results, ∃ r,
      iree_vm_stack_function_leave_external stack m results = some r ∧
      r.status = IREE_STATUS_FAILED_PRECONDITION ∧ r.stack = stack ∧ r.mem = m ∧
      r.results = results) := by
  constructor
  · intro result_registers
    unfold iree_vm_stack_function_leave
    rw [if_pos h]
    exact ⟨_, rfl, rfl, rfl, rfl⟩
  · intro results
    unfold iree_vm_stack_function_leave_external
    rw [if_pos h]
    exact ⟨_, rfl, rfl, rfl, rfl, rfl⟩

/-- C2: the code at the failing input. After two successful internal enters the
stack has depth 2 and the caller frame still has `return_registers = NULL`;
`iree_vm_stack_function_leave` with a (here empty) result register list then
reads the size of that `NULL` list and faults instead of returning OK. -/
theorem leave_with_results_faults_at_depth_two :
    (run_ops ops_two_enters (stack_fresh resolver_ok) memory_zero).map
        (fun r => (r.1, r.2.1.depth)) = some ([IREE_STATUS_OK, IREE_STATUS_OK], 2) ∧
    stack_two_frames.depth = 2 ∧
    (frame_at stack_two_frames.frames 0).map (fun f => f.return_registers) = some none ∧
    iree_vm_stack_function_leave stack_two_frames memory_zero (some []) = none :=
  ⟨by decide, by decide, by decide, rfl⟩

/-- C4: the code at the failing input. On an empty stack, with a state resolver
that answers NOT_FOUND for the function's module,
`iree_vm_stack_function_enter` returns NOT_FOUND after it has already
incremented the depth: the depth is 1 afterwards, not 0, and slot 0 holds the
pushed function. -/
theorem enter_resolver_failure_leaves_frame_pushed :
    (stack_fresh resolver_not_found).depth = 0 ∧
    (iree_vm_stack_function_enter (stack_fresh resolver_not_found) memory_zero function_f none
      (window 4096)).map (fun r => (r.status, r.stack.depth,
        (frame_at r.stack.frames 0).map fun f => f.function)) =
      some (IREE_STATUS_NOT_FOUND, 1, some function_f) := by
  decide

/-- C5: for every stack state and every sequence of enter / leave calls
(internal or external) that all return OK and balance to zero (as many leaves
as enters, which holds when every enter is matched by a later leave), the depth
after the sequence equals the depth before it and `register_storage_size` is
the same as before. -/
theorem balanced_enter_leave_restores_stack (ops : List StackOp) (stack : iree_vm_stack_t)
    (m : Memory) (res : List iree_status_t × iree_vm_stack_t × Memory)
    (h : run_ops ops stack m = some res)
    (hok : ∀ st ∈ res.1, st = IREE_STATUS_OK)
    (hbal : (ops.filter fun op => op.is_enter).length =
      (ops.filter fun op => !op.is_enter).length) :
    res.2.1.depth = stack.depth ∧
    res.2.1.register_storage_size = stack.register_storage_size := by
  have hd := run_ops_depth ops stack m res h hok
  obtain ⟨_, hs, _⟩ := run_ops_invariant ops stack m res h
  refine ⟨?_, hs⟩
  rw [hbal] at hd
  omega

theorem balanced_enter_leave_restores_stack_witness :
    ∃ res, run_ops ops_balanced stack_one_frame memory_zero = some res ∧
      res.1 = [IREE_STATUS_OK, IREE_STATUS_OK, IREE_STATUS_OK, IREE_STATUS_OK] ∧
      stack_one_frame.depth = 1 ∧
      res.2.1.depth = stack_one_frame.depth ∧
      res.2.1.register_storage_size = stack_one_frame.register_storage_size :=
  ⟨_, rfl, by decide, by decide,
    balanced_enter_leave_restores_stack ops_balanced stack_one_frame memory_zero _ rfl
      (by decide) (by decide)⟩

/-! ## Leaving a frame: null return registers and unreleased references -/

/-- C9: the code at the failing inputs. Whenever
`iree_vm_stack_function_leave` is called at depth >= 2 with a non-null result
register list while the caller frame's `return_registers` is `NULL` (the value
every freshly entered frame has), the paired remap reads the size of the `NULL`
list: the call faults and writes no result anywhere. -/
theorem leave_null_return_registers_faults (stack : iree_vm_stack_t) (m : Memory)
    (results : iree_vm_register_list_t)
    (hd : 1 < stack.depth) (hmax : stack.depth ≤ IREE_MAX_STACK_DEPTH)
    (hlen : stack.frames.length = IREE_MAX_STACK_DEPTH)
    (hnull : (frame_at stack.frames (stack.depth - 2)).map (fun f => f.return_registers)
      = some none) :
    iree_vm_stack_function_leave stack m (some results) = none := by
  simp only [IREE_MAX_STACK_DEPTH, Nat.cast_ofNat] at hmax hlen
  obtain ⟨callee, hc⟩ := frame_at_isSome (i := stack.depth - 1) hlen (by omega) (by omega)
  obtain ⟨caller, hp⟩ := frame_at_isSome (i := stack.depth - 2) hlen (by omega) (by omega)
  have hn : caller.return_registers = none := by
    rw [hp] at hnull
    simpa using hnull
  have hr : leave_remap_results stack m (some results) callee = none := by
    unfold leave_remap_results
    rw [if_pos hd]
    simp [hp, hn, iree_vm_stack_frame_remap_registers]
  unfold iree_vm_stack_function_leave
  rw [if_neg (by omega)]
  simp [hc, hr]

theorem leave_null_return_registers_faults_witness :
    (1 < stack_two_frames.depth ∧ stack_two_frames.depth ≤ IREE_MAX_STACK_DEPTH ∧
      stack_two_frames.frames.length = IREE_MAX_STACK_DEPTH ∧
      (frame_at stack_two_frames.frames (stack_two_frames.depth - 2)).map
        (fun f => f.return_registers) = some none) ∧
    iree_vm_stack_function_leave stack_two_frames memory_zero (some [0, 0x8000]) = none :=
  ⟨by decide,
    leave_null_return_registers_faults stack_two_frames memory_zero [0, 0x8000]
      (by decide) (by decide) (by decide) (by decide)⟩

/-- C10: the code at the failing inputs. On every stack with a frame to pop,
`iree_vm_stack_function_leave` and `iree_vm_stack_function_leave_external`
called without a result list return OK, pop the frame and leave the whole
memory as it was: `iree_vm_stack_release_register_storage` is empty, so a
reference cell of the popped frame that held a handle still holds it and the
handle's counter has not been decremented. -/
theorem leave_releases_no_reference (stack : iree_vm_stack_t) (m : Memory)
    (h0 : 0 < stack.depth) (h1 : stack.depth ≤ IREE_MAX_STACK_DEPTH)
    (hlen : stack.frames.length = IREE_MAX_STACK_DEPTH) :
    (∃ r, iree_vm_stack_function_leave stack m none = some r ∧
      r.status = IREE_STATUS_OK ∧ r.stack.depth = stack.depth - 1 ∧ r.mem = m) ∧
    (∃ r, iree_vm_stack_function_leave_external stack m none = some r ∧
      r.status = IREE_STATUS_OK ∧ r.stack.depth = stack.depth - 1 ∧ r.mem = m) := by
  simp only [IREE_MAX_STACK_DEPTH, Nat.cast_ofNat] at h1 hlen
  obtain ⟨r, hr, hs, hm, hd⟩ := leave_no_results stack m h0 h1 hlen
  obtain ⟨r2, hr2, hs2, hm2, hd2⟩ := leave_external_no_results stack m h0 h1 hlen
  exact ⟨⟨r, hr, hs, hd, hm⟩, ⟨r2, hr2, hs2, hd2, hm2⟩⟩

theorem leave_releases_no_reference_witness :
    (0 < stack_one_frame.depth ∧ stack_one_frame.depth ≤ IREE_MAX_STACK_DEPTH ∧
      stack_one_frame.frames.length = IREE_MAX_STACK_DEPTH) ∧
    (frame_at stack_one_frame.frames 0).map
      (fun f => iree_vm_registers_from_base stack_one_frame f.register_base) =
        some (window 4096) ∧
    memory_one_ref.ref (ref_addr (window 4096).ref 0) = { ptr := 100, type := 1 } ∧
    memory_one_ref.counter 100 = 1 ∧
    (iree_vm_stack_function_leave stack_one_frame memory_one_ref none).map
      (fun r => (r.status, r.stack.depth, r.mem.ref (ref_addr (window 4096).ref 0),
        r.mem.counter 100)) = some (IREE_STATUS_OK, 0, { ptr := 100, type := 1 }, 1) ∧
    ((∃ r, iree_vm_stack_function_leave stack_one_frame memory_one_ref none = some r ∧
      r.status = IREE_STATUS_OK ∧ r.stack.depth = stack_one_frame.depth - 1 ∧
      r.mem = memory_one_ref) ∧
    (∃ r, iree_vm_stack_function_leave_external stack_one_frame memory_one_ref none = some r ∧
      r.status = IREE_STATUS_OK ∧ r.stack.depth = stack_one_frame.depth - 1 ∧
      r.mem = memory_one_ref)) :=
  ⟨by decide, by decide, by decide, by decide, by decide,
    leave_releases_no_reference stack_one_frame memory_one_ref (by decide) (by decide)
      (by decide)⟩

/-! ## Memory cells under the register transfer primitives -/

@[simp] theorem set_i32_i32 (m : Memory) (a b : Nat) (v : Int) :
    (m.set_i32 a v).i32 b = if b = a then v else m.i32 b := by
  simp [Memory.set_i32, Function.update_apply]

@[simp] theorem set_i32_ref (m : Memory) (a : Nat) (v : Int) : (m.set_i32 a v).ref = m.ref := rfl

@[simp] theorem set_i32_counter (m : Memory) (a : Nat) (v : Int) :
    (m.set_i32 a v).counter = m.counter := rfl

@[simp] theorem set_ref_ref (m : Memory) (a b : Nat) (r : iree_vm_ref_t) :
    (m.set_ref a r).ref b = if b = a then r else m.ref b := by
  simp [Memory.set_ref, Function.update_apply]

@[simp] theorem set_ref_i32 (m : Memory) (a : Nat) (r : iree_vm_ref_t) :
    (m.set_ref a r).i32 = m.i32 := rfl

@[simp] theorem set_ref_counter (m : Memory) (a : Nat) (r : iree_vm_ref_t) :
    (m.set_ref a r).counter = m.counter := rfl

@[simp] theorem retain_i32 (m : Memory) (r : iree_vm_ref_t) : (m.retain r).i32 = m.i32 := by
  unfold Memory.retain; split <;> rfl

@[simp] theorem retain_ref (m : Memory) (r : iree_vm_ref_t) : (m.retain r).ref = m.ref := by
  unfold Memory.retain; split <;> rfl

@[simp] theorem release_i32 (m : Memory) (r : iree_vm_ref_t) : (m.release r).i32 = m.i32 := by
  unfold Memory.release; split <;> rfl

@[simp] theorem release_ref (m : Memory) (r : iree_vm_ref_t) : (m.release r).ref = m.ref := by
  unfold Memory.release; split <;> rfl

theorem retain_counter (m : Memory) (r : iree_vm_ref_t) (p : Nat) :
    (m.retain r).counter p = if r.ptr ≠ 0 ∧ p = r.ptr then m.counter p + 1 else m.counter p := by
  unfold Memory.retain
  by_cases h : r.ptr = 0
  · simp [h]
  · by_cases hp : p = r.ptr
    · subst hp; simp [h]
    · simp [h, hp, Function.update_apply]

@[simp] theorem retain_or_move_i32 (is_move : Bool) (src dst : Nat) (m : Memory) :
    (iree_vm_ref_retain_or_move is_move src dst m).i32 = m.i32 := by
  unfold iree_vm_ref_retain_or_move
  cases is_move <;> simp

theorem retain_or_move_ref (is_move : Bool) (src dst : Nat) (m : Memory) (a : Nat) :
    (iree_vm_ref_retain_or_move is_move src dst m).ref a =
      if is_move = true ∧ a = src then iree_vm_ref_null
      else if a = dst then m.ref src else m.ref a := by
  unfold iree_vm_ref_retain_or_move
  cases is_move <;> simp

theorem i32_addr_inj {base p q : Nat} : i32_addr base p = i32_addr base q ↔ p = q := by
  unfold i32_addr sizeof_i32; omega

theorem ref_addr_inj {base p q : Nat} : ref_addr base p = ref_addr base q ↔ p = q := by
  unfold ref_addr sizeof_iree_vm_ref_t; omega

/-- An ordinal inside the bank is its own masked 16-bit value. -/
theorem masked_ordinal_eq {mask p : Nat} (hm : is_register_mask mask) (hp : p ≤ mask) :
    (p % UINT16_MOD) &&& mask = p := by
  obtain ⟨k, hk, rfl⟩ := hm
  have h16 : 2 ^ k ≤ 2 ^ 16 := Nat.pow_le_pow_right (by decide) hk
  have hpos : 0 < 2 ^ k := Nat.two_pow_pos k
  have hlt : p < 2 ^ k := by omega
  rw [Nat.and_pow_two_sub_one_eq_mod, UINT16_MOD, Nat.mod_eq_of_lt (a := p) (by omega),
    Nat.mod_eq_of_lt hlt]

/-! ## The ABI remap -/

theorem count_i32_cons (e : Nat) (t : iree_vm_register_list_t) :
    count_i32 (e :: t) =
      if e &&& IREE_REF_REGISTER_TYPE_BIT = 0 then count_i32 t + 1 else count_i32 t := by
  unfold count_i32
  by_cases h : e &&& IREE_REF_REGISTER_TYPE_BIT = 0 <;> simp [List.filter_cons, h]

theorem count_ref_cons (e : Nat) (t : iree_vm_register_list_t) :
    count_ref (e :: t) =
      if e &&& IREE_REF_REGISTER_TYPE_BIT ≠ 0 then count_ref t + 1 else count_ref t := by
  unfold count_ref
  by_cases h : e &&& IREE_REF_REGISTER_TYPE_BIT = 0 <;> simp [List.filter_cons, h]

theorem no_use_after_move_tail {src_regs : iree_vm_registers_t} {e : Nat}
    {t : iree_vm_register_list_t} (h : no_use_after_move src_regs (e :: t)) :
    no_use_after_move src_regs t :=
  (List.pairwise_cons.1 h).2

theorem abi_loop_i32_frame (src_regs dst_regs : iree_vm_registers_t)
    (hmask : is_register_mask dst_regs.i32_mask) (a : Nat) :
    ∀ (list : iree_vm_register_list_t) (io ro : Nat) (m : Memory),
      io + count_i32 list ≤ dst_regs.i32_mask + 1 →
      (∀ p, io ≤ p → p < io + count_i32 list → a ≠ i32_addr dst_regs.i32 p) →
      (iree_vm_stack_frame_remap_abi_registers_loop src_regs dst_regs list io ro m).i32 a
        = m.i32 a := by
  intro list
  induction list with
  | nil => intro io ro m _ _; rfl
  | cons e t ih =>
    intro io ro m hb ha
    rw [count_i32_cons] at hb ha
    unfold iree_vm_stack_frame_remap_abi_registers_loop
    by_cases he : e &&& IREE_REF_REGISTER_TYPE_BIT = 0
    · rw [if_pos he] at hb ha
      rw [if_neg (by simpa using he)]
      simp only
      rw [ih (io + 1) ro _ (by omega) (fun p h1 h2 => ha p (by omega) (by omega))]
      rw [masked_ordinal_eq hmask (by omega)]
      simp [ha io (le_refl _) (by omega)]
    · rw [if_neg he] at hb ha
      rw [if_pos he]
      simp only
      rw [ih io (ro + 1) _ hb ha]
      simp

theorem abi_loop_i32_value (src_regs dst_regs : iree_vm_registers_t)
    (hmask : is_register_mask dst_regs.i32_mask)
    (hdis : ∀ p, p ≤ dst_regs.i32_mask → ∀ q, q ≤ src_regs.i32_mask →
      i32_addr dst_regs.i32 p ≠ i32_addr src_regs.i32 q) :
    ∀ (list : iree_vm_register_list_t) (io ro : Nat) (m : Memory) (i e : Nat),
      list[i]? = some e → e &&& IREE_REF_REGISTER_TYPE_BIT = 0 →
      io + count_i32 list ≤ dst_regs.i32_mask + 1 →
      (iree_vm_stack_frame_remap_abi_registers_loop src_regs dst_regs list io ro m).i32
          (i32_addr dst_regs.i32 (io + count_i32 (list.take i)))
        = m.i32 (i32_addr src_regs.i32 (e &&& src_regs.i32_mask)) := by
  intro list
  induction list with
  | nil => intro io ro m i e hi; simp at hi
  | cons h t ih =>
    intro io ro m i e hi he hb
    rw [count_i32_cons] at hb
    unfold iree_vm_stack_frame_remap_abi_registers_loop
    cases i with
    | zero =>
      simp only [List.getElem?_cons_zero, Option.some.injEq] at hi
      subst hi
      rw [if_pos he] at hb
      rw [if_neg (by simpa using he)]
      simp only [List.take_zero]
      have hc0 : count_i32 [] = 0 := rfl
      rw [hc0, Nat.add_zero]
      rw [abi_loop_i32_frame src_regs dst_regs hmask _ t (io + 1) ro _ (by omega)
        (fun p h1 _ => by rw [Ne, i32_addr_inj]; omega)]
      rw [masked_ordinal_eq hmask (by omega)]
      simp
    | succ j =>
      simp only [List.getElem?_cons_succ] at hi
      simp only [List.take_succ_cons]
      rw [count_i32_cons]
      by_cases hh : h &&& IREE_REF_REGISTER_TYPE_BIT = 0
      · rw [if_pos hh] at hb
        rw [if_pos hh, if_neg (by simpa using hh)]
        have := ih (io + 1) ro
          (m.set_i32 (i32_addr dst_regs.i32 ((io % UINT16_MOD) &&& dst_regs.i32_mask))
            (m.i32 (i32_addr src_regs.i32 (h &&& src_regs.i32_mask)))) j e hi he (by omega)
        rw [show io + (count_i32 (List.take j t) + 1) = io + 1 + count_i32 (List.take j t) by omega,
          this, masked_ordinal_eq hmask (by omega)]
        have hne := hdis io (by omega) (e &&& src_regs.i32_mask) Nat.and_le_right
        simp [Ne.symm hne]
      · rw [if_neg hh] at hb
        rw [if_neg hh, if_pos hh]
        rw [ih io (ro + 1) _ j e hi he hb]
        simp

theorem abi_loop_ref_frame (src_regs dst_regs : iree_vm_registers_t)
    (hmask : is_register_mask dst_regs.ref_mask) (a : Nat) :
    ∀ (list : iree_vm_register_list_t) (io ro : Nat) (m : Memory),
      ro + count_ref list ≤ dst_regs.ref_mask + 1 →
      (∀ p, ro ≤ p → p < ro + count_ref list → a ≠ ref_addr dst_regs.ref p) →
      (∀ e ∈ list, e &&& IREE_REF_REGISTER_TYPE_BIT ≠ 0 → e &&& IREE_REF_REGISTER_MOVE_BIT ≠ 0 →
        a ≠ ref_addr src_regs.ref (e &&& src_regs.ref_mask)) →
      (iree_vm_stack_frame_remap_abi_registers_loop src_regs dst_regs list io ro m).ref a
        = m.ref a := by
  intro list
  induction list with
  | nil => intro io ro m _ _ _; rfl
  | cons e t ih =>
    intro io ro m hb ha hs
    rw [count_ref_cons] at hb ha
    unfold iree_vm_stack_frame_remap_abi_registers_loop
    by_cases he : e &&& IREE_REF_REGISTER_TYPE_BIT = 0
    · rw [if_neg (by simpa using he)] at hb ha
      rw [if_neg (by simpa using he)]
      simp only
      rw [ih (io + 1) ro _ hb ha (fun x hx => hs x (List.mem_cons_of_mem _ hx))]
      simp
    · rw [if_pos he] at hb ha
      rw [if_pos he]
      simp only
      rw [ih io (ro + 1) _ (by omega) (fun p h1 h2 => ha p (by omega) (by omega))
        (fun x hx => hs x (List.mem_cons_of_mem _ hx))]
      rw [retain_or_move_ref, masked_ordinal_eq hmask (by omega)]
      have h1 := ha ro (le_refl _) (by omega)
      have h2 := hs e (List.mem_cons_self _ _) he
      by_cases hmv : e &&& IREE_REF_REGISTER_MOVE_BIT = 0
      · simp [hmv, h1]
      · simp [hmv, h1, h2 hmv]

theorem abi_loop_ref_value (src_regs dst_regs : iree_vm_registers_t)
    (hmask : is_register_mask dst_regs.ref_mask)
    (hdis : ∀ p, p ≤ dst_regs.ref_mask → ∀ q, q ≤ src_regs.ref_mask →
      ref_addr dst_regs.ref p ≠ ref_addr src_regs.ref q) :
    ∀ (list : iree_vm_register_list_t) (io ro : Nat) (m : Memory) (i e : Nat),
      list[i]? = some e → e &&& IREE_REF_REGISTER_TYPE_BIT ≠ 0 →
      ro + count_ref list ≤ dst_regs.ref_mask + 1 →
      no_use_after_move src_regs list →
      (iree_vm_stack_frame_remap_abi_registers_loop src_regs dst_regs list io ro m).ref
          (ref_addr dst_regs.ref (ro + count_ref (list.take i)))
        = m.ref (ref_addr src_regs.ref (e &&& src_regs.ref_mask)) := by
  intro list
  induction list with
  | nil => intro io ro m i e hi; simp at hi
  | cons h t ih =>
    intro io ro m i e hi he hb hnu
    rw [count_ref_cons] at hb
    unfold iree_vm_stack_frame_remap_abi_registers_loop
    cases i with
    | zero =>
      simp only [List.getElem?_cons_zero, Option.some.injEq] at hi
      subst hi
      rw [if_pos he] at hb
      rw [if_pos he]
      simp only [List.take_zero]
      have hc0 : count_ref [] = 0 := rfl
      simp only [hc0, Nat.add_zero]
      rw [abi_loop_ref_frame src_regs dst_regs hmask _ t io (ro + 1) _ (by omega)
        (fun p h1 _ => by rw [Ne, ref_addr_inj]; omega)
        (fun x _ _ _ => hdis ro (by omega) (x &&& src_regs.ref_mask) Nat.and_le_right)]
      rw [retain_or_move_ref, masked_ordinal_eq hmask (by omega)]
      have hne := hdis ro (by omega) (h &&& src_regs.ref_mask) Nat.and_le_right
      simp [hne, Ne.symm hne]
    | succ j =>
      simp only [List.getElem?_cons_succ] at hi
      simp only [List.take_succ_cons]
      rw [count_ref_cons]
      by_cases hh : h &&& IREE_REF_REGISTER_TYPE_BIT = 0
      · rw [if_neg (by simpa using hh)] at hb
        rw [if_neg (by simpa using hh), if_neg (by simpa using hh)]
        rw [ih (io + 1) ro _ j e hi he hb (no_use_after_move_tail hnu)]
        simp
      · rw [if_pos hh] at hb
        rw [if_pos hh, if_pos hh]
        have := ih io (ro + 1)
          (iree_vm_ref_retain_or_move (decide (h &&& IREE_REF_REGISTER_MOVE_BIT ≠ 0))
            (ref_addr src_regs.ref (h &&& src_regs.ref_mask))
            (ref_addr dst_regs.ref ((ro % UINT16_MOD) &&& dst_regs.ref_mask))
            (m.set_ref (ref_addr dst_regs.ref ((ro % UINT16_MOD) &&& dst_regs.ref_mask))
              iree_vm_ref_null)) j e hi he (by omega) (no_use_after_move_tail hnu)
        rw [show ro + (count_ref (List.take j t) + 1) = ro + 1 + count_ref (List.take j t) by omega,
          this, retain_or_move_ref, masked_ordinal_eq hmask (by omega)]
        have hne := hdis ro (by omega) (e &&& src_regs.ref_mask) Nat.and_le_right
        by_cases hmv : h &&& IREE_REF_REGISTER_MOVE_BIT = 0
        · simp [hmv, Ne.symm hne]
        · have hsrc := (List.pairwise_cons.1 hnu).1 e (List.getElem?_mem hi) hh he hmv
          have hsrc2 : ref_addr src_regs.ref (e &&& src_regs.ref_mask) ≠
              ref_addr src_regs.ref (h &&& src_regs.ref_mask) := by
            rw [Ne, ref_addr_inj]; exact Ne.symm hsrc
          simp [hmv, Ne.symm hne, hsrc2]

theorem enter_ok_result {stack : iree_vm_stack_t} {m : Memory} {function : iree_vm_function_t}
    {list : iree_vm_register_list_t} {callee_registers : iree_vm_registers_t}
    {caller : iree_vm_stack_frame_t} {r : EnterResult}
    (h : iree_vm_stack_function_enter stack m function (some list) callee_registers = some r)
    (hok : r.status = IREE_STATUS_OK) (hd : stack.depth ≠ 0)
    (hcaller : frame_at stack.frames (stack.depth - 1) = some caller) :
    r.out_callee_registers = callee_registers ∧
    r.mem = iree_vm_stack_frame_remap_abi_registers
      (iree_vm_registers_from_base stack caller.register_base) list callee_registers m := by
  unfold iree_vm_stack_function_enter at h
  split at h
  · cases h; cases hok
  · cases hc : frame_at stack.frames stack.depth with
    | none => simp [hc] at h
    | some callee0 =>
      simp only [hc, Option.bind_eq_bind, Option.some_bind, if_pos hd, hcaller,
        Option.map_some', iree_vm_stack_reserve_register_storage, ite_self] at h
      split at h
      · rename_i hq
        cases h
        exact absurd hok hq.2
      · split at h
        · rename_i hne
          exact absurd rfl hne
        · cases h
          exact ⟨rfl, rfl⟩

theorem enter_ok_of_resolver {stack : iree_vm_stack_t} {m : Memory} {function : iree_vm_function_t}
    {argument_registers : Option iree_vm_register_list_t} {callee_registers : iree_vm_registers_t}
    {r : EnterResult}
    (h : iree_vm_stack_function_enter stack m function argument_registers callee_registers = some r)
    (hd : stack.depth ≠ 32)
    (hq : (stack.state_resolver.query_module_state stack.state_resolver.self function.module).1
      = IREE_STATUS_OK) :
    r.status = IREE_STATUS_OK := by
  unfold iree_vm_stack_function_enter at h
  split at h
  · rename_i h32
    simp [IREE_MAX_STACK_DEPTH] at h32
    exact absurd h32 hd
  · cases hc : frame_at stack.frames stack.depth with
    | none => simp [hc] at h
    | some callee0 =>
      simp only [hc, Option.bind_eq_bind, Option.some_bind] at h
      split at h
      · cases hp : frame_at stack.frames (stack.depth - 1) with
        | none => simp [hp] at h
        | some caller =>
          simp only [hp, Option.map_some', Option.some_bind,
            iree_vm_stack_reserve_register_storage] at h
          split at h
          · rename_i hq2
            exact absurd hq hq2.2
          · split at h
            · rename_i hne
              exact absurd rfl hne
            · cases h; rfl
      · simp only [Option.some_bind, iree_vm_stack_reserve_register_storage] at h
        split at h
        · rename_i hq2
          exact absurd hq hq2.2
        · split at h
          · rename_i hne
            exact absurd rfl hne
          · cases h; rfl

theorem and_register_mask_eq {mask p : Nat} (hm : is_register_mask mask) (hp : p ≤ mask) :
    p &&& mask = p := by
  have h := masked_ordinal_eq hm hp
  obtain ⟨k, hk, rfl⟩ := hm
  have h16 : 2 ^ k ≤ 2 ^ 16 := Nat.pow_le_pow_right (by decide) hk
  have hpos : 0 < 2 ^ k := Nat.two_pow_pos k
  rwa [UINT16_MOD, Nat.mod_eq_of_lt (a := p) (by omega)] at h

theorem count_i32_take_lt :
    ∀ (list : iree_vm_register_list_t) (i e : Nat), list[i]? = some e →
      e &&& IREE_REF_REGISTER_TYPE_BIT = 0 → count_i32 (list.take i) < count_i32 list := by
  intro list
  induction list with
  | nil => intro i e hi; simp at hi
  | cons h t ih =>
    intro i e hi he
    cases i with
    | zero =>
      simp only [List.getElem?_cons_zero, Option.some.injEq] at hi
      subst hi
      rw [count_i32_cons, if_pos he]
      simp [count_i32]
    | succ j =>
      simp only [List.getElem?_cons_succ] at hi
      have := ih j e hi he
      simp only [List.take_succ_cons, count_i32_cons]
      split <;> omega

theorem count_ref_take_lt :
    ∀ (list : iree_vm_register_list_t) (i e : Nat), list[i]? = some e →
      e &&& IREE_REF_REGISTER_TYPE_BIT ≠ 0 → count_ref (list.take i) < count_ref list := by
  intro list
  induction list with
  | nil => intro i e hi; simp at hi
  | cons h t ih =>
    intro i e hi he
    cases i with
    | zero =>
      simp only [List.getElem?_cons_zero, Option.some.injEq] at hi
      subst hi
      rw [count_ref_cons, if_pos he]
      simp [count_ref]
    | succ j =>
      simp only [List.getElem?_cons_succ] at hi
      have := ih j e hi he
      simp only [List.take_succ_cons, count_ref_cons]
      split <;> omega

/-- Two evaluations of the ABI remap. The argument list `[0xC000, 0xC000]`
names the caller's reference register 0 twice with the move bit: the first
entry moves the handle out, so the callee's reference register 1 receives null.
With a callee register view that is the caller's own, the list `[1, 0]` leaves
22 in the callee's i32 register 1: the first copy has overwritten the caller's
register 0 before the second reads it. -/
theorem enter_abi_remap_samples :
    (memory_caller_args.ref (ref_addr (window 4096).ref (0xC000 &&& (window 4096).ref_mask))
        = { ptr := 100, type := 1 } ∧
      0xC000 &&& IREE_REF_REGISTER_TYPE_BIT ≠ 0 ∧ count_ref ([0xC000, 0xC000].take 1) = 1 ∧
      count_ref [0xC000, 0xC000] ≤ (window 4224).ref_mask + 1 ∧
      (frame_at stack_one_frame.frames 0).map
        (fun f => iree_vm_registers_from_base stack_one_frame f.register_base)
          = some (window 4096) ∧
      (iree_vm_stack_function_enter stack_one_frame memory_caller_args function_f
        (some [0xC000, 0xC000]) (window 4224)).map
        (fun r => (r.status, r.out_callee_registers,
          r.mem.ref (ref_addr (window 4224).ref (1 &&& (window 4224).ref_mask))))
        = some (IREE_STATUS_OK, window 4224, iree_vm_ref_null)) ∧
    (memory_caller_args.i32 (i32_addr (window 4096).i32 (0 &&& (window 4096).i32_mask)) = 11 ∧
      count_i32 ([1, 0].take 1) = 1 ∧ count_i32 [1, 0] ≤ (window 4096).i32_mask + 1 ∧
      (iree_vm_stack_function_enter stack_one_frame memory_caller_args function_f
        (some [1, 0]) (window 4096)).map
        (fun r => (r.status, r.out_callee_registers,
          r.mem.i32 (i32_addr (window 4096).i32 (1 &&& (window 4096).i32_mask))))
        = some (IREE_STATUS_OK, window 4096, 22)) := by
  decide

/-- The ABI remap on a well-formed callee view. When the value of
`callee_registers` has masks of the form `2 ^ k - 1` whose banks hold the
primitive and reference entries of `L`, its cells are apart from the caller's,
and no caller reference register is named again after an entry that moves it,
an enter that returns OK has packed each bank left to right: for every position
`i`, if `L[i]` has bit 15 clear and `p` earlier entries have it clear, the
callee's i32 register `p` holds what the caller's i32 register
`L[i] & i32_mask` held; if `L[i]` has bit 15 set and `r` earlier entries have
it set, the callee's ref register `r` holds the handle that was in the caller's
ref register `L[i] & ref_mask`. Nothing in `iree_vm_stack_function_enter`
establishes these conditions on the view. -/
theorem enter_abi_remap_packs_left_to_right (stack : iree_vm_stack_t) (m : Memory)
    (function : iree_vm_function_t) (list : iree_vm_register_list_t)
    (callee_registers caller_registers : iree_vm_registers_t)
    (hd0 : 0 < stack.depth) (hd1 : stack.depth < IREE_MAX_STACK_DEPTH)
    (hlen : stack.frames.length = IREE_MAX_STACK_DEPTH)
    (hcaller : (frame_at stack.frames (stack.depth - 1)).map
      (fun f => iree_vm_registers_from_base stack f.register_base) = some caller_registers)
    (hmi : is_register_mask callee_registers.i32_mask)
    (hmr : is_register_mask callee_registers.ref_mask)
    (hbi : count_i32 list ≤ callee_registers.i32_mask + 1)
    (hbr : count_ref list ≤ callee_registers.ref_mask + 1)
    (hdis : windows_disjoint callee_registers caller_registers)
    (hnu : no_use_after_move caller_registers list) :
    ∃ r, iree_vm_stack_function_enter stack m function (some list) callee_registers = some r ∧
      ((stack.state_resolver.query_module_state stack.state_resolver.self function.module).1
        = IREE_STATUS_OK → r.status = IREE_STATUS_OK) ∧
      (r.status = IREE_STATUS_OK →
        r.out_callee_registers = callee_registers ∧
        ∀ (i e : Nat), list[i]? = some e →
          (e &&& IREE_REF_REGISTER_TYPE_BIT = 0 →
            r.mem.i32 (i32_addr r.out_callee_registers.i32
                (count_i32 (list.take i) &&& r.out_callee_registers.i32_mask))
              = m.i32 (i32_addr caller_registers.i32 (e &&& caller_registers.i32_mask))) ∧
          (e &&& IREE_REF_REGISTER_TYPE_BIT ≠ 0 →
            r.mem.ref (ref_addr r.out_callee_registers.ref
                (count_ref (list.take i) &&& r.out_callee_registers.ref_mask))
              = m.ref (ref_addr caller_registers.ref (e &&& caller_registers.ref_mask)))) := by
  simp only [IREE_MAX_STACK_DEPTH, Nat.cast_ofNat] at hd1 hlen
  obtain ⟨r, hr⟩ := enter_total stack m function (some list) callee_registers
    (by omega) (by omega) hlen
  refine ⟨r, hr, fun hq => enter_ok_of_resolver hr (by omega) hq, fun hok => ?_⟩
  cases hc : frame_at stack.frames (stack.depth - 1) with
  | none => simp [hc] at hcaller
  | some caller =>
    simp only [hc, Option.map_some', Option.some.injEq] at hcaller
    obtain ⟨hregs, hmem⟩ := enter_ok_result hr hok (by omega) hc
    rw [hcaller] at hmem
    refine ⟨hregs, fun i e hi => ⟨fun he => ?_, fun he => ?_⟩⟩
    · have hlt := count_i32_take_lt list i e hi he
      rw [hregs, hmem, and_register_mask_eq hmi (by omega)]
      have := abi_loop_i32_value caller_registers callee_registers hmi hdis.1 list 0 0 m i e hi he
        (by omega)
      rwa [Nat.zero_add] at this
    · have hlt := count_ref_take_lt list i e hi he
      rw [hregs, hmem, and_register_mask_eq hmr (by omega)]
      have := abi_loop_ref_value caller_registers callee_registers hmr hdis.2 list 0 0 m i e hi he
        (by omega) hnu
      rwa [Nat.zero_add] at this

theorem enter_abi_remap_packs_left_to_right_witness :
    (0 < stack_one_frame.depth ∧ stack_one_frame.depth < IREE_MAX_STACK_DEPTH ∧
      count_i32 [1, 0xC000, 0, 0x8001] ≤ (window 4224).i32_mask + 1 ∧
      count_ref [1, 0xC000, 0, 0x8001] ≤ (window 4224).ref_mask + 1) ∧
    (iree_vm_stack_function_enter stack_one_frame memory_caller_args function_f
      (some [1, 0xC000, 0, 0x8001]) (window 4224)).map
      (fun r => (r.status, r.mem.i32 (i32_addr (window 4224).i32 0),
        r.mem.i32 (i32_addr (window 4224).i32 1), r.mem.ref (ref_addr (window 4224).ref 0),
        r.mem.ref (ref_addr (window 4224).ref 1)))
      = some (IREE_STATUS_OK, 22, 11, { ptr := 100, type := 1 }, { ptr := 200, type := 1 }) ∧
    ∃ r, iree_vm_stack_function_enter stack_one_frame memory_caller_args function_f
        (some [1, 0xC000, 0, 0x8001]) (window 4224) = some r ∧
      ((stack_one_frame.state_resolver.query_module_state stack_one_frame.state_resolver.self
          function_f.module).1 = IREE_STATUS_OK → r.status = IREE_STATUS_OK) ∧
      (r.status = IREE_STATUS_OK →
        r.out_callee_registers = window 4224 ∧
        ∀ (i e : Nat), [1, 0xC000, 0, 0x8001][i]? = some e →
          (e &&& IREE_REF_REGISTER_TYPE_BIT = 0 →
            r.mem.i32 (i32_addr r.out_callee_registers.i32
                (count_i32 ([1, 0xC000, 0, 0x8001].take i) &&& r.out_callee_registers.i32_mask))
              = memory_caller_args.i32
                (i32_addr (window 4096).i32 (e &&& (window 4096).i32_mask))) ∧
          (e &&& IREE_REF_REGISTER_TYPE_BIT ≠ 0 →
            r.mem.ref (ref_addr r.out_callee_registers.ref
                (count_ref ([1, 0xC000, 0, 0x8001].take i) &&& r.out_callee_registers.ref_mask))
              = memory_caller_args.ref
                (ref_addr (window 4096).ref (e &&& (window 4096).ref_mask)))) :=
  ⟨by decide, by decide,
    enter_abi_remap_packs_left_to_right stack_one_frame memory_caller_args function_f
      [1, 0xC000, 0, 0x8001] (window 4224) (window 4096) (by decide) (by decide) (by decide)
      (by decide) ⟨2, by decide, by decide⟩ ⟨2, by decide, by decide⟩ (by decide) (by decide)
      (by unfold windows_disjoint; decide) (by unfold no_use_after_move; decide)⟩

/-- C6: the code at two failing inputs. The callee view is whatever the
never-assigned local `callee_registers` holds. First input: the caller frame's
view is `window 4096`, whose i32 registers 0 and 1 hold 11 and 22; the argument
list `[0, 1]` names both, two primitives for a callee with four i32 registers;
with callee cells at 4224 and zero masks both arguments are written through
`ordinal & i32_mask = 0` to the same cell: after the enter the callee's i32
register 0 holds 22, not the 11 of the caller's i32 register 0, which entry 0
names and which still holds 11. Second input: the local holds the caller's own
view, with masks 3; the caller's reference registers 0 and 1 hold the handles
of objects 100 and 200 and the argument list `[0x8001, 0x8000]` names them
without the move bit, two references for a callee with four reference
registers; the store of argument 0 into the callee's register 0 overwrites the
caller's register 0 before entry 1 reads it: after the enter the callee's
reference register 1 holds the handle of object 200, not the handle of object
100 that was in the caller's reference register 0. -/
theorem enter_abi_remap_unset_view :
    (stack_one_frame.depth = 1 ∧
      (frame_at stack_one_frame.frames 0).map
        (fun f => iree_vm_registers_from_base stack_one_frame f.register_base)
          = some (window 4096) ∧
      memory_caller_args.i32 (i32_cell (window 4096) 0) = 11 ∧
      memory_caller_args.i32 (i32_cell (window 4096) 1) = 22 ∧
      count_i32 ([0, 1].take 0) = 0 ∧ count_i32 ([0, 1].take 1) = 1 ∧
      count_i32 [0, 1] ≤ function_f.i32_register_count ∧
      (iree_vm_stack_function_enter stack_one_frame memory_caller_args function_f
        (some [0, 1]) (window_masks_unset 4224)).map
        (fun r => (r.status, r.out_callee_registers,
          r.mem.i32 (i32_cell r.out_callee_registers 0),
          r.mem.i32 (i32_cell r.out_callee_registers 1),
          r.mem.i32 (i32_cell (window 4096) 0), r.mem.i32 (i32_cell (window 4096) 1)))
        = some (IREE_STATUS_OK, window_masks_unset 4224, 22, 22, 11, 22)) ∧
    (memory_caller_args.ref (ref_cell (window 4096) 0x8000) = { ptr := 100, type := 1 } ∧
      memory_caller_args.ref (ref_cell (window 4096) 0x8001) = { ptr := 200, type := 1 } ∧
      0x8000 &&& IREE_REF_REGISTER_TYPE_BIT ≠ 0 ∧ count_ref ([0x8001, 0x8000].take 1) = 1 ∧
      count_ref [0x8001, 0x8000] ≤ function_f.ref_register_count ∧
      count_ref [0x8001, 0x8000] ≤ (window 4096).ref_mask + 1 ∧
      (iree_vm_stack_function_enter stack_one_frame memory_caller_args function_f
        (some [0x8001, 0x8000]) (window 4096)).map
        (fun r => (r.status, r.out_callee_registers,
          r.mem.ref (ref_cell r.out_callee_registers 0),
          r.mem.ref (ref_cell r.out_callee_registers 1)))
        = some (IREE_STATUS_OK, window 4096, { ptr := 200, type := 1 },
            { ptr := 200, type := 1 })) :=
  ⟨by decide, by decide⟩

/-! ## Move versus retain, entry by entry -/

theorem paired_loop_i32_frame (src_regs dst_regs : iree_vm_registers_t) (a : Nat) :
    ∀ (src_list dst_list : iree_vm_register_list_t) (m : Memory),
      (∀ x ∈ src_list.zip dst_list, x.1 &&& IREE_REF_REGISTER_TYPE_BIT = 0 →
        a ≠ i32_cell dst_regs x.2) →
      (iree_vm_stack_frame_remap_registers_loop src_regs dst_regs src_list dst_list m).i32 a
        = m.i32 a := by
  intro src_list
  induction src_list with
  | nil => intro dst_list m _; simp [iree_vm_stack_frame_remap_registers_loop]
  | cons s t ih =>
    intro dst_list m ha
    cases dst_list with
    | nil => simp [iree_vm_stack_frame_remap_registers_loop]
    | cons d t2 =>
      rw [iree_vm_stack_frame_remap_registers_loop]
      have htail : ∀ x ∈ t.zip t2, x.1 &&& IREE_REF_REGISTER_TYPE_BIT = 0 →
          a ≠ i32_cell dst_regs x.2 :=
        fun x hx => ha x (by simp [List.zip_cons_cons, hx])
      have hhead := ha (s, d) (by simp [List.zip_cons_cons])
      split
      · rw [ih t2 _ htail]; simp
      · rename_i hs
        rw [ih t2 _ htail]
        have := hhead (by simpa using hs)
        simp only [i32_cell] at this
        simp [this]

theorem paired_loop_ref_frame (src_regs dst_regs : iree_vm_registers_t) (a : Nat) :
    ∀ (src_list dst_list : iree_vm_register_list_t) (m : Memory),
      (∀ x ∈ src_list.zip dst_list, x.1 &&& IREE_REF_REGISTER_TYPE_BIT ≠ 0 →
        a ≠ ref_cell dst_regs x.2 ∧
        (x.1 &&& IREE_REF_REGISTER_MOVE_BIT ≠ 0 → a ≠ ref_cell src_regs x.1)) →
      (iree_vm_stack_frame_remap_registers_loop src_regs dst_regs src_list dst_list m).ref a
        = m.ref a := by
  intro src_list
  induction src_list with
  | nil => intro dst_list m _; simp [iree_vm_stack_frame_remap_registers_loop]
  | cons s t ih =>
    intro dst_list m ha
    cases dst_list with
    | nil => simp [iree_vm_stack_frame_remap_registers_loop]
    | cons d t2 =>
      rw [iree_vm_stack_frame_remap_registers_loop]
      have htail : ∀ x ∈ t.zip t2, x.1 &&& IREE_REF_REGISTER_TYPE_BIT ≠ 0 →
          a ≠ ref_cell dst_regs x.2 ∧
          (x.1 &&& IREE_REF_REGISTER_MOVE_BIT ≠ 0 → a ≠ ref_cell src_regs x.1) :=
        fun x hx => ha x (by simp [List.zip_cons_cons, hx])
      have hhead := ha (s, d) (by simp [List.zip_cons_cons])
      split
      · rename_i hs
        rw [ih t2 _ htail, retain_or_move_ref]
        obtain ⟨h1, h2⟩ := hhead hs
        simp only [ref_cell] at h1 h2
        by_cases hmv : s &&& IREE_REF_REGISTER_MOVE_BIT = 0
        · simp [hmv, h1]
        · simp [hmv, h1, h2 hmv]
      · rw [ih t2 _ htail]; simp

theorem paired_loop_i32_value (src_regs dst_regs : iree_vm_registers_t)
    (hdis : ∀ p, p ≤ dst_regs.i32_mask → ∀ q, q ≤ src_regs.i32_mask →
      i32_addr dst_regs.i32 p ≠ i32_addr src_regs.i32 q) :
    ∀ (src_list dst_list : iree_vm_register_list_t) (m : Memory) (i s d : Nat),
      src_list[i]? = some s → dst_list[i]? = some d →
      s &&& IREE_REF_REGISTER_TYPE_BIT = 0 →
      destinations_distinct dst_regs src_list dst_list →
      (iree_vm_stack_frame_remap_registers_loop src_regs dst_regs src_list dst_list m).i32
          (i32_cell dst_regs d) = m.i32 (i32_cell src_regs s) := by
  intro src_list
  induction src_list with
  | nil => intro dst_list m i s d hs; simp at hs
  | cons h t ih =>
    intro dst_list m i s d hs hd hty hdd
    cases dst_list with
    | nil => simp at hd
    | cons h2 t2 =>
      unfold destinations_distinct at hdd
      rw [List.zip_cons_cons, List.pairwise_cons] at hdd
      rw [iree_vm_stack_frame_remap_registers_loop]
      cases i with
      | zero =>
        simp only [List.getElem?_cons_zero, Option.some.injEq] at hs hd
        subst hs; subst hd
        rw [if_neg (by simpa using hty)]
        rw [paired_loop_i32_frame src_regs dst_regs _ t t2 _ (fun x hx hx0 => by
          have := (hdd.1 x hx).1 hty hx0
          simp only [i32_cell, Ne, i32_addr_inj]
          exact this)]
        simp [i32_cell]
      | succ j =>
        simp only [List.getElem?_cons_succ] at hs hd
        split
        · rw [ih t2 _ j s d hs hd hty hdd.2]; simp
        · rw [ih t2 _ j s d hs hd hty hdd.2]
          have hne := hdis (h2 &&& dst_regs.i32_mask) Nat.and_le_right
            (s &&& src_regs.i32_mask) Nat.and_le_right
          simp [i32_cell, Ne.symm hne]

theorem paired_loop_ref_value (src_regs dst_regs : iree_vm_registers_t)
    (hdis : ∀ p, p ≤ dst_regs.ref_mask → ∀ q, q ≤ src_regs.ref_mask →
      ref_addr dst_regs.ref p ≠ ref_addr src_regs.ref q) :
    ∀ (src_list dst_list : iree_vm_register_list_t) (m : Memory) (i s d : Nat),
      src_list[i]? = some s → dst_list[i]? = some d →
      s &&& IREE_REF_REGISTER_TYPE_BIT ≠ 0 →
      destinations_distinct dst_regs src_list dst_list →
      no_use_after_move src_regs src_list →
      (iree_vm_stack_frame_remap_registers_loop src_regs dst_regs src_list dst_list m).ref
          (ref_cell dst_regs d) = m.ref (ref_cell src_regs s) := by
  intro src_list
  induction src_list with
  | nil => intro dst_list m i s d hs; simp at hs
  | cons h t ih =>
    intro dst_list m i s d hs hd hty hdd hnu
    cases dst_list with
    | nil => simp at hd
    | cons h2 t2 =>
      unfold destinations_distinct at hdd
      rw [List.zip_cons_cons, List.pairwise_cons] at hdd
      rw [iree_vm_stack_frame_remap_registers_loop]
      cases i with
      | zero =>
        simp only [List.getElem?_cons_zero, Option.some.injEq] at hs hd
        subst hs; subst hd
        rw [if_pos hty]
        rw [paired_loop_ref_frame src_regs dst_regs _ t t2 _ (fun x hx hx0 => by
          refine ⟨?_, fun _ => ?_⟩
          · have := (hdd.1 x hx).2 hty hx0
            simp only [ref_cell, Ne, ref_addr_inj]
            exact this
          · exact hdis _ Nat.and_le_right _ Nat.and_le_right)]
        rw [retain_or_move_ref]
        have hne := hdis (h2 &&& dst_regs.ref_mask) Nat.and_le_right
          (h &&& src_regs.ref_mask) Nat.and_le_right
        simp [ref_cell, hne]
      | succ j =>
        simp only [List.getElem?_cons_succ] at hs hd
        split
        · rename_i hh
          rw [ih t2 _ j s d hs hd hty hdd.2 (no_use_after_move_tail hnu), retain_or_move_ref]
          have hne := hdis (h2 &&& dst_regs.ref_mask) Nat.and_le_right
            (s &&& src_regs.ref_mask) Nat.and_le_right
          by_cases hmv : h &&& IREE_REF_REGISTER_MOVE_BIT = 0
          · simp [hmv, ref_cell, Ne.symm hne]
          · have hsrc := (List.pairwise_cons.1 hnu).1 s (List.getElem?_mem hs) hh hty hmv
            have hsrc2 : ref_addr src_regs.ref (s &&& src_regs.ref_mask) ≠
                ref_addr src_regs.ref (h &&& src_regs.ref_mask) := by
              rw [Ne, ref_addr_inj]; exact Ne.symm hsrc
            simp [hmv, ref_cell, Ne.symm hne, hsrc2]
        · rw [ih t2 _ j s d hs hd hty hdd.2 (no_use_after_move_tail hnu)]; simp

theorem leave_with_results_result {stack : iree_vm_stack_t} {m : Memory}
    {results return_registers : iree_vm_register_list_t}
    {callee caller : iree_vm_stack_frame_t}
    (hd : 1 < stack.depth)
    (hc : frame_at stack.frames (stack.depth - 1) = some callee)
    (hp : frame_at stack.frames (stack.depth - 2) = some caller)
    (hret : caller.return_registers = some return_registers)
    (hlen : results.length = return_registers.length) :
    ∃ r, iree_vm_stack_function_leave stack m (some results) = some r ∧
      r.status = IREE_STATUS_OK ∧ r.stack.depth = stack.depth - 1 ∧
      r.mem = iree_vm_stack_frame_remap_registers_loop
        (iree_vm_registers_from_base stack callee.register_base)
        (iree_vm_registers_from_base stack caller.register_base) results return_registers m := by
  have hr : leave_remap_results stack m (some results) callee =
      some (iree_vm_registers_from_base stack caller.register_base,
        iree_vm_stack_frame_remap_registers_loop
          (iree_vm_registers_from_base stack callee.register_base)
          (iree_vm_registers_from_base stack caller.register_base) results return_registers m) := by
    unfold leave_remap_results
    rw [if_pos hd]
    simp [hp, hret, iree_vm_stack_frame_remap_registers, hlen]
  unfold iree_vm_stack_function_leave
  rw [if_neg (by omega)]
  simp only [hc, hr, Option.bind_eq_bind, Option.some_bind,
    iree_vm_stack_release_register_storage, pop_frame]
  exact ⟨_, rfl, rfl, rfl, rfl⟩

/-- Two evaluations of the paired remap. The caller recorded the return
registers `[0x8000, 0x8001]` and the callee returns `[0xC000, 0xC000]`, its
reference register 0 twice with the move bit: the first entry moves the handle
out, so the caller's reference register 1 receives null. With caller and callee
frames on the same register view, results `[0, 1]` into return registers
`[1, 0]` leave 11 in the caller's i32 register 0. -/
theorem leave_result_remap_samples :
    ([0xC000, 0xC000].length = [0x8000, 0x8001].length ∧
      destinations_distinct (window 4096) [0xC000, 0xC000] [0x8000, 0x8001] ∧
      (set_return_registers stack_two_frames 0 [0x8000, 0x8001]).depth = 2 ∧
      (frame_at (set_return_registers stack_two_frames 0 [0x8000, 0x8001]).frames 0).map
        (fun f => (iree_vm_registers_from_base stack_two_frames f.register_base,
          f.return_registers)) = some (window 4096, some [0x8000, 0x8001]) ∧
      (frame_at (set_return_registers stack_two_frames 0 [0x8000, 0x8001]).frames 1).map
        (fun f => iree_vm_registers_from_base stack_two_frames f.register_base)
          = some (window 4224) ∧
      memory_callee_results.ref (ref_cell (window 4224) 0xC000) = { ptr := 100, type := 1 } ∧
      (iree_vm_stack_function_leave (set_return_registers stack_two_frames 0 [0x8000, 0x8001])
        memory_callee_results (some [0xC000, 0xC000])).map
        (fun r => (r.status, r.mem.ref (ref_cell (window 4096) 0x8001)))
        = some (IREE_STATUS_OK, iree_vm_ref_null)) ∧
    ([0, 1].length = [1, 0].length ∧ destinations_distinct (window 4096) [0, 1] [1, 0] ∧
      (set_return_registers stack_two_frames_same_window 0 [1, 0]).depth = 2 ∧
      (frame_at (set_return_registers stack_two_frames_same_window 0 [1, 0]).frames 0).map
        (fun f => (iree_vm_registers_from_base stack_two_frames_same_window f.register_base,
          f.return_registers)) = some (window 4096, some [1, 0]) ∧
      (frame_at (set_return_registers stack_two_frames_same_window 0 [1, 0]).frames 1).map
        (fun f => iree_vm_registers_from_base stack_two_frames_same_window f.register_base)
          = some (window 4096) ∧
      memory_caller_args.i32 (i32_cell (window 4096) 1) = 22 ∧
      (iree_vm_stack_function_leave (set_return_registers stack_two_frames_same_window 0 [1, 0])
        memory_caller_args (some [0, 1])).map
        (fun r => (r.status, r.mem.i32 (i32_cell (window 4096) 0)))
        = some (IREE_STATUS_OK, 11)) := by
  decide

/-- The paired remap on frames with separate register windows. When
`iree_vm_stack_function_leave` is called at depth >= 2 with a result register
list `R`, the caller frame's `return_registers` `D` has the same length as `R`
with pairwise distinct destinations, the caller's and the callee's register
cells are apart, and no callee reference register is named again after an entry
that moves it, then the call returns OK and for every `i` the caller register
named by `D[i]` (i32 bank if `R[i]` has bit 15 clear, ref bank otherwise) holds
the value the callee register named by `R[i]` held before the call, and every
caller register not named in `D` is unchanged. Nothing in
`iree_vm_stack_function_enter` sets the windows of two frames apart. -/
theorem leave_result_remap_zips (stack : iree_vm_stack_t) (m : Memory)
    (results return_registers : iree_vm_register_list_t)
    (callee_registers caller_registers : iree_vm_registers_t)
    (hd0 : 1 < stack.depth)
    (hcallee : (frame_at stack.frames (stack.depth - 1)).map
      (fun f => iree_vm_registers_from_base stack f.register_base) = some callee_registers)
    (hcaller : (frame_at stack.frames (stack.depth - 2)).map
      (fun f => (iree_vm_registers_from_base stack f.register_base, f.return_registers))
        = some (caller_registers, some return_registers))
    (hsize : results.length = return_registers.length)
    (hdd : destinations_distinct caller_registers results return_registers)
    (hdis : windows_disjoint caller_registers callee_registers)
    (hnu : no_use_after_move callee_registers results) :
    ∃ r, iree_vm_stack_function_leave stack m (some results) = some r ∧
      r.status = IREE_STATUS_OK ∧
      (∀ (i s d : Nat), results[i]? = some s → return_registers[i]? = some d →
        (s &&& IREE_REF_REGISTER_TYPE_BIT = 0 →
          r.mem.i32 (i32_cell caller_registers d) = m.i32 (i32_cell callee_registers s)) ∧
        (s &&& IREE_REF_REGISTER_TYPE_BIT ≠ 0 →
          r.mem.ref (ref_cell caller_registers d) = m.ref (ref_cell callee_registers s))) ∧
      (∀ q, q ≤ caller_registers.i32_mask →
        (∀ x ∈ results.zip return_registers, x.1 &&& IREE_REF_REGISTER_TYPE_BIT = 0 →
          x.2 &&& caller_registers.i32_mask ≠ q) →
        r.mem.i32 (i32_addr caller_registers.i32 q) = m.i32 (i32_addr caller_registers.i32 q)) ∧
      (∀ q, q ≤ caller_registers.ref_mask →
        (∀ x ∈ results.zip return_registers, x.1 &&& IREE_REF_REGISTER_TYPE_BIT ≠ 0 →
          x.2 &&& caller_registers.ref_mask ≠ q) →
        r.mem.ref (ref_addr caller_registers.ref q) = m.ref (ref_addr caller_registers.ref q)) := by
  cases hc : frame_at stack.frames (stack.depth - 1) with
  | none => simp [hc] at hcallee
  | some callee =>
    cases hp : frame_at stack.frames (stack.depth - 2) with
    | none => simp [hp] at hcaller
    | some caller =>
      simp only [hc, Option.map_some', Option.some.injEq] at hcallee
      simp only [hp, Option.map_some', Option.some.injEq, Prod.mk.injEq] at hcaller
      obtain ⟨r, hr, hst, _, hmem⟩ := leave_with_results_result (m := m) hd0 hc hp hcaller.2 hsize
      rw [hcallee, hcaller.1] at hmem
      refine ⟨r, hr, hst, fun i s d hs hd => ⟨fun hty => ?_, fun hty => ?_⟩, fun q hq hx => ?_,
        fun q hq hx => ?_⟩
      · rw [hmem]
        exact paired_loop_i32_value callee_registers caller_registers hdis.1 results
          return_registers m i s d hs hd hty hdd
      · rw [hmem]
        exact paired_loop_ref_value callee_registers caller_registers hdis.2 results
          return_registers m i s d hs hd hty hdd hnu
      · rw [hmem]
        apply paired_loop_i32_frame
        intro x hxm hx0
        simp only [i32_cell, Ne, i32_addr_inj]
        exact Ne.symm (hx x hxm hx0)
      · rw [hmem]
        apply paired_loop_ref_frame
        intro x hxm hx0
        refine ⟨?_, fun _ => ?_⟩
        · simp only [ref_cell, Ne, ref_addr_inj]
          exact Ne.symm (hx x hxm hx0)
        · exact hdis.2 q hq _ Nat.and_le_right

theorem leave_result_remap_zips_witness :
    (1 < (set_return_registers stack_two_frames 0 [1, 0x8001, 0]).depth ∧
      [0, 0xC000, 1].length = [1, 0x8001, 0].length ∧
      destinations_distinct (window 4096) [0, 0xC000, 1] [1, 0x8001, 0] ∧
      windows_disjoint (window 4096) (window 4224) ∧
      no_use_after_move (window 4224) [0, 0xC000, 1]) ∧
    (iree_vm_stack_function_leave (set_return_registers stack_two_frames 0 [1, 0x8001, 0])
      memory_callee_results (some [0, 0xC000, 1])).map
      (fun r => (r.status, r.stack.depth, r.mem.i32 (i32_cell (window 4096) 1),
        r.mem.ref (ref_cell (window 4096) 0x8001), r.mem.i32 (i32_cell (window 4096) 0)))
      = some (IREE_STATUS_OK, 1, 11, { ptr := 100, type := 1 }, 22) ∧
    ∃ r, iree_vm_stack_function_leave (set_return_registers stack_two_frames 0 [1, 0x8001, 0])
        memory_callee_results (some [0, 0xC000, 1]) = some r ∧
      r.status = IREE_STATUS_OK ∧
      (∀ (i s d : Nat), [0, 0xC000, 1][i]? = some s → [1, 0x8001, 0][i]? = some d →
        (s &&& IREE_REF_REGISTER_TYPE_BIT = 0 →
          r.mem.i32 (i32_cell (window 4096) d)
            = memory_callee_results.i32 (i32_cell (window 4224) s)) ∧
        (s &&& IREE_REF_REGISTER_TYPE_BIT ≠ 0 →
          r.mem.ref (ref_cell (window 4096) d)
            = memory_callee_results.ref (ref_cell (window 4224) s))) ∧
      (∀ q, q ≤ (window 4096).i32_mask →
        (∀ x ∈ [0, 0xC000, 1].zip [1, 0x8001, 0], x.1 &&& IREE_REF_REGISTER_TYPE_BIT = 0 →
          x.2 &&& (window 4096).i32_mask ≠ q) →
        r.mem.i32 (i32_addr (window 4096).i32 q)
          = memory_callee_results.i32 (i32_addr (window 4096).i32 q)) ∧
      (∀ q, q ≤ (window 4096).ref_mask →
        (∀ x ∈ [0, 0xC000, 1].zip [1, 0x8001, 0], x.1 &&& IREE_REF_REGISTER_TYPE_BIT ≠ 0 →
          x.2 &&& (window 4096).ref_mask ≠ q) →
        r.mem.ref (ref_addr (window 4096).ref q)
          = memory_callee_results.ref (ref_addr (window 4096).ref q)) :=
  ⟨by decide, by decide,
    leave_result_remap_zips (set_return_registers stack_two_frames 0 [1, 0x8001, 0])
      memory_callee_results [0, 0xC000, 1] [1, 0x8001, 0] (window 4224) (window 4096)
      (by decide) (by decide) (by decide) (by decide) (by decide) (by decide) (by decide)⟩

/-- C8: the code at the failing input. Two nested enters of `function_f`
have recorded the same register view, `window 4096`, for the caller and the
callee frame: the reserve step assigns no storage, and each frame records what
the never-assigned local `callee_registers` held. The callee's i32 registers 0
and 1 hold 11 and 22; the caller recorded the return registers `[1, 0]`, two
distinct destinations, and the callee returns `[0, 1]`. The first copy stores
11 into the caller's register 1, which is the callee's register 1, and the
second copies that 11 on: after the leave the caller's i32 register 0 holds 11,
not the 22 the callee's register 1 held before the call. -/
theorem leave_result_remap_shared_window :
    (set_return_registers stack_two_frames_same_window 0 [1, 0]).depth = 2 ∧
    (frame_at (set_return_registers stack_two_frames_same_window 0 [1, 0]).frames 0).map
      (fun f => (iree_vm_registers_from_base stack_two_frames_same_window f.register_base,
        f.return_registers)) = some (window 4096, some [1, 0]) ∧
    (frame_at (set_return_registers stack_two_frames_same_window 0 [1, 0]).frames 1).map
      (fun f => iree_vm_registers_from_base stack_two_frames_same_window f.register_base)
        = some (window 4096) ∧
    [0, 1].length = [1, 0].length ∧ destinations_distinct (window 4096) [0, 1] [1, 0] ∧
    memory_caller_args.i32 (i32_cell (window 4096) 0) = 11 ∧
    memory_caller_args.i32 (i32_cell (window 4096) 1) = 22 ∧
    (iree_vm_stack_function_leave (set_return_registers stack_two_frames_same_window 0 [1, 0])
      memory_caller_args (some [0, 1])).map
      (fun r => (r.status, r.out_caller_registers, r.mem.i32 (i32_cell r.out_caller_registers 1),
        r.mem.i32 (i32_cell r.out_caller_registers 0)))
      = some (IREE_STATUS_OK, window 4096, 11, 11) := by
  decide

/-! ## Marshaling inputs into the external frame -/

theorem count_variant_i32_cons (v : iree_vm_variant_t) (t : List iree_vm_variant_t) :
    count_variant_i32 (v :: t) =
      if IREE_VM_VARIANT_IS_REF v then count_variant_i32 t else count_variant_i32 t + 1 := by
  unfold count_variant_i32
  cases h : IREE_VM_VARIANT_IS_REF v <;> simp [List.filter_cons, h]

theorem count_variant_ref_cons (v : iree_vm_variant_t) (t : List iree_vm_variant_t) :
    count_variant_ref (v :: t) =
      if IREE_VM_VARIANT_IS_REF v then count_variant_ref t + 1 else count_variant_ref t := by
  unfold count_variant_ref
  cases h : IREE_VM_VARIANT_IS_REF v <;> simp [List.filter_cons, h]

theorem count_variant_length (values : List iree_vm_variant_t) :
    count_variant_i32 values + count_variant_ref values = values.length := by
  induction values with
  | nil => rfl
  | cons v t ih =>
    rw [count_variant_i32_cons, count_variant_ref_cons]
    cases h : IREE_VM_VARIANT_IS_REF v <;> simp <;> omega

theorem marshal_inputs_loop_length (dst_regs : iree_vm_registers_t) :
    ∀ (values : List iree_vm_variant_t) (i32_reg ref_reg : Nat) (m : Memory),
      (iree_vm_stack_frame_marshal_inputs_loop dst_regs values i32_reg ref_reg m).2.length
        = values.length := by
  intro values
  induction values with
  | nil => intro _ _ _; rfl
  | cons v t ih =>
    intro i32_reg ref_reg m
    cases v with
    | i32 value => simp [iree_vm_stack_frame_marshal_inputs_loop, ih]
    | ref value => simp [iree_vm_stack_frame_marshal_inputs_loop, ih]

theorem marshal_inputs_loop_i32_frame (dst_regs : iree_vm_registers_t) (a : Nat) :
    ∀ (values : List iree_vm_variant_t) (i32_reg ref_reg : Nat) (m : Memory),
      i32_reg + count_variant_i32 values < UINT16_MOD →
      (∀ q, i32_reg ≤ q → q < i32_reg + count_variant_i32 values → a ≠ i32_addr dst_regs.i32 q) →
      (iree_vm_stack_frame_marshal_inputs_loop dst_regs values i32_reg ref_reg m).1.i32 a
        = m.i32 a := by
  intro values
  induction values with
  | nil => intro _ _ _ _ _; rfl
  | cons v t ih =>
    intro i32_reg ref_reg m hb ha
    rw [count_variant_i32_cons] at hb ha
    cases v with
    | i32 value =>
      simp only [IREE_VM_VARIANT_IS_REF, Bool.false_eq_true, if_false] at hb ha
      simp only [iree_vm_stack_frame_marshal_inputs_loop]
      rw [Nat.mod_eq_of_lt (by omega)]
      rw [ih (i32_reg + 1) ref_reg _ (by omega) (fun q h1 h2 => ha q (by omega) (by omega))]
      simp [ha i32_reg (le_refl _) (by omega)]
    | ref value =>
      simp only [IREE_VM_VARIANT_IS_REF, if_true] at hb ha
      simp only [iree_vm_stack_frame_marshal_inputs_loop]
      rw [ih i32_reg _ _ hb ha]
      simp [iree_vm_ref_retain]

theorem marshal_inputs_loop_ref_frame (dst_regs : iree_vm_registers_t) (a : Nat) :
    ∀ (values : List iree_vm_variant_t) (i32_reg ref_reg : Nat) (m : Memory),
      ref_reg + count_variant_ref values < UINT16_MOD →
      (∀ q, ref_reg ≤ q → q < ref_reg + count_variant_ref values → a ≠ ref_addr dst_regs.ref q) →
      (iree_vm_stack_frame_marshal_inputs_loop dst_regs values i32_reg ref_reg m).1.ref a
        = m.ref a := by
  intro values
  induction values with
  | nil => intro _ _ _ _ _; rfl
  | cons v t ih =>
    intro i32_reg ref_reg m hb ha
    rw [count_variant_ref_cons] at hb ha
    cases v with
    | i32 value =>
      simp only [IREE_VM_VARIANT_IS_REF, Bool.false_eq_true, if_false] at hb ha
      simp only [iree_vm_stack_frame_marshal_inputs_loop]
      rw [ih _ ref_reg _ hb ha]
      simp
    | ref value =>
      simp only [IREE_VM_VARIANT_IS_REF, if_true] at hb ha
      simp only [iree_vm_stack_frame_marshal_inputs_loop]
      rw [Nat.mod_eq_of_lt (a := ref_reg + 1) (by omega)]
      rw [ih i32_reg (ref_reg + 1) _ (by omega) (fun q h1 h2 => ha q (by omega) (by omega))]
      simp [iree_vm_ref_retain, ha ref_reg (le_refl _) (by omega)]

theorem marshal_inputs_loop_counter (dst_regs : iree_vm_registers_t) (p : Nat) (hp : p ≠ 0) :
    ∀ (values : List iree_vm_variant_t) (i32_reg ref_reg : Nat) (m : Memory),
      (iree_vm_stack_frame_marshal_inputs_loop dst_regs values i32_reg ref_reg m).1.counter p
        = m.counter p + count_handle p values := by
  intro values
  induction values with
  | nil => intro _ _ _; rfl
  | cons v t ih =>
    intro i32_reg ref_reg m
    cases v with
    | i32 value =>
      simp only [iree_vm_stack_frame_marshal_inputs_loop, count_handle]
      rw [ih]
      simp
    | ref value =>
      simp only [iree_vm_stack_frame_marshal_inputs_loop, count_handle]
      rw [ih]
      simp only [iree_vm_ref_retain, set_ref_counter, set_ref_ref, if_true, retain_counter]
      have hnull : (m.set_ref (ref_addr dst_regs.ref ref_reg) iree_vm_ref_null).release
          iree_vm_ref_null = m.set_ref (ref_addr dst_regs.ref ref_reg) iree_vm_ref_null := by
        simp [Memory.release, iree_vm_ref_null]
      rw [hnull]
      by_cases hv : value.ptr = p
      · subst hv
        simp [hp]
        omega
      · simp [hv, Ne.symm hv]

theorem marshal_inputs_loop_i32_entry (dst_regs : iree_vm_registers_t) :
    ∀ (values : List iree_vm_variant_t) (i32_reg ref_reg : Nat) (m : Memory) (i : Nat) (v : Int),
      values[i]? = some (iree_vm_variant_t.i32 v) →
      i32_reg + count_variant_i32 values < UINT16_MOD →
      ref_reg + count_variant_ref values < UINT16_MOD →
      (iree_vm_stack_frame_marshal_inputs_loop dst_regs values i32_reg ref_reg m).2[i]?
        = some (i32_reg + count_variant_i32 (values.take i)) ∧
      (iree_vm_stack_frame_marshal_inputs_loop dst_regs values i32_reg ref_reg m).1.i32
          (i32_addr dst_regs.i32 (i32_reg + count_variant_i32 (values.take i))) = v := by
  intro values
  induction values with
  | nil => intro _ _ _ i v hi; simp at hi
  | cons h t ih =>
    intro i32_reg ref_reg m i v hi hb hr
    rw [count_variant_i32_cons] at hb
    rw [count_variant_ref_cons] at hr
    cases i with
    | zero =>
      simp only [List.getElem?_cons_zero, Option.some.injEq] at hi
      subst hi
      simp only [IREE_VM_VARIANT_IS_REF, Bool.false_eq_true, if_false] at hb
      simp only [iree_vm_stack_frame_marshal_inputs_loop, List.take_zero,
        List.getElem?_cons_zero]
      have hc0 : count_variant_i32 [] = 0 := rfl
      simp only [hc0, Nat.add_zero, true_and]
      rw [Nat.mod_eq_of_lt (a := i32_reg + 1) (by omega)]
      rw [marshal_inputs_loop_i32_frame dst_regs _ t (i32_reg + 1) ref_reg _ (by omega)
        (fun q h1 _ => by rw [Ne, i32_addr_inj]; omega)]
      simp
    | succ j =>
      simp only [List.getElem?_cons_succ] at hi
      simp only [List.take_succ_cons]
      rw [count_variant_i32_cons]
      cases h with
      | i32 value =>
        simp only [IREE_VM_VARIANT_IS_REF, Bool.false_eq_true, if_false] at hb hr ⊢
        simp only [iree_vm_stack_frame_marshal_inputs_loop, List.getElem?_cons_succ]
        rw [Nat.mod_eq_of_lt (a := i32_reg + 1) (by omega)]
        have := ih (i32_reg + 1) ref_reg
          (m.set_i32 (i32_addr dst_regs.i32 i32_reg) value) j v hi (by omega) hr
        rw [show i32_reg + (count_variant_i32 (List.take j t) + 1)
          = i32_reg + 1 + count_variant_i32 (List.take j t) by omega]
        exact this
      | ref value =>
        simp only [IREE_VM_VARIANT_IS_REF, if_true] at hb hr ⊢
        simp only [iree_vm_stack_frame_marshal_inputs_loop, List.getElem?_cons_succ]
        rw [Nat.mod_eq_of_lt (a := ref_reg + 1) (by omega)]
        exact ih i32_reg (ref_reg + 1) _ j v hi hb (by omega)

theorem marshal_inputs_loop_ref_entry (dst_regs : iree_vm_registers_t) :
    ∀ (values : List iree_vm_variant_t) (i32_reg ref_reg : Nat) (m : Memory) (i : Nat)
      (r : iree_vm_ref_t),
      values[i]? = some (iree_vm_variant_t.ref r) →
      i32_reg + count_variant_i32 values < UINT16_MOD →
      ref_reg + count_variant_ref values < UINT16_MOD →
      (iree_vm_stack_frame_marshal_inputs_loop dst_regs values i32_reg ref_reg m).2[i]?
        = some (((ref_reg + count_variant_ref (values.take i)) ||| IREE_REF_REGISTER_TYPE_BIT
            ||| IREE_REF_REGISTER_MOVE_BIT) % UINT16_MOD) ∧
      (iree_vm_stack_frame_marshal_inputs_loop dst_regs values i32_reg ref_reg m).1.ref
          (ref_addr dst_regs.ref (ref_reg + count_variant_ref (values.take i))) = r := by
  intro values
  induction values with
  | nil => intro _ _ _ i v hi; simp at hi
  | cons h t ih =>
    intro i32_reg ref_reg m i r hi hb hr
    rw [count_variant_i32_cons] at hb
    rw [count_variant_ref_cons] at hr
    cases i with
    | zero =>
      simp only [List.getElem?_cons_zero, Option.some.injEq] at hi
      subst hi
      simp only [IREE_VM_VARIANT_IS_REF, if_true] at hr
      simp only [iree_vm_stack_frame_marshal_inputs_loop, List.take_zero,
        List.getElem?_cons_zero]
      have hc0 : count_variant_ref [] = 0 := rfl
      simp only [hc0, Nat.add_zero, true_and]
      rw [Nat.mod_eq_of_lt (a := ref_reg + 1) (by omega)]
      rw [marshal_inputs_loop_ref_frame dst_regs _ t i32_reg (ref_reg + 1) _ (by omega)
        (fun q h1 _ => by rw [Ne, ref_addr_inj]; omega)]
      simp [iree_vm_ref_retain]
    | succ j =>
      simp only [List.getElem?_cons_succ] at hi
      simp only [List.take_succ_cons]
      rw [count_variant_ref_cons]
      cases h with
      | i32 value =>
        simp only [IREE_VM_VARIANT_IS_REF, Bool.false_eq_true, if_false] at hb hr ⊢
        simp only [iree_vm_stack_frame_marshal_inputs_loop, List.getElem?_cons_succ]
        rw [Nat.mod_eq_of_lt (a := i32_reg + 1) (by omega)]
        exact ih (i32_reg + 1) ref_reg _ j r hi (by omega) hr
      | ref value =>
        simp only [IREE_VM_VARIANT_IS_REF, if_true] at hb hr ⊢
        simp only [iree_vm_stack_frame_marshal_inputs_loop, List.getElem?_cons_succ]
        rw [Nat.mod_eq_of_lt (a := ref_reg + 1) (by omega)]
        have := ih i32_reg (ref_reg + 1)
          (iree_vm_ref_retain value (ref_addr dst_regs.ref ref_reg)
            (m.set_ref (ref_addr dst_regs.ref ref_reg) iree_vm_ref_null)) j r hi hb (by omega)
        rw [show ref_reg + (count_variant_ref (List.take j t) + 1)
          = ref_reg + 1 + count_variant_ref (List.take j t) by omega]
        exact this

theorem enter_external_ok_result {stack : iree_vm_stack_t} {m : Memory}
    {arguments : iree_vm_variant_list_t} {max_register_count : Nat}
    {callee_registers : iree_vm_registers_t}
    (h0 : 0 ≤ stack.depth) (h1 : stack.depth < 32) (hlen : stack.frames.length = 32) :
    ∃ r, iree_vm_stack_function_enter_external stack m (some arguments) max_register_count
        callee_registers = some r ∧
      r.status = IREE_STATUS_OK ∧ r.stack.depth = stack.depth + 1 ∧
      r.mem = (iree_vm_stack_frame_marshal_inputs arguments callee_registers m).1 ∧
      r.out_argument_registers
        = (iree_vm_stack_frame_marshal_inputs arguments callee_registers m).2 ∧
      frame_at r.stack.frames stack.depth =
        (frame_at stack.frames stack.depth).map fun f =>
          { f with
            function := { iree_vm_function_zero with
              i32_register_count := max_register_count % UINT16_MOD
              ref_register_count := max_register_count % UINT16_MOD }
            pc := 0
            return_registers := none
            register_base := iree_vm_registers_to_base stack callee_registers } := by
  obtain ⟨callee0, hc⟩ := frame_at_isSome hlen h0 h1
  have hi : stack.depth.toNat < stack.frames.length := by omega
  unfold iree_vm_stack_function_enter_external
  rw [if_neg (by simp [IREE_MAX_STACK_DEPTH]; omega)]
  simp only [hc, Option.bind_eq_bind, Option.some_bind, iree_vm_stack_reserve_register_storage,
    ite_self, ne_eq, not_true_eq_false, if_false]
  refine ⟨_, rfl, rfl, rfl, rfl, rfl, ?_⟩
  simp only [frame_at, IREE_MAX_STACK_DEPTH, Nat.cast_ofNat, h0, h1, and_self, if_true,
    Option.map_some']
  simp only [frame_at, IREE_MAX_STACK_DEPTH, Nat.cast_ofNat, h0, h1, and_self, if_true] at hc
  rw [List.set_set, List.getElem?_set_self (by simpa using hi)]
  rfl

theorem or_control_bits_lt (k : Nat) (hk : k < UINT16_MOD) :
    (k ||| IREE_REF_REGISTER_TYPE_BIT ||| IREE_REF_REGISTER_MOVE_BIT) % UINT16_MOD
      = k ||| IREE_REF_REGISTER_TYPE_BIT ||| IREE_REF_REGISTER_MOVE_BIT := by
  apply Nat.mod_eq_of_lt
  unfold UINT16_MOD at *
  exact Nat.or_lt_two_pow (Nat.or_lt_two_pow hk (by decide)) (by decide)

/-- A handle passed twice is retained twice. The argument list passes the
handle of object 100 in two reference arguments; the external enter retains it
once per occurrence, so the object's counter goes from 1 to 3. -/
theorem enter_external_retains_per_argument :
    count_variant_i32 arguments_same_handle_twice.values < 2 ^ 15 ∧
    count_variant_ref arguments_same_handle_twice.values < 2 ^ 14 ∧
    arguments_same_handle_twice.values[0]? = some (iree_vm_variant_t.ref { ptr := 100, type := 1 }) ∧
    memory_object_100.counter 100 = 1 ∧
    (iree_vm_stack_function_enter_external (stack_fresh resolver_ok) memory_object_100
      (some arguments_same_handle_twice) 2 (window 4096)).map
      (fun r => (r.status, r.out_argument_registers, r.mem.ref (ref_addr (window 4096).ref 0),
        r.mem.counter 100))
      = some (IREE_STATUS_OK, [0xC000, 0xC001], { ptr := 100, type := 1 }, 3) := by
  decide

/-- The ordinals and the cells the external enter writes. For an argument
list of n values (fewer than 2^15 primitives and 2^14 references) and a stack
below the depth limit, the output register list has size n and, for every i: if
argument i is the k-th primitive, entry i equals k and the value is stored at
index k of the i32 bank of the view, without the mask; if argument i is the
k-th reference, entry i equals k | 0x8000 | 0x4000, the handle is stored at
index k of the ref bank, and the counter of a non-null handle is higher by the
number of reference arguments that hold it. Whether register k, read through
the mask of the view, is the cell of index k depends on the masks, which the
enter never sets. -/
theorem enter_external_assigns_ordinals (stack : iree_vm_stack_t) (m : Memory)
    (arguments : iree_vm_variant_list_t) (max_register_count : Nat)
    (callee_registers : iree_vm_registers_t)
    (hd0 : 0 ≤ stack.depth) (hd1 : stack.depth < IREE_MAX_STACK_DEPTH)
    (hlen : stack.frames.length = IREE_MAX_STACK_DEPTH)
    (hprim : count_variant_i32 arguments.values < 2 ^ 15)
    (href : count_variant_ref arguments.values < 2 ^ 14) :
    ∃ r, iree_vm_stack_function_enter_external stack m (some arguments) max_register_count
        callee_registers = some r ∧
      r.status = IREE_STATUS_OK ∧
      r.out_argument_registers.length = arguments.values.length ∧
      ∀ (i : Nat),
        (∀ v, arguments.values[i]? = some (iree_vm_variant_t.i32 v) →
          r.out_argument_registers[i]? = some (count_variant_i32 (arguments.values.take i)) ∧
          r.mem.i32 (i32_addr callee_registers.i32 (count_variant_i32 (arguments.values.take i)))
            = v) ∧
        (∀ h, arguments.values[i]? = some (iree_vm_variant_t.ref h) →
          r.out_argument_registers[i]? = some (count_variant_ref (arguments.values.take i)
            ||| IREE_REF_REGISTER_TYPE_BIT ||| IREE_REF_REGISTER_MOVE_BIT) ∧
          r.mem.ref (ref_addr callee_registers.ref (count_variant_ref (arguments.values.take i)))
            = h ∧
          (h.ptr ≠ 0 →
            r.mem.counter h.ptr = m.counter h.ptr + count_handle h.ptr arguments.values)) := by
  simp only [IREE_MAX_STACK_DEPTH, Nat.cast_ofNat] at hd1 hlen
  obtain ⟨r, hr, hst, _, hmem, hout, _⟩ := @enter_external_ok_result stack m
    arguments max_register_count callee_registers hd0 hd1 hlen
  have hsum := count_variant_length arguments.values
  have hlt : arguments.values.length < UINT16_MOD := by unfold UINT16_MOD; omega
  have htake : (iree_vm_stack_frame_marshal_inputs arguments callee_registers m).2
      = (iree_vm_stack_frame_marshal_inputs_loop callee_registers arguments.values 0 0 m).2 := by
    unfold iree_vm_stack_frame_marshal_inputs
    simp only [iree_vm_variant_list_size]
    rw [Nat.mod_eq_of_lt hlt]
    apply List.take_of_length_le
    rw [marshal_inputs_loop_length]
  have hmem2 : r.mem
      = (iree_vm_stack_frame_marshal_inputs_loop callee_registers arguments.values 0 0 m).1 := by
    rw [hmem]; rfl
  refine ⟨r, hr, hst, ?_, fun i => ⟨fun v hv => ?_, fun h hh => ?_⟩⟩
  · rw [hout, htake, marshal_inputs_loop_length]
  · have := marshal_inputs_loop_i32_entry callee_registers arguments.values 0 0 m i v hv
      (by unfold UINT16_MOD; omega) (by unfold UINT16_MOD; omega)
    simp only [Nat.zero_add] at this
    rw [hout, htake, hmem2]
    exact this
  · have := marshal_inputs_loop_ref_entry callee_registers arguments.values 0 0 m i h hh
      (by unfold UINT16_MOD; omega) (by unfold UINT16_MOD; omega)
    simp only [Nat.zero_add] at this
    have hk : count_variant_ref (arguments.values.take i) < UINT16_MOD := by
      have h1 : count_variant_ref (arguments.values.take i) ≤ (arguments.values.take i).length := by
        have := count_variant_length (arguments.values.take i); omega
      have h2 : (arguments.values.take i).length ≤ arguments.values.length := by
        simp [List.length_take]
      omega
    rw [or_control_bits_lt _ hk] at this
    rw [hout, htake, hmem2]
    exact ⟨this.1, this.2, fun hp =>
      marshal_inputs_loop_counter callee_registers h.ptr hp arguments.values 0 0 m⟩

theorem enter_external_assigns_ordinals_witness :
    (0 ≤ (stack_fresh resolver_ok).depth ∧
      count_variant_i32 arguments_mixed.values < 2 ^ 15 ∧
      count_variant_ref arguments_mixed.values < 2 ^ 14) ∧
    (iree_vm_stack_function_enter_external (stack_fresh resolver_ok) memory_object_100
      (some arguments_mixed) 2 (window 4096)).map
      (fun r => (r.status, r.out_argument_registers, r.mem.i32 (i32_addr (window 4096).i32 1),
        r.mem.ref (ref_addr (window 4096).ref 1), r.mem.counter 100))
      = some (IREE_STATUS_OK, [0, 0xC000, 1, 0xC001], 6, { ptr := 200, type := 1 }, 2) ∧
    ∃ r, iree_vm_stack_function_enter_external (stack_fresh resolver_ok) memory_object_100
        (some arguments_mixed) 2 (window 4096) = some r ∧
      r.status = IREE_STATUS_OK ∧
      r.out_argument_registers.length = arguments_mixed.values.length ∧
      ∀ (i : Nat),
        (∀ v, arguments_mixed.values[i]? = some (iree_vm_variant_t.i32 v) →
          r.out_argument_registers[i]? = some (count_variant_i32 (arguments_mixed.values.take i)) ∧
          r.mem.i32 (i32_addr (window 4096).i32 (count_variant_i32 (arguments_mixed.values.take i)))
            = v) ∧
        (∀ h, arguments_mixed.values[i]? = some (iree_vm_variant_t.ref h) →
          r.out_argument_registers[i]? = some (count_variant_ref (arguments_mixed.values.take i)
            ||| IREE_REF_REGISTER_TYPE_BIT ||| IREE_REF_REGISTER_MOVE_BIT) ∧
          r.mem.ref (ref_addr (window 4096).ref (count_variant_ref (arguments_mixed.values.take i)))
            = h ∧
          (h.ptr ≠ 0 →
            r.mem.counter h.ptr
              = memory_object_100.counter h.ptr + count_handle h.ptr arguments_mixed.values)) :=
  ⟨by decide, by decide,
    enter_external_assigns_ordinals (stack_fresh resolver_ok) memory_object_100 arguments_mixed 2
      (window 4096) (by decide) (by decide) (by decide) (by decide) (by decide)⟩

/-- C11: the code at the failing input. The register view of the external
frame is whatever the never-assigned local `callee_registers` holds; with zero
masks, the arguments `[5, 6]` get the ordinals `[0, 1]` and are stored at
indices 0 and 1 of the i32 bank, but a register is read through
`ordinal & i32_mask`: argument 1 is the primitive of ordinal 1, entry 1 equals
1, and the i32 register 1 of the view the frame records holds 5, not the
argument's value 6. -/
theorem enter_external_register_unset_masks :
    count_variant_i32 arguments_two_i32.values < 2 ^ 15 ∧
    count_variant_ref arguments_two_i32.values < 2 ^ 14 ∧
    arguments_two_i32.values[1]? = some (iree_vm_variant_t.i32 6) ∧
    count_variant_i32 (arguments_two_i32.values.take 1) = 1 ∧
    (iree_vm_stack_function_enter_external (stack_fresh resolver_ok) memory_zero
      (some arguments_two_i32) 2 window_zero_masks).map
      (fun r => (r.status, r.out_argument_registers,
        (frame_at r.stack.frames 0).map
          (fun f => iree_vm_registers_from_base r.stack f.register_base),
        r.mem.i32 (i32_cell window_zero_masks 1), r.mem.i32 (i32_cell window_zero_masks 0),
        r.mem.i32 (i32_addr window_zero_masks.i32 1)))
      = some (IREE_STATUS_OK, [0, 1], some window_zero_masks, 5, 5, 6) := by
  decide

/-! ## Marshaling outputs out of the external frame -/

theorem leave_external_result {stack : iree_vm_stack_t} {m : Memory}
    {outputs : iree_vm_variant_list_t} {callee : iree_vm_stack_frame_t}
    {list : iree_vm_register_list_t}
    (hd : 0 < stack.depth)
    (hc : frame_at stack.frames (stack.depth - 1) = some callee)
    (hret : callee.return_registers = some list) :
    ∃ r, iree_vm_stack_function_leave_external stack m (some outputs) = some r ∧
      r.status = (iree_vm_stack_frame_marshal_outputs_loop
        (iree_vm_registers_from_base stack callee.register_base) list outputs m).1 ∧
      r.results = some (iree_vm_stack_frame_marshal_outputs_loop
        (iree_vm_registers_from_base stack callee.register_base) list outputs m).2.1 ∧
      r.mem = (iree_vm_stack_frame_marshal_outputs_loop
        (iree_vm_registers_from_base stack callee.register_base) list outputs m).2.2 ∧
      (r.status = IREE_STATUS_OK → r.stack = pop_frame stack callee) ∧
      (r.status ≠ IREE_STATUS_OK → r.stack = stack) := by
  have hm : leave_external_marshal stack m (some outputs) callee = some
      ((iree_vm_stack_frame_marshal_outputs_loop
        (iree_vm_registers_from_base stack callee.register_base) list outputs m).1,
       some (iree_vm_stack_frame_marshal_outputs_loop
        (iree_vm_registers_from_base stack callee.register_base) list outputs m).2.1,
       (iree_vm_stack_frame_marshal_outputs_loop
        (iree_vm_registers_from_base stack callee.register_base) list outputs m).2.2) := by
    simp [leave_external_marshal, hret, iree_vm_stack_frame_marshal_outputs]
  unfold iree_vm_stack_function_leave_external
  rw [if_neg (by omega)]
  simp only [hc, hm, Option.bind_eq_bind, Option.some_bind,
    iree_vm_stack_release_register_storage]
  split
  · rename_i hne
    exact ⟨_, rfl, rfl, rfl, rfl, fun h => absurd h hne, fun _ => rfl⟩
  · rename_i hok
    simp only [ne_eq, not_not] at hok
    refine ⟨_, rfl, hok.symm, rfl, rfl, fun _ => rfl, fun h => absurd rfl h⟩

/-- C12: the code at the failing input. The register view of the external
frame is whatever the never-assigned local `callee_registers` holds; when its
masks are zero, the arguments `[5, 6]` are written to i32 cells 0 and 1 with
ordinals `[0, 1]`, but the external leave reads both back through
`ordinal & i32_mask = 0`: the output list is `[5, 5]`, not `[5, 6]`. -/
theorem external_round_trip_unset_masks :
    (iree_vm_stack_function_enter_external (stack_fresh resolver_ok) memory_zero
      (some arguments_two_i32) 2 window_zero_masks).map
      (fun r => (r.status, r.out_argument_registers,
        r.mem.i32 (i32_addr window_zero_masks.i32 0), r.mem.i32 (i32_addr window_zero_masks.i32 1)))
      = some (IREE_STATUS_OK, [0, 1], 5, 6) ∧
    (external_round_trip (stack_fresh resolver_ok) memory_zero arguments_two_i32 2
      window_zero_masks 2).map (fun r => (r.status, r.results.map fun l => l.values))
      = some (IREE_STATUS_OK, some [iree_vm_variant_t.i32 5, iree_vm_variant_t.i32 5]) := by
  decide

theorem marshal_inputs_loop_ordinals (dst_regs : iree_vm_registers_t) :
    ∀ (values : List iree_vm_variant_t) (i32_reg ref_reg : Nat) (m : Memory),
      (iree_vm_stack_frame_marshal_inputs_loop dst_regs values i32_reg ref_reg m).2
        = input_ordinals values i32_reg ref_reg := by
  intro values
  induction values with
  | nil => intro _ _ _; rfl
  | cons v t ih =>
    intro i32_reg ref_reg m
    cases v with
    | i32 value => simp [iree_vm_stack_frame_marshal_inputs_loop, input_ordinals, ih]
    | ref value => simp [iree_vm_stack_frame_marshal_inputs_loop, input_ordinals, ih]

theorem i32_ordinal_type_bit {p : Nat} (hp : p < 2 ^ 15) :
    p &&& IREE_REF_REGISTER_TYPE_BIT = 0 := by
  have hT : IREE_REF_REGISTER_TYPE_BIT = 2 ^ 15 := by decide
  rw [hT]
  apply Nat.eq_of_testBit_eq
  intro i
  rw [Nat.testBit_and, Nat.testBit_two_pow, Nat.zero_testBit]
  by_cases hi : 15 = i
  · subst hi
    simp [Nat.testBit_lt_two_pow hp]
  · simp [hi]

theorem ref_ordinal_type_bit (p : Nat) :
    (p ||| IREE_REF_REGISTER_TYPE_BIT ||| IREE_REF_REGISTER_MOVE_BIT)
      &&& IREE_REF_REGISTER_TYPE_BIT ≠ 0 := by
  have hT : IREE_REF_REGISTER_TYPE_BIT = 2 ^ 15 := by decide
  intro h
  have hb := congrArg (fun x => Nat.testBit x 15) h
  simp only [Nat.testBit_and, Nat.testBit_or, Nat.zero_testBit] at hb
  rw [hT, Nat.testBit_two_pow_self] at hb
  simp at hb

theorem ref_ordinal_masked {k p : Nat} (hk : k ≤ 14) (hp : p < 2 ^ k) :
    (p ||| IREE_REF_REGISTER_TYPE_BIT ||| IREE_REF_REGISTER_MOVE_BIT) &&& (2 ^ k - 1) = p := by
  have hT : IREE_REF_REGISTER_TYPE_BIT = 2 ^ 15 := by decide
  have hM : IREE_REF_REGISTER_MOVE_BIT = 2 ^ 14 := by decide
  rw [hT, hM]
  apply Nat.eq_of_testBit_eq
  intro i
  rw [Nat.testBit_and, Nat.testBit_or, Nat.testBit_or, Nat.testBit_two_pow_sub_one,
    Nat.testBit_two_pow, Nat.testBit_two_pow]
  by_cases hi : i < k
  · have h1 : ¬ 15 = i := by omega
    have h2 : ¬ 14 = i := by omega
    simp [hi, h1, h2]
  · have hle : 2 ^ k ≤ 2 ^ i := Nat.pow_le_pow_right (by decide) (by omega)
    have : p.testBit i = false := Nat.testBit_lt_two_pow (by omega)
    simp [hi, this]

theorem round_trip_loop (regs : iree_vm_registers_t) (ki kr : Nat) (hki : ki ≤ 15)
    (hkr : kr ≤ 14) (hmi : regs.i32_mask = 2 ^ ki - 1) (hmr : regs.ref_mask = 2 ^ kr - 1) :
    ∀ (values : List iree_vm_variant_t) (i32_reg ref_reg : Nat)
      (outputs : iree_vm_variant_list_t) (m : Memory),
      i32_reg + count_variant_i32 values ≤ 2 ^ ki →
      ref_reg + count_variant_ref values ≤ 2 ^ kr →
      outputs.values.length + values.length ≤ outputs.capacity →
      (∀ i v, values[i]? = some (iree_vm_variant_t.i32 v) →
        m.i32 (i32_addr regs.i32 (i32_reg + count_variant_i32 (values.take i))) = v) →
      (∀ i h, values[i]? = some (iree_vm_variant_t.ref h) →
        m.ref (ref_addr regs.ref (ref_reg + count_variant_ref (values.take i))) = h) →
      (iree_vm_stack_frame_marshal_outputs_loop regs (input_ordinals values i32_reg ref_reg)
        outputs m).1 = IREE_STATUS_OK ∧
      (iree_vm_stack_frame_marshal_outputs_loop regs (input_ordinals values i32_reg ref_reg)
        outputs m).2.1.values = outputs.values ++ values := by
  have h15 : 2 ^ ki ≤ 2 ^ 15 := Nat.pow_le_pow_right (by decide) hki
  have h14 : 2 ^ kr ≤ 2 ^ 14 := Nat.pow_le_pow_right (by decide) hkr
  intro values
  induction values with
  | nil =>
    intro _ _ outputs m _ _ _ _ _
    simp [input_ordinals, iree_vm_stack_frame_marshal_outputs_loop]
  | cons hd t ih =>
    intro i32_reg ref_reg outputs m hbi hbr hcap hci hcr
    rw [count_variant_i32_cons] at hbi
    rw [count_variant_ref_cons] at hbr
    simp only [List.length_cons] at hcap
    have hfit : ¬ outputs.capacity < outputs.values.length + 1 := by omega
    cases hd with
    | i32 v =>
      simp only [IREE_VM_VARIANT_IS_REF, Bool.false_eq_true, if_false] at hbi hbr
      have hlt : i32_reg < 2 ^ ki := by omega
      have hv := hci 0 v (by simp)
      simp only [List.take_zero, show count_variant_i32 [] = 0 from rfl, Nat.add_zero] at hv
      simp only [input_ordinals, iree_vm_stack_frame_marshal_outputs_loop,
        i32_ordinal_type_bit (show i32_reg < 2 ^ 15 by omega), ne_eq, not_true_eq_false, if_false,
        iree_vm_variant_list_append_value, hfit]
      rw [Nat.mod_eq_of_lt (a := i32_reg + 1) (by unfold UINT16_MOD; omega), hmi,
        Nat.and_pow_two_sub_one_eq_mod, Nat.mod_eq_of_lt hlt, hv]
      have := ih (i32_reg + 1) ref_reg
        { outputs with values := outputs.values ++ [iree_vm_variant_t.i32 v] } m (by omega) hbr
        (by simp; omega)
        (fun i w hw => by
          have := hci (i + 1) w (by simpa using hw)
          simp only [List.take_succ_cons, count_variant_i32_cons, IREE_VM_VARIANT_IS_REF,
            Bool.false_eq_true, if_false] at this
          rw [show i32_reg + 1 + count_variant_i32 (List.take i t)
            = i32_reg + (count_variant_i32 (List.take i t) + 1) by omega]
          exact this)
        (fun i h hh => by
          have := hcr (i + 1) h (by simpa using hh)
          simp only [List.take_succ_cons, count_variant_ref_cons, IREE_VM_VARIANT_IS_REF,
            Bool.false_eq_true, if_false] at this
          exact this)
      simpa using this
    | ref h =>
      simp only [IREE_VM_VARIANT_IS_REF, if_true] at hbi hbr
      have hlt : ref_reg < 2 ^ kr := by omega
      have hv := hcr 0 h (by simp)
      simp only [List.take_zero, show count_variant_ref [] = 0 from rfl, Nat.add_zero] at hv
      simp only [input_ordinals, iree_vm_stack_frame_marshal_outputs_loop]
      rw [or_control_bits_lt ref_reg (by unfold UINT16_MOD; omega)]
      simp only [ref_ordinal_type_bit, ne_eq, not_false_eq_true, if_true,
        iree_vm_variant_list_append_ref_move, hfit, if_false, not_true_eq_false]
      rw [Nat.mod_eq_of_lt (a := ref_reg + 1) (by unfold UINT16_MOD; omega), hmr,
        ref_ordinal_masked hkr hlt, hv]
      have := ih i32_reg (ref_reg + 1)
        { outputs with values := outputs.values ++ [iree_vm_variant_t.ref h] }
        (m.set_ref (ref_addr regs.ref ref_reg) iree_vm_ref_null) hbi (by omega)
        (by simp; omega)
        (fun i w hw => by
          have := hci (i + 1) w (by simpa using hw)
          simp only [List.take_succ_cons, count_variant_i32_cons, IREE_VM_VARIANT_IS_REF,
            if_true] at this
          simpa using this)
        (fun i g hg => by
          have := hcr (i + 1) g (by simpa using hg)
          simp only [List.take_succ_cons, count_variant_ref_cons, IREE_VM_VARIANT_IS_REF,
            if_true] at this
          rw [show ref_reg + 1 + count_variant_ref (List.take i t)
            = ref_reg + (count_variant_ref (List.take i t) + 1) by omega]
          rw [set_ref_ref, if_neg (by rw [ref_addr_inj]; omega)]
          exact this)
      simpa using this

theorem from_base_to_base (stack : iree_vm_stack_t) (regs : iree_vm_registers_t)
    (hi : regs.i32 < UINTPTR_MOD) (hr : regs.ref < UINTPTR_MOD) :
    iree_vm_registers_from_base stack (iree_vm_registers_to_base stack regs) = regs := by
  unfold iree_vm_registers_from_base iree_vm_registers_to_base
  unfold UINTPTR_MOD at *
  cases regs with
  | mk i32 i32_mask ref ref_mask =>
    simp only at hi hr
    simp only [iree_vm_registers_t.mk.injEq, and_true, true_and]
    constructor <;> omega

theorem frame_at_set_return_registers (stack : iree_vm_stack_t) (n : Nat)
    (list : iree_vm_register_list_t) (i : Int) :
    frame_at (set_return_registers stack n list).frames i =
      (frame_at stack.frames i).map fun f =>
        if n = i.toNat then { f with return_registers := some list } else f := by
  unfold frame_at set_return_registers
  split
  · simp only [List.getElem?_modify, Option.map_eq_map]
  · rfl

/-- The round trip of C12 on a register view that is a proper window: with
masks of the form `2 ^ k - 1` within the 15-bit and 14-bit ordinal ranges that
cover the primitive and reference counts, the external enter followed at once
by the external leave returns the input values unchanged. -/
theorem external_round_trip_identity (stack : iree_vm_stack_t) (m : Memory)
    (arguments : iree_vm_variant_list_t) (max_register_count : Nat)
    (callee_registers : iree_vm_registers_t) (capacity : Nat)
    (hd0 : 0 ≤ stack.depth) (hd1 : stack.depth < IREE_MAX_STACK_DEPTH)
    (hlen : stack.frames.length = IREE_MAX_STACK_DEPTH)
    (hptr : callee_registers.i32 < UINTPTR_MOD ∧ callee_registers.ref < UINTPTR_MOD)
    (hmi : is_register_mask callee_registers.i32_mask ∧
      callee_registers.i32_mask ≤ IREE_I32_REGISTER_MASK ∧
      count_variant_i32 arguments.values ≤ callee_registers.i32_mask + 1)
    (hmr : is_register_mask callee_registers.ref_mask ∧
      callee_registers.ref_mask ≤ IREE_REF_REGISTER_MASK ∧
      count_variant_ref arguments.values ≤ callee_registers.ref_mask + 1)
    (hcap : arguments.values.length ≤ capacity) :
    ∃ r, external_round_trip stack m arguments max_register_count callee_registers capacity
        = some r ∧
      r.status = IREE_STATUS_OK ∧
      ∃ results, r.results = some results ∧ results.values = arguments.values := by
  simp only [IREE_MAX_STACK_DEPTH, Nat.cast_ofNat] at hd1 hlen
  obtain ⟨ki, hki16, hki⟩ := hmi.1
  obtain ⟨kr, hkr16, hkr⟩ := hmr.1
  have hpi : 0 < 2 ^ ki := Nat.two_pow_pos ki
  have hpr : 0 < 2 ^ kr := Nat.two_pow_pos kr
  have hki15 : ki ≤ 15 := by
    by_contra hc
    have : 2 ^ 16 ≤ 2 ^ ki := Nat.pow_le_pow_right (by decide) (by omega)
    have := hmi.2.1
    rw [hki] at this
    unfold IREE_I32_REGISTER_MASK at this
    omega
  have hkr14 : kr ≤ 14 := by
    by_contra hc
    have : 2 ^ 15 ≤ 2 ^ kr := Nat.pow_le_pow_right (by decide) (by omega)
    have := hmr.2.1
    rw [hkr] at this
    unfold IREE_REF_REGISTER_MASK at this
    omega
  have h15 : 2 ^ ki ≤ 2 ^ 15 := Nat.pow_le_pow_right (by decide) hki15
  have h14 : 2 ^ kr ≤ 2 ^ 14 := Nat.pow_le_pow_right (by decide) hkr14
  have hbi : count_variant_i32 arguments.values ≤ 2 ^ ki := by have := hmi.2.2; omega
  have hbr : count_variant_ref arguments.values ≤ 2 ^ kr := by have := hmr.2.2; omega
  have hsum := count_variant_length arguments.values
  obtain ⟨r1, hr1, _, hdep, hmem, hout, hfr⟩ := @enter_external_ok_result stack m
    arguments max_register_count callee_registers hd0 hd1 hlen
  obtain ⟨callee0, hc0⟩ := frame_at_isSome hlen hd0 hd1
  have hlt : arguments.values.length < UINT16_MOD := by unfold UINT16_MOD; omega
  have hout2 : r1.out_argument_registers = input_ordinals arguments.values 0 0 := by
    rw [hout]
    unfold iree_vm_stack_frame_marshal_inputs
    simp only [iree_vm_variant_list_size]
    rw [Nat.mod_eq_of_lt hlt, marshal_inputs_loop_ordinals]
    apply List.take_of_length_le
    rw [← marshal_inputs_loop_ordinals callee_registers arguments.values 0 0 m,
      marshal_inputs_loop_length]
  have hmem2 : r1.mem
      = (iree_vm_stack_frame_marshal_inputs_loop callee_registers arguments.values 0 0 m).1 := by
    rw [hmem]; rfl
  have hstor : r1.stack.register_storage = stack.register_storage := by
    have h := hr1
    unfold iree_vm_stack_function_enter_external at h
    rw [if_neg (by simp [IREE_MAX_STACK_DEPTH]; omega)] at h
    simp only [hc0, Option.bind_eq_bind, Option.some_bind, iree_vm_stack_reserve_register_storage,
      ite_self, ne_eq, not_true_eq_false, if_false, Option.some.injEq] at h
    rw [← h]
  -- the stack handed to the external leave
  have hd2 : 0 < (set_return_registers r1.stack stack.depth.toNat
      r1.out_argument_registers).depth := by
    show 0 < r1.stack.depth
    omega
  have hfr2 : frame_at (set_return_registers r1.stack stack.depth.toNat
      r1.out_argument_registers).frames
      ((set_return_registers r1.stack stack.depth.toNat r1.out_argument_registers).depth - 1)
      = some { callee0 with
          function := { iree_vm_function_zero with
            i32_register_count := max_register_count % UINT16_MOD
            ref_register_count := max_register_count % UINT16_MOD }
          pc := 0
          return_registers := some r1.out_argument_registers
          register_base := iree_vm_registers_to_base stack callee_registers } := by
    rw [frame_at_set_return_registers]
    have : (set_return_registers r1.stack stack.depth.toNat r1.out_argument_registers).depth - 1
        = stack.depth := by
      show r1.stack.depth - 1 = stack.depth
      omega
    rw [this, hfr, hc0]
    simp
  obtain ⟨r2, hr2, hst2, hres2, _, _, _⟩ := @leave_external_result _ r1.mem
    (outputs_empty capacity) _ _ hd2 hfr2 rfl
  have hregs : iree_vm_registers_from_base
      (set_return_registers r1.stack stack.depth.toNat r1.out_argument_registers)
      (iree_vm_registers_to_base stack callee_registers) = callee_registers := by
    have := from_base_to_base stack callee_registers hptr.1 hptr.2
    unfold iree_vm_registers_from_base at this ⊢
    show _ = callee_registers
    simp only [set_return_registers, hstor]
    exact this
  simp only at hst2 hres2
  rw [hregs, hout2, hmem2] at hst2 hres2
  obtain ⟨hok, hvals⟩ := round_trip_loop callee_registers ki kr hki15 hkr14 hki hkr
    arguments.values 0 0 (outputs_empty capacity)
    (iree_vm_stack_frame_marshal_inputs_loop callee_registers arguments.values 0 0 m).1
    (by omega) (by omega) (by simpa [outputs_empty] using hcap)
    (fun i v hv => by
      have := (marshal_inputs_loop_i32_entry callee_registers arguments.values 0 0 m i v hv
        (by unfold UINT16_MOD; omega) (by unfold UINT16_MOD; omega)).2
      exact this)
    (fun i h hh => by
      have := (marshal_inputs_loop_ref_entry callee_registers arguments.values 0 0 m i h hh
        (by unfold UINT16_MOD; omega) (by unfold UINT16_MOD; omega)).2
      exact this)
  refine ⟨r2, ?_, by rw [hst2]; exact hok, _, hres2, ?_⟩
  · unfold external_round_trip
    simp only [hr1, Option.bind_eq_bind, Option.some_bind]
    exact hr2
  · rw [hvals]
    simp [outputs_empty]

/-! ## Invocation -/

/-- C14: the code at the failing input. The function returns its two i32
arguments `[5, 6]` and the output list has room for one value: the external
leave appends 5, the second append is rejected, and `iree_vm_invoke` returns
that error with the output list holding one value where it held none. -/
theorem invoke_failure_leaves_partial_outputs :
    (outputs_empty 1).values = [] ∧
    (iree_vm_invoke heap_invoke (some context_empty) function_f (some arguments_two_i32)
      (some (outputs_empty 1)) 0 (IREE_STATUS_OK, 4096) IREE_STATUS_OK 2 (window 4096)
      memory_zero).map (fun r => (r.status, r.outputs.map fun l => l.values))
      = some (IREE_STATUS_OUT_OF_RANGE, some [iree_vm_variant_t.i32 5]) := by
  decide

/-- C15: the code at the failing inputs. First input: the module's call fails
with RESOURCE_EXHAUSTED; `iree_vm_invoke` returns that status at once, with the
external frame still on the stack (depth 1), `iree_vm_stack_deinit` never
called, and the input reference still retained in the frame (counter 2, up
from 1). Second input: the call succeeds and returns nothing; the stack is
deinitialised and empty, but the input reference retained into the external
frame was neither released nor moved to the outputs (counter still 2). -/
theorem invoke_skips_teardown :
    memory_object_100.counter 100 = 1 ∧
    (iree_vm_invoke heap_invoke (some context_empty) function_g (some arguments_one_ref)
      (some (outputs_empty 1)) 0 (IREE_STATUS_OK, 4096) IREE_STATUS_OK 2 (window 4096)
      memory_object_100).map (fun r => (r.status, r.stack.depth, r.deinit_status,
        r.mem.ref (ref_addr (window 4096).ref 0), r.mem.counter 100))
      = some (IREE_STATUS_RESOURCE_EXHAUSTED, 1, none, { ptr := 100, type := 1 }, 2) ∧
    (iree_vm_invoke heap_invoke (some context_empty) function_h (some arguments_one_ref)
      (some (outputs_empty 1)) 0 (IREE_STATUS_OK, 4096) IREE_STATUS_OK 2 (window 4096)
      memory_object_100).map (fun r => (r.status, r.stack.depth, r.deinit_status,
        r.mem.ref (ref_addr (window 4096).ref 0), r.mem.counter 100))
      = some (IREE_STATUS_OK, 0, some IREE_STATUS_OK, { ptr := 100, type := 1 }, 2) ∧
    (iree_vm_invoke heap_invoke (some context_empty) function_h (some arguments_one_ref)
      (some (outputs_empty 1)) 0 (IREE_STATUS_OK, 4096) IREE_STATUS_OK 2 (window 4096)
      memory_object_100).map (fun r => r.outputs.map fun l => l.values) = some (some []) :=
  ⟨by decide, by decide, by decide, by decide⟩

/-! ## Releasing the modules of a context -/

theorem descending_range_zero (start : Nat) : descending_range start (start + 0) = [start] := by
  simp [descending_range, List.range_succ]

theorem descending_range_succ (start i : Nat) :
    descending_range start (start + (i + 1)) =
      (start + (i + 1)) :: descending_range start (start + i) := by
  unfold descending_range
  have h1 : start + (i + 1) + 1 - start = (i + 1) + 1 := by omega
  have h2 : start + i + 1 - start = i + 1 := by omega
  rw [h1, h2, List.range_succ (i + 1), List.map_append, List.reverse_append]
  simp [Nat.add_comm]

theorem appended_modules_succ (context : iree_vm_context_t) (oc n : Nat) :
    appended_modules context oc (n + 1) = appended_modules context oc n ++
      (if context.modules (oc + n) = 0 then [] else [context.modules (oc + n)]) := by
  unfold appended_modules
  rw [List.range_succ, List.filterMap_append]
  congr 1
  by_cases h : context.modules (oc + n) = 0 <;> simp [h]

theorem appended_states_succ (context : iree_vm_context_t) (oc n : Nat) :
    appended_states context oc (n + 1) = appended_states context oc n ++
      (if context.module_states (oc + n) = 0 then []
       else [(context.modules (oc + n), context.module_states (oc + n))]) := by
  unfold appended_states
  rw [List.range_succ, List.filterMap_append]
  congr 1
  by_cases h : context.module_states (oc + n) = 0 <;> simp [h]

theorem appended_modules_congr (c1 c2 : iree_vm_context_t) (oc n : Nat)
    (h : ∀ j, j < n → c1.modules (oc + j) = c2.modules (oc + j)) :
    appended_modules c1 oc n = appended_modules c2 oc n := by
  unfold appended_modules
  apply List.filterMap_congr
  intro j hj
  rw [h j (List.mem_range.mp hj)]

theorem appended_states_congr (c1 c2 : iree_vm_context_t) (oc n : Nat)
    (h : ∀ j, j < n → c1.modules (oc + j) = c2.modules (oc + j))
    (hs : ∀ j, j < n → c1.module_states (oc + j) = c2.module_states (oc + j)) :
    appended_states c1 oc n = appended_states c2 oc n := by
  unfold appended_states
  apply List.filterMap_congr
  intro j hj
  rw [h j (List.mem_range.mp hj), hs j (List.mem_range.mp hj)]

/-- The third loop of the release over the slots `oc .. oc + i`: it releases
the non-null modules of the slots from the last to the first and nulls the
slots. -/
theorem release_modules_release_range (oc i : Nat) (context : iree_vm_context_t) :
    release_modules_release (descending_range oc (oc + i)) context =
      ({ context with
          modules := fun j => if oc ≤ j ∧ j ≤ oc + i then 0 else context.modules j },
       ((appended_modules context oc (i + 1)).map ContextEvent.module_release).reverse) := by
  induction i generalizing context with
  | zero =>
    rw [descending_range_zero]
    have hm : appended_modules context oc 1 =
        if context.modules oc = 0 then [] else [context.modules oc] := by
      rw [appended_modules_succ]; simp [appended_modules]
    rw [hm]
    have hf : Function.update context.modules oc 0 =
        fun j => if oc ≤ j ∧ j ≤ oc + 0 then 0 else context.modules j := by
      funext j
      by_cases hj : j = oc
      · subst hj; simp
      · rw [Function.update_noteq hj]
        have : ¬ (oc ≤ j ∧ j ≤ oc + 0) := by omega
        exact (if_neg this).symm
    by_cases h : context.modules oc = 0 <;> simp [release_modules_release, h, hf]
  | succ i ih =>
    rw [descending_range_succ]
    simp only [release_modules_release]
    rw [ih]
    have hm : appended_modules
        { context with modules := Function.update context.modules (oc + (i + 1)) 0 } oc (i + 1)
        = appended_modules context oc (i + 1) := by
      apply appended_modules_congr
      intro j hj
      have : oc + j ≠ oc + (i + 1) := by omega
      simp [Function.update_noteq this]
    rw [hm, appended_modules_succ context oc (i + 1)]
    have hf : (fun j => if oc ≤ j ∧ j ≤ oc + i then 0
          else Function.update context.modules (oc + (i + 1)) 0 j) =
        fun j => if oc ≤ j ∧ j ≤ oc + (i + 1) then 0 else context.modules j := by
      funext j
      by_cases hj : j = oc + (i + 1)
      · subst hj; simp
      · rw [Function.update_noteq hj]
        by_cases h1 : oc ≤ j ∧ j ≤ oc + i
        · have : oc ≤ j ∧ j ≤ oc + (i + 1) := by omega
          simp [h1, this]
        · have : ¬ (oc ≤ j ∧ j ≤ oc + (i + 1)) := by omega
          simp [h1, this]
    by_cases h : context.modules (oc + (i + 1)) = 0 <;> simp [h, hf]

/-- The second loop of the release over the slots `oc .. oc + i`: it frees the
non-null states of the slots from the last to the first and nulls the slots. -/
theorem release_modules_free_state_range (oc i : Nat) (context : iree_vm_context_t) :
    release_modules_free_state (descending_range oc (oc + i)) context =
      ({ context with
          module_states := fun j => if oc ≤ j ∧ j ≤ oc + i then 0 else context.module_states j },
       ((appended_states context oc (i + 1)).map
          fun s => ContextEvent.free_state s.1 s.2).reverse) := by
  induction i generalizing context with
  | zero =>
    rw [descending_range_zero]
    have hm : appended_states context oc 1 =
        if context.module_states oc = 0 then []
        else [(context.modules oc, context.module_states oc)] := by
      rw [appended_states_succ]; simp [appended_states]
    rw [hm]
    have hf : Function.update context.module_states oc 0 =
        fun j => if oc ≤ j ∧ j ≤ oc + 0 then 0 else context.module_states j := by
      funext j
      by_cases hj : j = oc
      · subst hj; simp
      · rw [Function.update_noteq hj]
        have : ¬ (oc ≤ j ∧ j ≤ oc + 0) := by omega
        exact (if_neg this).symm
    by_cases h : context.module_states oc = 0 <;> simp [release_modules_free_state, h, hf]
  | succ i ih =>
    rw [descending_range_succ]
    simp only [release_modules_free_state]
    rw [ih]
    have hm : appended_states
        { context with
          module_states := Function.update context.module_states (oc + (i + 1)) 0 } oc (i + 1)
        = appended_states context oc (i + 1) := by
      apply appended_states_congr
      · intro j _; rfl
      · intro j hj
        have : oc + j ≠ oc + (i + 1) := by omega
        simp [Function.update_noteq this]
    rw [hm, appended_states_succ context oc (i + 1)]
    have hf : (fun j => if oc ≤ j ∧ j ≤ oc + i then 0
          else Function.update context.module_states (oc + (i + 1)) 0 j) =
        fun j => if oc ≤ j ∧ j ≤ oc + (i + 1) then 0 else context.module_states j := by
      funext j
      by_cases hj : j = oc + (i + 1)
      · subst hj; simp
      · rw [Function.update_noteq hj]
        by_cases h1 : oc ≤ j ∧ j ≤ oc + i
        · have : oc ≤ j ∧ j ≤ oc + (i + 1) := by omega
          simp [h1, this]
        · have : ¬ (oc ≤ j ∧ j ≤ oc + (i + 1)) := by omega
          simp [h1, this]
    by_cases h : context.module_states (oc + (i + 1)) = 0 <;> simp [h, hf]

/-! ## Projections of traces -/

theorem retained_of_not_lifecycle (e : ContextEvent) (h : e.is_lifecycle = false) :
    e.retained = none := by
  cases e <;> simp [ContextEvent.is_lifecycle, ContextEvent.retained] at h ⊢

theorem released_of_not_lifecycle (e : ContextEvent) (h : e.is_lifecycle = false) :
    e.released = none := by
  cases e <;> simp [ContextEvent.is_lifecycle, ContextEvent.released] at h ⊢

theorem freed_of_not_lifecycle (e : ContextEvent) (h : e.is_lifecycle = false) :
    e.freed = none := by
  cases e <;> simp [ContextEvent.is_lifecycle, ContextEvent.freed] at h ⊢

theorem allocated_of_not_lifecycle (heap : ModuleHeap) (allocator : Nat) (e : ContextEvent)
    (h : e.is_lifecycle = false) : e.allocated heap allocator = none := by
  cases e <;> simp [ContextEvent.is_lifecycle, ContextEvent.allocated] at h ⊢

theorem filterMap_nil_of_forall_none {α β : Type} (f : α → Option β) (l : List α)
    (h : ∀ e ∈ l, f e = none) : l.filterMap f = [] := by
  induction l with
  | nil => rfl
  | cons a l ih =>
    rw [List.filterMap_cons, h a (List.mem_cons_self a l)]
    exact ih fun e he => h e (List.mem_cons_of_mem a he)

theorem retained_modules_of_not_lifecycle (events : List ContextEvent)
    (h : ∀ e ∈ events, e.is_lifecycle = false) : retained_modules events = [] :=
  filterMap_nil_of_forall_none _ _ fun e he => retained_of_not_lifecycle e (h e he)

theorem released_modules_of_not_lifecycle (events : List ContextEvent)
    (h : ∀ e ∈ events, e.is_lifecycle = false) : released_modules events = [] :=
  filterMap_nil_of_forall_none _ _ fun e he => released_of_not_lifecycle e (h e he)

theorem freed_states_of_not_lifecycle (events : List ContextEvent)
    (h : ∀ e ∈ events, e.is_lifecycle = false) : freed_states events = [] :=
  filterMap_nil_of_forall_none _ _ fun e he => freed_of_not_lifecycle e (h e he)

theorem allocated_states_of_not_lifecycle (heap : ModuleHeap) (allocator : Nat)
    (events : List ContextEvent) (h : ∀ e ∈ events, e.is_lifecycle = false) :
    allocated_states heap allocator events = [] :=
  filterMap_nil_of_forall_none _ _ fun e he => allocated_of_not_lifecycle heap allocator e (h e he)

theorem retained_modules_append (a b : List ContextEvent) :
    retained_modules (a ++ b) = retained_modules a ++ retained_modules b :=
  List.filterMap_append _ _ _

theorem released_modules_append (a b : List ContextEvent) :
    released_modules (a ++ b) = released_modules a ++ released_modules b :=
  List.filterMap_append _ _ _

theorem freed_states_append (a b : List ContextEvent) :
    freed_states (a ++ b) = freed_states a ++ freed_states b :=
  List.filterMap_append _ _ _

theorem allocated_states_append (heap : ModuleHeap) (allocator : Nat)
    (a b : List ContextEvent) :
    allocated_states heap allocator (a ++ b) =
      allocated_states heap allocator a ++ allocated_states heap allocator b :=
  List.filterMap_append _ _ _

theorem released_modules_map_release (l : List Nat) :
    released_modules (l.map ContextEvent.module_release) = l := by
  induction l with
  | nil => rfl
  | cons a l ih =>
    simp only [released_modules, List.map_cons, List.filterMap_cons, ContextEvent.released]
    exact congrArg _ ih

theorem freed_states_map_free (l : List (Nat × Nat)) :
    freed_states (l.map fun s => ContextEvent.free_state s.1 s.2) = l := by
  induction l with
  | nil => rfl
  | cons a l ih =>
    simp only [freed_states, List.map_cons, List.filterMap_cons, ContextEvent.freed]
    exact congrArg _ ih

theorem map_release_not_free (l : List Nat) :
    ∀ e ∈ l.map ContextEvent.module_release,
      e.retained = none ∧ e.freed = none ∧ e.is_call = false ∧
      ∀ heap allocator, e.allocated heap allocator = none := by
  intro e he
  obtain ⟨p, _, rfl⟩ := List.mem_map.mp he
  exact ⟨rfl, rfl, rfl, fun _ _ => rfl⟩

theorem map_free_not_release (l : List (Nat × Nat)) :
    ∀ e ∈ l.map (fun s => ContextEvent.free_state s.1 s.2),
      e.retained = none ∧ e.released = none ∧ e.is_call = false ∧
      ∀ heap allocator, e.allocated heap allocator = none := by
  intro e he
  obtain ⟨p, _, rfl⟩ := List.mem_map.mp he
  exact ⟨rfl, rfl, rfl, fun _ _ => rfl⟩

/-- The `__deinit` loop makes lookups and calls only. -/
theorem release_modules_deinit_not_lifecycle (heap : ModuleHeap) (context : iree_vm_context_t)
    (l : List Nat) : ∀ e ∈ release_modules_deinit heap context l, e.is_lifecycle = false := by
  induction l with
  | nil => intro e he; simp [release_modules_deinit] at he
  | cons i rest ih =>
    intro e he
    simp only [release_modules_deinit] at he
    split at he
    · exact ih e he
    · split at he
      · rcases List.mem_cons.mp he with rfl | he
        · rfl
        · rcases List.mem_cons.mp he with rfl | he
          · rfl
          · exact ih e he
      · rcases List.mem_cons.mp he with rfl | he
        · rfl
        · exact ih e he

/-- The release of the slots `oc .. oc + i` (`iree_vm_context_release_modules`):
the slots are nulled, and the trace releases the non-null modules of the slots
and frees their non-null states, each once, from the last slot to the first,
and retains and allocates nothing. -/
theorem release_modules_range (heap : ModuleHeap) (context : iree_vm_context_t) (oc i : Nat) :
    (iree_vm_context_release_modules heap context oc (oc + i)).1 =
      { context with
        modules := fun j => if oc ≤ j ∧ j ≤ oc + i then 0 else context.modules j
        module_states := fun j => if oc ≤ j ∧ j ≤ oc + i then 0 else context.module_states j }
    ∧ released_modules (iree_vm_context_release_modules heap context oc (oc + i)).2 =
        (appended_modules context oc (i + 1)).reverse
    ∧ freed_states (iree_vm_context_release_modules heap context oc (oc + i)).2 =
        (appended_states context oc (i + 1)).reverse
    ∧ retained_modules (iree_vm_context_release_modules heap context oc (oc + i)).2 = []
    ∧ allocated_states heap context.allocator
        (iree_vm_context_release_modules heap context oc (oc + i)).2 = [] := by
  simp only [iree_vm_context_release_modules, release_modules_free_state_range,
    release_modules_release_range]
  have hm : appended_modules
      { context with
        module_states := fun j => if oc ≤ j ∧ j ≤ oc + i then 0 else context.module_states j }
      oc (i + 1) = appended_modules context oc (i + 1) :=
    appended_modules_congr _ _ _ _ fun _ _ => rfl
  rw [hm]
  have hd := release_modules_deinit_not_lifecycle heap context (descending_range oc (oc + i))
  have hr := map_release_not_free (appended_modules context oc (i + 1)).reverse
  have hf := map_free_not_release (appended_states context oc (i + 1)).reverse
  refine ⟨trivial, ?_, ?_, ?_, ?_⟩
  · rw [released_modules_append, released_modules_append,
      released_modules_of_not_lifecycle _ hd, ← List.map_reverse, ← List.map_reverse,
      released_modules_map_release]
    rw [show released_modules _ = [] from
      filterMap_nil_of_forall_none _ _ fun e he => (hf e he).2.1]
    rfl
  · rw [freed_states_append, freed_states_append,
      freed_states_of_not_lifecycle _ hd, ← List.map_reverse, ← List.map_reverse,
      freed_states_map_free]
    rw [show freed_states (List.map ContextEvent.module_release _) = [] from
      filterMap_nil_of_forall_none _ _ fun e he => (hr e he).2.1]
    simp
  · rw [retained_modules_append, retained_modules_append,
      retained_modules_of_not_lifecycle _ hd, ← List.map_reverse, ← List.map_reverse]
    rw [show retained_modules (List.map ContextEvent.module_release _) = [] from
      filterMap_nil_of_forall_none _ _ fun e he => (hr e he).1]
    rw [show retained_modules _ = [] from
      filterMap_nil_of_forall_none _ _ fun e he => (hf e he).1]
    rfl
  · rw [allocated_states_append, allocated_states_append,
      allocated_states_of_not_lifecycle _ _ _ hd, ← List.map_reverse, ← List.map_reverse]
    rw [show allocated_states heap context.allocator
        (List.map ContextEvent.module_release _) = [] from
      filterMap_nil_of_forall_none _ _ fun e he => (hr e he).2.2.2 _ _]
    rw [show allocated_states heap context.allocator _ = [] from
      filterMap_nil_of_forall_none _ _ fun e he => (hf e he).2.2.2 _ _]
    rfl

/-! ## Resolving imports -/

theorem not_lifecycle_of_query (e : ContextEvent) (h : e.is_query = true) :
    e.is_lifecycle = false := by
  cases e <;> simp [ContextEvent.is_lifecycle, ContextEvent.is_query] at h ⊢

theorem not_call_of_query (e : ContextEvent) (h : e.is_query = true) : e.is_call = false := by
  cases e <;> simp [ContextEvent.is_call, ContextEvent.is_query] at h ⊢

theorem not_resolve_import_of_query (e : ContextEvent) (h : e.is_query = true) :
    e.is_resolve_import = false := by
  cases e <;> simp [ContextEvent.is_resolve_import, ContextEvent.is_query] at h ⊢

/-- The reverse scan makes `name` and `lookup_function` queries only. -/
theorem resolve_function_scan_query (heap : ModuleHeap) (context : iree_vm_context_t)
    (module_name function_name : String) (n : Nat) :
    ∀ e ∈ (iree_vm_context_resolve_function_scan heap context module_name function_name n).2.2,
      e.is_query = true := by
  induction n with
  | zero => intro e he; simp [iree_vm_context_resolve_function_scan] at he
  | succ i ih =>
    intro e he
    simp only [iree_vm_context_resolve_function_scan] at he
    split at he
    · rcases List.mem_cons.mp he with rfl | he
      · rfl
      · rcases List.mem_cons.mp he with rfl | he
        · rfl
        · simp at he
    · rcases List.mem_cons.mp he with rfl | he
      · rfl
      · exact ih e he

theorem resolve_function_query (heap : ModuleHeap) (context : iree_vm_context_t)
    (full_name : String) :
    ∀ e ∈ (iree_vm_context_resolve_function heap context full_name).2.2, e.is_query = true := by
  intro e he
  simp only [iree_vm_context_resolve_function] at he
  split at he
  · simp at he
  · exact resolve_function_scan_query _ _ _ _ _ e he

/-- The import loop makes queries and `resolve_import` callbacks of the
importing module on its own state. -/
theorem resolve_module_imports_loop_events (heap : ModuleHeap) (context : iree_vm_context_t)
    (module module_state : Nat) (remaining : Nat) (i : Int) :
    ∀ e ∈ (iree_vm_context_resolve_module_imports_loop heap context module module_state
        remaining i).2,
      e.is_query = true ∨ ∃ ordinal function,
        e = ContextEvent.resolve_import module module_state ordinal function := by
  induction remaining generalizing i with
  | zero => intro e he; simp [iree_vm_context_resolve_module_imports_loop] at he
  | succ remaining ih =>
    intro e he
    simp only [iree_vm_context_resolve_module_imports_loop] at he
    have hq := resolve_function_query heap context
      ((heap module).get_function IREE_VM_FUNCTION_LINKAGE_IMPORT i).2
    split at he
    · rcases List.mem_singleton.mp he with rfl
      exact Or.inl rfl
    · split at he
      · rcases List.mem_cons.mp he with rfl | he
        · exact Or.inl rfl
        · rcases List.mem_append.mp he with he | he
          · exact Or.inl (hq e he)
          · rcases List.mem_singleton.mp he with rfl
            exact Or.inl rfl
      · split at he
        · rcases List.mem_cons.mp he with rfl | he
          · exact Or.inl rfl
          · rcases List.mem_append.mp he with he | he
            · exact Or.inl (hq e he)
            · rcases List.mem_singleton.mp he with rfl
              exact Or.inr ⟨_, _, rfl⟩
        · rcases List.mem_cons.mp he with rfl | he
          · exact Or.inl rfl
          · rcases List.mem_append.mp he with he | he
            · exact Or.inl (hq e he)
            · rcases List.mem_cons.mp he with rfl | he
              · exact Or.inr ⟨_, _, rfl⟩
              · exact ih (i + 1) e he

theorem resolve_module_imports_events (heap : ModuleHeap) (context : iree_vm_context_t)
    (module module_state : Nat) :
    ∀ e ∈ (iree_vm_context_resolve_module_imports heap context module module_state).2,
      e.is_query = true ∨ ∃ ordinal function,
        e = ContextEvent.resolve_import module module_state ordinal function := by
  intro e he
  simp only [iree_vm_context_resolve_module_imports] at he
  rcases List.mem_cons.mp he with rfl | he
  · exact Or.inl rfl
  · exact resolve_module_imports_loop_events _ _ _ _ _ _ e he

theorem resolve_module_imports_not_lifecycle (heap : ModuleHeap) (context : iree_vm_context_t)
    (module module_state : Nat) :
    ∀ e ∈ (iree_vm_context_resolve_module_imports heap context module module_state).2,
      e.is_lifecycle = false := by
  intro e he
  rcases resolve_module_imports_events heap context module module_state e he with h | ⟨_, _, rfl⟩
  · exact not_lifecycle_of_query e h
  · rfl

theorem resolve_module_imports_not_call (heap : ModuleHeap) (context : iree_vm_context_t)
    (module module_state : Nat) :
    ∀ e ∈ (iree_vm_context_resolve_module_imports heap context module module_state).2,
      e.is_call = false := by
  intro e he
  rcases resolve_module_imports_events heap context module module_state e he with h | ⟨_, _, rfl⟩
  · exact not_call_of_query e h
  · rfl

/-! ## Registration -/

/-- The appended slots after the batch module of index `i` has been stored. -/
theorem appended_after_store (context c : iree_vm_context_t) (oc i module s : Nat)
    (hm0 : module ≠ 0)
    (hm : ∀ j, j < i → c.modules (oc + j) = context.modules (oc + j))
    (hmi : c.modules (oc + i) = module)
    (hs : ∀ j, j < i → c.module_states (oc + j) = context.module_states (oc + j))
    (hsi : c.module_states (oc + i) = s) :
    appended_modules c oc (i + 1) = appended_modules context oc i ++ [module] ∧
    appended_states c oc (i + 1) =
      appended_states context oc i ++ (if s = 0 then [] else [(module, s)]) := by
  rw [appended_modules_succ, appended_states_succ, hmi, hsi, if_neg hm0,
    appended_modules_congr c context oc i hm, appended_states_congr c context oc i hm hs]
  exact ⟨rfl, rfl⟩

theorem update_other (f : Nat → Nat) (oc i j v : Nat) (h : j < i) :
    Function.update f (oc + i) v (oc + j) = f (oc + j) :=
  Function.update_noteq (by omega) _ _

theorem update_below (f : Nat → Nat) (oc i j v : Nat) (h : j < oc) :
    Function.update f (oc + i) v j = f j :=
  Function.update_noteq (by omega) _ _

/-- The clean-up of a failed registration at batch index `i`: the count is the
one before the batch, the slots below it are untouched, and the trace releases
the modules of the slots `oc .. oc + i` and frees their states. -/
theorem register_modules_rollback_effect (heap : ModuleHeap) (context : iree_vm_context_t)
    (oc i : Nat) :
    (register_modules_rollback heap context oc i).1.count = oc
    ∧ (register_modules_rollback heap context oc i).1.capacity = context.capacity
    ∧ (register_modules_rollback heap context oc i).1.is_static = context.is_static
    ∧ (∀ j, j < oc →
        (register_modules_rollback heap context oc i).1.modules j = context.modules j
        ∧ (register_modules_rollback heap context oc i).1.module_states j
            = context.module_states j)
    ∧ released_modules (register_modules_rollback heap context oc i).2 =
        (appended_modules context oc (i + 1)).reverse
    ∧ freed_states (register_modules_rollback heap context oc i).2 =
        (appended_states context oc (i + 1)).reverse
    ∧ retained_modules (register_modules_rollback heap context oc i).2 = []
    ∧ allocated_states heap context.allocator (register_modules_rollback heap context oc i).2
        = [] := by
  obtain ⟨h1, h2, h3, h4, h5⟩ := release_modules_range heap context oc i
  simp only [register_modules_rollback]
  refine ⟨trivial, ?_, ?_, ?_, h2, h3, h4, h5⟩
  · rw [h1]
  · rw [h1]
  · intro j hj
    rw [h1]
    have : ¬ (oc ≤ j ∧ j ≤ oc + i) := by omega
    simp [this]

/-- One failing step of the registration loop: the batch module of index `i`
has been stored in context `c`, the trace so far is `before`, and the batch is
rolled back. -/
theorem register_failure_case (heap : ModuleHeap) (context c : iree_vm_context_t)
    (oc i module s : Nat) (before events : List ContextEvent)
    (hevents : events = before ++ (register_modules_rollback heap c oc i).2)
    (hm0 : module ≠ 0)
    (hcap : c.capacity = context.capacity) (hstatic : c.is_static = context.is_static)
    (hallocator : c.allocator = context.allocator)
    (hm : ∀ j, j ≠ oc + i → c.modules j = context.modules j)
    (hmi : c.modules (oc + i) = module)
    (hs : ∀ j, j ≠ oc + i → c.module_states j = context.module_states j)
    (hsi : c.module_states (oc + i) = s)
    (hret : retained_modules before = [module]) (hrel : released_modules before = [])
    (hfree : freed_states before = [])
    (halloc : allocated_states heap context.allocator before =
      if s = 0 then [] else [(module, s)]) :
    (register_modules_rollback heap c oc i).1.count = oc
    ∧ (register_modules_rollback heap c oc i).1.capacity = context.capacity
    ∧ (register_modules_rollback heap c oc i).1.is_static = context.is_static
    ∧ (∀ j, j < oc →
        (register_modules_rollback heap c oc i).1.modules j = context.modules j
        ∧ (register_modules_rollback heap c oc i).1.module_states j = context.module_states j)
    ∧ released_modules events =
        (appended_modules context oc i ++ retained_modules events).reverse
    ∧ freed_states events =
        (appended_states context oc i ++ allocated_states heap context.allocator events).reverse := by
  obtain ⟨r1, r2, r3, r4, r5, r6, r7, r8⟩ := register_modules_rollback_effect heap c oc i
  obtain ⟨a1, a2⟩ := appended_after_store context c oc i module s hm0
    (fun j hj => hm _ (by omega)) hmi (fun j hj => hs _ (by omega)) hsi
  rw [hallocator] at r8
  refine ⟨r1, r2.trans hcap, r3.trans hstatic, ?_, ?_, ?_⟩
  · intro j hj
    rw [(r4 j hj).1, (r4 j hj).2]
    exact ⟨hm _ (by omega), hs _ (by omega)⟩
  · rw [hevents, released_modules_append, retained_modules_append, hret, hrel, r5, r7, a1]
    simp
  · rw [hevents, freed_states_append, allocated_states_append, hfree, halloc, r6, a2, r8]
    simp

/-- One continuing step of the registration loop: the batch module of index
`i` has been stored in context `c`, the trace of the step is `before`, and the
rest of the loop, with trace `next_events`, fails. -/
theorem register_continue_case (heap : ModuleHeap) (context c : iree_vm_context_t)
    (oc i module s : Nat) (before events next_events : List ContextEvent)
    (hnext_rel : released_modules next_events =
      (appended_modules c oc (i + 1) ++ retained_modules next_events).reverse)
    (hnext_free : freed_states next_events =
      (appended_states c oc (i + 1) ++ allocated_states heap c.allocator next_events).reverse)
    (hevents : events = before ++ next_events)
    (hm0 : module ≠ 0)
    (hallocator : c.allocator = context.allocator)
    (hm : ∀ j, j ≠ oc + i → c.modules j = context.modules j)
    (hmi : c.modules (oc + i) = module)
    (hs : ∀ j, j ≠ oc + i → c.module_states j = context.module_states j)
    (hsi : c.module_states (oc + i) = s)
    (hret : retained_modules before = [module]) (hrel : released_modules before = [])
    (hfree : freed_states before = [])
    (halloc : allocated_states heap context.allocator before =
      if s = 0 then [] else [(module, s)]) :
    released_modules events =
        (appended_modules context oc i ++ retained_modules events).reverse
    ∧ freed_states events =
        (appended_states context oc i ++ allocated_states heap context.allocator events).reverse := by
  obtain ⟨a1, a2⟩ := appended_after_store context c oc i module s hm0
    (fun j hj => hm _ (by omega)) hmi (fun j hj => hs _ (by omega)) hsi
  rw [hallocator] at hnext_free
  constructor
  · rw [hevents, released_modules_append, retained_modules_append, hret, hrel, hnext_rel, a1]
    simp
  · rw [hevents, freed_states_append, allocated_states_append, hfree, halloc, hnext_free, a2]
    simp

/-- The projections of the trace of one step of the registration loop: the
retain and `alloc_state` of the module followed by events that are neither. -/
theorem register_step_projections (heap : ModuleHeap) (allocator module : Nat)
    (mid : List ContextEvent) (hmid : ∀ e ∈ mid, e.is_lifecycle = false)
    (ha : ((heap module).alloc_state allocator).1 = IREE_STATUS_OK) :
    retained_modules
        ([ContextEvent.module_retain module, ContextEvent.alloc_state module] ++ mid) = [module]
    ∧ released_modules
        ([ContextEvent.module_retain module, ContextEvent.alloc_state module] ++ mid) = []
    ∧ freed_states
        ([ContextEvent.module_retain module, ContextEvent.alloc_state module] ++ mid) = []
    ∧ allocated_states heap allocator
        ([ContextEvent.module_retain module, ContextEvent.alloc_state module] ++ mid) =
        if ((heap module).alloc_state allocator).2 = 0 then []
        else [(module, ((heap module).alloc_state allocator).2)] := by
  rw [retained_modules_append, released_modules_append, freed_states_append,
    allocated_states_append, retained_modules_of_not_lifecycle mid hmid,
    released_modules_of_not_lifecycle mid hmid, freed_states_of_not_lifecycle mid hmid,
    allocated_states_of_not_lifecycle heap allocator mid hmid]
  refine ⟨rfl, rfl, rfl, ?_⟩
  by_cases hz : ((heap module).alloc_state allocator).2 = 0
  · simp [allocated_states, ContextEvent.allocated, hz]
  · simp [allocated_states, ContextEvent.allocated, hz, ha]

/-- A failed run of the registration loop from batch index `i` on: the count is
the one before the batch, capacity and slots below the batch are untouched,
and the trace releases, last first, the modules in the batch slots at entry
followed by the modules it retained, and frees, last first, the states in the
batch slots at entry followed by the states it allocated. -/
theorem register_modules_loop_failure (heap : ModuleHeap) (allocs : ScratchAllocation)
    (m : Memory) (oc : Nat) :
    ∀ (rest : List Nat) (i : Nat) (context : iree_vm_context_t),
      (∀ p ∈ rest, p ≠ 0) →
      (register_modules_loop heap allocs m oc rest i context).1 ≠ IREE_STATUS_OK →
      (register_modules_loop heap allocs m oc rest i context).2.1.count = oc
      ∧ (register_modules_loop heap allocs m oc rest i context).2.1.capacity = context.capacity
      ∧ (register_modules_loop heap allocs m oc rest i context).2.1.is_static
          = context.is_static
      ∧ (∀ j, j < oc →
          (register_modules_loop heap allocs m oc rest i context).2.1.modules j
            = context.modules j
          ∧ (register_modules_loop heap allocs m oc rest i context).2.1.module_states j
            = context.module_states j)
      ∧ released_modules (register_modules_loop heap allocs m oc rest i context).2.2 =
          (appended_modules context oc i ++
            retained_modules (register_modules_loop heap allocs m oc rest i context).2.2).reverse
      ∧ freed_states (register_modules_loop heap allocs m oc rest i context).2.2 =
          (appended_states context oc i ++
            allocated_states heap context.allocator
              (register_modules_loop heap allocs m oc rest i context).2.2).reverse := by
  intro rest
  induction rest with
  | nil =>
    intro i context _ h
    exact absurd rfl h
  | cons module rest ih =>
    intro i context hnz hfail
    have hm0 : module ≠ 0 := hnz module (List.mem_cons_self _ _)
    have hrest : ∀ p ∈ rest, p ≠ 0 := fun p hp => hnz p (List.mem_cons_of_mem _ hp)
    have hhead_ret : retained_modules
        [ContextEvent.module_retain module, ContextEvent.alloc_state module] = [module] := rfl
    have hhead_rel : released_modules
        [ContextEvent.module_retain module, ContextEvent.alloc_state module] = [] := rfl
    have hhead_free : freed_states
        [ContextEvent.module_retain module, ContextEvent.alloc_state module] = [] := rfl
    have hhead_alloc : allocated_states heap context.allocator
        [ContextEvent.module_retain module, ContextEvent.alloc_state module] =
        if ((heap module).alloc_state context.allocator).1 = IREE_STATUS_OK
            ∧ ((heap module).alloc_state context.allocator).2 ≠ 0 then
          [(module, ((heap module).alloc_state context.allocator).2)]
        else [] := by
      by_cases hc : ((heap module).alloc_state context.allocator).1 = IREE_STATUS_OK
          ∧ ((heap module).alloc_state context.allocator).2 ≠ 0
      · simp only [allocated_states, List.filterMap_cons, ContextEvent.allocated,
          List.filterMap_nil, if_pos hc]
      · simp only [allocated_states, List.filterMap_cons, ContextEvent.allocated,
          List.filterMap_nil, if_neg hc]
    revert hfail
    simp only [register_modules_loop]
    split
    · next ha =>
      intro _
      refine register_failure_case heap context _ oc i module 0 _ _ rfl hm0 rfl rfl rfl
        (fun j hj => Function.update_noteq hj _ _) (Function.update_same _ _ _)
        (fun j hj => Function.update_noteq hj _ _) (Function.update_same _ _ _)
        hhead_ret hhead_rel hhead_free ?_
      rw [hhead_alloc, if_neg (fun h => ha h.1)]
      rfl
    · next ha =>
      have ha' : ((heap module).alloc_state context.allocator).1 = IREE_STATUS_OK :=
        not_not.mp ha
      have hres := resolve_module_imports_not_lifecycle heap
        { context with
          modules := Function.update context.modules (oc + i) module
          module_states := Function.update
            (Function.update context.module_states (oc + i) 0) (oc + i)
            ((heap module).alloc_state context.allocator).2 }
        module ((heap module).alloc_state context.allocator).2
      have hstates : ∀ j, j ≠ oc + i →
          Function.update (Function.update context.module_states (oc + i) 0) (oc + i)
            ((heap module).alloc_state context.allocator).2 j = context.module_states j := by
        intro j hj
        rw [Function.update_noteq hj, Function.update_noteq hj]
      split
      · intro _
        obtain ⟨p1, p2, p3, p4⟩ := register_step_projections heap context.allocator module _
          hres ha'
        exact register_failure_case heap context _ oc i module
          ((heap module).alloc_state context.allocator).2 _ _ rfl hm0 rfl rfl rfl
          (fun j hj => Function.update_noteq hj _ _) (Function.update_same _ _ _)
          hstates (Function.update_same _ _ _) p1 p2 p3 p4
      · have hmid : ∀ e ∈
            (iree_vm_context_resolve_module_imports heap
              { context with
                modules := Function.update context.modules (oc + i) module
                module_states := Function.update
                  (Function.update context.module_states (oc + i) 0) (oc + i)
                  ((heap module).alloc_state context.allocator).2 }
              module ((heap module).alloc_state context.allocator).2).2 ++
            [ContextEvent.lookup_function module IREE_VM_FUNCTION_LINKAGE_EXPORT "__init",
             ContextEvent.call
              (iree_vm_module_lookup_function_by_name heap module
                IREE_VM_FUNCTION_LINKAGE_EXPORT "__init").2.module
              (iree_vm_module_lookup_function_by_name heap module
                IREE_VM_FUNCTION_LINKAGE_EXPORT "__init").2],
            e.is_lifecycle = false := by
          intro e he
          rcases List.mem_append.mp he with he | he
          · exact hres e he
          · rcases List.mem_cons.mp he with rfl | he
            · rfl
            · rcases List.mem_singleton.mp he with rfl
              rfl
        have hmid2 : ∀ e ∈
            (iree_vm_context_resolve_module_imports heap
              { context with
                modules := Function.update context.modules (oc + i) module
                module_states := Function.update
                  (Function.update context.module_states (oc + i) 0) (oc + i)
                  ((heap module).alloc_state context.allocator).2 }
              module ((heap module).alloc_state context.allocator).2).2 ++
            [ContextEvent.lookup_function module IREE_VM_FUNCTION_LINKAGE_EXPORT "__init"],
            e.is_lifecycle = false := by
          intro e he
          rcases List.mem_append.mp he with he | he
          · exact hres e he
          · rcases List.mem_singleton.mp he with rfl
            rfl
        split
        · split
          · intro _
            obtain ⟨p1, p2, p3, p4⟩ := register_step_projections heap context.allocator module _
              hmid ha'
            exact register_failure_case heap context _ oc i module
              ((heap module).alloc_state context.allocator).2 _ _ (by simp) hm0 rfl rfl rfl
              (fun j hj => Function.update_noteq hj _ _) (Function.update_same _ _ _)
              hstates (Function.update_same _ _ _) p1 p2 p3 p4
          · intro hfail
            obtain ⟨q1, q2, q3, q4, q5, q6⟩ := ih (i + 1) _ hrest hfail
            obtain ⟨p1, p2, p3, p4⟩ := register_step_projections heap context.allocator module _
              hmid ha'
            refine ⟨q1, q2, q3, ?_, ?_⟩
            · intro j hj
              rw [(q4 j hj).1, (q4 j hj).2]
              exact ⟨update_below _ _ _ _ _ hj, hstates j (by omega)⟩
            · exact register_continue_case heap context _ oc i module
                ((heap module).alloc_state context.allocator).2 _ _ _ q5 q6 (by simp) hm0 rfl
                (fun j hj => Function.update_noteq hj _ _) (Function.update_same _ _ _)
                hstates (Function.update_same _ _ _) p1 p2 p3 p4
        · intro hfail
          obtain ⟨q1, q2, q3, q4, q5, q6⟩ := ih (i + 1) _ hrest hfail
          obtain ⟨p1, p2, p3, p4⟩ := register_step_projections heap context.allocator module _
            hmid2 ha'
          refine ⟨q1, q2, q3, ?_, ?_⟩
          · intro j hj
            rw [(q4 j hj).1, (q4 j hj).2]
            exact ⟨update_below _ _ _ _ _ hj, hstates j (by omega)⟩
          · exact register_continue_case heap context _ oc i module
              ((heap module).alloc_state context.allocator).2 _ _ _ q5 q6 (by simp) hm0 rfl
              (fun j hj => Function.update_noteq hj _ _) (Function.update_same _ _ _)
              hstates (Function.update_same _ _ _) p1 p2 p3 p4

/-- A successful run of the registration loop from batch index `i` on: the
count grows by the number of modules, capacity and the slots below are
untouched, and slot `oc + i + k` holds the module of index `k` and the state
its `alloc_state` returned. -/
theorem register_modules_loop_ok (heap : ModuleHeap) (allocs : ScratchAllocation)
    (m : Memory) (oc : Nat) :
    ∀ (rest : List Nat) (i : Nat) (context : iree_vm_context_t),
      (register_modules_loop heap allocs m oc rest i context).1 = IREE_STATUS_OK →
      (register_modules_loop heap allocs m oc rest i context).2.1.count
          = context.count + rest.length
      ∧ (register_modules_loop heap allocs m oc rest i context).2.1.capacity = context.capacity
      ∧ (register_modules_loop heap allocs m oc rest i context).2.1.is_static
          = context.is_static
      ∧ (register_modules_loop heap allocs m oc rest i context).2.1.allocator
          = context.allocator
      ∧ (∀ j, j < oc + i →
          (register_modules_loop heap allocs m oc rest i context).2.1.modules j
            = context.modules j
          ∧ (register_modules_loop heap allocs m oc rest i context).2.1.module_states j
            = context.module_states j)
      ∧ (∀ k p, rest[k]? = some p →
          (register_modules_loop heap allocs m oc rest i context).2.1.modules (oc + i + k) = p
          ∧ (register_modules_loop heap allocs m oc rest i context).2.1.module_states
              (oc + i + k) = ((heap p).alloc_state context.allocator).2) := by
  intro rest
  induction rest with
  | nil =>
    intro i context _
    refine ⟨rfl, rfl, rfl, rfl, fun j _ => ⟨rfl, rfl⟩, ?_⟩
    intro k p hk
    simp at hk
  | cons module rest ih =>
    intro i context hok
    have hstep : ∀ (R : iree_vm_context_t) (c : iree_vm_context_t),
        (R.count = c.count + rest.length ∧ R.capacity = c.capacity ∧
          R.is_static = c.is_static ∧ R.allocator = c.allocator ∧
          (∀ j, j < oc + (i + 1) → R.modules j = c.modules j ∧
            R.module_states j = c.module_states j) ∧
          (∀ k p, rest[k]? = some p → R.modules (oc + (i + 1) + k) = p ∧
            R.module_states (oc + (i + 1) + k) = ((heap p).alloc_state c.allocator).2)) →
        c.count = context.count + 1 → c.capacity = context.capacity →
        c.is_static = context.is_static → c.allocator = context.allocator →
        (∀ j, j ≠ oc + i → c.modules j = context.modules j) →
        c.modules (oc + i) = module →
        (∀ j, j ≠ oc + i → c.module_states j = context.module_states j) →
        c.module_states (oc + i) = ((heap module).alloc_state context.allocator).2 →
        R.count = context.count + (module :: rest).length ∧ R.capacity = context.capacity ∧
          R.is_static = context.is_static ∧ R.allocator = context.allocator ∧
          (∀ j, j < oc + i → R.modules j = context.modules j ∧
            R.module_states j = context.module_states j) ∧
          (∀ k p, (module :: rest)[k]? = some p → R.modules (oc + i + k) = p ∧
            R.module_states (oc + i + k) = ((heap p).alloc_state context.allocator).2) := by
      intro R c ⟨q1, q2, q3, q4, q5, q6⟩ h1 h2 h3 h4 h5 h6 h7 h8
      refine ⟨?_, q2.trans h2, q3.trans h3, q4.trans h4, ?_, ?_⟩
      · rw [q1, h1, List.length_cons]; omega
      · intro j hj
        rw [(q5 j (by omega)).1, (q5 j (by omega)).2]
        exact ⟨h5 j (by omega), h7 j (by omega)⟩
      · intro k p hk
        cases k with
        | zero =>
          simp only [List.getElem?_cons_zero, Option.some.injEq] at hk
          subst hk
          rw [Nat.add_zero, (q5 (oc + i) (by omega)).1, (q5 (oc + i) (by omega)).2]
          exact ⟨h6, h8⟩
        | succ k =>
          simp only [List.getElem?_cons_succ] at hk
          have := q6 k p hk
          rw [h4] at this
          have e : oc + (i + 1) + k = oc + i + (k + 1) := by omega
          rw [e] at this
          exact this
    have hstates : ∀ j, j ≠ oc + i →
        Function.update (Function.update context.module_states (oc + i) 0) (oc + i)
          ((heap module).alloc_state context.allocator).2 j = context.module_states j := by
      intro j hj
      rw [Function.update_noteq hj, Function.update_noteq hj]
    revert hok
    simp only [register_modules_loop]
    split
    · next ha => intro h; exact absurd h ha
    · split
      · next hr => intro h; exact absurd h hr
      · split
        · split
          · next hi => intro h; exact absurd h hi
          · intro hok
            exact hstep _ _ (ih (i + 1) _ hok) rfl rfl rfl rfl
              (fun j hj => Function.update_noteq hj _ _)
              (Function.update_same _ _ _) hstates (Function.update_same _ _ _)
        · intro hok
          exact hstep _ _ (ih (i + 1) _ hok) rfl rfl rfl rfl
            (fun j hj => Function.update_noteq hj _ _)
            (Function.update_same _ _ _) hstates (Function.update_same _ _ _)

/-- The null check passes on a list of non-null modules. -/
theorem modules_null_check_of_nonnull (list : List Nat) (h : ∀ p ∈ list, p ≠ 0) :
    ∀ (remaining i : Nat), i + remaining ≤ list.length →
      modules_null_check (some list) remaining i = some true := by
  intro remaining
  induction remaining with
  | zero => intro i _; rfl
  | succ remaining ih =>
    intro i hi
    have hlt : i < list.length := by omega
    simp only [modules_null_check, List.getElem?_eq_getElem hlt]
    rw [if_neg (h _ (List.getElem_mem hlt))]
    exact ih (i + 1) (by omega)

/-- A list that passes the null check holds non-null modules at the indices
checked. -/
theorem modules_null_check_true (list : List Nat) :
    ∀ (remaining i : Nat), modules_null_check (some list) remaining i = some true →
      ∀ k, i ≤ k → k < i + remaining → ∃ p, list[k]? = some p ∧ p ≠ 0 := by
  intro remaining
  induction remaining with
  | zero => intro i _ k h1 h2; omega
  | succ remaining ih =>
    intro i h k h1 h2
    simp only [modules_null_check] at h
    cases hget : list[i]? with
    | none => rw [hget] at h; simp at h
    | some module =>
      rw [hget] at h
      simp only at h
      by_cases hz : module = 0
      · rw [if_pos hz] at h; simp at h
      · rw [if_neg hz] at h
        by_cases hk : k = i
        · subst hk; exact ⟨module, hget, hz⟩
        · exact ih (i + 1) h k (by omega) (by omega)

/-- A whole list that passes the null check holds non-null modules only. -/
theorem modules_nonnull_of_null_check (list : List Nat)
    (h : modules_null_check (some list) list.length 0 = some true) : ∀ p ∈ list, p ≠ 0 := by
  intro p hp
  obtain ⟨k, hk, rfl⟩ := List.getElem_of_mem hp
  obtain ⟨q, hq, hq0⟩ := modules_null_check_true list list.length 0 h k (Nat.zero_le k)
    (by omega)
  rw [List.getElem?_eq_getElem hk] at hq
  cases hq
  exact hq0

/-- The storage growth keeps the count, the allocator and the slots below the
count. -/
theorem register_modules_grow_keeps (context : iree_vm_context_t) (module_count : Nat) :
    (register_modules_grow context module_count).count = context.count
    ∧ (register_modules_grow context module_count).allocator = context.allocator
    ∧ ∀ j, j < context.count →
        (register_modules_grow context module_count).modules j = context.modules j
        ∧ (register_modules_grow context module_count).module_states j
            = context.module_states j := by
  refine ⟨rfl, rfl, ?_⟩
  intro j hj
  simp only [register_modules_grow, if_pos hj, and_self]

/-- C17: a registration that fails restores the context: the count is the one
before the call, the slots below it are unchanged, every module the call
retained it has released once, last retained first, and every non-null state
the call obtained from `alloc_state` it has freed once through `free_state` of
the same module, last allocated first. -/
theorem register_modules_rolls_back (heap : ModuleHeap) (context : iree_vm_context_t)
    (batch : List Nat) (allocs : ScratchAllocation) (m : Memory) (r : RegisterResult)
    (h : iree_vm_context_register_modules heap (some context) (some batch) batch.length
      allocs m = some r)
    (hfail : r.status ≠ IREE_STATUS_OK) :
    ∃ c, r.context = some c ∧ c.count = context.count
      ∧ (∀ j, j < context.count →
          c.modules j = context.modules j ∧ c.module_states j = context.module_states j)
      ∧ released_modules r.events = (retained_modules r.events).reverse
      ∧ freed_states r.events = (allocated_states heap context.allocator r.events).reverse := by
  simp only [iree_vm_context_register_modules] at h
  rw [if_neg (fun hc => by simp at hc)] at h
  cases hnull : modules_null_check (some batch) batch.length 0 with
  | none => rw [hnull] at h; simp at h
  | some ok =>
    rw [hnull] at h
    cases ok with
    | false =>
      simp only [Option.some.injEq] at h
      subst h
      exact ⟨context, rfl, rfl, fun j _ => ⟨rfl, rfl⟩, rfl, rfl⟩
    | true =>
      have hnz := modules_nonnull_of_null_check batch hnull
      simp only at h
      split at h
      · simp only [Option.some.injEq] at h
        subst h
        exact ⟨context, rfl, rfl, fun j _ => ⟨rfl, rfl⟩, rfl, rfl⟩
      · have hgrown : ∀ g : iree_vm_context_t,
            g = (if context.count + batch.length > context.capacity then
              register_modules_grow context batch.length else context) →
            g.count = context.count ∧ g.allocator = context.allocator ∧
            ∀ j, j < context.count → g.modules j = context.modules j ∧
              g.module_states j = context.module_states j := by
          intro g hg
          split at hg
          · subst hg; exact register_modules_grow_keeps context batch.length
          · subst hg; exact ⟨rfl, rfl, fun j _ => ⟨rfl, rfl⟩⟩
        generalize hg : (if context.count + batch.length > context.capacity then
          register_modules_grow context batch.length else context) = g at h
        obtain ⟨g1, g2, g3⟩ := hgrown g hg.symm
        split at h
        · simp only [Option.some.injEq] at h
          subst h
          exact ⟨_, rfl, g1, g3, rfl, rfl⟩
        · split at h
          · simp only [Option.some.injEq] at h
            subst h
            exact ⟨_, rfl, g1, g3, rfl, rfl⟩
          · simp only [Option.some.injEq, Option.getD_some, List.take_length] at h
            subst h
            obtain ⟨q1, _, _, q4, q5, q6⟩ := register_modules_loop_failure heap allocs m _
              batch 0 _ hnz hfail
            refine ⟨_, rfl, q1.trans g1, ?_, ?_, ?_⟩
            · intro j hj
              rw [(q4 j (by omega)).1, (q4 j (by omega)).2]
              exact g3 j hj
            · rw [q5]; simp [appended_modules]
            · rw [q6, g2]; simp [appended_states]

theorem register_modules_rolls_back_witness :
    ∃ r, iree_vm_context_register_modules heap_context (some context_dynamic) (some [10, 12])
        2 allocs_ok memory_zero = some r
      ∧ r.status = IREE_STATUS_INTERNAL
      ∧ retained_modules r.events = [10, 12]
      ∧ allocated_states heap_context context_dynamic.allocator r.events = [(10, 110), (12, 112)]
      ∧ ∃ c, r.context = some c ∧ c.count = context_dynamic.count
        ∧ (∀ j, j < context_dynamic.count →
            c.modules j = context_dynamic.modules j
            ∧ c.module_states j = context_dynamic.module_states j)
        ∧ released_modules r.events = (retained_modules r.events).reverse
        ∧ freed_states r.events =
            (allocated_states heap_context context_dynamic.allocator r.events).reverse :=
  ⟨_, rfl, by decide, by decide, by decide,
    register_modules_rolls_back heap_context context_dynamic [10, 12] allocs_ok memory_zero _
      rfl (by decide)⟩

/-- A list that passes the null check is at least as long as the count
checked. -/
theorem modules_null_check_length (modules : Option (List Nat)) (n : Nat)
    (h : modules_null_check modules n 0 = some true) : ((modules.getD []).take n).length = n := by
  cases n with
  | zero => simp
  | succ n =>
    cases modules with
    | none => simp [modules_null_check] at h
    | some list =>
      obtain ⟨p, hp, _⟩ := modules_null_check_true list (n + 1) 0 h n (Nat.zero_le n) (by omega)
      have hlt : n < list.length := by
        by_contra hge
        rw [List.getElem?_eq_none (by omega)] at hp
        cases hp
      simp only [Option.getD_some, List.length_take]
      omega

/-- A registration that succeeds within the capacity raises the count by the
number of modules and keeps the capacity and the static flag. -/
theorem register_modules_ok_count (heap : ModuleHeap) (context : iree_vm_context_t)
    (modules : Option (List Nat)) (n : Nat) (allocs : ScratchAllocation) (m : Memory)
    (r : RegisterResult)
    (h : iree_vm_context_register_modules heap (some context) modules n allocs m = some r)
    (hok : r.status = IREE_STATUS_OK) (hcap : context.count + n ≤ context.capacity) :
    ∃ c, r.context = some c ∧ c.count = context.count + n ∧ c.capacity = context.capacity
      ∧ c.is_static = context.is_static := by
  simp only [iree_vm_context_register_modules] at h
  split at h
  · simp only [Option.some.injEq] at h
    subst h
    cases hok
  · cases hnull : modules_null_check modules n 0 with
    | none => rw [hnull] at h; simp at h
    | some ok =>
      rw [hnull] at h
      cases ok with
      | false =>
        simp only [Option.some.injEq] at h
        subst h
        cases hok
      | true =>
        have hlen := modules_null_check_length modules n hnull
        have hnot : ¬ (context.count + n > context.capacity) := by omega
        simp only [hnot, false_and, if_false] at h
        split at h
        · next hs =>
          simp only [Option.some.injEq] at h
          subst h
          exact absurd hok hs
        · split at h
          · next hs =>
            simp only [Option.some.injEq] at h
            subst h
            exact absurd hok hs
          · simp only [Option.some.injEq] at h
            subst h
            obtain ⟨q1, q2, q3, _⟩ := register_modules_loop_ok heap allocs m context.count
              ((modules.getD []).take n) 0 context hok
            exact ⟨_, rfl, by rw [q1, hlen], q2, q3⟩

/-- C16: a context created over `n > 0` modules is static with count and
capacity `n`, and registering any non-empty list of non-null modules with it
returns FAILED_PRECONDITION, leaves the context as it was and makes no
callback, retain or release. -/
theorem static_context_rejects_registration (heap : ModuleHeap) (instance_ptr : Nat)
    (modules : Option (List Nat)) (n allocator : Nat) (has_out_context : Bool)
    (context_malloc : iree_status_t × Nat) (next_context_id : Int)
    (register_allocs destroy_allocs : ScratchAllocation) (m : Memory) (created : CreateResult)
    (hcreate : iree_vm_context_create_with_modules heap instance_ptr modules n allocator
      has_out_context context_malloc next_context_id register_allocs destroy_allocs m
      = some created)
    (hok : created.status = IREE_STATUS_OK) (hn : 0 < n)
    (batch : List Nat) (hbatch : batch ≠ []) (hnz : ∀ p ∈ batch, p ≠ 0)
    (allocs : ScratchAllocation) (m2 : Memory) :
    ∃ c, created.context = some c ∧ c.count = n ∧ c.capacity = n ∧ c.is_static = true
      ∧ iree_vm_context_register_modules heap created.context (some batch) batch.length
          allocs m2
        = some { status := IREE_STATUS_FAILED_PRECONDITION, context := some c, events := [] } := by
  have hreject : ∀ c : iree_vm_context_t, c.count = n → c.capacity = n → c.is_static = true →
      iree_vm_context_register_modules heap (some c) (some batch) batch.length allocs m2
        = some { status := IREE_STATUS_FAILED_PRECONDITION, context := some c, events := [] } := by
    intro c h1 h2 h3
    have hpos : 0 < batch.length := List.length_pos.mpr hbatch
    simp only [iree_vm_context_register_modules]
    rw [if_neg (fun hc => by simp at hc),
      modules_null_check_of_nonnull batch hnz batch.length 0 (by omega)]
    simp only
    rw [if_pos ⟨by omega, h3⟩]
  simp only [iree_vm_context_create_with_modules] at hcreate
  split at hcreate
  · simp only [Option.some.injEq] at hcreate; subst hcreate; cases hok
  · split at hcreate
    · simp only [Option.some.injEq] at hcreate; subst hcreate; cases hok
    · split at hcreate
      · simp only [Option.some.injEq] at hcreate; subst hcreate; cases hok
      · cases hnull : modules_null_check modules n 0 with
        | none => rw [hnull] at hcreate; simp at hcreate
        | some ok =>
          rw [hnull] at hcreate
          cases ok with
          | false => simp only [Option.some.injEq] at hcreate; subst hcreate; cases hok
          | true =>
            simp only at hcreate
            split at hcreate
            · simp only [Option.some.injEq] at hcreate; subst hcreate
              rename_i hs
              exact absurd hok hs
            · cases hreg : iree_vm_context_register_modules heap
                  (some { address := context_malloc.2, instance_ptr := instance_ptr,
                          allocator := allocator, context_id := next_context_id,
                          is_static := decide (n > 0), count := 0, capacity := n,
                          modules := fun _ => 0, module_states := fun _ => 0 })
                  modules n register_allocs m with
              | none => rw [hreg] at hcreate; simp at hcreate
              | some registered =>
                rw [hreg] at hcreate
                simp only at hcreate
                split at hcreate
                · simp only [Option.some.injEq] at hcreate; subst hcreate
                  rename_i hs
                  exact absurd hok hs
                · rename_i hs
                  simp only [Option.some.injEq] at hcreate
                  subst hcreate
                  obtain ⟨c, hc, c1, c2, c3⟩ := register_modules_ok_count heap _ modules n
                    register_allocs m registered hreg (not_not.mp hs) (by simp)
                  simp only [Nat.zero_add] at c1
                  have c3' : c.is_static = true := by rw [c3]; simp [hn]
                  refine ⟨c, hc, c1, c2, c3', ?_⟩
                  simp only [hc]
                  exact hreject c c1 c2 c3'

theorem static_context_rejects_registration_witness :
    ∃ created, iree_vm_context_create_with_modules heap_context 7 (some [10, 11]) 2 1 true
        (IREE_STATUS_OK, 500) 1 allocs_ok allocs_ok memory_zero = some created
      ∧ created.status = IREE_STATUS_OK
      ∧ ∃ c, created.context = some c ∧ c.count = 2 ∧ c.capacity = 2 ∧ c.is_static = true
        ∧ iree_vm_context_register_modules heap_context created.context (some [13])
            ([13] : List Nat).length allocs_ok memory_zero
          = some { status := IREE_STATUS_FAILED_PRECONDITION, context := some c, events := [] } :=
  ⟨_, rfl, by decide,
    static_context_rejects_registration heap_context 7 (some [10, 11]) 2 1 true
      (IREE_STATUS_OK, 500) 1 allocs_ok allocs_ok memory_zero _ rfl (by decide) (by decide)
      [13] (by decide) (by decide) allocs_ok memory_zero⟩

/-! ## Order of initialisation and deinitialisation -/

/-- C18 (the code differs): the clean-up of a failed registration runs the
exported `__deinit` of the module that failed. Registering module 11, whose import
`lib.f` names no registered module, returns NOT_FOUND after calling the
`__deinit` of module 11 (function ordinal 1) before its `free_state`; and
registering module 12, whose `__init` (ordinal 0) returns INTERNAL, returns
INTERNAL after calling the `__deinit` of module 12 (ordinal 1). -/
theorem rollback_runs_deinit_of_failed_module :
    (iree_vm_context_register_modules heap_context (some context_dynamic) (some [11]) 1
        allocs_ok memory_zero).map (fun r => (r.status, r.events))
      = some (IREE_STATUS_NOT_FOUND,
          [ContextEvent.module_retain 11, ContextEvent.alloc_state 11,
           ContextEvent.signature 11,
           ContextEvent.get_function 11 IREE_VM_FUNCTION_LINKAGE_IMPORT 0,
           ContextEvent.diagnostic "lib.f",
           ContextEvent.lookup_function 11 IREE_VM_FUNCTION_LINKAGE_EXPORT "__deinit",
           ContextEvent.call 11 (exported_function 11 1),
           ContextEvent.free_state 11 111, ContextEvent.module_release 11])
    ∧ (iree_vm_context_register_modules heap_context (some context_dynamic) (some [12]) 1
        allocs_ok memory_zero).map (fun r => (r.status, r.events))
      = some (IREE_STATUS_INTERNAL,
          [ContextEvent.module_retain 12, ContextEvent.alloc_state 12,
           ContextEvent.signature 12,
           ContextEvent.lookup_function 12 IREE_VM_FUNCTION_LINKAGE_EXPORT "__init",
           ContextEvent.call 12 (exported_function 12 0),
           ContextEvent.lookup_function 12 IREE_VM_FUNCTION_LINKAGE_EXPORT "__deinit",
           ContextEvent.call 12 (exported_function 12 1),
           ContextEvent.free_state 12 112, ContextEvent.module_release 12])
    ∧ deinit_function heap_context 11 = exported_function 11 1
    ∧ deinit_function heap_context 12 = exported_function 12 1 :=
  ⟨by decide, by decide, by decide, by decide⟩

/-- C19 (counterexample): modules 10 and 13 both export `__init` and
`__deinit` and the context over them is created with OK, but the
`alloc_state` of module 13 returns a null state, and the destruction of the
context calls the `__deinit` of module 10 only. -/
theorem deinit_order_counterexample :
    exports heap_context 10 "__init" ∧ exports heap_context 10 "__deinit"
    ∧ exports heap_context 13 "__init" ∧ exports heap_context 13 "__deinit"
    ∧ (iree_vm_context_create_with_modules heap_context 7 (some [10, 13]) 2 1 true
        (IREE_STATUS_OK, 500) 1 allocs_ok allocs_ok memory_zero).map
        (fun created => (created.status, call_events created.events,
          (iree_vm_context_destroy heap_context created.context allocs_ok).status,
          call_events (iree_vm_context_destroy heap_context created.context allocs_ok).events))
      = some (IREE_STATUS_OK,
          [ContextEvent.call 10 (exported_function 10 1),
           ContextEvent.call 13 (exported_function 13 0)],
          IREE_STATUS_OK,
          [ContextEvent.call 10 (exported_function 10 2)]) :=
  ⟨by decide, by decide, by decide, by decide, by decide⟩

theorem call_events_append (a b : List ContextEvent) :
    call_events (a ++ b) = call_events a ++ call_events b :=
  List.filter_append _ _

theorem call_and_import_events_append (a b : List ContextEvent) :
    call_and_import_events (a ++ b) = call_and_import_events a ++ call_and_import_events b :=
  List.filter_append _ _

theorem call_events_of_not_call (events : List ContextEvent)
    (h : ∀ e ∈ events, e.is_call = false) : call_events events = [] := by
  unfold call_events
  rw [List.filter_eq_nil_iff]
  intro e he
  rw [h e he]
  simp

theorem call_and_import_events_of_query (events : List ContextEvent)
    (h : ∀ e ∈ events, e.is_query = true) : call_and_import_events events = [] := by
  unfold call_and_import_events
  rw [List.filter_eq_nil_iff]
  intro e he
  rw [not_call_of_query e (h e he), not_resolve_import_of_query e (h e he)]
  simp

/-- Among the events of import resolution, the calls and `resolve_import`
callbacks are `resolve_import` callbacks of the importing module. -/
theorem resolve_module_imports_callbacks (heap : ModuleHeap) (context : iree_vm_context_t)
    (module module_state : Nat) :
    ∀ e ∈ call_and_import_events
        (iree_vm_context_resolve_module_imports heap context module module_state).2,
      ∃ state ordinal function,
        e = ContextEvent.resolve_import module state ordinal function := by
  intro e he
  obtain ⟨hmem, hkind⟩ := List.mem_filter.mp he
  rcases resolve_module_imports_events heap context module module_state e hmem with
    h | ⟨o, f, rfl⟩
  · rw [not_call_of_query e h, not_resolve_import_of_query e h] at hkind
    simp at hkind
  · exact ⟨_, _, _, rfl⟩

/-- A successful import loop makes one `resolve_import` callback for each import
it runs over. -/
theorem resolve_module_imports_loop_count (heap : ModuleHeap) (context : iree_vm_context_t)
    (module module_state : Nat) (remaining : Nat) (i : Int)
    (hok : (iree_vm_context_resolve_module_imports_loop heap context module module_state
      remaining i).1 = IREE_STATUS_OK) :
    (call_and_import_events (iree_vm_context_resolve_module_imports_loop heap context module
      module_state remaining i).2).length = remaining := by
  induction remaining generalizing i with
  | zero => rfl
  | succ remaining ih =>
    revert hok
    simp only [iree_vm_context_resolve_module_imports_loop]
    have hq := resolve_function_query heap context
      ((heap module).get_function IREE_VM_FUNCTION_LINKAGE_IMPORT i).2
    split
    · next h => intro hok; exact absurd hok h
    · split
      · next h => intro hok; exact absurd hok h
      · split
        · next h => intro hok; exact absurd hok h
        · intro hok
          have e1 : ∀ (a : ContextEvent) (l : List ContextEvent), a :: l = [a] ++ l :=
            fun _ _ => rfl
          rw [e1, call_and_import_events_append, call_and_import_events_append,
            call_and_import_events_of_query _ hq,
            e1 (ContextEvent.resolve_import _ _ _ _), call_and_import_events_append,
            List.length_append, List.length_append, List.length_append, ih (i + 1) hok]
          simp [call_and_import_events, ContextEvent.is_call, ContextEvent.is_resolve_import]
          omega

/-- A successful import resolution makes the `resolve_import` callbacks of the
module, one for each of its imports. -/
theorem resolve_module_imports_resolves (heap : ModuleHeap) (context : iree_vm_context_t)
    (module module_state : Nat)
    (hok : (iree_vm_context_resolve_module_imports heap context module module_state).1
      = IREE_STATUS_OK) :
    resolves_imports_of heap module (call_and_import_events
      (iree_vm_context_resolve_module_imports heap context module module_state).2) := by
  refine ⟨?_, resolve_module_imports_callbacks heap context module module_state⟩
  simp only [iree_vm_context_resolve_module_imports] at hok ⊢
  have e1 : ∀ (a : ContextEvent) (l : List ContextEvent), a :: l = [a] ++ l := fun _ _ => rfl
  rw [e1, call_and_import_events_append, List.length_append,
    resolve_module_imports_loop_count heap context module module_state _ 0 hok]
  simp [call_and_import_events, ContextEvent.is_call, ContextEvent.is_resolve_import]

theorem call_events_step (module linkage : Nat) (name : String) (a : Nat)
    (f : iree_vm_function_t) (res next : List ContextEvent) :
    call_events ([ContextEvent.module_retain module, ContextEvent.alloc_state module] ++ res ++
        ContextEvent.lookup_function module linkage name :: ContextEvent.call a f :: next)
      = call_events res ++ ContextEvent.call a f :: call_events next := by
  simp [call_events, List.filter_append, List.filter_cons, ContextEvent.is_call]

theorem call_and_import_events_step (module linkage : Nat) (name : String) (a : Nat)
    (f : iree_vm_function_t) (res next : List ContextEvent) :
    call_and_import_events
        ([ContextEvent.module_retain module, ContextEvent.alloc_state module] ++ res ++
          ContextEvent.lookup_function module linkage name :: ContextEvent.call a f :: next)
      = call_and_import_events res ++ ContextEvent.call a f :: call_and_import_events next := by
  simp [call_and_import_events, List.filter_append, List.filter_cons, ContextEvent.is_call,
    ContextEvent.is_resolve_import]

/-- The calls and `resolve_import` callbacks of a successful run of the
registration loop over modules that export `__init`: each module in turn
receives its `resolve_import` callbacks and then has its `__init` called. -/
theorem register_modules_loop_trace (heap : ModuleHeap) (allocs : ScratchAllocation)
    (m : Memory) (oc : Nat) :
    ∀ (rest : List Nat) (i : Nat) (context : iree_vm_context_t),
      (register_modules_loop heap allocs m oc rest i context).1 = IREE_STATUS_OK →
      (∀ p ∈ rest, exports heap p "__init") →
      call_events (register_modules_loop heap allocs m oc rest i context).2.2
        = rest.map (init_call heap)
      ∧ ∃ imports, List.Forall₂ (resolves_imports_of heap) rest imports
        ∧ call_and_import_events (register_modules_loop heap allocs m oc rest i context).2.2
          = init_order heap rest imports := by
  intro rest
  induction rest with
  | nil =>
    intro i context _ _
    exact ⟨rfl, [], List.Forall₂.nil, rfl⟩
  | cons module rest ih =>
    intro i context hok hinit
    have hm : exports heap module "__init" := hinit module (List.mem_cons_self _ _)
    have hrest : ∀ p ∈ rest, exports heap p "__init" :=
      fun p hp => hinit p (List.mem_cons_of_mem _ hp)
    revert hok
    simp only [register_modules_loop]
    split
    · next ha => intro h; exact absurd h ha
    · split
      · next hr => intro h; exact absurd h hr
      · next hr =>
        split
        · split
          · next hi => intro h; exact absurd h hi
          · intro hok
            obtain ⟨q1, more, q2, q3⟩ := ih (i + 1) _ hok hrest
            have hres := resolve_module_imports_resolves heap _ module _ (not_not.mp hr)
            rw [call_events_step, call_and_import_events_step, q1, q3,
              call_events_of_not_call _ (resolve_module_imports_not_call heap _ module _)]
            exact ⟨rfl, _ :: more, List.Forall₂.cons hres q2, rfl⟩
        · next hi => exact absurd hm hi

/-- The `__deinit` loop over the slots `oc .. oc + i`, when every slot has a
state and its module exports `__deinit`: it calls the `__deinit` of the
modules of the slots from the last to the first. -/
theorem release_modules_deinit_calls (heap : ModuleHeap) (context : iree_vm_context_t)
    (oc : Nat) :
    ∀ i, (∀ j, j ≤ i → context.module_states (oc + j) ≠ 0
        ∧ exports heap (context.modules (oc + j)) "__deinit") →
      call_events (release_modules_deinit heap context (descending_range oc (oc + i)))
        = ((List.range (i + 1)).map fun j => deinit_call heap (context.modules (oc + j))).reverse := by
  intro i
  induction i with
  | zero =>
    intro h
    obtain ⟨h1, h2⟩ := h 0 (Nat.le_refl 0)
    rw [descending_range_zero]
    simp only [release_modules_deinit]
    simp only [Nat.add_zero, exports] at h1 h2
    rw [if_neg h1, if_pos h2]
    simp [call_events, ContextEvent.is_call, deinit_call, deinit_function, List.range_succ]
  | succ i ih =>
    intro h
    obtain ⟨h1, h2⟩ := h (i + 1) (Nat.le_refl _)
    rw [descending_range_succ]
    simp only [release_modules_deinit]
    simp only [exports] at h2
    rw [if_neg h1, if_pos h2, List.range_succ (i + 1), List.map_append, List.reverse_append]
    have e1 : ∀ (a b : ContextEvent) (l : List ContextEvent),
        call_events (a :: b :: l) = call_events [a, b] ++ call_events l :=
      fun a b l => call_events_append [a, b] l
    rw [e1, ih fun j hj => h j (by omega)]
    simp [call_events, ContextEvent.is_call, deinit_call, deinit_function]

/-- The calls made by the release of the slots `oc .. oc + i` are those of its
`__deinit` loop. -/
theorem release_modules_calls (heap : ModuleHeap) (context : iree_vm_context_t) (oc i : Nat) :
    call_events (iree_vm_context_release_modules heap context oc (oc + i)).2
      = call_events (release_modules_deinit heap context (descending_range oc (oc + i))) := by
  simp only [iree_vm_context_release_modules, release_modules_free_state_range,
    release_modules_release_range]
  rw [call_events_append, call_events_append, ← List.map_reverse, ← List.map_reverse,
    call_events_of_not_call _ fun e he => (map_free_not_release _ e he).2.2.1,
    call_events_of_not_call _ fun e he => (map_release_not_free _ e he).2.2.1]
  simp

/-- The modules in the first slots of a context are the given list when each
slot holds the module of its index. -/
theorem range_map_modules (f : Nat → Nat) (g : Nat → ContextEvent) (batch : List Nat)
    (h : ∀ k p, batch[k]? = some p → f k = p) :
    (List.range batch.length).map (fun j => g (f (0 + j))) = batch.map g := by
  apply List.ext_getElem
  · simp
  · intro k h1 h2
    simp only [List.length_map, List.length_range] at h1 h2
    simp only [List.getElem_map, List.getElem_range, Nat.zero_add]
    rw [h k batch[k] (List.getElem?_eq_getElem h2)]

/-- The scratch stack is initialised when its register storage is allocated. -/
theorem scratch_stack_ok (context : iree_vm_context_t) (allocs : ScratchAllocation)
    (h : allocs.storage_malloc.1 = IREE_STATUS_OK) :
    (scratch_stack context allocs).1 = IREE_STATUS_OK := by
  simp only [scratch_stack, iree_vm_stack_init]
  rw [if_neg (not_not.mpr h)]

/-- A creation that returns OK has run the registration loop over the modules
from an empty context of capacity `n`, and the loop returned OK. -/
theorem create_with_modules_ok (heap : ModuleHeap) (instance_ptr : Nat)
    (modules : Option (List Nat)) (n allocator : Nat) (has_out_context : Bool)
    (context_malloc : iree_status_t × Nat) (next_context_id : Int)
    (register_allocs destroy_allocs : ScratchAllocation) (m : Memory) (created : CreateResult)
    (hcreate : iree_vm_context_create_with_modules heap instance_ptr modules n allocator
      has_out_context context_malloc next_context_id register_allocs destroy_allocs m
      = some created)
    (hok : created.status = IREE_STATUS_OK) :
    modules_null_check modules n 0 = some true
    ∧ (register_modules_loop heap register_allocs m 0 ((modules.getD []).take n) 0
        { address := context_malloc.2, instance_ptr := instance_ptr, allocator := allocator,
          context_id := next_context_id, is_static := decide (n > 0), count := 0,
          capacity := n, modules := fun _ => 0, module_states := fun _ => 0 }).1
        = IREE_STATUS_OK
    ∧ created.context = some
        (register_modules_loop heap register_allocs m 0 ((modules.getD []).take n) 0
          { address := context_malloc.2, instance_ptr := instance_ptr, allocator := allocator,
            context_id := next_context_id, is_static := decide (n > 0), count := 0,
            capacity := n, modules := fun _ => 0, module_states := fun _ => 0 }).2.1
    ∧ created.events = ContextEvent.instance_retain instance_ptr ::
        (register_modules_loop heap register_allocs m 0 ((modules.getD []).take n) 0
          { address := context_malloc.2, instance_ptr := instance_ptr, allocator := allocator,
            context_id := next_context_id, is_static := decide (n > 0), count := 0,
            capacity := n, modules := fun _ => 0, module_states := fun _ => 0 }).2.2 := by
  simp only [iree_vm_context_create_with_modules] at hcreate
  split at hcreate
  · simp only [Option.some.injEq] at hcreate; subst hcreate; cases hok
  · split at hcreate
    · simp only [Option.some.injEq] at hcreate; subst hcreate; cases hok
    · split at hcreate
      · simp only [Option.some.injEq] at hcreate; subst hcreate; cases hok
      · cases hnull : modules_null_check modules n 0 with
        | none => rw [hnull] at hcreate; simp at hcreate
        | some ok =>
          rw [hnull] at hcreate
          cases ok with
          | false => simp only [Option.some.injEq] at hcreate; subst hcreate; cases hok
          | true =>
            simp only at hcreate
            split at hcreate
            · simp only [Option.some.injEq] at hcreate; subst hcreate
              rename_i hs
              exact absurd hok hs
            · cases hreg : iree_vm_context_register_modules heap
                  (some { address := context_malloc.2, instance_ptr := instance_ptr,
                          allocator := allocator, context_id := next_context_id,
                          is_static := decide (n > 0), count := 0, capacity := n,
                          modules := fun _ => 0, module_states := fun _ => 0 })
                  modules n register_allocs m with
              | none => rw [hreg] at hcreate; simp at hcreate
              | some registered =>
                rw [hreg] at hcreate
                simp only at hcreate
                split at hcreate
                · simp only [Option.some.injEq] at hcreate; subst hcreate
                  rename_i hs
                  exact absurd hok hs
                · rename_i hs
                  simp only [Option.some.injEq] at hcreate
                  subst hcreate
                  have hrok : registered.status = IREE_STATUS_OK := not_not.mp hs
                  simp only [iree_vm_context_register_modules, hnull] at hreg
                  have hnot : ¬ (0 + n > n) := by omega
                  simp only [hnot, false_and, if_false] at hreg
                  split at hreg
                  · simp only [Option.some.injEq] at hreg; subst hreg; cases hrok
                  · split at hreg
                    · next hs2 =>
                      simp only [Option.some.injEq] at hreg; subst hreg
                      exact absurd hrok hs2
                    · split at hreg
                      · next hs2 =>
                        simp only [Option.some.injEq] at hreg; subst hreg
                        exact absurd hrok hs2
                      · simp only [Option.some.injEq] at hreg
                        subst hreg
                        exact ⟨rfl, hrok, rfl, rfl⟩

/-- The calls of a destruction of a context whose `count` slots hold the
modules of the list, each with a non-null state and an exported `__deinit`:
the `__deinit` of the modules from the last to the first. -/
theorem destroy_calls (heap : ModuleHeap) (c : iree_vm_context_t) (batch : List Nat)
    (allocs : ScratchAllocation)
    (hallocs : allocs.stack_malloc = IREE_STATUS_OK ∧ allocs.storage_malloc.1 = IREE_STATUS_OK)
    (hcount : c.count = batch.length)
    (hslots : ∀ k p, batch[k]? = some p → c.modules k = p ∧ c.module_states k ≠ 0)
    (hdeinit : ∀ p ∈ batch, exports heap p "__deinit") :
    (iree_vm_context_destroy heap (some c) allocs).status = IREE_STATUS_OK
    ∧ call_events (iree_vm_context_destroy heap (some c) allocs).events
        = (batch.map (deinit_call heap)).reverse := by
  have hs := scratch_stack_ok c allocs hallocs.2
  simp only [iree_vm_context_destroy]
  rw [if_neg (fun h => h.2 hallocs.1), if_neg (fun h => h.2 hs)]
  refine ⟨rfl, ?_⟩
  simp only
  rw [call_events_append,
    call_events_of_not_call [ContextEvent.instance_release c.instance_ptr]
      (fun e he => by rcases List.mem_singleton.mp he with rfl; rfl), List.append_nil]
  by_cases hpos : c.count > 0
  · rw [if_pos hpos]
    have hrange : c.count - 1 = 0 + (batch.length - 1) := by omega
    have hlen : batch.length - 1 + 1 = batch.length := by omega
    rw [hrange, release_modules_calls, release_modules_deinit_calls heap c 0, hlen,
      range_map_modules c.modules (deinit_call heap) batch fun k p hk => (hslots k p hk).1]
    intro j hj
    have hj' : j < batch.length := by omega
    obtain ⟨h1, h2⟩ := hslots j batch[j] (List.getElem?_eq_getElem hj')
    rw [Nat.zero_add, h1]
    exact ⟨h2, hdeinit _ (List.getElem_mem hj')⟩
  · rw [if_neg hpos]
    have : batch = [] := List.length_eq_zero.mp (by omega)
    subst this
    rfl

/-- C19: when the context over a list of modules that all export `__init` and
`__deinit` and all receive a non-null state is created with OK, the calls made
by the creation are the `__init` of the modules in list order, each once, and
each module receives all its `resolve_import` callbacks after the `__init` of
the module before it and before its own; and when the scratch stack of the
destruction can be allocated, the destruction returns OK and its calls are the
`__deinit` of the modules in reverse list order, each once. -/
theorem init_forward_deinit_reverse (heap : ModuleHeap) (instance_ptr : Nat)
    (batch : List Nat) (allocator : Nat) (has_out_context : Bool)
    (context_malloc : iree_status_t × Nat) (next_context_id : Int)
    (register_allocs destroy_allocs allocs : ScratchAllocation) (m : Memory)
    (created : CreateResult)
    (hcreate : iree_vm_context_create_with_modules heap instance_ptr (some batch) batch.length
      allocator has_out_context context_malloc next_context_id register_allocs destroy_allocs m
      = some created)
    (hok : created.status = IREE_STATUS_OK)
    (hinit : ∀ p ∈ batch, exports heap p "__init")
    (hdeinit : ∀ p ∈ batch, exports heap p "__deinit")
    (hstate : ∀ p ∈ batch, ((heap p).alloc_state allocator).2 ≠ 0)
    (hallocs : allocs.stack_malloc = IREE_STATUS_OK
      ∧ allocs.storage_malloc.1 = IREE_STATUS_OK) :
    call_events created.events = batch.map (init_call heap)
    ∧ (∃ imports, List.Forall₂ (resolves_imports_of heap) batch imports
        ∧ call_and_import_events created.events = init_order heap batch imports)
    ∧ (iree_vm_context_destroy heap created.context allocs).status = IREE_STATUS_OK
    ∧ call_events (iree_vm_context_destroy heap created.context allocs).events
        = (batch.map (deinit_call heap)).reverse := by
  obtain ⟨_, c2, c3, c4⟩ := create_with_modules_ok heap instance_ptr (some batch) batch.length
    allocator has_out_context context_malloc next_context_id register_allocs destroy_allocs m
    created hcreate hok
  simp only [Option.getD_some, List.take_length] at c2 c3 c4
  obtain ⟨t1, imports, t2, t3⟩ := register_modules_loop_trace heap register_allocs m 0 batch 0 _
    c2 hinit
  obtain ⟨q1, _, _, _, _, q6⟩ := register_modules_loop_ok heap register_allocs m 0 batch 0 _ c2
  have e1 : ∀ l : List ContextEvent,
      call_events (ContextEvent.instance_retain instance_ptr :: l) = call_events l :=
    fun _ => rfl
  have e2 : ∀ l : List ContextEvent,
      call_and_import_events (ContextEvent.instance_retain instance_ptr :: l)
        = call_and_import_events l :=
    fun _ => rfl
  refine ⟨by rw [c4, e1, t1], ⟨imports, t2, by rw [c4, e2, t3]⟩, ?_⟩
  rw [c3]
  apply destroy_calls heap _ batch allocs hallocs
  · rw [q1]; simp
  · intro k p hk
    have hq := q6 k p hk
    simp only [Nat.zero_add] at hq
    refine ⟨hq.1, ?_⟩
    rw [hq.2]
    exact hstate p (List.mem_iff_getElem?.mpr ⟨k, hk⟩)
  · exact hdeinit

theorem init_forward_deinit_reverse_witness :
    ∃ created, iree_vm_context_create_with_modules heap_context 7 (some [10, 11])
        ([10, 11] : List Nat).length 1 true (IREE_STATUS_OK, 500) 1 allocs_ok allocs_ok
        memory_zero = some created
      ∧ created.status = IREE_STATUS_OK
      ∧ call_and_import_events created.events =
          [ContextEvent.call 10 (exported_function 10 1),
           ContextEvent.resolve_import 11 111 0 (exported_function 10 0),
           ContextEvent.call 11 (exported_function 11 0)]
      ∧ call_events created.events = [10, 11].map (init_call heap_context)
      ∧ (∃ imports, List.Forall₂ (resolves_imports_of heap_context) [10, 11] imports
          ∧ call_and_import_events created.events = init_order heap_context [10, 11] imports)
      ∧ (iree_vm_context_destroy heap_context created.context allocs_ok).status
          = IREE_STATUS_OK
      ∧ call_events (iree_vm_context_destroy heap_context created.context allocs_ok).events
          = ([10, 11].map (deinit_call heap_context)).reverse :=
  ⟨_, rfl, by decide, by decide,
    init_forward_deinit_reverse heap_context 7 [10, 11] 1 true (IREE_STATUS_OK, 500) 1
      allocs_ok allocs_ok allocs_ok memory_zero _ rfl (by decide) (by decide) (by decide)
      (by decide) (by decide)⟩

/-! ## Visibility of modules to import resolution -/

/-- The reverse scan finds nothing when no module below `n` has the name. -/
theorem resolve_function_scan_not_found (heap : ModuleHeap) (context : iree_vm_context_t)
    (module_name function_name : String) :
    ∀ n, (∀ j, j < n → (heap (context.modules j)).name ≠ module_name) →
      (iree_vm_context_resolve_function_scan heap context module_name function_name n).1
        = IREE_STATUS_NOT_FOUND := by
  intro n
  induction n with
  | zero => intro _; rfl
  | succ i ih =>
    intro h
    simp only [iree_vm_context_resolve_function_scan]
    rw [if_neg (fun hc => h i (Nat.lt_succ_self i) hc.symm)]
    exact ih fun j hj => h j (by omega)

/-- The reverse scan returns OK only with the function that a module below `n`
with the name returns for the function name. -/
theorem resolve_function_scan_visible (heap : ModuleHeap) (context : iree_vm_context_t)
    (module_name function_name : String) :
    ∀ n, (iree_vm_context_resolve_function_scan heap context module_name function_name n).1
        = IREE_STATUS_OK →
      ∃ j, j < n ∧ (heap (context.modules j)).name = module_name
        ∧ (iree_vm_context_resolve_function_scan heap context module_name function_name n).2.1
          = (iree_vm_module_lookup_function_by_name heap (context.modules j)
              IREE_VM_FUNCTION_LINKAGE_EXPORT function_name).2 := by
  intro n
  induction n with
  | zero => intro h; cases h
  | succ i ih =>
    simp only [iree_vm_context_resolve_function_scan]
    split
    · next hname => intro _; exact ⟨i, Nat.lt_succ_self i, hname.symm, rfl⟩
    · intro h
      obtain ⟨j, hj, h1, h2⟩ := ih h
      exact ⟨j, by omega, h1, h2⟩

/-- One step of the registration loop that succeeds: the module's state is
allocated, its imports resolve, and its `__init`, when exported, returns OK;
the loop goes on with the module stored and counted. -/
theorem register_modules_loop_step (heap : ModuleHeap) (allocs : ScratchAllocation)
    (m : Memory) (oc module : Nat) (rest : List Nat) (i : Nat) (context : iree_vm_context_t)
    (halloc : ((heap module).alloc_state context.allocator).1 = IREE_STATUS_OK)
    (hresolve : (iree_vm_context_resolve_module_imports heap
      { context with
        modules := Function.update context.modules (oc + i) module
        module_states := Function.update
          (Function.update context.module_states (oc + i) 0) (oc + i)
          ((heap module).alloc_state context.allocator).2 }
      module ((heap module).alloc_state context.allocator).2).1 = IREE_STATUS_OK)
    (hinit : exports heap module "__init" → ∀ stack memory,
      ((heap (init_function heap module).module).call stack memory
        (init_function heap module) none).1 = IREE_STATUS_OK) :
    (register_modules_loop heap allocs m oc (module :: rest) i context).1
      = (register_modules_loop heap allocs m oc rest (i + 1)
          { context with
            count := context.count + 1
            modules := Function.update context.modules (oc + i) module
            module_states := Function.update
              (Function.update context.module_states (oc + i) 0) (oc + i)
              ((heap module).alloc_state context.allocator).2 }).1 := by
  simp only [register_modules_loop]
  split
  · next ha => exact absurd halloc ha
  · split
    · next hr => exact absurd hresolve hr
    · split
      · next hi =>
        split
        · next hs => exact absurd (hinit hi _ _) hs
        · rfl
      · rfl

/-! ## Imports of a batch -/

theorem mem_visible_modules (context : iree_vm_context_t) (e : Nat) :
    e ∈ visible_modules context ↔ ∃ k, k < context.count ∧ context.modules k = e := by
  simp [visible_modules, List.mem_map, List.mem_range]

theorem visible_modules_congr (c d : iree_vm_context_t) (hcount : c.count = d.count)
    (h : ∀ k, k < d.count → c.modules k = d.modules k) :
    visible_modules c = visible_modules d := by
  unfold visible_modules
  rw [hcount]
  apply List.map_congr_left
  intro k hk
  exact h k (List.mem_range.mp hk)

theorem visible_modules_succ (c d : iree_vm_context_t) (p : Nat)
    (hcount : c.count = d.count + 1)
    (h : ∀ k, k < d.count → c.modules k = d.modules k) (hp : c.modules d.count = p) :
    visible_modules c = visible_modules d ++ [p] := by
  unfold visible_modules
  rw [hcount, List.range_succ, List.map_append, List.map_singleton, hp]
  congr 1
  apply List.map_congr_left
  intro k hk
  exact h k (List.mem_range.mp hk)

/-- The reverse scan over the slots below `n` returns what the last module with
the name among those slots returns for the lookup, and NOT_FOUND when none has
the name. -/
theorem resolve_function_scan_last_named (heap : ModuleHeap) (context : iree_vm_context_t)
    (module_name function_name : String) :
    ∀ n,
      ((iree_vm_context_resolve_function_scan heap context module_name function_name n).1,
        (iree_vm_context_resolve_function_scan heap context module_name function_name n).2.1)
      = match last_named heap module_name ((List.range n).map context.modules) with
        | some exporter => iree_vm_module_lookup_function_by_name heap exporter
            IREE_VM_FUNCTION_LINKAGE_EXPORT function_name
        | none => (IREE_STATUS_NOT_FOUND, iree_vm_function_zero) := by
  intro n
  induction n with
  | zero => rfl
  | succ i ih =>
    simp only [iree_vm_context_resolve_function_scan, last_named, List.range_succ,
      List.map_append, List.map_singleton, List.reverse_append, List.reverse_singleton,
      List.singleton_append, List.find?_cons]
    by_cases hname : module_name = (heap (context.modules i)).name
    · rw [if_pos hname]
      simp [hname]
    · rw [if_neg hname]
      have : decide ((heap (context.modules i)).name = module_name) = false := by
        simp [Ne.symm hname]
      simp only [this]
      exact ih


/-- For a name with a separator, `iree_vm_context_resolve_function` returns
what the last visible module with the module part of the name returns for the
lookup of the function part, and NOT_FOUND when no visible module has that
name. -/
theorem resolve_function_last_named (heap : ModuleHeap) (context : iree_vm_context_t)
    (full_name : String) (hsplit : (iree_string_view_split full_name '.').1 ≠ -1) :
    ((iree_vm_context_resolve_function heap context full_name).1,
      (iree_vm_context_resolve_function heap context full_name).2.1)
    = match last_named heap (iree_string_view_split full_name '.').2.1
        (visible_modules context) with
      | some exporter => iree_vm_module_lookup_function_by_name heap exporter
          IREE_VM_FUNCTION_LINKAGE_EXPORT (iree_string_view_split full_name '.').2.2
      | none => (IREE_STATUS_NOT_FOUND, iree_vm_function_zero) := by
  simp only [iree_vm_context_resolve_function]
  rw [if_neg hsplit]
  exact resolve_function_scan_last_named heap context _ _ context.count

theorem last_named_mem (heap : ModuleHeap) (module_name : String) (modules : List Nat)
    (e : Nat) (h : last_named heap module_name modules = some e) :
    e ∈ modules ∧ (heap e).name = module_name := by
  unfold last_named at h
  have h1 := List.mem_of_find?_eq_some h
  have h2 := List.find?_some h
  exact ⟨List.mem_reverse.mp h1, by simpa using h2⟩

theorem last_named_none (heap : ModuleHeap) (module_name : String) (modules : List Nat)
    (h : ∀ q ∈ modules, (heap q).name ≠ module_name) :
    last_named heap module_name modules = none := by
  unfold last_named
  rw [List.find?_eq_none]
  intro q hq
  simpa using h q (List.mem_reverse.mp hq)

/-- A function `iree_vm_context_resolve_function` returns with OK is exported
by a visible module. -/
theorem resolve_function_exported_by (heap : ModuleHeap) (context : iree_vm_context_t)
    (full_name : String)
    (hok : (iree_vm_context_resolve_function heap context full_name).1 = IREE_STATUS_OK) :
    exported_by heap (visible_modules context)
      (iree_vm_context_resolve_function heap context full_name).2.1 := by
  by_cases hsplit : (iree_string_view_split full_name '.').1 = -1
  · simp only [iree_vm_context_resolve_function] at hok
    rw [if_pos hsplit] at hok
    cases hok
  · have h := resolve_function_last_named heap context full_name hsplit
    cases hl : last_named heap (iree_string_view_split full_name '.').2.1
        (visible_modules context) with
    | none =>
      simp only [hl, Prod.mk.injEq] at h
      rw [h.1] at hok
      cases hok
    | some e =>
      simp only [hl] at h
      refine ⟨e, (last_named_mem heap _ _ e hl).1, (iree_string_view_split full_name '.').2.2, ?_⟩
      rw [← h, hok]

/-- The reverse scan makes no query for an import and no `resolve_import`
callback. -/
theorem resolve_function_not_import_step (heap : ModuleHeap) (context : iree_vm_context_t)
    (full_name : String) :
    ∀ e ∈ (iree_vm_context_resolve_function heap context full_name).2.2,
      e.is_import_step = false ∧ e.retained = none := by
  have hscan : ∀ (a b : String) (n : Nat),
      ∀ e ∈ (iree_vm_context_resolve_function_scan heap context a b n).2.2,
        e.is_import_step = false ∧ e.retained = none := by
    intro a b n
    induction n with
    | zero => intro e he; simp [iree_vm_context_resolve_function_scan] at he
    | succ i ih =>
      intro e he
      simp only [iree_vm_context_resolve_function_scan] at he
      split at he
      · rcases List.mem_cons.mp he with rfl | he
        · exact ⟨rfl, rfl⟩
        · rcases List.mem_cons.mp he with rfl | he
          · exact ⟨rfl, rfl⟩
          · simp at he
      · rcases List.mem_cons.mp he with rfl | he
        · exact ⟨rfl, rfl⟩
        · exact ih e he
  intro e he
  simp only [iree_vm_context_resolve_function] at he
  split at he
  · simp at he
  · exact hscan _ _ _ e he

/-- The events of the import loop of a module: `get_function` queries of that
module, queries of the scan, and `resolve_import` callbacks on that module,
each with a function exported by a visible module. -/
theorem resolve_module_imports_loop_sources (heap : ModuleHeap) (context : iree_vm_context_t)
    (module module_state : Nat) (remaining : Nat) (i : Int) :
    ∀ e ∈ (iree_vm_context_resolve_module_imports_loop heap context module module_state
        remaining i).2,
      e.retained = none
      ∧ (∀ q l o, e = ContextEvent.get_function q l o → q = module)
      ∧ (∀ q s o f, e = ContextEvent.resolve_import q s o f →
          q = module ∧ exported_by heap (visible_modules context) f) := by
  induction remaining generalizing i with
  | zero => intro e he; simp [iree_vm_context_resolve_module_imports_loop] at he
  | succ remaining ih =>
    intro e he
    simp only [iree_vm_context_resolve_module_imports_loop] at he
    have hq := resolve_function_not_import_step heap context
      ((heap module).get_function IREE_VM_FUNCTION_LINKAGE_IMPORT i).2
    have hgot : ∀ e, e = ContextEvent.get_function module IREE_VM_FUNCTION_LINKAGE_IMPORT i →
        e.retained = none
        ∧ (∀ q l o, e = ContextEvent.get_function q l o → q = module)
        ∧ (∀ q s o f, e = ContextEvent.resolve_import q s o f →
            q = module ∧ exported_by heap (visible_modules context) f) := by
      intro e he
      subst he
      refine ⟨rfl, fun q l o h => ?_, fun q s o f h => by cases h⟩
      cases h; rfl
    have hscan : ∀ e, e.is_import_step = false ∧ e.retained = none →
        e.retained = none
        ∧ (∀ q l o, e = ContextEvent.get_function q l o → q = module)
        ∧ (∀ q s o f, e = ContextEvent.resolve_import q s o f →
            q = module ∧ exported_by heap (visible_modules context) f) := by
      intro e he
      refine ⟨he.2, fun q l o h => ?_, fun q s o f h => ?_⟩
      · subst h; cases he.1
      · subst h; cases he.1
    have hdiag : ∀ (e : ContextEvent) (t : String), e = ContextEvent.diagnostic t →
        e.retained = none
        ∧ (∀ q l o, e = ContextEvent.get_function q l o → q = module)
        ∧ (∀ q s o f, e = ContextEvent.resolve_import q s o f →
            q = module ∧ exported_by heap (visible_modules context) f) := by
      intro e t he
      subst he
      exact ⟨rfl, fun q l o h => (by cases h), fun q s o f h => (by cases h)⟩
    split at he
    · rcases List.mem_singleton.mp he with rfl
      exact hgot _ rfl
    · split at he
      · rcases List.mem_cons.mp he with rfl | he
        · exact hgot _ rfl
        · rcases List.mem_append.mp he with he | he
          · exact hscan e (hq e he)
          · rcases List.mem_singleton.mp he with rfl
            exact hdiag _ _ rfl
      · next hres =>
        have hres' : (iree_vm_context_resolve_function heap context
            ((heap module).get_function IREE_VM_FUNCTION_LINKAGE_IMPORT i).2).1
            = IREE_STATUS_OK := not_not.mp hres
        have hexp := resolve_function_exported_by heap context _ hres'
        have hresolve : ∀ e, e = ContextEvent.resolve_import module module_state i
            (iree_vm_context_resolve_function heap context
              ((heap module).get_function IREE_VM_FUNCTION_LINKAGE_IMPORT i).2).2.1 →
            e.retained = none
            ∧ (∀ q l o, e = ContextEvent.get_function q l o → q = module)
            ∧ (∀ q s o f, e = ContextEvent.resolve_import q s o f →
                q = module ∧ exported_by heap (visible_modules context) f) := by
          intro e he
          subst he
          refine ⟨rfl, fun q l o h => (by cases h), fun q s o f h => ?_⟩
          cases h
          exact ⟨rfl, hexp⟩
        split at he
        · rcases List.mem_cons.mp he with rfl | he
          · exact hgot _ rfl
          · rcases List.mem_append.mp he with he | he
            · exact hscan e (hq e he)
            · rcases List.mem_singleton.mp he with rfl
              exact hresolve _ rfl
        · rcases List.mem_cons.mp he with rfl | he
          · exact hgot _ rfl
          · rcases List.mem_append.mp he with he | he
            · exact hscan e (hq e he)
            · rcases List.mem_cons.mp he with rfl | he
              · exact hresolve _ rfl
              · exact ih (i + 1) e he

theorem resolve_module_imports_sources (heap : ModuleHeap) (context : iree_vm_context_t)
    (module module_state : Nat) :
    ∀ e ∈ (iree_vm_context_resolve_module_imports heap context module module_state).2,
      e.retained = none
      ∧ (∀ q l o, e = ContextEvent.get_function q l o → q = module)
      ∧ (∀ q s o f, e = ContextEvent.resolve_import q s o f →
          q = module ∧ exported_by heap (visible_modules context) f) := by
  intro e he
  simp only [iree_vm_context_resolve_module_imports] at he
  rcases List.mem_cons.mp he with rfl | he
  · exact ⟨rfl, fun q l o h => (by cases h), fun q s o f h => (by cases h)⟩
  · exact resolve_module_imports_loop_sources _ _ _ _ _ _ e he


/-- The release of a range of slots makes no query for an import, no
`resolve_import` callback and no retain. -/
theorem release_modules_not_import_step (heap : ModuleHeap) (context : iree_vm_context_t)
    (start end_ : Nat) :
    ∀ e ∈ (iree_vm_context_release_modules heap context start end_).2,
      e.is_import_step = false ∧ e.retained = none := by
  have hdeinit : ∀ (l : List Nat), ∀ e ∈ release_modules_deinit heap context l,
      e.is_import_step = false ∧ e.retained = none := by
    intro l
    induction l with
    | nil => intro e he; simp [release_modules_deinit] at he
    | cons i rest ih =>
      intro e he
      simp only [release_modules_deinit] at he
      split at he
      · exact ih e he
      · split at he
        · rcases List.mem_cons.mp he with rfl | he
          · exact ⟨rfl, rfl⟩
          · rcases List.mem_cons.mp he with rfl | he
            · exact ⟨rfl, rfl⟩
            · exact ih e he
        · rcases List.mem_cons.mp he with rfl | he
          · exact ⟨rfl, rfl⟩
          · exact ih e he
  have hfree : ∀ (l : List Nat) (c : iree_vm_context_t),
      ∀ e ∈ (release_modules_free_state l c).2, e.is_import_step = false ∧ e.retained = none := by
    intro l
    induction l with
    | nil => intro c e he; simp [release_modules_free_state] at he
    | cons i rest ih =>
      intro c e he
      simp only [release_modules_free_state] at he
      split at he
      · rcases List.mem_cons.mp he with rfl | he
        · exact ⟨rfl, rfl⟩
        · exact ih _ e he
      · exact ih _ e he
  have hrel : ∀ (l : List Nat) (c : iree_vm_context_t),
      ∀ e ∈ (release_modules_release l c).2, e.is_import_step = false ∧ e.retained = none := by
    intro l
    induction l with
    | nil => intro c e he; simp [release_modules_release] at he
    | cons i rest ih =>
      intro c e he
      simp only [release_modules_release] at he
      split at he
      · rcases List.mem_cons.mp he with rfl | he
        · exact ⟨rfl, rfl⟩
        · exact ih _ e he
      · exact ih _ e he
  intro e he
  simp only [iree_vm_context_release_modules] at he
  rcases List.mem_append.mp he with he | he
  · rcases List.mem_append.mp he with he | he
    · exact hdeinit _ e he
    · exact hfree _ _ e he
  · exact hrel _ _ e he

theorem retained_modules_nil_of_none (events : List ContextEvent)
    (h : ∀ e ∈ events, e.retained = none) : retained_modules events = [] :=
  filterMap_nil_of_forall_none _ _ h

/-- Events that retain nothing and make no `resolve_import` callback do not
change the reading of a trace. -/
theorem imports_from_earlier_append (heap : ModuleHeap) (original : List Nat) :
    ∀ (a b : List ContextEvent) (retained : List Nat),
      (∀ e ∈ a, e.retained = none) →
      (∀ e ∈ a, ∀ q s o f, e = ContextEvent.resolve_import q s o f →
        retained.getLast? = some q ∧ exported_by heap (original ++ retained.dropLast) f) →
      imports_from_earlier heap original retained b →
      imports_from_earlier heap original retained (a ++ b) := by
  intro a
  induction a with
  | nil => intro b retained _ _ hb; exact hb
  | cons e t ih =>
    intro b retained hret hres hb
    have ht := ih b retained (fun x hx => hret x (List.mem_cons_of_mem _ hx))
      (fun x hx => hres x (List.mem_cons_of_mem _ hx)) hb
    have he := hret e (List.mem_cons_self _ _)
    have hr := hres e (List.mem_cons_self _ _)
    rw [List.cons_append]
    cases e with
    | module_retain p => simp [ContextEvent.retained] at he
    | resolve_import q s o f =>
      simp only [imports_from_earlier]
      exact ⟨hr q s o f rfl, ht⟩
    | _ => simpa only [imports_from_earlier] using ht

/-- The reading of a trace at a `resolve_import` callback: the callback is made
on the module retained last, with a function exported by an original module or
by a module retained before the last one. -/
theorem imports_from_earlier_at (heap : ModuleHeap) (original : List Nat) :
    ∀ (pre post : List ContextEvent) (retained : List Nat) (q s : Nat) (o : Int)
      (f : iree_vm_function_t),
      imports_from_earlier heap original retained
        (pre ++ ContextEvent.resolve_import q s o f :: post) →
      (retained ++ retained_modules pre).getLast? = some q
      ∧ exported_by heap (original ++ (retained ++ retained_modules pre).dropLast) f := by
  intro pre
  induction pre with
  | nil =>
    intro post retained q s o f h
    simp only [List.nil_append, imports_from_earlier] at h
    simpa [retained_modules] using h.1
  | cons e t ih =>
    intro post retained q s o f h
    rw [List.cons_append] at h
    cases e with
    | module_retain p =>
      simp only [imports_from_earlier] at h
      have := ih post (retained ++ [p]) q s o f h
      simpa [retained_modules, ContextEvent.retained, List.filterMap_cons] using this
    | resolve_import q2 s2 o2 f2 =>
      simp only [imports_from_earlier] at h
      have := ih post retained q s o f h.2
      simpa [retained_modules, ContextEvent.retained, List.filterMap_cons] using this
    | _ =>
      simp only [imports_from_earlier] at h
      have := ih post retained q s o f h
      simpa [retained_modules, ContextEvent.retained, List.filterMap_cons] using this


theorem imports_from_earlier_of_none (heap : ModuleHeap) (original retained : List Nat)
    (a : List ContextEvent) (h : ∀ e ∈ a, e.is_import_step = false ∧ e.retained = none) :
    imports_from_earlier heap original retained a := by
  have := imports_from_earlier_append heap original a [] retained (fun e he => (h e he).2)
    (fun e he q s o f hq => by
      have := (h e he).1
      rw [hq] at this
      cases this) trivial
  rwa [List.append_nil] at this

theorem exported_by_mono (heap : ModuleHeap) (a b : List Nat) (f : iree_vm_function_t)
    (hsub : ∀ e ∈ a, e ∈ b) (h : exported_by heap a f) : exported_by heap b f := by
  obtain ⟨e, he, name, hname⟩ := h
  exact ⟨e, hsub e he, name, hname⟩

theorem imports_from_earlier_step (heap : ModuleHeap) (original retained : List Nat)
    (module : Nat) (z : List ContextEvent) :
    imports_from_earlier heap original retained
      (ContextEvent.module_retain module :: ContextEvent.alloc_state module :: z)
    ↔ imports_from_earlier heap original (retained ++ [module]) z := by
  simp only [imports_from_earlier]

theorem imports_from_earlier_lookup (heap : ModuleHeap) (original retained : List Nat)
    (module linkage : Nat) (name : String) (z : List ContextEvent) :
    imports_from_earlier heap original retained
      (ContextEvent.lookup_function module linkage name :: z)
    ↔ imports_from_earlier heap original retained z := by
  simp only [imports_from_earlier]

theorem imports_from_earlier_call (heap : ModuleHeap) (original retained : List Nat)
    (module : Nat) (function : iree_vm_function_t) (z : List ContextEvent) :
    imports_from_earlier heap original retained (ContextEvent.call module function :: z)
    ↔ imports_from_earlier heap original retained z := by
  simp only [imports_from_earlier]

/-- The context in which the imports of the batch module of index `i` are
resolved shows the modules that were visible before the step. -/
theorem visible_modules_at_resolution (context : iree_vm_context_t) (oc i module : Nat)
    (hcount : context.count = oc + i) (states : Nat → Nat) :
    visible_modules
      { context with
        modules := Function.update context.modules (oc + i) module
        module_states := states }
    = visible_modules context := by
  refine visible_modules_congr _ context rfl fun k hk => ?_
  have : k ≠ oc + i := by omega
  exact Function.update_noteq this _ _

/-- After the step the module is visible as the last one. -/
theorem visible_modules_after_step (context : iree_vm_context_t) (oc i module : Nat)
    (hcount : context.count = oc + i) (states : Nat → Nat) :
    visible_modules
      { context with
        count := context.count + 1
        modules := Function.update context.modules (oc + i) module
        module_states := states }
    = visible_modules context ++ [module] := by
  refine visible_modules_succ _ context module rfl (fun k hk => ?_) ?_
  · have : k ≠ oc + i := by omega
    exact Function.update_noteq this _ _
  · show Function.update context.modules (oc + i) module context.count = module
    rw [hcount]
    exact Function.update_same _ _ _

/-- The trace of the registration loop resolves imports against earlier modules
only. -/
theorem register_modules_loop_imports_from_earlier (heap : ModuleHeap)
    (allocs : ScratchAllocation) (m : Memory) (oc : Nat) (original : List Nat) :
    ∀ (rest : List Nat) (i : Nat) (context : iree_vm_context_t) (retained : List Nat),
      context.count = oc + i →
      (∀ e ∈ visible_modules context, e ∈ original ++ retained) →
      imports_from_earlier heap original retained
        (register_modules_loop heap allocs m oc rest i context).2.2 := by
  intro rest
  induction rest with
  | nil => intro i context retained _ _; trivial
  | cons module rest ih =>
    intro i context retained hcount hvis
    have hres := resolve_module_imports_sources heap
      { context with
        modules := Function.update context.modules (oc + i) module
        module_states := Function.update
          (Function.update context.module_states (oc + i) 0) (oc + i)
          ((heap module).alloc_state context.allocator).2 }
      module ((heap module).alloc_state context.allocator).2
    rw [visible_modules_at_resolution context oc i module hcount] at hres
    have hsrc : ∀ e ∈ (iree_vm_context_resolve_module_imports heap
        { context with
          modules := Function.update context.modules (oc + i) module
          module_states := Function.update
            (Function.update context.module_states (oc + i) 0) (oc + i)
            ((heap module).alloc_state context.allocator).2 }
        module ((heap module).alloc_state context.allocator).2).2,
        ∀ q s o f, e = ContextEvent.resolve_import q s o f →
          (retained ++ [module]).getLast? = some q
          ∧ exported_by heap (original ++ (retained ++ [module]).dropLast) f := by
      intro e he q s o f hq
      obtain ⟨h1, h2⟩ := (hres e he).2.2 q s o f hq
      refine ⟨by simp [h1], ?_⟩
      rw [List.dropLast_concat]
      exact exported_by_mono heap _ _ f hvis h2
    have hnext : ∀ (states : Nat → Nat),
        imports_from_earlier heap original (retained ++ [module])
          (register_modules_loop heap allocs m oc rest (i + 1)
            { context with
              count := context.count + 1
              modules := Function.update context.modules (oc + i) module
              module_states := states }).2.2 := by
      intro states
      apply ih (i + 1) _ (retained ++ [module]) (by simp only; omega)
      rw [visible_modules_after_step context oc i module hcount]
      intro e he
      rcases List.mem_append.mp he with he | he
      · rcases List.mem_append.mp (hvis e he) with h | h
        · exact List.mem_append_left _ h
        · exact List.mem_append_right _ (List.mem_append_left _ h)
      · exact List.mem_append_right _ (List.mem_append_right _ he)
    have hroll : ∀ (c : iree_vm_context_t),
        imports_from_earlier heap original (retained ++ [module])
          (register_modules_rollback heap c oc i).2 := by
      intro c
      apply imports_from_earlier_of_none
      intro e he
      exact release_modules_not_import_step heap c oc (oc + i) e he
    simp only [register_modules_loop]
    split
    · rw [List.cons_append, List.cons_append, List.nil_append, imports_from_earlier_step]
      exact hroll _
    · split
      · rw [List.append_assoc, List.cons_append, List.cons_append, List.nil_append,
          imports_from_earlier_step]
        exact imports_from_earlier_append heap original _ _ _ (fun e he => (hres e he).1) hsrc
          (hroll _)
      · split
        · split
          · rw [List.append_assoc, List.cons_append, List.cons_append, List.nil_append,
              imports_from_earlier_step]
            apply imports_from_earlier_append heap original _ _ _
              (fun e he => (hres e he).1) hsrc
            rw [imports_from_earlier_lookup, imports_from_earlier_call]
            exact hroll _
          · rw [List.append_assoc, List.cons_append, List.cons_append, List.nil_append,
              imports_from_earlier_step]
            apply imports_from_earlier_append heap original _ _ _
              (fun e he => (hres e he).1) hsrc
            rw [imports_from_earlier_lookup, imports_from_earlier_call]
            exact hnext _
        · rw [List.append_assoc, List.cons_append, List.cons_append, List.nil_append,
            imports_from_earlier_step]
          apply imports_from_earlier_append heap original _ _ _
            (fun e he => (hres e he).1) hsrc
          rw [imports_from_earlier_lookup]
          exact hnext _


theorem retained_modules_cons_retain (module : Nat) (z : List ContextEvent) :
    retained_modules (ContextEvent.module_retain module :: z) = module :: retained_modules z := by
  simp [retained_modules, ContextEvent.retained]

theorem retained_modules_cons_alloc (module : Nat) (z : List ContextEvent) :
    retained_modules (ContextEvent.alloc_state module :: z) = retained_modules z := by
  simp [retained_modules, ContextEvent.retained]

theorem retained_modules_cons_lookup (module linkage : Nat) (name : String)
    (z : List ContextEvent) :
    retained_modules (ContextEvent.lookup_function module linkage name :: z)
      = retained_modules z := by
  simp [retained_modules, ContextEvent.retained]

theorem retained_modules_cons_call (module : Nat) (function : iree_vm_function_t)
    (z : List ContextEvent) :
    retained_modules (ContextEvent.call module function :: z) = retained_modules z := by
  simp [retained_modules, ContextEvent.retained]

/-- The modules the registration loop retains are the first modules of the
batch, in batch order. -/
theorem register_modules_loop_retained_prefix (heap : ModuleHeap) (allocs : ScratchAllocation)
    (m : Memory) (oc : Nat) :
    ∀ (rest : List Nat) (i : Nat) (context : iree_vm_context_t),
      retained_modules (register_modules_loop heap allocs m oc rest i context).2.2 <+: rest := by
  intro rest
  induction rest with
  | nil => intro i context; exact List.prefix_refl _
  | cons module rest ih =>
    intro i context
    have hres := resolve_module_imports_sources heap
      { context with
        modules := Function.update context.modules (oc + i) module
        module_states := Function.update
          (Function.update context.module_states (oc + i) 0) (oc + i)
          ((heap module).alloc_state context.allocator).2 }
      module ((heap module).alloc_state context.allocator).2
    have hR := retained_modules_nil_of_none _ fun e he => (hres e he).1
    have hroll : ∀ (c : iree_vm_context_t),
        retained_modules (register_modules_rollback heap c oc i).2 = [] := by
      intro c
      apply retained_modules_nil_of_none
      intro e he
      exact (release_modules_not_import_step heap c oc (oc + i) e he).2
    have hone : [module] <+: module :: rest := ⟨rest, rfl⟩
    simp only [register_modules_loop]
    split
    · rw [List.cons_append, List.cons_append, List.nil_append, retained_modules_cons_retain,
        retained_modules_cons_alloc, hroll]
      exact hone
    · split
      · rw [List.append_assoc, List.cons_append, List.cons_append, List.nil_append,
          retained_modules_cons_retain, retained_modules_cons_alloc,
          retained_modules_append, hR, hroll]
        exact hone
      · split
        · split
          · rw [List.append_assoc, List.cons_append, List.cons_append, List.nil_append,
              retained_modules_cons_retain, retained_modules_cons_alloc,
              retained_modules_append, hR, retained_modules_cons_lookup,
              retained_modules_cons_call, hroll]
            exact hone
          · rw [List.append_assoc, List.cons_append, List.cons_append, List.nil_append,
              retained_modules_cons_retain, retained_modules_cons_alloc,
              retained_modules_append, hR, retained_modules_cons_lookup,
              retained_modules_cons_call, List.nil_append]
            exact (List.prefix_cons_inj module).mpr (ih _ _)
        · rw [List.append_assoc, List.cons_append, List.cons_append, List.nil_append,
            retained_modules_cons_retain, retained_modules_cons_alloc,
            retained_modules_append, hR, retained_modules_cons_lookup, List.nil_append]
          exact (List.prefix_cons_inj module).mpr (ih _ _)

theorem prefix_with_last (l batch : List Nat) (p : Nat) (h : l <+: batch)
    (hl : l.getLast? = some p) :
    ∃ j, batch[j]? = some p ∧ l = batch.take (j + 1) ∧ l.dropLast = batch.take j := by
  obtain ⟨d, rfl⟩ : ∃ d, l = d ++ [p] := ⟨l.dropLast, (List.dropLast_append_getLast? p hl).symm⟩
  obtain ⟨t, rfl⟩ := h
  refine ⟨d.length, ?_, ?_, ?_⟩
  · rw [List.append_assoc, List.getElem?_append_right (Nat.le_refl _)]
    simp
  · rw [show d.length + 1 = (d ++ [p]).length by simp, List.take_left']
    rfl
  · rw [List.dropLast_concat, List.append_assoc, List.take_left']
    rfl

/-- In the trace of the registration loop, when a `resolve_import` callback is
made, the batch modules up to some index `j` have been retained, the callback
is made on the batch module of index `j`, and the function it passes is
exported by a module that was visible before the loop or by a batch module of
index below `j`. -/
theorem register_modules_loop_resolves_earlier (heap : ModuleHeap) (allocs : ScratchAllocation)
    (m : Memory) (batch : List Nat) (context : iree_vm_context_t)
    (pre post : List ContextEvent) (p s : Nat) (o : Int) (f : iree_vm_function_t)
    (h : (register_modules_loop heap allocs m context.count batch 0 context).2.2
      = pre ++ ContextEvent.resolve_import p s o f :: post) :
    ∃ j, batch[j]? = some p ∧ retained_modules pre = batch.take (j + 1)
      ∧ exported_by heap (visible_modules context ++ batch.take j) f := by
  have hP := register_modules_loop_imports_from_earlier heap allocs m context.count
    (visible_modules context) batch 0 context [] rfl
    (fun e he => by simpa using he)
  rw [h] at hP
  obtain ⟨hlast, hexp⟩ := imports_from_earlier_at heap _ pre post [] p s o f hP
  rw [List.nil_append] at hlast hexp
  have hpre : retained_modules pre <+: batch := by
    have := register_modules_loop_retained_prefix heap allocs m context.count batch 0 context
    rw [h, retained_modules_append] at this
    exact (List.prefix_append _ _).trans this
  obtain ⟨j, hj, htake, hdrop⟩ := prefix_with_last _ batch p hpre hlast
  exact ⟨j, hj, htake, by rw [← hdrop]; exact hexp⟩


/-- When no visible module has the module part of a name, the name resolves to
NOT_FOUND. -/
theorem resolve_function_missing (heap : ModuleHeap) (context : iree_vm_context_t)
    (full_name : String) (hsplit : (iree_string_view_split full_name '.').1 ≠ -1)
    (hmissing : ∀ q ∈ visible_modules context,
      (heap q).name ≠ (iree_string_view_split full_name '.').2.1) :
    (iree_vm_context_resolve_function heap context full_name).1 = IREE_STATUS_NOT_FOUND := by
  have h := resolve_function_last_named heap context full_name hsplit
  rw [last_named_none heap _ _ hmissing] at h
  simp only [Prod.mk.injEq] at h
  exact h.1

/-- The import loop of a module one of whose imports names no visible module
does not return OK, and returns NOT_FOUND when it gets as far as asking for that
import. -/
theorem resolve_module_imports_loop_missing (heap : ModuleHeap) (context : iree_vm_context_t)
    (module module_state : Nat) (ordinal : Int) (full_name : String)
    (hget : (heap module).get_function IREE_VM_FUNCTION_LINKAGE_IMPORT ordinal
      = (IREE_STATUS_OK, full_name))
    (hsplit : (iree_string_view_split full_name '.').1 ≠ -1)
    (hmissing : ∀ q ∈ visible_modules context,
      (heap q).name ≠ (iree_string_view_split full_name '.').2.1) :
    ∀ (remaining : Nat) (i : Int), i ≤ ordinal → ordinal < i + remaining →
      (iree_vm_context_resolve_module_imports_loop heap context module module_state
        remaining i).1 ≠ IREE_STATUS_OK
      ∧ (ContextEvent.get_function module IREE_VM_FUNCTION_LINKAGE_IMPORT ordinal
          ∈ (iree_vm_context_resolve_module_imports_loop heap context module module_state
              remaining i).2 →
        (iree_vm_context_resolve_module_imports_loop heap context module module_state
          remaining i).1 = IREE_STATUS_NOT_FOUND) := by
  have hnf := resolve_function_missing heap context full_name hsplit hmissing
  intro remaining
  induction remaining with
  | zero => intro i h1 h2; simp at h2; omega
  | succ remaining ih =>
    intro i h1 h2
    by_cases hi : i = ordinal
    · subst hi
      simp only [iree_vm_context_resolve_module_imports_loop, hget]
      rw [if_neg (by decide), if_pos (by rw [hnf]; decide)]
      exact ⟨by rw [hnf]; decide, fun _ => hnf⟩
    · have hq := resolve_function_not_import_step heap context
        ((heap module).get_function IREE_VM_FUNCTION_LINKAGE_IMPORT i).2
      have hne : ContextEvent.get_function module IREE_VM_FUNCTION_LINKAGE_IMPORT ordinal
          ≠ ContextEvent.get_function module IREE_VM_FUNCTION_LINKAGE_IMPORT i := by
        intro h
        injection h with _ _ h3
        exact hi h3.symm
      have hscan : ContextEvent.get_function module IREE_VM_FUNCTION_LINKAGE_IMPORT ordinal
          ∉ (iree_vm_context_resolve_function heap context
              ((heap module).get_function IREE_VM_FUNCTION_LINKAGE_IMPORT i).2).2.2 := by
        intro h
        have := (hq _ h).1
        cases this
      simp only [iree_vm_context_resolve_module_imports_loop]
      split
      · next hg =>
        refine ⟨hg, fun h => ?_⟩
        exact absurd (List.mem_singleton.mp h) hne
      · split
        · next hr =>
          refine ⟨hr, fun h => ?_⟩
          rcases List.mem_cons.mp h with h | h
          · exact absurd h hne
          · rcases List.mem_append.mp h with h | h
            · exact absurd h hscan
            · cases List.mem_singleton.mp h
        · split
          · next hs =>
            refine ⟨hs, fun h => ?_⟩
            rcases List.mem_cons.mp h with h | h
            · exact absurd h hne
            · rcases List.mem_append.mp h with h | h
              · exact absurd h hscan
              · cases List.mem_singleton.mp h
          · obtain ⟨ih1, ih2⟩ := ih (i + 1) (by omega) (by push_cast at h2 ⊢; omega)
            refine ⟨ih1, fun h => ?_⟩
            rcases List.mem_cons.mp h with h | h
            · exact absurd h hne
            · rcases List.mem_append.mp h with h | h
              · exact absurd h hscan
              · rcases List.mem_cons.mp h with h | h
                · cases h
                · exact ih2 h

theorem resolve_module_imports_missing (heap : ModuleHeap) (context : iree_vm_context_t)
    (module module_state : Nat) (ordinal : Int) (full_name : String)
    (h0 : 0 ≤ ordinal) (h1 : ordinal < (heap module).signature.import_function_count)
    (hget : (heap module).get_function IREE_VM_FUNCTION_LINKAGE_IMPORT ordinal
      = (IREE_STATUS_OK, full_name))
    (hsplit : (iree_string_view_split full_name '.').1 ≠ -1)
    (hmissing : ∀ q ∈ visible_modules context,
      (heap q).name ≠ (iree_string_view_split full_name '.').2.1) :
    (iree_vm_context_resolve_module_imports heap context module module_state).1
      ≠ IREE_STATUS_OK
    ∧ (ContextEvent.get_function module IREE_VM_FUNCTION_LINKAGE_IMPORT ordinal
        ∈ (iree_vm_context_resolve_module_imports heap context module module_state).2 →
      (iree_vm_context_resolve_module_imports heap context module module_state).1
        = IREE_STATUS_NOT_FOUND) := by
  obtain ⟨a, b⟩ := resolve_module_imports_loop_missing heap context module module_state ordinal
    full_name hget hsplit hmissing (heap module).signature.import_function_count.toNat 0 h0
    (by rw [Int.toNat_of_nonneg (by omega)]; omega)
  simp only [iree_vm_context_resolve_module_imports]
  refine ⟨a, fun h => ?_⟩
  rcases List.mem_cons.mp h with h | h
  · cases h
  · exact b h


/-- A registration loop over a batch in which a module has an import that names
no module visible before the loop and no earlier module of the batch does not
return OK, and returns NOT_FOUND when it gets as far as asking that module for
the import. -/
theorem register_modules_loop_missing_exporter (heap : ModuleHeap) (allocs : ScratchAllocation)
    (m : Memory) (oc p : Nat) (ordinal : Int) (full_name : String)
    (h0 : 0 ≤ ordinal) (h1 : ordinal < (heap p).signature.import_function_count)
    (hget : (heap p).get_function IREE_VM_FUNCTION_LINKAGE_IMPORT ordinal
      = (IREE_STATUS_OK, full_name))
    (hsplit : (iree_string_view_split full_name '.').1 ≠ -1) :
    ∀ (rest : List Nat) (i : Nat) (context : iree_vm_context_t) (j : Nat),
      context.count = oc + i → rest[j]? = some p →
      (∀ q ∈ visible_modules context ++ rest.take j,
        (heap q).name ≠ (iree_string_view_split full_name '.').2.1) →
      (register_modules_loop heap allocs m oc rest i context).1 ≠ IREE_STATUS_OK
      ∧ (ContextEvent.get_function p IREE_VM_FUNCTION_LINKAGE_IMPORT ordinal
          ∈ (register_modules_loop heap allocs m oc rest i context).2.2 →
        (register_modules_loop heap allocs m oc rest i context).1 = IREE_STATUS_NOT_FOUND) := by
  intro rest
  induction rest with
  | nil => intro i context j _ hj; simp at hj
  | cons module rest ih =>
    intro i context j hcount hj hmissing
    have hsrc := resolve_module_imports_sources heap
      { context with
        modules := Function.update context.modules (oc + i) module
        module_states := Function.update
          (Function.update context.module_states (oc + i) 0) (oc + i)
          ((heap module).alloc_state context.allocator).2 }
      module ((heap module).alloc_state context.allocator).2
    have hroll : ∀ (c : iree_vm_context_t),
        ContextEvent.get_function p IREE_VM_FUNCTION_LINKAGE_IMPORT ordinal
          ∉ (register_modules_rollback heap c oc i).2 := by
      intro c h
      have := (release_modules_not_import_step heap c oc (oc + i) _ h).1
      cases this
    have hhead : ∀ z, ContextEvent.get_function p IREE_VM_FUNCTION_LINKAGE_IMPORT ordinal
        ∈ [ContextEvent.module_retain module, ContextEvent.alloc_state module] ++ z →
        ContextEvent.get_function p IREE_VM_FUNCTION_LINKAGE_IMPORT ordinal ∈ z := by
      intro z h
      rcases List.mem_append.mp h with h | h
      · rcases List.mem_cons.mp h with h | h
        · cases h
        · rcases List.mem_cons.mp h with h | h
          · cases h
          · simp at h
      · exact h
    by_cases hx : module = p
    · subst hx
      have hB := resolve_module_imports_missing heap
        { context with
          modules := Function.update context.modules (oc + i) module
          module_states := Function.update
            (Function.update context.module_states (oc + i) 0) (oc + i)
            ((heap module).alloc_state context.allocator).2 }
        module ((heap module).alloc_state context.allocator).2 ordinal full_name h0 h1 hget
        hsplit (by
          rw [visible_modules_at_resolution context oc i module hcount]
          intro q hq
          exact hmissing q (List.mem_append_left _ hq))
      simp only [register_modules_loop]
      split
      · next ha =>
        refine ⟨ha, fun h => ?_⟩
        exact absurd (hhead _ h) (hroll _)
      · split
        · next hr =>
          refine ⟨hr, fun h => ?_⟩
          rw [List.append_assoc] at h
          rcases List.mem_append.mp (hhead _ h) with h | h
          · exact hB.2 h
          · exact absurd h (hroll _)
        · next hr => exact absurd (not_not.mp hr) hB.1
    · cases j with
      | zero =>
        simp only [List.getElem?_cons_zero, Option.some.injEq] at hj
        exact absurd hj hx
      | succ j =>
        simp only [List.getElem?_cons_succ] at hj
        have hR : ContextEvent.get_function p IREE_VM_FUNCTION_LINKAGE_IMPORT ordinal
            ∉ (iree_vm_context_resolve_module_imports heap
              { context with
                modules := Function.update context.modules (oc + i) module
                module_states := Function.update
                  (Function.update context.module_states (oc + i) 0) (oc + i)
                  ((heap module).alloc_state context.allocator).2 }
              module ((heap module).alloc_state context.allocator).2).2 := by
          intro h
          exact hx ((hsrc _ h).2.1 p _ _ rfl).symm
        have hnext : ∀ (states : Nat → Nat),
            (register_modules_loop heap allocs m oc rest (i + 1)
              { context with
                count := context.count + 1
                modules := Function.update context.modules (oc + i) module
                module_states := states }).1 ≠ IREE_STATUS_OK
            ∧ (ContextEvent.get_function p IREE_VM_FUNCTION_LINKAGE_IMPORT ordinal
                ∈ (register_modules_loop heap allocs m oc rest (i + 1)
                    { context with
                      count := context.count + 1
                      modules := Function.update context.modules (oc + i) module
                      module_states := states }).2.2 →
              (register_modules_loop heap allocs m oc rest (i + 1)
                { context with
                  count := context.count + 1
                  modules := Function.update context.modules (oc + i) module
                  module_states := states }).1 = IREE_STATUS_NOT_FOUND) := by
          intro states
          apply ih (i + 1) _ j (by simp only; omega) hj
          rw [visible_modules_after_step context oc i module hcount]
          intro q hq
          apply hmissing q
          rw [List.take_succ_cons]
          rcases List.mem_append.mp hq with hq | hq
          · rcases List.mem_append.mp hq with hq | hq
            · exact List.mem_append_left _ hq
            · rw [List.mem_singleton.mp hq]
              exact List.mem_append_right _ (List.mem_cons_self _ _)
          · exact List.mem_append_right _ (List.mem_cons_of_mem _ hq)
        simp only [register_modules_loop]
        split
        · next ha =>
          refine ⟨ha, fun h => ?_⟩
          exact absurd (hhead _ h) (hroll _)
        · split
          · next hr =>
            refine ⟨hr, fun h => ?_⟩
            rw [List.append_assoc] at h
            rcases List.mem_append.mp (hhead _ h) with h | h
            · exact absurd h hR
            · exact absurd h (hroll _)
          · split
            · split
              · next hs =>
                refine ⟨hs, fun h => ?_⟩
                rw [List.append_assoc] at h
                rcases List.mem_append.mp (hhead _ h) with h | h
                · exact absurd h hR
                · rcases List.mem_cons.mp h with h | h
                  · cases h
                  · rcases List.mem_cons.mp h with h | h
                    · cases h
                    · exact absurd h (hroll _)
              · refine ⟨(hnext _).1, fun h => ?_⟩
                rw [List.append_assoc] at h
                rcases List.mem_append.mp (hhead _ h) with h | h
                · exact absurd h hR
                · rcases List.mem_cons.mp h with h | h
                  · cases h
                  · rcases List.mem_cons.mp h with h | h
                    · cases h
                    · exact (hnext _).2 h
            · refine ⟨(hnext _).1, fun h => ?_⟩
              rw [List.append_assoc] at h
              rcases List.mem_append.mp (hhead _ h) with h | h
              · exact absurd h hR
              · rcases List.mem_cons.mp h with h | h
                · cases h
                · exact (hnext _).2 h


/-- The import loop returns OK when every import it looks at names a visible
module whose last bearer exports the function and the importer accepts it. -/
theorem resolve_module_imports_loop_succeeds (heap : ModuleHeap) (context : iree_vm_context_t)
    (module module_state : Nat) :
    ∀ (remaining : Nat) (i : Int),
      (∀ ordinal : Int, i ≤ ordinal → ordinal < i + remaining →
        import_resolves heap (visible_modules context) module ordinal) →
      (iree_vm_context_resolve_module_imports_loop heap context module module_state
        remaining i).1 = IREE_STATUS_OK := by
  intro remaining
  induction remaining with
  | zero => intro i _; rfl
  | succ remaining ih =>
    intro i h
    obtain ⟨hg, hsplit, e, hlast, hlookup, haccept⟩ := h i (Int.le_refl i) (by push_cast; omega)
    have hres := resolve_function_last_named heap context _ hsplit
    simp only [hlast, Prod.ext_iff] at hres
    simp only [iree_vm_context_resolve_module_imports_loop]
    rw [if_neg (not_not.mpr hg), if_neg (by rw [hres.1, hlookup]; decide),
      if_neg (by rw [hres.2, haccept]; decide)]
    exact ih (i + 1) fun ordinal h1 h2 => h ordinal (by omega) (by push_cast at h2 ⊢; omega)

/-- A registration loop returns OK when every module of the batch registers
against the modules visible before the loop followed by the earlier modules of
the batch. -/
theorem register_modules_loop_succeeds (heap : ModuleHeap) (allocs : ScratchAllocation)
    (m : Memory) (oc : Nat) :
    ∀ (rest : List Nat) (i : Nat) (context : iree_vm_context_t),
      context.count = oc + i →
      (∀ k q, rest[k]? = some q →
        registers_against heap context.allocator (visible_modules context ++ rest.take k) q) →
      (register_modules_loop heap allocs m oc rest i context).1 = IREE_STATUS_OK := by
  intro rest
  induction rest with
  | nil => intro i context _ _; rfl
  | cons module rest ih =>
    intro i context hcount h
    obtain ⟨halloc, himports, hinit⟩ := h 0 module (List.getElem?_cons_zero)
    rw [List.take_zero, List.append_nil] at himports
    rw [register_modules_loop_step heap allocs m oc module rest i context halloc ?_ hinit]
    · apply ih (i + 1) _ (by simp only; omega)
      intro k q hk
      rw [visible_modules_after_step context oc i module hcount, List.append_assoc,
        List.singleton_append, ← List.take_succ_cons]
      exact h (k + 1) q (by simpa using hk)
    · simp only [iree_vm_context_resolve_module_imports]
      apply resolve_module_imports_loop_succeeds
      intro ordinal h1 h2
      rw [visible_modules_at_resolution context oc i module hcount]
      refine himports ordinal h1 ?_
      by_cases hc : 0 ≤ (heap module).signature.import_function_count
      · rw [Int.toNat_of_nonneg hc] at h2; omega
      · rw [Int.toNat_eq_zero.mpr (by omega)] at h2; simp at h2; omega

/-- What a registration of a batch does: it stops before the loop with a
status other than OK and an empty trace, or it runs the registration loop over
the batch on the context, with its storage grown when needed. -/
theorem register_modules_cases (heap : ModuleHeap) (context : iree_vm_context_t)
    (batch : List Nat) (allocs : ScratchAllocation) (m : Memory) (r : RegisterResult)
    (hr : iree_vm_context_register_modules heap (some context) (some batch) batch.length
      allocs m = some r) :
    (r.status ≠ IREE_STATUS_OK ∧ r.events = [])
    ∨ ∃ g : iree_vm_context_t, g.count = context.count ∧ g.allocator = context.allocator
        ∧ visible_modules g = visible_modules context
        ∧ r.status = (register_modules_loop heap allocs m g.count batch 0 g).1
        ∧ r.events = (register_modules_loop heap allocs m g.count batch 0 g).2.2 := by
  have hgrown : ∀ g : iree_vm_context_t,
      g = (if context.count + batch.length > context.capacity then
        register_modules_grow context batch.length else context) →
      g.count = context.count ∧ g.allocator = context.allocator ∧
      visible_modules g = visible_modules context := by
    intro g hg
    split at hg
    · subst hg
      obtain ⟨h1, h2, h3⟩ := register_modules_grow_keeps context batch.length
      exact ⟨h1, h2, visible_modules_congr _ _ h1 fun k hk => (h3 k hk).1⟩
    · subst hg; exact ⟨rfl, rfl, rfl⟩
  revert hr
  simp only [iree_vm_context_register_modules]
  rw [if_neg (fun hc => by simp at hc)]
  cases modules_null_check (some batch) batch.length 0 with
  | none => intro h; cases h
  | some b =>
    cases b with
    | false =>
      intro h
      simp only [Option.some.injEq] at h
      subst h
      exact Or.inl ⟨fun h => (by cases h), rfl⟩
    | true =>
      simp only
      by_cases hroom : context.count + batch.length > context.capacity ∧ context.is_static = true
      · rw [if_pos hroom]
        intro h
        simp only [Option.some.injEq] at h
        subst h
        exact Or.inl ⟨fun h => (by cases h), rfl⟩
      · rw [if_neg hroom]
        generalize hg : (if context.count + batch.length > context.capacity then
          register_modules_grow context batch.length else context) = g
        obtain ⟨g1, g2, g3⟩ := hgrown g hg.symm
        by_cases ha : allocs.stack_malloc ≠ IREE_STATUS_OK
        · rw [if_pos ha]
          intro h
          simp only [Option.some.injEq] at h
          subst h
          exact Or.inl ⟨ha, rfl⟩
        · rw [if_neg ha]
          by_cases hs : (scratch_stack g allocs).1 ≠ IREE_STATUS_OK
          · rw [if_pos hs]
            intro h
            simp only [Option.some.injEq] at h
            subst h
            exact Or.inl ⟨hs, rfl⟩
          · rw [if_neg hs]
            intro h
            simp only [Option.some.injEq, Option.getD_some, List.take_length] at h
            subst h
            exact Or.inr ⟨g, g1, g2, g3, rfl, rfl⟩

/-- A registration of non-null modules that fit the context, with a scratch
stack that can be allocated, runs the registration loop over the batch. -/
theorem register_modules_runs_loop (heap : ModuleHeap) (context : iree_vm_context_t)
    (batch : List Nat) (allocs : ScratchAllocation) (m : Memory)
    (hnz : ∀ p ∈ batch, p ≠ 0)
    (hroom : ¬ (context.count + batch.length > context.capacity ∧ context.is_static = true))
    (hallocs : allocs.stack_malloc = IREE_STATUS_OK
      ∧ allocs.storage_malloc.1 = IREE_STATUS_OK) :
    ∃ g : iree_vm_context_t, g.count = context.count ∧ g.allocator = context.allocator
      ∧ visible_modules g = visible_modules context
      ∧ iree_vm_context_register_modules heap (some context) (some batch) batch.length
          allocs m
        = some { status := (register_modules_loop heap allocs m g.count batch 0 g).1,
                 context := some (register_modules_loop heap allocs m g.count batch 0 g).2.1,
                 events := (register_modules_loop heap allocs m g.count batch 0 g).2.2 } := by
  have hgrown : ∀ g : iree_vm_context_t,
      g = (if context.count + batch.length > context.capacity then
        register_modules_grow context batch.length else context) →
      g.count = context.count ∧ g.allocator = context.allocator ∧
      visible_modules g = visible_modules context := by
    intro g hg
    split at hg
    · subst hg
      obtain ⟨h1, h2, h3⟩ := register_modules_grow_keeps context batch.length
      exact ⟨h1, h2, visible_modules_congr _ _ h1 fun k hk => (h3 k hk).1⟩
    · subst hg; exact ⟨rfl, rfl, rfl⟩
  obtain ⟨g1, g2, g3⟩ := hgrown _ rfl
  refine ⟨_, g1, g2, g3, ?_⟩
  simp only [iree_vm_context_register_modules]
  rw [if_neg (fun hc => by simp at hc),
    modules_null_check_of_nonnull batch hnz batch.length 0 (by omega)]
  simp only
  rw [if_neg hroom,
    if_neg (not_not.mpr hallocs.1), if_neg (not_not.mpr (scratch_stack_ok _ allocs hallocs.2))]
  simp only [Option.getD_some, List.take_length]


/-- The status of a creation over a batch is, when the creation gets as far as
registering, the status of the registration of the batch with the new context,
which is static when the batch is not empty, has room for the batch and shows
no module. -/
theorem create_with_modules_cases (heap : ModuleHeap) (instance_ptr : Nat) (batch : List Nat)
    (allocator : Nat) (context_malloc : iree_status_t × Nat) (next_context_id : Int)
    (register_allocs destroy_allocs : ScratchAllocation) (m : Memory) (r : CreateResult)
    (hcreate : iree_vm_context_create_with_modules heap instance_ptr (some batch) batch.length
      allocator true context_malloc next_context_id register_allocs destroy_allocs m = some r) :
    r.status ≠ IREE_STATUS_OK
    ∨ ∃ (c : iree_vm_context_t) (registered : RegisterResult),
        c.allocator = allocator ∧ visible_modules c = []
        ∧ iree_vm_context_register_modules heap (some c) (some batch) batch.length
            register_allocs m = some registered
        ∧ r.status = registered.status := by
  revert hcreate
  simp only [iree_vm_context_create_with_modules]
  rw [if_neg (by decide)]
  by_cases hi : instance_ptr = 0
  · rw [if_pos hi]
    intro h
    simp only [Option.some.injEq] at h
    subst h
    exact Or.inl fun h => by cases h
  · rw [if_neg hi, if_neg (fun hc => by simp at hc)]
    cases modules_null_check (some batch) batch.length 0 with
    | none => intro h; cases h
    | some b =>
      cases b with
      | false =>
        intro h
        simp only [Option.some.injEq] at h
        subst h
        exact Or.inl fun h => by cases h
      | true =>
        simp only
        by_cases hm : context_malloc.1 ≠ IREE_STATUS_OK
        · rw [if_pos hm]
          intro h
          simp only [Option.some.injEq] at h
          subst h
          exact Or.inl hm
        · rw [if_neg hm]
          cases hreg : iree_vm_context_register_modules heap
              (some { address := context_malloc.2, instance_ptr := instance_ptr,
                      allocator := allocator, context_id := next_context_id,
                      is_static := decide (batch.length > 0), count := 0,
                      capacity := batch.length,
                      modules := fun _ => 0, module_states := fun _ => 0 })
              (some batch) batch.length register_allocs m with
          | none => intro h; cases h
          | some registered =>
            simp only
            intro h
            refine Or.inr ⟨_, registered, ?_, ?_, hreg, ?_⟩
            · rfl
            · rfl
            split at h
            · simp only [Option.some.injEq] at h; subst h; rfl
            · next hs =>
              simp only [Option.some.injEq] at h; subst h
              exact (not_not.mp hs).symm

/-- A creation over non-null modules, with a non-null instance and a context
object that can be allocated, returns the status of the registration of the
batch with the new context. -/
theorem create_with_modules_runs_register (heap : ModuleHeap) (instance_ptr : Nat)
    (batch : List Nat) (allocator : Nat) (context_malloc : iree_status_t × Nat)
    (next_context_id : Int) (register_allocs destroy_allocs : ScratchAllocation) (m : Memory)
    (registered : RegisterResult)
    (hinstance : instance_ptr ≠ 0) (hnz : ∀ p ∈ batch, p ≠ 0)
    (hmalloc : context_malloc.1 = IREE_STATUS_OK)
    (hreg : iree_vm_context_register_modules heap
      (some { address := context_malloc.2, instance_ptr := instance_ptr,
              allocator := allocator, context_id := next_context_id,
              is_static := decide (batch.length > 0), count := 0, capacity := batch.length,
              modules := fun _ => 0, module_states := fun _ => 0 })
      (some batch) batch.length register_allocs m = some registered) :
    (iree_vm_context_create_with_modules heap instance_ptr (some batch) batch.length
      allocator true context_malloc next_context_id register_allocs destroy_allocs m).map
      (fun r => r.status) = some registered.status := by
  simp only [iree_vm_context_create_with_modules]
  rw [if_neg (by decide), if_neg hinstance, if_neg (fun hc => by simp at hc),
    modules_null_check_of_nonnull batch hnz batch.length 0 (by omega)]
  simp only
  rw [if_neg (not_not.mpr hmalloc), hreg]
  simp only
  split
  · rfl
  · next hs => simp only [Option.map_some', (not_not.mp hs)]


/-- In the trace of a registration, every `resolve_import` callback is made on
the batch module retained last and passes a function exported by a module that
was visible before the call or by an earlier module of the batch. -/
theorem register_modules_resolves_earlier (heap : ModuleHeap) (context : iree_vm_context_t)
    (batch : List Nat) (allocs : ScratchAllocation) (m : Memory) (r : RegisterResult)
    (pre post : List ContextEvent) (p s : Nat) (o : Int) (f : iree_vm_function_t)
    (hr : iree_vm_context_register_modules heap (some context) (some batch) batch.length
      allocs m = some r)
    (h : r.events = pre ++ ContextEvent.resolve_import p s o f :: post) :
    ∃ j, batch[j]? = some p ∧ retained_modules pre = batch.take (j + 1)
      ∧ exported_by heap (visible_modules context ++ batch.take j) f := by
  rcases register_modules_cases heap context batch allocs m r hr with ⟨_, he⟩ | ⟨g, _, _, g3, _, he⟩
  · rw [he] at h
    cases pre <;> cases h
  · rw [he] at h
    have := register_modules_loop_resolves_earlier heap allocs m batch g pre post p s o f h
    rwa [g3] at this

/-- A registration of a batch in which a module has an import that names no
module visible before the call and no earlier module of the batch does not
return OK, and returns NOT_FOUND when it gets as far as asking that module for
the import. -/
theorem register_modules_missing_exporter (heap : ModuleHeap) (context : iree_vm_context_t)
    (batch : List Nat) (allocs : ScratchAllocation) (m : Memory) (r : RegisterResult)
    (j p : Nat) (ordinal : Int) (full_name : String)
    (hr : iree_vm_context_register_modules heap (some context) (some batch) batch.length
      allocs m = some r)
    (hj : batch[j]? = some p)
    (h0 : 0 ≤ ordinal) (h1 : ordinal < (heap p).signature.import_function_count)
    (hget : (heap p).get_function IREE_VM_FUNCTION_LINKAGE_IMPORT ordinal
      = (IREE_STATUS_OK, full_name))
    (hsplit : (iree_string_view_split full_name '.').1 ≠ -1)
    (hmissing : ∀ q ∈ visible_modules context ++ batch.take j,
      (heap q).name ≠ (iree_string_view_split full_name '.').2.1) :
    r.status ≠ IREE_STATUS_OK
    ∧ (ContextEvent.get_function p IREE_VM_FUNCTION_LINKAGE_IMPORT ordinal ∈ r.events →
      r.status = IREE_STATUS_NOT_FOUND) := by
  rcases register_modules_cases heap context batch allocs m r hr with
    ⟨hs, he⟩ | ⟨g, _, _, g3, hs, he⟩
  · refine ⟨hs, fun h => ?_⟩
    rw [he] at h
    cases h
  · rw [hs, he]
    exact register_modules_loop_missing_exporter heap allocs m g.count p ordinal full_name h0 h1
      hget hsplit batch 0 g j rfl hj (by rwa [g3])

/-- A registration of non-null modules that fit the context returns OK when
every module of the batch registers against the modules visible before the call
followed by the earlier modules of the batch. -/
theorem register_modules_succeeds (heap : ModuleHeap) (context : iree_vm_context_t)
    (batch : List Nat) (allocs : ScratchAllocation) (m : Memory)
    (hnz : ∀ p ∈ batch, p ≠ 0)
    (hroom : ¬ (context.count + batch.length > context.capacity ∧ context.is_static = true))
    (hallocs : allocs.stack_malloc = IREE_STATUS_OK
      ∧ allocs.storage_malloc.1 = IREE_STATUS_OK)
    (h : ∀ k q, batch[k]? = some q →
      registers_against heap context.allocator (visible_modules context ++ batch.take k) q) :
    ∃ r, iree_vm_context_register_modules heap (some context) (some batch) batch.length
        allocs m = some r ∧ r.status = IREE_STATUS_OK := by
  obtain ⟨g, _, g2, g3, hreg⟩ := register_modules_runs_loop heap context batch allocs m hnz
    hroom hallocs
  refine ⟨_, hreg, ?_⟩
  apply register_modules_loop_succeeds heap allocs m g.count batch 0 g rfl
  intro k q hk
  rw [g2, g3]
  exact h k q hk

/-- The import loop asks for an import when the imports of lower ordinal
resolve. -/
theorem resolve_module_imports_loop_reaches (heap : ModuleHeap) (context : iree_vm_context_t)
    (module module_state : Nat) (ordinal : Int) :
    ∀ (remaining : Nat) (i : Int), i ≤ ordinal → ordinal < i + remaining →
      (∀ o : Int, i ≤ o → o < ordinal →
        import_resolves heap (visible_modules context) module o) →
      ContextEvent.get_function module IREE_VM_FUNCTION_LINKAGE_IMPORT ordinal
        ∈ (iree_vm_context_resolve_module_imports_loop heap context module module_state
            remaining i).2 := by
  intro remaining
  induction remaining with
  | zero => intro i h1 h2; simp at h2; omega
  | succ remaining ih =>
    intro i h1 h2 h
    simp only [iree_vm_context_resolve_module_imports_loop]
    by_cases hi : i = ordinal
    · subst hi
      split
      · exact List.mem_singleton.mpr rfl
      · split
        · exact List.mem_cons_self _ _
        · split
          · exact List.mem_cons_self _ _
          · exact List.mem_cons_self _ _
    · obtain ⟨hg, hsplit, e, hlast, hlookup, haccept⟩ := h i (Int.le_refl i) (by omega)
      have hres := resolve_function_last_named heap context _ hsplit
      simp only [hlast, Prod.ext_iff] at hres
      rw [if_neg (not_not.mpr hg), if_neg (by rw [hres.1, hlookup]; decide),
        if_neg (by rw [hres.2, haccept]; decide)]
      apply List.mem_cons_of_mem
      apply List.mem_append_right
      apply List.mem_cons_of_mem
      exact ih (i + 1) (by omega) (by push_cast at h2 ⊢; omega)
        fun o h3 h4 => h o (by omega) h4

theorem resolve_module_imports_reaches (heap : ModuleHeap) (context : iree_vm_context_t)
    (module module_state : Nat) (ordinal : Int)
    (h0 : 0 ≤ ordinal) (h1 : ordinal < (heap module).signature.import_function_count)
    (h : ∀ o : Int, 0 ≤ o → o < ordinal →
      import_resolves heap (visible_modules context) module o) :
    ContextEvent.get_function module IREE_VM_FUNCTION_LINKAGE_IMPORT ordinal
      ∈ (iree_vm_context_resolve_module_imports heap context module module_state).2 := by
  simp only [iree_vm_context_resolve_module_imports]
  apply List.mem_cons_of_mem
  exact resolve_module_imports_loop_reaches heap context module module_state ordinal _ 0 h0
    (by rw [Int.toNat_of_nonneg (by omega)]; omega) h

theorem resolve_module_imports_succeeds (heap : ModuleHeap) (context : iree_vm_context_t)
    (module module_state : Nat)
    (h : ∀ ordinal : Int, 0 ≤ ordinal →
      ordinal < (heap module).signature.import_function_count →
      import_resolves heap (visible_modules context) module ordinal) :
    (iree_vm_context_resolve_module_imports heap context module module_state).1
      = IREE_STATUS_OK := by
  simp only [iree_vm_context_resolve_module_imports]
  apply resolve_module_imports_loop_succeeds
  intro ordinal h1 h2
  refine h ordinal h1 ?_
  by_cases hc : 0 ≤ (heap module).signature.import_function_count
  · rw [Int.toNat_of_nonneg hc] at h2; omega
  · rw [Int.toNat_eq_zero.mpr (by omega)] at h2; simp at h2; omega

/-- The registration loop gets as far as asking a batch module for an import
when the batch modules before it register, its own state can be allocated and
its imports of lower ordinal resolve. -/
theorem register_modules_loop_reaches (heap : ModuleHeap) (allocs : ScratchAllocation)
    (m : Memory) (oc p : Nat) (ordinal : Int)
    (h0 : 0 ≤ ordinal) (h1 : ordinal < (heap p).signature.import_function_count) :
    ∀ (rest : List Nat) (i : Nat) (context : iree_vm_context_t) (j : Nat),
      context.count = oc + i → rest[j]? = some p →
      (∀ k q, k < j → rest[k]? = some q →
        registers_against heap context.allocator (visible_modules context ++ rest.take k) q) →
      ((heap p).alloc_state context.allocator).1 = IREE_STATUS_OK →
      (∀ o : Int, 0 ≤ o → o < ordinal →
        import_resolves heap (visible_modules context ++ rest.take j) p o) →
      ContextEvent.get_function p IREE_VM_FUNCTION_LINKAGE_IMPORT ordinal
        ∈ (register_modules_loop heap allocs m oc rest i context).2.2 := by
  intro rest
  induction rest with
  | nil => intro i context j _ hj; simp at hj
  | cons module rest ih =>
    intro i context j hcount hj hbefore halloc himports
    cases j with
    | zero =>
      simp only [List.getElem?_cons_zero, Option.some.injEq] at hj
      subst hj
      rw [List.take_zero, List.append_nil] at himports
      have hR := resolve_module_imports_reaches heap
        { context with
          modules := Function.update context.modules (oc + i) module
          module_states := Function.update
            (Function.update context.module_states (oc + i) 0) (oc + i)
            ((heap module).alloc_state context.allocator).2 }
        module ((heap module).alloc_state context.allocator).2 ordinal h0 h1
        (by rw [visible_modules_at_resolution context oc i module hcount]; exact himports)
      simp only [register_modules_loop]
      rw [if_neg (not_not.mpr halloc)]
      split
      · exact List.mem_append_left _ (List.mem_append_right _ hR)
      · split
        · split
          · exact List.mem_append_left _ (List.mem_append_right _ hR)
          · exact List.mem_append_left _ (List.mem_append_right _ hR)
        · exact List.mem_append_left _ (List.mem_append_right _ hR)
    | succ j =>
      simp only [List.getElem?_cons_succ] at hj
      obtain ⟨ha, hi, hinit⟩ := hbefore 0 module (Nat.succ_pos j) List.getElem?_cons_zero
      rw [List.take_zero, List.append_nil] at hi
      have hres := resolve_module_imports_succeeds heap
        { context with
          modules := Function.update context.modules (oc + i) module
          module_states := Function.update
            (Function.update context.module_states (oc + i) 0) (oc + i)
            ((heap module).alloc_state context.allocator).2 }
        module ((heap module).alloc_state context.allocator).2
        (by rw [visible_modules_at_resolution context oc i module hcount]; exact hi)
      have hnext : ∀ (states : Nat → Nat),
          ContextEvent.get_function p IREE_VM_FUNCTION_LINKAGE_IMPORT ordinal
            ∈ (register_modules_loop heap allocs m oc rest (i + 1)
                { context with
                  count := context.count + 1
                  modules := Function.update context.modules (oc + i) module
                  module_states := states }).2.2 := by
        intro states
        apply ih (i + 1) _ j (by simp only; omega) hj
        · intro k q hk hq
          rw [visible_modules_after_step context oc i module hcount, List.append_assoc,
            List.singleton_append, ← List.take_succ_cons]
          exact hbefore (k + 1) q (by omega) (by simpa using hq)
        · exact halloc
        · intro o ho1 ho2
          rw [visible_modules_after_step context oc i module hcount, List.append_assoc,
            List.singleton_append, ← List.take_succ_cons]
          exact himports o ho1 ho2
      simp only [register_modules_loop]
      rw [if_neg (not_not.mpr ha), if_neg (not_not.mpr hres)]
      split
      · next hx =>
        split
        · next hs => exact absurd (hinit hx _ _) hs
        · apply List.mem_append_right
          apply List.mem_cons_of_mem
          apply List.mem_cons_of_mem
          exact hnext _
      · apply List.mem_append_right
        apply List.mem_cons_of_mem
        exact hnext _

/-- A registration returns NOT_FOUND when the first thing to fail in it is
an import that names no module visible before the call and no earlier module of
the batch: the batch modules before the importer register, the state of the
importer can be allocated and its imports of lower ordinal resolve. -/
theorem register_modules_first_missing (heap : ModuleHeap) (context : iree_vm_context_t)
    (batch : List Nat) (allocs : ScratchAllocation) (m : Memory)
    (j p : Nat) (ordinal : Int) (full_name : String)
    (hnz : ∀ q ∈ batch, q ≠ 0)
    (hroom : ¬ (context.count + batch.length > context.capacity ∧ context.is_static = true))
    (hallocs : allocs.stack_malloc = IREE_STATUS_OK
      ∧ allocs.storage_malloc.1 = IREE_STATUS_OK)
    (hj : batch[j]? = some p)
    (hbefore : ∀ k q, k < j → batch[k]? = some q →
      registers_against heap context.allocator (visible_modules context ++ batch.take k) q)
    (halloc : ((heap p).alloc_state context.allocator).1 = IREE_STATUS_OK)
    (hlower : ∀ o : Int, 0 ≤ o → o < ordinal →
      import_resolves heap (visible_modules context ++ batch.take j) p o)
    (h0 : 0 ≤ ordinal) (h1 : ordinal < (heap p).signature.import_function_count)
    (hget : (heap p).get_function IREE_VM_FUNCTION_LINKAGE_IMPORT ordinal
      = (IREE_STATUS_OK, full_name))
    (hsplit : (iree_string_view_split full_name '.').1 ≠ -1)
    (hmissing : ∀ q ∈ visible_modules context ++ batch.take j,
      (heap q).name ≠ (iree_string_view_split full_name '.').2.1) :
    ∃ r, iree_vm_context_register_modules heap (some context) (some batch) batch.length
        allocs m = some r ∧ r.status = IREE_STATUS_NOT_FOUND := by
  obtain ⟨g, g1, g2, g3, hreg⟩ := register_modules_runs_loop heap context batch allocs m hnz
    hroom hallocs
  refine ⟨_, hreg, ?_⟩
  have hreach := register_modules_loop_reaches heap allocs m g.count p ordinal h0 h1 batch 0 g j
    rfl hj (by rw [g2, g3]; exact hbefore) (by rw [g2]; exact halloc) (by rw [g3]; exact hlower)
  exact (register_modules_loop_missing_exporter heap allocs m g.count p ordinal full_name h0 h1
    hget hsplit batch 0 g j rfl hj (by rwa [g3])).2 hreach

/-- C20: imports resolve only against earlier registrations.
`iree_vm_context_resolve_function` returns OK only with the function of a
visible module, one in a slot below the count. During a registration, whatever
the context (static with room, or dynamic) and the batch, every
`resolve_import` callback is made when the batch modules of index `0..j` have
been retained, on the module of index `j`, with a function exported by a module
registered before the call or by a batch module of index below `j`.
Consequently a batch in which the module of index `j` has an import, of any
ordinal, that names no module registered before and no batch module of index
below `j` (one that comes later in the list, or the module itself) does not
register: the status is never OK, it is NOT_FOUND whenever the registration
gets as far as asking the module for that import, and so it is NOT_FOUND when
nothing fails before: the batch modules before `j` register, the state of
module `j` can be allocated and its imports of lower ordinal resolve. When
every import of every batch module names a module registered before or earlier
in the batch that exports it, and the callbacks succeed, the registration
returns OK. The registration that `iree_vm_context_create_with_modules` runs on
its new, static context fails and succeeds in the same way. -/
theorem imports_resolve_against_earlier_modules (heap : ModuleHeap) :
    (∀ (c : iree_vm_context_t) (name : String),
        (iree_vm_context_resolve_function heap c name).1 = IREE_STATUS_OK →
        ∃ e ∈ visible_modules c,
          (heap e).name = (iree_string_view_split name '.').2.1
          ∧ (iree_vm_context_resolve_function heap c name).2.1
            = (iree_vm_module_lookup_function_by_name heap e
                IREE_VM_FUNCTION_LINKAGE_EXPORT (iree_string_view_split name '.').2.2).2)
    ∧ (∀ (context : iree_vm_context_t) (batch : List Nat) (allocs : ScratchAllocation)
        (m : Memory) (r : RegisterResult) (pre post : List ContextEvent) (p s : Nat) (o : Int)
        (f : iree_vm_function_t),
        iree_vm_context_register_modules heap (some context) (some batch) batch.length
          allocs m = some r →
        r.events = pre ++ ContextEvent.resolve_import p s o f :: post →
        ∃ j, batch[j]? = some p ∧ retained_modules pre = batch.take (j + 1)
          ∧ exported_by heap (visible_modules context ++ batch.take j) f)
    ∧ (∀ (context : iree_vm_context_t) (batch : List Nat) (allocs : ScratchAllocation)
        (m : Memory) (r : RegisterResult) (j p : Nat) (ordinal : Int) (full_name : String),
        iree_vm_context_register_modules heap (some context) (some batch) batch.length
          allocs m = some r →
        batch[j]? = some p →
        0 ≤ ordinal → ordinal < (heap p).signature.import_function_count →
        (heap p).get_function IREE_VM_FUNCTION_LINKAGE_IMPORT ordinal
          = (IREE_STATUS_OK, full_name) →
        (iree_string_view_split full_name '.').1 ≠ -1 →
        (∀ q ∈ visible_modules context ++ batch.take j,
          (heap q).name ≠ (iree_string_view_split full_name '.').2.1) →
        r.status ≠ IREE_STATUS_OK
        ∧ (ContextEvent.get_function p IREE_VM_FUNCTION_LINKAGE_IMPORT ordinal ∈ r.events →
          r.status = IREE_STATUS_NOT_FOUND))
    ∧ (∀ (context : iree_vm_context_t) (batch : List Nat) (allocs : ScratchAllocation)
        (m : Memory) (j p : Nat) (ordinal : Int) (full_name : String),
        (∀ q ∈ batch, q ≠ 0) →
        ¬ (context.count + batch.length > context.capacity ∧ context.is_static = true) →
        allocs.stack_malloc = IREE_STATUS_OK ∧ allocs.storage_malloc.1 = IREE_STATUS_OK →
        batch[j]? = some p →
        (∀ k q, k < j → batch[k]? = some q →
          registers_against heap context.allocator
            (visible_modules context ++ batch.take k) q) →
        ((heap p).alloc_state context.allocator).1 = IREE_STATUS_OK →
        (∀ o : Int, 0 ≤ o → o < ordinal →
          import_resolves heap (visible_modules context ++ batch.take j) p o) →
        0 ≤ ordinal → ordinal < (heap p).signature.import_function_count →
        (heap p).get_function IREE_VM_FUNCTION_LINKAGE_IMPORT ordinal
          = (IREE_STATUS_OK, full_name) →
        (iree_string_view_split full_name '.').1 ≠ -1 →
        (∀ q ∈ visible_modules context ++ batch.take j,
          (heap q).name ≠ (iree_string_view_split full_name '.').2.1) →
        (iree_vm_context_register_modules heap (some context) (some batch) batch.length
          allocs m).map (fun r => r.status) = some IREE_STATUS_NOT_FOUND)
    ∧ (∀ (context : iree_vm_context_t) (batch : List Nat) (allocs : ScratchAllocation)
        (m : Memory),
        (∀ p ∈ batch, p ≠ 0) →
        ¬ (context.count + batch.length > context.capacity ∧ context.is_static = true) →
        allocs.stack_malloc = IREE_STATUS_OK ∧ allocs.storage_malloc.1 = IREE_STATUS_OK →
        (∀ k q, batch[k]? = some q →
          registers_against heap context.allocator
            (visible_modules context ++ batch.take k) q) →
        (iree_vm_context_register_modules heap (some context) (some batch) batch.length
          allocs m).map (fun r => r.status) = some IREE_STATUS_OK)
    ∧ (∀ (instance_ptr : Nat) (batch : List Nat) (allocator : Nat)
        (context_malloc : iree_status_t × Nat) (next_context_id : Int)
        (register_allocs destroy_allocs : ScratchAllocation) (m : Memory) (r : CreateResult)
        (j p : Nat) (ordinal : Int) (full_name : String),
        iree_vm_context_create_with_modules heap instance_ptr (some batch) batch.length
          allocator true context_malloc next_context_id register_allocs destroy_allocs m
          = some r →
        batch[j]? = some p →
        0 ≤ ordinal → ordinal < (heap p).signature.import_function_count →
        (heap p).get_function IREE_VM_FUNCTION_LINKAGE_IMPORT ordinal
          = (IREE_STATUS_OK, full_name) →
        (iree_string_view_split full_name '.').1 ≠ -1 →
        (∀ q ∈ batch.take j, (heap q).name ≠ (iree_string_view_split full_name '.').2.1) →
        r.status ≠ IREE_STATUS_OK)
    ∧ (∀ (instance_ptr : Nat) (batch : List Nat) (allocator : Nat)
        (context_malloc : iree_status_t × Nat) (next_context_id : Int)
        (register_allocs destroy_allocs : ScratchAllocation) (m : Memory),
        instance_ptr ≠ 0 → (∀ p ∈ batch, p ≠ 0) → context_malloc.1 = IREE_STATUS_OK →
        register_allocs.stack_malloc = IREE_STATUS_OK
          ∧ register_allocs.storage_malloc.1 = IREE_STATUS_OK →
        (∀ k q, batch[k]? = some q → registers_against heap allocator (batch.take k) q) →
        (iree_vm_context_create_with_modules heap instance_ptr (some batch) batch.length
          allocator true context_malloc next_context_id register_allocs destroy_allocs m).map
          (fun r => r.status) = some IREE_STATUS_OK) := by
  refine ⟨?_, ?_, ?_, ?_, ?_, ?_, ?_⟩
  · intro c name hok
    simp only [iree_vm_context_resolve_function] at hok ⊢
    split at hok
    · cases hok
    · next hs =>
      rw [if_neg hs]
      obtain ⟨k, hk, h1, h2⟩ := resolve_function_scan_visible heap c _ _ c.count hok
      exact ⟨c.modules k, (mem_visible_modules c _).mpr ⟨k, hk, rfl⟩, h1, h2⟩
  · intro context batch allocs m r pre post p s o f hr h
    exact register_modules_resolves_earlier heap context batch allocs m r pre post p s o f hr h
  · intro context batch allocs m r j p ordinal full_name hr hj h0 h1 hget hsplit hmissing
    exact register_modules_missing_exporter heap context batch allocs m r j p ordinal full_name
      hr hj h0 h1 hget hsplit hmissing
  · intro context batch allocs m j p ordinal full_name hnz hroom hallocs hj hbefore halloc hlower
      h0 h1 hget hsplit hmissing
    obtain ⟨r, hr, hs⟩ := register_modules_first_missing heap context batch allocs m j p ordinal
      full_name hnz hroom hallocs hj hbefore halloc hlower h0 h1 hget hsplit hmissing
    rw [hr, Option.map_some', hs]
  · intro context batch allocs m hnz hroom hallocs h
    obtain ⟨r, hr, hok⟩ := register_modules_succeeds heap context batch allocs m hnz hroom
      hallocs h
    rw [hr, Option.map_some', hok]
  · intro instance_ptr batch allocator context_malloc next_context_id register_allocs
      destroy_allocs m r j p ordinal full_name hcreate hj h0 h1 hget hsplit hmissing
    rcases create_with_modules_cases heap instance_ptr batch allocator context_malloc
      next_context_id register_allocs destroy_allocs m r hcreate with
      h | ⟨c, registered, _, hvis, hreg, hs⟩
    · exact h
    · rw [hs]
      exact (register_modules_missing_exporter heap c batch register_allocs m registered j p
        ordinal full_name hreg hj h0 h1 hget hsplit (by rwa [hvis, List.nil_append])).1
  · intro instance_ptr batch allocator context_malloc next_context_id register_allocs
      destroy_allocs m hinstance hnz hmalloc hallocs h
    obtain ⟨registered, hreg, hok⟩ := register_modules_succeeds heap
      { address := context_malloc.2, instance_ptr := instance_ptr, allocator := allocator,
        context_id := next_context_id, is_static := decide (batch.length > 0), count := 0,
        capacity := batch.length, modules := fun _ => 0, module_states := fun _ => 0 }
      batch register_allocs m hnz (fun hc => by simp at hc) hallocs
      (fun k q hk => by
        have : visible_modules
            { address := context_malloc.2, instance_ptr := instance_ptr,
              allocator := allocator, context_id := next_context_id,
              is_static := decide (batch.length > 0), count := 0,
              capacity := batch.length, modules := fun _ => 0,
              module_states := fun _ => 0 } = [] := rfl
        rw [this, List.nil_append]
        exact h k q hk)
    rw [create_with_modules_runs_register heap instance_ptr batch allocator context_malloc
      next_context_id register_allocs destroy_allocs m registered hinstance hnz hmalloc hreg,
      hok]

theorem registers_against_lib_then_app :
    ∀ k q, ([10, 11] : List Nat)[k]? = some q →
      registers_against heap_context 1 (([10, 11] : List Nat).take k) q := by
  intro k q hk
  rcases k with _ | _ | k
  · simp only [List.getElem?_cons_zero, Option.some.injEq] at hk
    subst hk
    refine ⟨by decide, fun ordinal h0 h1 => ?_, fun _ _ _ => rfl⟩
    have : (heap_context 10).signature.import_function_count = 0 := rfl
    omega
  · simp only [List.getElem?_cons_succ, List.getElem?_cons_zero, Option.some.injEq] at hk
    subst hk
    refine ⟨by decide, fun ordinal h0 h1 => ?_, fun _ _ _ => rfl⟩
    have hc : (heap_context 11).signature.import_function_count = 1 := rfl
    have : ordinal = 0 := by omega
    subst this
    exact ⟨by decide, by decide, 10, by decide, by decide, fun _ => rfl⟩
  · simp at hk

theorem registers_against_bare_first :
    ∀ k q, k < 1 → ([13, 11, 10] : List Nat)[k]? = some q →
      registers_against heap_context context_dynamic.allocator
        (visible_modules context_dynamic ++ ([13, 11, 10] : List Nat).take k) q := by
  intro k q hk hq
  have : k = 0 := by omega
  subst this
  simp only [List.getElem?_cons_zero, Option.some.injEq] at hq
  subst hq
  refine ⟨by decide, fun ordinal h0 h1 => ?_, fun _ _ _ => rfl⟩
  have : (heap_context 13).signature.import_function_count = 0 := rfl
  omega

theorem imports_resolve_against_earlier_modules_witness :
    (∃ r, iree_vm_context_register_modules heap_context (some context_dynamic) (some [10, 11])
        ([10, 11] : List Nat).length allocs_ok memory_zero = some r
      ∧ r.status = IREE_STATUS_OK
      ∧ r.events =
          [ContextEvent.module_retain 10, ContextEvent.alloc_state 10, ContextEvent.signature 10,
            ContextEvent.lookup_function 10 IREE_VM_FUNCTION_LINKAGE_EXPORT "__init",
            ContextEvent.call 10 (exported_function 10 1),
            ContextEvent.module_retain 11, ContextEvent.alloc_state 11, ContextEvent.signature 11,
            ContextEvent.get_function 11 IREE_VM_FUNCTION_LINKAGE_IMPORT 0,
            ContextEvent.name 10,
            ContextEvent.lookup_function 10 IREE_VM_FUNCTION_LINKAGE_EXPORT "f"]
          ++ ContextEvent.resolve_import 11 111 0 (exported_function 10 0)
            :: [ContextEvent.lookup_function 11 IREE_VM_FUNCTION_LINKAGE_EXPORT "__init",
                ContextEvent.call 11 (exported_function 11 0)]
      ∧ ∃ j, ([10, 11] : List Nat)[j]? = some 11
        ∧ retained_modules
            [ContextEvent.module_retain 10, ContextEvent.alloc_state 10,
              ContextEvent.signature 10,
              ContextEvent.lookup_function 10 IREE_VM_FUNCTION_LINKAGE_EXPORT "__init",
              ContextEvent.call 10 (exported_function 10 1),
              ContextEvent.module_retain 11, ContextEvent.alloc_state 11,
              ContextEvent.signature 11,
              ContextEvent.get_function 11 IREE_VM_FUNCTION_LINKAGE_IMPORT 0,
              ContextEvent.name 10,
              ContextEvent.lookup_function 10 IREE_VM_FUNCTION_LINKAGE_EXPORT "f"]
          = ([10, 11] : List Nat).take (j + 1)
        ∧ exported_by heap_context
            (visible_modules context_dynamic ++ ([10, 11] : List Nat).take j)
            (exported_function 10 0))
    ∧ (∃ r, iree_vm_context_register_modules heap_context (some context_dynamic) (some [11, 10])
        ([11, 10] : List Nat).length allocs_ok memory_zero = some r
      ∧ ContextEvent.get_function 11 IREE_VM_FUNCTION_LINKAGE_IMPORT 0 ∈ r.events
      ∧ r.status ≠ IREE_STATUS_OK
      ∧ (ContextEvent.get_function 11 IREE_VM_FUNCTION_LINKAGE_IMPORT 0 ∈ r.events →
          r.status = IREE_STATUS_NOT_FOUND))
    ∧ (iree_vm_context_register_modules heap_context (some context_dynamic)
        (some [13, 11, 10]) ([13, 11, 10] : List Nat).length allocs_ok memory_zero).map
        (fun r => r.status) = some IREE_STATUS_NOT_FOUND
    ∧ (iree_vm_context_register_modules heap_context (some context_dynamic) (some [10, 11])
        ([10, 11] : List Nat).length allocs_ok memory_zero).map (fun r => r.status)
        = some IREE_STATUS_OK
    ∧ (∃ r, iree_vm_context_create_with_modules heap_context 7 (some [11, 10])
        ([11, 10] : List Nat).length 1 true (IREE_STATUS_OK, 500) 1 allocs_ok allocs_ok
        memory_zero = some r
      ∧ r.status = IREE_STATUS_NOT_FOUND ∧ r.status ≠ IREE_STATUS_OK)
    ∧ (iree_vm_context_create_with_modules heap_context 7 (some [10, 11])
        ([10, 11] : List Nat).length 1 true (IREE_STATUS_OK, 500) 1 allocs_ok allocs_ok
        memory_zero).map (fun r => r.status) = some IREE_STATUS_OK :=
  ⟨⟨_, rfl, by decide, by decide,
      (imports_resolve_against_earlier_modules heap_context).2.1 context_dynamic [10, 11]
        allocs_ok memory_zero _ _
        [ContextEvent.lookup_function 11 IREE_VM_FUNCTION_LINKAGE_EXPORT "__init",
          ContextEvent.call 11 (exported_function 11 0)]
        11 111 0 (exported_function 10 0) rfl (by decide)⟩,
    ⟨_, rfl, by decide,
      (imports_resolve_against_earlier_modules heap_context).2.2.1 context_dynamic [11, 10]
        allocs_ok memory_zero _ 0 11 0 "lib.f" rfl rfl (by decide) (by decide) rfl (by decide)
        (by decide)⟩,
    (imports_resolve_against_earlier_modules heap_context).2.2.2.1 context_dynamic [13, 11, 10]
      allocs_ok memory_zero 1 11 0 "lib.f" (by decide) (by decide) (by decide) rfl
      registers_against_bare_first (by decide) (fun o h1 h2 => absurd h1 (by omega))
      (by decide) (by decide) rfl (by decide) (by decide),
    (imports_resolve_against_earlier_modules heap_context).2.2.2.2.1 context_dynamic [10, 11]
      allocs_ok memory_zero (by decide) (by decide) (by decide) registers_against_lib_then_app,
    ⟨_, rfl, by decide,
      (imports_resolve_against_earlier_modules heap_context).2.2.2.2.2.1 7 [11, 10] 1
        (IREE_STATUS_OK, 500) 1 allocs_ok allocs_ok memory_zero _ 0 11 0 "lib.f" rfl rfl
        (by decide) (by decide) rfl (by decide) (by decide)⟩,
    (imports_resolve_against_earlier_modules heap_context).2.2.2.2.2.2 7 [10, 11] 1
      (IREE_STATUS_OK, 500) 1 allocs_ok allocs_ok memory_zero (by decide) (by decide) rfl
      (by decide) registers_against_lib_then_app⟩

/-! ## Lookup by qualified name and by module -/

/-- The reverse scan returns the lookup result of the module in the greatest
slot below `n` whose name matches. -/
theorem resolve_function_scan_last (heap : ModuleHeap) (context : iree_vm_context_t)
    (module_name function_name : String) (i : Nat)
    (hname : (heap (context.modules i)).name = module_name) :
    ∀ n, i < n → (∀ j, i < j → j < n → (heap (context.modules j)).name ≠ module_name) →
      (iree_vm_context_resolve_function_scan heap context module_name function_name n).1
        = (iree_vm_module_lookup_function_by_name heap (context.modules i)
            IREE_VM_FUNCTION_LINKAGE_EXPORT function_name).1
      ∧ (iree_vm_context_resolve_function_scan heap context module_name function_name n).2.1
        = (iree_vm_module_lookup_function_by_name heap (context.modules i)
            IREE_VM_FUNCTION_LINKAGE_EXPORT function_name).2 := by
  intro n
  induction n with
  | zero => intro h; omega
  | succ k ih =>
    intro hi hlater
    simp only [iree_vm_context_resolve_function_scan]
    by_cases hk : i = k
    · subst hk
      rw [if_pos hname.symm]
      exact ⟨rfl, rfl⟩
    · rw [if_neg (fun hc => hlater k (by omega) (by omega) hc.symm)]
      exact ih (by omega) fun j h1 h2 => hlater j h1 (by omega)

/-- The modelled split cuts a name at its first separator. -/
theorem string_view_split_first (lhs rhs : List Char) (c : Char) (h : c ∉ lhs) :
    iree_string_view_split (String.mk (lhs ++ c :: rhs)) c
      = ((lhs.length : Int), String.mk lhs, String.mk rhs) := by
  have htw : (lhs ++ c :: rhs).takeWhile (fun x => decide (x ≠ c)) = lhs := by
    induction lhs with
    | nil => simp [List.takeWhile]
    | cons a l ih =>
      have ha : a ≠ c := fun hc => h (by rw [hc]; exact List.mem_cons_self _ _)
      have hl : c ∉ l := fun hc => h (List.mem_cons_of_mem _ hc)
      rw [List.cons_append, List.takeWhile_cons, if_pos (by simpa using ha), ih hl]
  have hdrop : ∀ l : List Char, (l ++ c :: rhs).drop (l.length + 1) = rhs := by
    intro l
    induction l with
    | nil => rfl
    | cons a l ih => exact ih
  simp only [iree_string_view_split, String.toList]
  rw [if_pos (by simp), htw, hdrop lhs]

/-- C21: for a name with a separator, split into module name `M` and function
name `f`, `iree_vm_context_resolve_function` returns NOT_FOUND when no module
below the count is named `M`, and otherwise returns exactly the status and
function that the module in the greatest slot named `M` returns for the lookup
of `f`, whatever the modules in lower slots export. The split is at the first
separator: `M.a.b` is module `M`, function `a.b`. -/
theorem resolve_function_last_registered (heap : ModuleHeap) (context : iree_vm_context_t)
    (full_name : String) (hsplit : (iree_string_view_split full_name '.').1 ≠ -1) :
    ((∀ j, j < context.count →
        (heap (context.modules j)).name ≠ (iree_string_view_split full_name '.').2.1) →
      (iree_vm_context_resolve_function heap context full_name).1 = IREE_STATUS_NOT_FOUND)
    ∧ (∀ i, i < context.count →
        (heap (context.modules i)).name = (iree_string_view_split full_name '.').2.1 →
        (∀ j, i < j → j < context.count →
          (heap (context.modules j)).name ≠ (iree_string_view_split full_name '.').2.1) →
        (iree_vm_context_resolve_function heap context full_name).1
          = ((heap (context.modules i)).lookup_function IREE_VM_FUNCTION_LINKAGE_EXPORT
              (iree_string_view_split full_name '.').2.2).1
        ∧ (iree_vm_context_resolve_function heap context full_name).2.1
          = ((heap (context.modules i)).lookup_function IREE_VM_FUNCTION_LINKAGE_EXPORT
              (iree_string_view_split full_name '.').2.2).2)
    ∧ (∀ (lhs rhs : List Char), '.' ∉ lhs →
        iree_string_view_split (String.mk (lhs ++ '.' :: rhs)) '.'
          = ((lhs.length : Int), String.mk lhs, String.mk rhs))
    ∧ iree_string_view_split "M.a.b" '.' = (1, "M", "a.b") := by
  refine ⟨?_, ?_, fun lhs rhs h => string_view_split_first lhs rhs '.' h, by decide⟩
  · intro h
    simp only [iree_vm_context_resolve_function]
    rw [if_neg hsplit]
    exact resolve_function_scan_not_found heap context _ _ context.count h
  · intro i hi hname hlater
    simp only [iree_vm_context_resolve_function]
    rw [if_neg hsplit]
    exact resolve_function_scan_last heap context _ _ i hname context.count hi hlater

theorem resolve_function_last_registered_witness :
    (iree_vm_context_resolve_function heap_shadow context_shadowed "lib.f").1
        = IREE_STATUS_NOT_FOUND
    ∧ ((heap_shadow 10).lookup_function IREE_VM_FUNCTION_LINKAGE_EXPORT "f").1 = IREE_STATUS_OK
    ∧ (iree_vm_context_resolve_function heap_shadow context_shadowed "lib.f").1
        = ((heap_shadow (context_shadowed.modules 1)).lookup_function
            IREE_VM_FUNCTION_LINKAGE_EXPORT (iree_string_view_split "lib.f" '.').2.2).1
    ∧ (iree_vm_context_resolve_function heap_shadow context_shadowed "lib.f").2.1
        = ((heap_shadow (context_shadowed.modules 1)).lookup_function
            IREE_VM_FUNCTION_LINKAGE_EXPORT (iree_string_view_split "lib.f" '.').2.2).2 :=
  ⟨by decide, by decide,
    (resolve_function_last_registered heap_shadow context_shadowed "lib.f" (by decide)).2.1 1
      (by decide) (by decide) (fun j h1 h2 => by
        have : j < 2 := h2
        omega)⟩

/-- What `iree_vm_context_resolve_function` does with the result of the split:
a result of -1 is answered with INVALID_ARGUMENT, a zeroed function and no
callback, whatever modules are registered; any other result starts the reverse
scan with the two parts the split returned. A name without a separator is
split with -1. -/
theorem resolve_function_after_split (heap : ModuleHeap) (context : iree_vm_context_t)
    (name : String) :
    ((iree_string_view_split name '.').1 = -1 →
      iree_vm_context_resolve_function heap context name
        = (IREE_STATUS_INVALID_ARGUMENT, iree_vm_function_zero, []))
    ∧ ((iree_string_view_split name '.').1 ≠ -1 →
      iree_vm_context_resolve_function heap context name
        = iree_vm_context_resolve_function_scan heap context
            (iree_string_view_split name '.').2.1 (iree_string_view_split name '.').2.2
            context.count)
    ∧ ('.' ∉ name.toList → (iree_string_view_split name '.').1 = -1) := by
  refine ⟨fun h => ?_, fun h => ?_, fun h => ?_⟩
  · simp only [iree_vm_context_resolve_function]
    rw [if_pos h]
  · simp only [iree_vm_context_resolve_function]
    rw [if_neg h]
  · simp only [iree_string_view_split]
    rw [if_neg h]

/-- The forward scan finds nothing when no slot from `i` on holds the module. -/
theorem query_module_state_scan_not_found (context : iree_vm_context_t) (module : Nat) :
    ∀ fuel i, (∀ j, i ≤ j → j < i + fuel → context.modules j ≠ module) →
      iree_vm_context_query_module_state_scan context module fuel i
        = (IREE_STATUS_NOT_FOUND, 0) := by
  intro fuel
  induction fuel with
  | zero => intro i _; rfl
  | succ fuel ih =>
    intro i h
    simp only [iree_vm_context_query_module_state_scan]
    rw [if_neg (h i (Nat.le_refl i) (by omega))]
    exact ih (i + 1) fun j h1 h2 => h j (by omega) (by omega)

/-- The forward scan returns the state paired with the first slot that holds
the module. -/
theorem query_module_state_scan_first (context : iree_vm_context_t) (module k : Nat)
    (hk : context.modules k = module) :
    ∀ fuel i, i ≤ k → k < i + fuel → (∀ j, i ≤ j → j < k → context.modules j ≠ module) →
      iree_vm_context_query_module_state_scan context module fuel i
        = (IREE_STATUS_OK, context.module_states k) := by
  intro fuel
  induction fuel with
  | zero => intro i h1 h2; omega
  | succ fuel ih =>
    intro i h1 h2 h
    simp only [iree_vm_context_query_module_state_scan]
    by_cases hik : i = k
    · subst hik
      rw [if_pos hk]
    · rw [if_neg (h i (Nat.le_refl i) (by omega))]
      exact ih (i + 1) (by omega) (by omega) fun j h3 h4 => h j (by omega) h4

/-- C23: `iree_vm_context_query_module_state` returns INVALID_ARGUMENT for a
null resolver; for a context it returns NOT_FOUND when no slot below the count
holds the module pointer, and otherwise OK with the state paired with the
smallest slot below the count that holds it. -/
theorem query_module_state_paired (context : iree_vm_context_t) (module : Nat) :
    (iree_vm_context_query_module_state none module).1 = IREE_STATUS_INVALID_ARGUMENT
    ∧ ((∀ j, j < context.count → context.modules j ≠ module) →
        (iree_vm_context_query_module_state (some context) module).1 = IREE_STATUS_NOT_FOUND)
    ∧ (∀ i, i < context.count → context.modules i = module →
        (∀ j, j < i → context.modules j ≠ module) →
        iree_vm_context_query_module_state (some context) module
          = (IREE_STATUS_OK, context.module_states i)) := by
  refine ⟨rfl, ?_, ?_⟩
  · intro h
    simp only [iree_vm_context_query_module_state]
    rw [query_module_state_scan_not_found context module context.count 0
      fun j _ hj => h j (by omega)]
  · intro i hi hm hfirst
    simp only [iree_vm_context_query_module_state]
    exact query_module_state_scan_first context module i hm context.count 0 (Nat.zero_le i)
      (by omega) fun j _ hj => hfirst j hj

theorem query_module_state_paired_witness :
    iree_vm_context_query_module_state (some context_lib_app) 11 = (IREE_STATUS_OK, 111)
    ∧ context_lib_app.modules 2 = 13
    ∧ (iree_vm_context_query_module_state (some context_lib_app) 13).1
        = IREE_STATUS_NOT_FOUND :=
  ⟨(query_module_state_paired context_lib_app 11).2.2 1 (by decide) (by decide)
      (fun j hj => by
        have hj0 : j = 0 := by omega
        subst hj0
        decide),
    by decide,
    (query_module_state_paired context_lib_app 13).2.1 (fun j hj => by
      have hj2 : j = 0 ∨ j = 1 := by have : j < 2 := hj; omega
      rcases hj2 with rfl | rfl <;> decide)⟩

/-! ## Null parameters -/

/-- The null check stops with `some false` at the first null entry. -/
theorem modules_null_check_false (list : List Nat) (k : Nat) (hk : list[k]? = some 0) :
    ∀ (remaining i : Nat), i ≤ k → k < i + remaining →
      (∀ j, i ≤ j → j < k → ∃ p, list[j]? = some p ∧ p ≠ 0) →
      modules_null_check (some list) remaining i = some false := by
  intro remaining
  induction remaining with
  | zero => intro i h1 h2; omega
  | succ remaining ih =>
    intro i h1 h2 h
    simp only [modules_null_check]
    by_cases hik : i = k
    · subst hik
      rw [hk]
      simp
    · obtain ⟨p, hp, hp0⟩ := h i (Nat.le_refl i) (by omega)
      rw [hp]
      simp only [if_neg hp0]
      exact ih (i + 1) (by omega) (by omega) fun j h3 h4 => h j (by omega) h4

/-- C24 (the code differs): with a null module list and `module_count == 1`
the test `!modules && module_count > 1` of `iree_vm_context_register_modules`
does not fire and the null check reads `modules[0]` through the null pointer:
the call faults instead of returning INVALID_ARGUMENT. The other cases of the
claim hold: a null context, a null list with `module_count >= 2` and a null
entry return INVALID_ARGUMENT with the context unchanged and no callback, and
so does `iree_vm_context_create_with_modules` for a null `out_context`, a null
instance and a null list with `module_count > 0`. -/
theorem register_null_list_single_module_faults (heap : ModuleHeap)
    (context : iree_vm_context_t) (allocs : ScratchAllocation) (m : Memory) :
    iree_vm_context_register_modules heap (some context) none 1 allocs m = none
    ∧ (∀ modules n, (iree_vm_context_register_modules heap none modules n allocs m).map
        (fun r => (r.status, r.events)) = some (IREE_STATUS_INVALID_ARGUMENT, []))
    ∧ (∀ n, 2 ≤ n → iree_vm_context_register_modules heap (some context) none n allocs m
        = some { status := IREE_STATUS_INVALID_ARGUMENT, context := some context,
                 events := [] })
    ∧ (∀ (list : List Nat) (n k : Nat), k < n → list[k]? = some 0 →
        (∀ j, j < k → ∃ p, list[j]? = some p ∧ p ≠ 0) →
        iree_vm_context_register_modules heap (some context) (some list) n allocs m
          = some { status := IREE_STATUS_INVALID_ARGUMENT, context := some context,
                   events := [] })
    ∧ (∀ instance_ptr modules n allocator context_malloc next_context_id destroy_allocs,
        (iree_vm_context_create_with_modules heap instance_ptr modules n allocator false
          context_malloc next_context_id allocs destroy_allocs m).map
          (fun r => (r.status, r.context.isSome, r.events))
          = some (IREE_STATUS_INVALID_ARGUMENT, false, []))
    ∧ (∀ modules n allocator has_out_context context_malloc next_context_id destroy_allocs,
        (iree_vm_context_create_with_modules heap 0 modules n allocator has_out_context
          context_malloc next_context_id allocs destroy_allocs m).map
          (fun r => (r.status, r.context.isSome, r.events))
          = some (IREE_STATUS_INVALID_ARGUMENT, false, []))
    ∧ (∀ instance_ptr n allocator has_out_context context_malloc next_context_id
        destroy_allocs, 0 < n →
        (iree_vm_context_create_with_modules heap instance_ptr none n allocator
          has_out_context context_malloc next_context_id allocs destroy_allocs m).map
          (fun r => (r.status, r.context.isSome, r.events))
          = some (IREE_STATUS_INVALID_ARGUMENT, false, [])) := by
  refine ⟨rfl, fun _ _ => rfl, ?_, ?_, fun _ _ _ _ _ _ _ => rfl, ?_, ?_⟩
  · intro n hn
    simp only [iree_vm_context_register_modules]
    rw [if_pos ⟨trivial, by omega⟩]
  · intro list n k hk hz hbefore
    simp only [iree_vm_context_register_modules]
    rw [if_neg (fun hc => by simp at hc),
      modules_null_check_false list k hz n 0 (Nat.zero_le k) (by omega)
        fun j _ hj => hbefore j hj]
  · intro modules n allocator has_out_context context_malloc next_context_id destroy_allocs
    simp only [iree_vm_context_create_with_modules]
    by_cases ho : has_out_context = false
    · rw [if_pos ho]; rfl
    · rw [if_neg ho, if_pos trivial]; rfl
  · intro instance_ptr n allocator has_out_context context_malloc next_context_id
      destroy_allocs hn
    simp only [iree_vm_context_create_with_modules]
    by_cases ho : has_out_context = false
    · rw [if_pos ho]; rfl
    · rw [if_neg ho]
      by_cases hi : instance_ptr = 0
      · rw [if_pos hi]; rfl
      · rw [if_neg hi, if_pos ⟨trivial, hn⟩]; rfl

theorem register_null_list_single_module_faults_witness :
    iree_vm_context_register_modules heap_context (some context_dynamic) none 1 allocs_ok
        memory_zero = none
    ∧ iree_vm_context_register_modules heap_context (some context_dynamic) none 2 allocs_ok
        memory_zero
      = some { status := IREE_STATUS_INVALID_ARGUMENT, context := some context_dynamic,
               events := [] }
    ∧ iree_vm_context_register_modules heap_context (some context_dynamic) (some [10, 0]) 2
        allocs_ok memory_zero
      = some { status := IREE_STATUS_INVALID_ARGUMENT, context := some context_dynamic,
               events := [] } :=
  ⟨(register_null_list_single_module_faults heap_context context_dynamic allocs_ok
      memory_zero).1,
    (register_null_list_single_module_faults heap_context context_dynamic allocs_ok
      memory_zero).2.2.1 2 (by decide),
    (register_null_list_single_module_faults heap_context context_dynamic allocs_ok
      memory_zero).2.2.2.1 [10, 0] 2 1 (by decide) rfl (fun j hj => by
        have hj0 : j = 0 := by omega
        subst hj0
        exact ⟨10, rfl, by decide⟩)⟩

/-! ## Teardown -/

theorem appended_modules_of_nonnull (context : iree_vm_context_t) (n : Nat)
    (h : ∀ i, i < n → context.modules i ≠ 0) :
    appended_modules context 0 n = (List.range n).map context.modules := by
  unfold appended_modules
  induction n with
  | zero => rfl
  | succ n ih =>
    rw [List.range_succ, List.filterMap_append, List.map_append,
      ih fun i hi => h i (by omega)]
    simp [h n (Nat.lt_succ_self n)]

theorem appended_states_from_zero (context : iree_vm_context_t) (n : Nat) :
    appended_states context 0 n = (List.range n).filterMap fun i =>
      if context.module_states i = 0 then none
      else some (context.modules i, context.module_states i) := by
  unfold appended_states
  simp only [Nat.zero_add]

/-- C25: a destruction of a context that returns OK makes, in this order: the
lookups and calls of the `__deinit` loop, which frees and releases nothing; one
`free_state` for each slot below the count with a non-null state, from slot
`count - 1` down to slot 0, on the module and the state of the slot; one
release for each slot below the count, from the last down to the first; and the
release of the instance. Afterwards every module and state slot below the
count is null. -/
theorem destroy_frees_in_reverse (heap : ModuleHeap) (context : iree_vm_context_t)
    (allocs : ScratchAllocation)
    (hnz : ∀ i, i < context.count → context.modules i ≠ 0)
    (hok : (iree_vm_context_destroy heap (some context) allocs).status = IREE_STATUS_OK) :
    ∃ deinit_events c,
      (iree_vm_context_destroy heap (some context) allocs).events
        = deinit_events
          ++ (((List.range context.count).filterMap fun i =>
                if context.module_states i = 0 then none
                else some (context.modules i, context.module_states i)).map
              fun s => ContextEvent.free_state s.1 s.2).reverse
          ++ ((List.range context.count).map fun i =>
                ContextEvent.module_release (context.modules i)).reverse
          ++ [ContextEvent.instance_release context.instance_ptr]
      ∧ (∀ e ∈ deinit_events, e.is_lifecycle = false)
      ∧ (iree_vm_context_destroy heap (some context) allocs).context = some c
      ∧ ∀ i, i < context.count → c.modules i = 0 ∧ c.module_states i = 0 := by
  revert hok
  simp only [iree_vm_context_destroy]
  split
  · next h => intro hok; exact absurd hok h.2
  · split
    · next h => intro hok; exact absurd hok h.2
    · intro _
      by_cases hpos : context.count > 0
      · rw [if_pos hpos]
        have hrange : context.count - 1 = 0 + (context.count - 1) := by omega
        have hlen : context.count - 1 + 1 = context.count := by omega
        rw [hrange]
        simp only [iree_vm_context_release_modules, release_modules_free_state_range,
          release_modules_release_range]
        rw [hlen]
        have hm : appended_modules
            { context with
              module_states := fun j =>
                if 0 ≤ j ∧ j ≤ 0 + (context.count - 1) then 0 else context.module_states j }
            0 context.count = appended_modules context 0 context.count :=
          appended_modules_congr _ _ _ _ fun _ _ => rfl
        rw [hm, appended_modules_of_nonnull context context.count hnz,
          appended_states_from_zero]
        refine ⟨release_modules_deinit heap context
          (descending_range 0 (0 + (context.count - 1))), _, ?_,
          release_modules_deinit_not_lifecycle heap context _, rfl, ?_⟩
        · simp only [List.map_map]
          rfl
        · intro i hi
          have hin : 0 ≤ i ∧ i ≤ 0 + (context.count - 1) := by omega
          simp only [if_pos hin, and_self]
      · rw [if_neg hpos]
        have h0 : context.count = 0 := by omega
        refine ⟨[], _, ?_, fun e he => absurd he (List.not_mem_nil e), rfl, ?_⟩
        · rw [h0]; rfl
        · intro i hi; omega

theorem destroy_frees_in_reverse_witness :
    (iree_vm_context_destroy heap_context (some context_lib_app) allocs_ok).events
      = [ContextEvent.lookup_function 11 IREE_VM_FUNCTION_LINKAGE_EXPORT "__deinit",
         ContextEvent.call 11 (exported_function 11 1),
         ContextEvent.lookup_function 10 IREE_VM_FUNCTION_LINKAGE_EXPORT "__deinit",
         ContextEvent.call 10 (exported_function 10 2),
         ContextEvent.free_state 11 111, ContextEvent.free_state 10 110,
         ContextEvent.module_release 11, ContextEvent.module_release 10,
         ContextEvent.instance_release 7]
    ∧ ∃ deinit_events c,
      (iree_vm_context_destroy heap_context (some context_lib_app) allocs_ok).events
        = deinit_events
          ++ (((List.range context_lib_app.count).filterMap fun i =>
                if context_lib_app.module_states i = 0 then none
                else some (context_lib_app.modules i, context_lib_app.module_states i)).map
              fun s => ContextEvent.free_state s.1 s.2).reverse
          ++ ((List.range context_lib_app.count).map fun i =>
                ContextEvent.module_release (context_lib_app.modules i)).reverse
          ++ [ContextEvent.instance_release context_lib_app.instance_ptr]
      ∧ (∀ e ∈ deinit_events, e.is_lifecycle = false)
      ∧ (iree_vm_context_destroy heap_context (some context_lib_app) allocs_ok).context
          = some c
      ∧ ∀ i, i < context_lib_app.count → c.modules i = 0 ∧ c.module_states i = 0 :=
  ⟨by decide,
    destroy_frees_in_reverse heap_context context_lib_app allocs_ok
      (fun i hi => by
        have hi2 : i = 0 ∨ i = 1 := by have : i < 2 := hi; omega
        rcases hi2 with rfl | rfl <;> decide)
      (by decide)⟩

/-! ## Loading an executable -/

/-- C26: `VMLAExecutable::Initialize` returns INVALID_ARGUMENT, leaves the
executable as it was and calls neither the bytecode module loader nor the
context creation, for every executable data span shorter than 16 bytes and for
every span of at least 16 bytes that the identifier test rejects. -/
theorem executable_rejects_malformed_blob (env : ExecutableEnvironment)
    (executable : VMLAExecutable) (instance_ptr vmla_module : Nat)
    (h : executable.executable_data.length < 16
      ∨ env.buffer_has_identifier executable.executable_data = false) :
    (VMLAExecutable.Initialize env executable instance_ptr vmla_module).status
        = IREE_STATUS_INVALID_ARGUMENT
    ∧ (VMLAExecutable.Initialize env executable instance_ptr vmla_module).events = []
    ∧ (VMLAExecutable.Initialize env executable instance_ptr vmla_module).executable.context
        = executable.context
    ∧ (VMLAExecutable.Initialize env executable instance_ptr vmla_module).executable.entry_functions
        = executable.entry_functions := by
  simp only [VMLAExecutable.Initialize]
  by_cases hlen : executable.executable_data.length < 16
  · rw [if_pos hlen]
    exact ⟨rfl, rfl, rfl, rfl⟩
  · rw [if_neg hlen]
    rcases h with h | h
    · exact absurd h hlen
    · rw [if_pos h]
      exact ⟨rfl, rfl, rfl, rfl⟩

theorem executable_rejects_malformed_blob_witness :
    ((VMLAExecutable.Initialize environment_sample (executable_of blob_with_identifier) 7
        10).status = IREE_STATUS_OK
      ∧ (VMLAExecutable.Initialize environment_sample (executable_of blob_with_identifier) 7
        10).events.length = 8)
    ∧ ((VMLAExecutable.Initialize environment_sample (executable_of [1, 2, 3]) 7 10).status
        = IREE_STATUS_INVALID_ARGUMENT
      ∧ (VMLAExecutable.Initialize environment_sample (executable_of [1, 2, 3]) 7 10).events
        = []
      ∧ (VMLAExecutable.Initialize environment_sample (executable_of [1, 2, 3]) 7
          10).executable.context = (executable_of [1, 2, 3]).context
      ∧ (VMLAExecutable.Initialize environment_sample (executable_of [1, 2, 3]) 7
          10).executable.entry_functions = (executable_of [1, 2, 3]).entry_functions)
    ∧ ((VMLAExecutable.Initialize environment_sample (executable_of blob_without_identifier)
        7 10).status = IREE_STATUS_INVALID_ARGUMENT
      ∧ (VMLAExecutable.Initialize environment_sample (executable_of blob_without_identifier)
        7 10).events = []
      ∧ (VMLAExecutable.Initialize environment_sample (executable_of blob_without_identifier)
        7 10).executable.context = (executable_of blob_without_identifier).context
      ∧ (VMLAExecutable.Initialize environment_sample (executable_of blob_without_identifier)
        7 10).executable.entry_functions
          = (executable_of blob_without_identifier).entry_functions) :=
  ⟨⟨by decide, by decide⟩,
    executable_rejects_malformed_blob environment_sample (executable_of [1, 2, 3]) 7 10
      (Or.inl (by decide)),
    executable_rejects_malformed_blob environment_sample
      (executable_of blob_without_identifier) 7 10 (Or.inr (by decide))⟩

/-! ## Register masks -/

/-- C27 (the code differs): a successful `iree_vm_stack_function_enter` returns
as callee registers, and records in the frame, the value the local
`callee_registers` held before `iree_vm_stack_reserve_register_storage` was
called, whatever the register counts of the function: the reserve step is a
stub that never rounds the counts nor sets the masks. -/
theorem enter_leaves_masks_unset (stack : iree_vm_stack_t) (m : Memory)
    (function : iree_vm_function_t) (argument_registers : Option iree_vm_register_list_t)
    (callee_registers : iree_vm_registers_t) (r : EnterResult)
    (h : iree_vm_stack_function_enter stack m function argument_registers callee_registers
      = some r)
    (hok : r.status = IREE_STATUS_OK) :
    r.out_callee_registers = callee_registers
    ∧ (frame_at r.stack.frames stack.depth).map
        (fun f => ((iree_vm_registers_from_base r.stack f.register_base).i32_mask,
          (iree_vm_registers_from_base r.stack f.register_base).ref_mask))
      = some (callee_registers.i32_mask, callee_registers.ref_mask) := by
  unfold iree_vm_stack_function_enter at h
  split at h
  · cases h; cases hok
  · cases hc : frame_at stack.frames stack.depth with
    | none => simp [hc] at h
    | some callee0 =>
      have hb := frame_at_some_bounds hc
      have hlen : stack.depth.toNat < stack.frames.length := by
        unfold frame_at at hc
        split at hc
        · by_contra hge
          rw [List.getElem?_eq_none (by omega)] at hc
          cases hc
        · cases hc
      have hget : ∀ (f g : iree_vm_stack_frame_t),
          frame_at ((stack.frames.set stack.depth.toNat f).set stack.depth.toNat g) stack.depth
            = some g := by
        intro f g
        unfold frame_at
        rw [if_pos (by simp [IREE_MAX_STACK_DEPTH]; omega), List.set_set,
          List.getElem?_set_self (by simpa using hlen)]
      simp only [hc, Option.bind_eq_bind, Option.some_bind] at h
      split at h
      · cases hp : frame_at stack.frames (stack.depth - 1) with
        | none => simp [hp] at h
        | some caller =>
          simp only [hp, Option.map_some', Option.some_bind,
            iree_vm_stack_reserve_register_storage, ite_self] at h
          split at h
          · rename_i hq; cases h; exact absurd hok hq.2
          · split at h
            · rename_i hne; exact absurd rfl hne
            · cases h
              refine ⟨rfl, ?_⟩
              simp only [hget, Option.map_some']
              rfl
      · simp only [Option.some_bind, iree_vm_stack_reserve_register_storage, ite_self] at h
        split at h
        · rename_i hq; cases h; exact absurd hok hq.2
        · split at h
          · rename_i hne; exact absurd rfl hne
          · cases h
            refine ⟨rfl, ?_⟩
            simp only [hget, Option.map_some']
            rfl

theorem enter_leaves_masks_unset_witness :
    function_f.i32_register_count = 4 ∧ function_f.ref_register_count = 4
    ∧ ∃ r, iree_vm_stack_function_enter (stack_fresh resolver_ok) memory_zero function_f none
        window_zero_masks = some r
      ∧ r.status = IREE_STATUS_OK
      ∧ r.out_callee_registers.i32_mask = 0 ∧ r.out_callee_registers.ref_mask = 0
      ∧ r.out_callee_registers = window_zero_masks
      ∧ (frame_at r.stack.frames (stack_fresh resolver_ok).depth).map
          (fun f => ((iree_vm_registers_from_base r.stack f.register_base).i32_mask,
            (iree_vm_registers_from_base r.stack f.register_base).ref_mask))
        = some (window_zero_masks.i32_mask, window_zero_masks.ref_mask) :=
  ⟨by decide, by decide, _, rfl, by decide, by decide, by decide,
    enter_leaves_masks_unset (stack_fresh resolver_ok) memory_zero function_f none
      window_zero_masks _ rfl (by decide)⟩

/-! ## Register bases under relocation of the arena -/

/-- C29: for every register view `r` with pointers in the 64-bit range and
every stack, rebasing `r` to base offsets and back on the same stack gives `r`
(pointers and masks); rebasing back on a stack whose arena is at another
address gives `r` with both pointers shifted by the difference of the two arena
addresses, modulo 2^64, and the same masks; and
`iree_vm_stack_frame_registers` is a function of the arena address and of the
base stored in the frame only. -/
theorem registers_base_round_trip (stack relocated : iree_vm_stack_t)
    (r : iree_vm_registers_t) (hi : r.i32 < UINTPTR_MOD) (hr : r.ref < UINTPTR_MOD) :
    iree_vm_registers_from_base stack (iree_vm_registers_to_base stack r) = r
    ∧ (((iree_vm_registers_from_base relocated (iree_vm_registers_to_base stack r)).i32 : Int)
        = ((r.i32 : Int) + ((relocated.register_storage : Int) - (stack.register_storage : Int)))
            % (2 ^ 64 : Int))
    ∧ (((iree_vm_registers_from_base relocated (iree_vm_registers_to_base stack r)).ref : Int)
        = ((r.ref : Int) + ((relocated.register_storage : Int) - (stack.register_storage : Int)))
            % (2 ^ 64 : Int))
    ∧ (iree_vm_registers_from_base relocated (iree_vm_registers_to_base stack r)).i32_mask
        = r.i32_mask
    ∧ (iree_vm_registers_from_base relocated (iree_vm_registers_to_base stack r)).ref_mask
        = r.ref_mask
    ∧ (∀ (s1 s2 : iree_vm_stack_t) (f1 f2 : iree_vm_stack_frame_t),
        s1.register_storage = s2.register_storage → f1.register_base = f2.register_base →
        iree_vm_stack_frame_registers s1 f1 = iree_vm_stack_frame_registers s2 f2) := by
  refine ⟨from_base_to_base stack r hi hr, ?_, ?_, rfl, rfl, ?_⟩
  · unfold iree_vm_registers_from_base iree_vm_registers_to_base
    unfold UINTPTR_MOD at *
    simp only
    omega
  · unfold iree_vm_registers_from_base iree_vm_registers_to_base
    unfold UINTPTR_MOD at *
    simp only
    omega
  · intro s1 s2 f1 f2 hs hf
    simp only [iree_vm_stack_frame_registers, iree_vm_registers_from_base, hs, hf]

theorem registers_base_round_trip_witness :
    iree_vm_registers_from_base (stack_fresh resolver_ok)
        (iree_vm_registers_to_base (stack_fresh resolver_ok) (window 4096)) = window 4096
    ∧ iree_vm_registers_from_base { stack_fresh resolver_ok with register_storage := 8192 }
        (iree_vm_registers_to_base (stack_fresh resolver_ok) (window 4096)) = window 8192
    ∧ iree_vm_registers_from_base { stack_fresh resolver_ok with register_storage := 1024 }
        (iree_vm_registers_to_base (stack_fresh resolver_ok) (window 4096)) = window 1024
    ∧ (((iree_vm_registers_from_base { stack_fresh resolver_ok with register_storage := 1024 }
        (iree_vm_registers_to_base (stack_fresh resolver_ok) (window 4096))).i32 : Int)
        = (((window 4096).i32 : Int)
            + (((1024 : Nat) : Int) - ((stack_fresh resolver_ok).register_storage : Int)))
            % (2 ^ 64 : Int)) :=
  ⟨(registers_base_round_trip (stack_fresh resolver_ok) (stack_fresh resolver_ok) (window 4096)
      (by decide) (by decide)).1,
    by decide, by decide,
    (registers_base_round_trip (stack_fresh resolver_ok)
      { stack_fresh resolver_ok with register_storage := 1024 } (window 4096)
      (by decide) (by decide)).2.1⟩

/-! ## Ordinals of a native module -/

theorem lookup_function_loop_first (name : String) :
    ∀ (table : List NativeFunction) (start i : Nat),
      lookup_function_loop name table start = some i →
      start ≤ i ∧ i - start < table.length
      ∧ (table[i - start]?).map (fun f => f.name) = some name
      ∧ ∀ j, j < i - start → (table[j]?).map (fun f => f.name) ≠ some name := by
  intro table
  induction table with
  | nil => intro start i h; cases h
  | cons entry rest ih =>
    intro start i h
    simp only [lookup_function_loop] at h
    split at h
    · next hname =>
      cases h
      refine ⟨Nat.le_refl _, by simp, by simp [hname], fun j hj => by omega⟩
    · next hname =>
      obtain ⟨h1, h2, h3, h4⟩ := ih (start + 1) i h
      have e : i - start = (i - (start + 1)) + 1 := by omega
      refine ⟨by omega, by rw [e]; simp; omega, by rw [e]; simpa using h3, ?_⟩
      intro j hj
      cases j with
      | zero =>
        simp only [List.getElem?_cons_zero, Option.map_some', ne_eq, Option.some.injEq]
        exact fun hc => hname hc.symm
      | succ j =>
        simp only [List.getElem?_cons_succ]
        exact h4 j (by omega)

/-- C30 (the code differs): the bounds test of `ModuleGetFunction` and
`ModuleCall` is `ordinal < 0 || ordinal > size`, which lets the ordinal `n` of
a table of `n` functions through: `ModuleGetFunction` with a name requested and
`ModuleCall` then read `dispatch_table_[n]`, one past the end. The ordinals
below 0 and above `n` are rejected with INVALID_ARGUMENT, and a lookup that
returns OK returns the smallest index with the name, an index below `n` whose
name `ModuleGetFunction` reports. -/
theorem native_module_ordinal_off_by_one (module : NativeModule)
    (function : iree_vm_function_t) (module_state : Nat) :
    module.ModuleGetFunction IREE_VM_FUNCTION_LINKAGE_EXPORT module.dispatch_table.length
        true true = none
    ∧ (function.ordinal = module.dispatch_table.length →
        module.ModuleCall true function module_state true = none)
    ∧ (∀ ordinal : Int, ordinal < 0 ∨ ordinal > module.dispatch_table.length →
        (module.ModuleGetFunction IREE_VM_FUNCTION_LINKAGE_EXPORT ordinal true true).map
          (fun r => r.status) = some IREE_STATUS_INVALID_ARGUMENT)
    ∧ (function.ordinal < 0 ∨ function.ordinal > module.dispatch_table.length →
        module.ModuleCall true function module_state true
          = some IREE_STATUS_INVALID_ARGUMENT)
    ∧ (∀ (name : String) (found : iree_vm_function_t),
        module.ModuleLookupFunction IREE_VM_FUNCTION_LINKAGE_EXPORT (some name) true
          = (IREE_STATUS_OK, some found) →
        0 ≤ found.ordinal ∧ found.ordinal < module.dispatch_table.length
        ∧ (∀ j, j < found.ordinal.toNat →
            (module.dispatch_table[j]?).map (fun f => f.name) ≠ some name)
        ∧ (module.ModuleGetFunction IREE_VM_FUNCTION_LINKAGE_EXPORT found.ordinal true
            true).map (fun r => (r.status, r.out_name)) = some (IREE_STATUS_OK, some name)) := by
  refine ⟨?_, ?_, ?_, ?_, ?_⟩
  · simp only [NativeModule.ModuleGetFunction]
    rw [if_neg (by omega)]
    simp
  · intro h
    simp only [NativeModule.ModuleCall, h]
    rw [if_neg (by decide), if_neg (by decide), if_neg (by omega)]
    simp
  · intro ordinal h
    simp only [NativeModule.ModuleGetFunction]
    rw [if_pos h]
    rfl
  · intro h
    simp only [NativeModule.ModuleCall]
    rw [if_neg (by decide), if_neg (by decide), if_pos h]
  · intro name found h
    simp only [NativeModule.ModuleLookupFunction] at h
    rw [if_neg (by decide)] at h
    split at h
    · cases h
    · cases hl : lookup_function_loop name module.dispatch_table 0 with
      | none => rw [hl] at h; cases h
      | some i =>
        rw [hl] at h
        simp only [Prod.mk.injEq, Option.some.injEq, true_and] at h
        subst h
        obtain ⟨_, h2, h3, h4⟩ := lookup_function_loop_first name module.dispatch_table 0 i hl
        simp only [Nat.sub_zero] at h2 h3 h4
        refine ⟨by simp, by simpa using h2, fun j hj => h4 j (by simpa using hj), ?_⟩
        simp only [NativeModule.ModuleGetFunction]
        rw [if_neg (by simp; omega)]
        simp only [if_true, Int.toNat_ofNat]
        cases hget : module.dispatch_table[i]? with
        | none => rw [hget] at h3; cases h3
        | some f =>
          rw [hget] at h3
          simp only [Option.map_some', Option.some.injEq] at h3
          simp [h3]

theorem native_module_ordinal_off_by_one_witness :
    native_module_sample.dispatch_table.length = 2
    ∧ native_module_sample.ModuleGetFunction IREE_VM_FUNCTION_LINKAGE_EXPORT 2 true true = none
    ∧ native_module_sample.ModuleCall true (exported_function 30 2) 0 true = none
    ∧ native_module_sample.ModuleCall true (exported_function 30 3) 0 true
        = some IREE_STATUS_INVALID_ARGUMENT :=
  ⟨by decide,
    (native_module_ordinal_off_by_one native_module_sample (exported_function 30 2) 0).1,
    (native_module_ordinal_off_by_one native_module_sample (exported_function 30 2) 0).2.1
      (by decide),
    (native_module_ordinal_off_by_one native_module_sample (exported_function 30 3) 0).2.2.2.1
      (by decide)⟩

/-! ## The frame pushed by an enter -/

theorem enter_setup_fields (callee : iree_vm_stack_frame_t)
    (caller : Option iree_vm_stack_frame_t) (function : iree_vm_function_t) :
    (enter_setup_callee_frame callee caller function).function = function
    ∧ (enter_setup_callee_frame callee caller function).pc = 0
    ∧ (enter_setup_callee_frame callee caller function).return_registers = none
    ∧ (enter_setup_callee_frame callee caller function).module_state =
        match caller with
        | some c => if c.function.module = function.module then c.module_state
                    else callee.module_state
        | none => callee.module_state := by
  unfold enter_setup_callee_frame
  cases caller with
  | none => exact ⟨rfl, rfl, rfl, rfl⟩
  | some c =>
    simp only
    split <;> exact ⟨rfl, rfl, rfl, rfl⟩

theorem frame_at_set_set (frames : List iree_vm_stack_frame_t) (d : Int)
    (f g : iree_vm_stack_frame_t) (c : iree_vm_stack_frame_t)
    (hc : frame_at frames d = some c) :
    frame_at ((frames.set d.toNat f).set d.toNat g) d = some g
    ∧ ∀ i : Int, i ≠ d → frame_at ((frames.set d.toNat f).set d.toNat g) i = frame_at frames i := by
  have hb := frame_at_some_bounds hc
  have hlen : d.toNat < frames.length := by
    unfold frame_at at hc
    split at hc
    · by_contra hge
      rw [List.getElem?_eq_none (by omega)] at hc
      cases hc
    · cases hc
  constructor
  · unfold frame_at
    rw [if_pos (by simp [IREE_MAX_STACK_DEPTH]; omega), List.set_set,
      List.getElem?_set_self (by simpa using hlen)]
  · intro i hi
    unfold frame_at
    split
    · next hib =>
      rw [List.set_set, List.getElem?_set_ne (by omega)]
    · rfl

/-- The frame a successful enter pushes, when the slot it takes held no module
state. -/
theorem enter_ok_frame (stack : iree_vm_stack_t) (m : Memory)
    (function : iree_vm_function_t) (argument_registers : Option iree_vm_register_list_t)
    (callee_registers : iree_vm_registers_t) (r : EnterResult)
    (h : iree_vm_stack_function_enter stack m function argument_registers callee_registers
      = some r)
    (hok : r.status = IREE_STATUS_OK)
    (hclean : ∀ f, frame_at stack.frames stack.depth = some f → f.module_state = 0) :
    r.stack.depth = stack.depth + 1
    ∧ ∃ callee, frame_at r.stack.frames stack.depth = some callee
      ∧ callee.function = function ∧ callee.pc = 0 ∧ callee.return_registers = none
      ∧ (∀ caller, stack.depth ≠ 0 → frame_at stack.frames (stack.depth - 1) = some caller →
          caller.function.module = function.module → caller.module_state ≠ 0 →
          callee.module_state = caller.module_state)
      ∧ ((stack.depth = 0 ∨ ∃ caller, frame_at stack.frames (stack.depth - 1) = some caller
            ∧ (caller.function.module ≠ function.module ∨ caller.module_state = 0)) →
          callee.module_state = (stack.state_resolver.query_module_state
            stack.state_resolver.self function.module).2)
      ∧ ∀ i : Int, i ≠ stack.depth → frame_at r.stack.frames i = frame_at stack.frames i := by
  unfold iree_vm_stack_function_enter at h
  split at h
  · cases h; cases hok
  · cases hc : frame_at stack.frames stack.depth with
    | none => simp [hc] at h
    | some callee0 =>
      have hz := hclean callee0 hc
      simp only [hc, Option.bind_eq_bind, Option.some_bind] at h
      split at h
      · next hd =>
        cases hp : frame_at stack.frames (stack.depth - 1) with
        | none => simp [hp] at h
        | some caller =>
          obtain ⟨s1, s2, s3, s4⟩ := enter_setup_fields callee0 (some caller) function
          simp only [hp, Option.map_some', Option.some_bind,
            iree_vm_stack_reserve_register_storage, ite_self] at h
          split at h
          · rename_i hq; cases h; exact absurd hok hq.2
          · split at h
            · rename_i hne; exact absurd rfl hne
            · cases h
              obtain ⟨g1, g2⟩ := frame_at_set_set stack.frames stack.depth
                (if (enter_setup_callee_frame callee0 (some caller) function).module_state = 0
                  then { enter_setup_callee_frame callee0 (some caller) function with
                         module_state := (stack.state_resolver.query_module_state
                           stack.state_resolver.self function.module).2 }
                  else enter_setup_callee_frame callee0 (some caller) function)
                { (if (enter_setup_callee_frame callee0 (some caller) function).module_state
                      = 0
                    then { enter_setup_callee_frame callee0 (some caller) function with
                           module_state := (stack.state_resolver.query_module_state
                             stack.state_resolver.self function.module).2 }
                    else enter_setup_callee_frame callee0 (some caller) function) with
                  register_base := iree_vm_registers_to_base
                    { stack with
                      depth := stack.depth + 1
                      frames := stack.frames.set stack.depth.toNat
                        (if (enter_setup_callee_frame callee0 (some caller)
                              function).module_state = 0
                          then { enter_setup_callee_frame callee0 (some caller) function with
                                 module_state := (stack.state_resolver.query_module_state
                                   stack.state_resolver.self function.module).2 }
                          else enter_setup_callee_frame callee0 (some caller) function) }
                    callee_registers }
                callee0 hc
              refine ⟨rfl, _, g1, ?_, ?_, ?_, ?_, ?_, g2⟩
              · split <;> exact s1
              · split <;> exact s2
              · split <;> exact s3
              · intro c hd2 hc2 hmod hstate
                cases hc2
                simp only at s4
                rw [if_pos hmod] at s4
                simp only
                rw [if_neg (by rw [s4]; exact hstate)]
                exact s4
              · intro hcase
                have hzero : (enter_setup_callee_frame callee0 (some caller)
                    function).module_state = 0 := by
                  simp only at s4
                  rcases hcase with h0 | ⟨c, hc2, hc3⟩
                  · exact absurd h0 hd
                  · cases hc2
                    rcases hc3 with hne | hst
                    · rw [s4, if_neg hne]; exact hz
                    · rw [s4]
                      split
                      · exact hst
                      · exact hz
                simp only
                rw [if_pos hzero]
      · next hd =>
        have hd0 : stack.depth = 0 := not_not.mp hd
        obtain ⟨s1, s2, s3, s4⟩ := enter_setup_fields callee0 none function
        simp only [Option.some_bind, iree_vm_stack_reserve_register_storage, ite_self] at h
        split at h
        · rename_i hq; cases h; exact absurd hok hq.2
        · split at h
          · rename_i hne; exact absurd rfl hne
          · cases h
            obtain ⟨g1, g2⟩ := frame_at_set_set stack.frames stack.depth
              (if (enter_setup_callee_frame callee0 none function).module_state = 0
                then { enter_setup_callee_frame callee0 none function with
                       module_state := (stack.state_resolver.query_module_state
                         stack.state_resolver.self function.module).2 }
                else enter_setup_callee_frame callee0 none function)
              { (if (enter_setup_callee_frame callee0 none function).module_state = 0
                  then { enter_setup_callee_frame callee0 none function with
                         module_state := (stack.state_resolver.query_module_state
                           stack.state_resolver.self function.module).2 }
                  else enter_setup_callee_frame callee0 none function) with
                register_base := iree_vm_registers_to_base
                  { stack with
                    depth := stack.depth + 1
                    frames := stack.frames.set stack.depth.toNat
                      (if (enter_setup_callee_frame callee0 none function).module_state = 0
                        then { enter_setup_callee_frame callee0 none function with
                               module_state := (stack.state_resolver.query_module_state
                                 stack.state_resolver.self function.module).2 }
                        else enter_setup_callee_frame callee0 none function) }
                  callee_registers }
              callee0 hc
            refine ⟨rfl, _, g1, ?_, ?_, ?_, ?_, ?_, g2⟩
            · split <;> exact s1
            · split <;> exact s2
            · split <;> exact s3
            · intro c hd2
              exact absurd hd0 hd2
            · intro _
              have hzero : (enter_setup_callee_frame callee0 none function).module_state
                  = 0 := by
                rw [s4]; exact hz
              simp only
              rw [if_pos hzero]

/-! ## Slots above the depth hold no module state -/

theorem clean_after_push (stack : iree_vm_stack_t) (f : iree_vm_stack_frame_t)
    (h : slots_above_clean stack) (h0 : 0 ≤ stack.depth) :
    slots_above_clean
      { stack with depth := stack.depth + 1, frames := stack.frames.set stack.depth.toNat f } := by
  intro i g hi hg
  simp only at hi hg
  rw [List.getElem?_set_ne (by omega)] at hg
  exact h i g (by omega) hg

theorem clean_after_push_twice (stack : iree_vm_stack_t) (f g : iree_vm_stack_frame_t)
    (h : slots_above_clean stack) (h0 : 0 ≤ stack.depth) :
    slots_above_clean
      { stack with
        depth := stack.depth + 1
        frames := (stack.frames.set stack.depth.toNat f).set stack.depth.toNat g } := by
  intro i k hi hk
  simp only at hi hk
  rw [List.set_set, List.getElem?_set_ne (by omega)] at hk
  exact h i k (by omega) hk

theorem clean_after_pop (stack : iree_vm_stack_t) (callee : iree_vm_stack_frame_t)
    (h : slots_above_clean stack) (h0 : 0 < stack.depth) :
    slots_above_clean (pop_frame stack callee) := by
  intro i g hi hg
  simp only [pop_frame] at hi hg
  by_cases hidx : (stack.depth - 1).toNat = i
  · subst hidx
    by_cases hlen : (stack.depth - 1).toNat < stack.frames.length
    · rw [List.getElem?_set_self hlen] at hg
      cases hg
      rfl
    · rw [List.getElem?_eq_none (by simpa using hlen)] at hg
      cases hg
  · rw [List.getElem?_set_ne hidx] at hg
    exact h i g (by omega) hg

theorem enter_keeps_clean {stack : iree_vm_stack_t} {m : Memory}
    {function : iree_vm_function_t} {argument_registers : Option iree_vm_register_list_t}
    {callee_registers : iree_vm_registers_t} {r : EnterResult}
    (h : iree_vm_stack_function_enter stack m function argument_registers callee_registers
      = some r)
    (hclean : slots_above_clean stack) : slots_above_clean r.stack := by
  unfold iree_vm_stack_function_enter at h
  split at h
  · cases h; exact hclean
  · cases hc : frame_at stack.frames stack.depth with
    | none => simp [hc] at h
    | some callee0 =>
      have hb := frame_at_some_bounds hc
      simp only [hc, Option.bind_eq_bind, Option.some_bind] at h
      split at h
      · cases hp : frame_at stack.frames (stack.depth - 1) with
        | none => simp [hp] at h
        | some caller =>
          simp only [hp, Option.map_some', Option.some_bind,
            iree_vm_stack_reserve_register_storage, ite_self] at h
          split at h
          · cases h; exact clean_after_push stack _ hclean hb.1
          · split at h
            · cases h; exact clean_after_push stack _ hclean hb.1
            · cases h; exact clean_after_push_twice stack _ _ hclean hb.1
      · simp only [Option.some_bind, iree_vm_stack_reserve_register_storage, ite_self] at h
        split at h
        · cases h; exact clean_after_push stack _ hclean hb.1
        · split at h
          · cases h; exact clean_after_push stack _ hclean hb.1
          · cases h; exact clean_after_push_twice stack _ _ hclean hb.1

theorem enter_external_keeps_clean {stack : iree_vm_stack_t} {m : Memory}
    {arguments : Option iree_vm_variant_list_t} {max_register_count : Nat}
    {callee_registers : iree_vm_registers_t} {r : EnterExternalResult}
    (h : iree_vm_stack_function_enter_external stack m arguments max_register_count
      callee_registers = some r)
    (hclean : slots_above_clean stack) : slots_above_clean r.stack := by
  unfold iree_vm_stack_function_enter_external at h
  split at h
  · cases h; exact hclean
  · cases hc : frame_at stack.frames stack.depth with
    | none => simp [hc] at h
    | some callee0 =>
      have hb := frame_at_some_bounds hc
      simp only [hc, Option.bind_eq_bind, Option.some_bind,
        iree_vm_stack_reserve_register_storage, ite_self] at h
      split at h
      · rename_i hne; exact absurd rfl hne
      · cases arguments with
        | none => simp only at h; cases h; exact clean_after_push_twice stack _ _ hclean hb.1
        | some args =>
          simp only at h; cases h; exact clean_after_push_twice stack _ _ hclean hb.1

theorem leave_keeps_clean {stack : iree_vm_stack_t} {m : Memory}
    {result_registers : Option iree_vm_register_list_t} {r : LeaveResult}
    (h : iree_vm_stack_function_leave stack m result_registers = some r)
    (hclean : slots_above_clean stack) : slots_above_clean r.stack := by
  unfold iree_vm_stack_function_leave at h
  split at h
  · cases h; exact hclean
  · rename_i hd
    cases hc : frame_at stack.frames (stack.depth - 1) with
    | none => simp [hc] at h
    | some callee_frame =>
      simp only [hc, Option.bind_eq_bind, Option.some_bind] at h
      cases hr : leave_remap_results stack m result_registers callee_frame with
      | none => simp [hr] at h
      | some remapped =>
        simp only [hr, Option.some_bind, iree_vm_stack_release_register_storage] at h
        cases h
        exact clean_after_pop stack callee_frame hclean (by omega)

theorem leave_external_keeps_clean {stack : iree_vm_stack_t} {m : Memory}
    {results : Option iree_vm_variant_list_t} {r : LeaveExternalResult}
    (h : iree_vm_stack_function_leave_external stack m results = some r)
    (hclean : slots_above_clean stack) : slots_above_clean r.stack := by
  unfold iree_vm_stack_function_leave_external at h
  split at h
  · cases h; exact hclean
  · rename_i hd
    cases hc : frame_at stack.frames (stack.depth - 1) with
    | none => simp [hc] at h
    | some callee_frame =>
      simp only [hc, Option.bind_eq_bind, Option.some_bind] at h
      cases hr : leave_external_marshal stack m results callee_frame with
      | none => simp [hr] at h
      | some marshaled =>
        simp only [hr, Option.some_bind, iree_vm_stack_release_register_storage] at h
        split at h
        · cases h; exact hclean
        · cases h
          exact clean_after_pop stack callee_frame hclean (by omega)

theorem step_keeps_clean {op : StackOp} {stack : iree_vm_stack_t} {m : Memory}
    {res : iree_status_t × iree_vm_stack_t × Memory} (h : op.step stack m = some res)
    (hclean : slots_above_clean stack) : slots_above_clean res.2.1 := by
  cases op with
  | enter function argument_registers callee_registers =>
    simp only [StackOp.step, Option.map_eq_some'] at h
    obtain ⟨r, hr, rfl⟩ := h
    exact enter_keeps_clean hr hclean
  | leave result_registers =>
    simp only [StackOp.step, Option.map_eq_some'] at h
    obtain ⟨r, hr, rfl⟩ := h
    exact leave_keeps_clean hr hclean
  | enter_external arguments max_register_count callee_registers =>
    simp only [StackOp.step, Option.map_eq_some'] at h
    obtain ⟨r, hr, rfl⟩ := h
    exact enter_external_keeps_clean hr hclean
  | leave_external results =>
    simp only [StackOp.step, Option.map_eq_some'] at h
    obtain ⟨r, hr, rfl⟩ := h
    exact leave_external_keeps_clean hr hclean

theorem run_ops_keeps_clean (ops : List StackOp) :
    ∀ (stack : iree_vm_stack_t) (m : Memory)
      (res : List iree_status_t × iree_vm_stack_t × Memory),
      run_ops ops stack m = some res → slots_above_clean stack →
      slots_above_clean res.2.1 := by
  induction ops with
  | nil =>
    intro stack m res h hclean
    simp only [run_ops, Option.some.injEq] at h
    subst h
    exact hclean
  | cons op rest ih =>
    intro stack m res h hclean
    obtain ⟨r, r2, hs, hr, rfl⟩ := run_ops_cons h
    exact ih _ _ r2 hr (step_keeps_clean hs hclean)

theorem init_clean (state_resolver : iree_vm_state_resolver_t) (allocator : Nat)
    (malloc_result : iree_status_t × Nat) :
    slots_above_clean (iree_vm_stack_init state_resolver allocator malloc_result).2 := by
  intro i f _ hf
  have hframes : (iree_vm_stack_init state_resolver allocator malloc_result).2.frames
      = List.replicate IREE_MAX_STACK_DEPTH iree_vm_stack_frame_zero := by
    unfold iree_vm_stack_init
    split <;> rfl
  rw [hframes] at hf
  have hmem : f ∈ List.replicate IREE_MAX_STACK_DEPTH iree_vm_stack_frame_zero :=
    List.mem_iff_getElem?.mpr ⟨i, hf⟩
  rw [List.eq_of_mem_replicate hmem]
  rfl

/-- C28: on every stack reached from `iree_vm_stack_init` by enter and leave
calls, a successful `iree_vm_stack_function_enter` raises the depth by one; the
new top frame has the given function, `pc` 0 and no return registers; its
module state is the caller frame's when a caller frame exists, its function is
of the same module and that state is non-null, and otherwise the value the
state resolver returns for the function's module; and every other frame slot is
unchanged. -/
theorem enter_pushes_clean_frame (state_resolver : iree_vm_state_resolver_t)
    (allocator : Nat) (malloc_result : iree_status_t × Nat) (ops : List StackOp)
    (m0 : Memory) (res : List iree_status_t × iree_vm_stack_t × Memory)
    (hrun : run_ops ops (iree_vm_stack_init state_resolver allocator malloc_result).2 m0
      = some res)
    (function : iree_vm_function_t) (argument_registers : Option iree_vm_register_list_t)
    (callee_registers : iree_vm_registers_t) (r : EnterResult)
    (henter : iree_vm_stack_function_enter res.2.1 res.2.2 function argument_registers
      callee_registers = some r)
    (hok : r.status = IREE_STATUS_OK) :
    r.stack.depth = res.2.1.depth + 1
    ∧ ∃ callee, frame_at r.stack.frames res.2.1.depth = some callee
      ∧ callee.function = function ∧ callee.pc = 0 ∧ callee.return_registers = none
      ∧ (∀ caller, res.2.1.depth ≠ 0 →
          frame_at res.2.1.frames (res.2.1.depth - 1) = some caller →
          caller.function.module = function.module → caller.module_state ≠ 0 →
          callee.module_state = caller.module_state)
      ∧ ((res.2.1.depth = 0
            ∨ ∃ caller, frame_at res.2.1.frames (res.2.1.depth - 1) = some caller
              ∧ (caller.function.module ≠ function.module ∨ caller.module_state = 0)) →
          callee.module_state = (res.2.1.state_resolver.query_module_state
            res.2.1.state_resolver.self function.module).2)
      ∧ ∀ i : Int, i ≠ res.2.1.depth →
          frame_at r.stack.frames i = frame_at res.2.1.frames i := by
  have hclean := run_ops_keeps_clean ops _ m0 res hrun
    (init_clean state_resolver allocator malloc_result)
  apply enter_ok_frame res.2.1 res.2.2 function argument_registers callee_registers r henter
    hok
  intro f hf
  have hb := frame_at_some_bounds hf
  unfold frame_at at hf
  rw [if_pos (by simp [IREE_MAX_STACK_DEPTH]; omega)] at hf
  exact hclean res.2.1.depth.toNat f (by omega) hf

theorem enter_pushes_clean_frame_witness :
    ∃ res, run_ops ops_two_enters (iree_vm_stack_init resolver_ok 0 (IREE_STATUS_OK, 4096)).2
        memory_zero = some res
      ∧ ∃ r, iree_vm_stack_function_enter res.2.1 res.2.2 function_g none (window 4352)
          = some r
        ∧ r.status = IREE_STATUS_OK
        ∧ (frame_at r.stack.frames 2).map (fun f => (f.function, f.pc, f.module_state))
            = some (function_g, 0, 7)
        ∧ r.stack.depth = res.2.1.depth + 1
        ∧ ∃ callee, frame_at r.stack.frames res.2.1.depth = some callee
          ∧ callee.function = function_g ∧ callee.pc = 0 ∧ callee.return_registers = none
          ∧ (∀ caller, res.2.1.depth ≠ 0 →
              frame_at res.2.1.frames (res.2.1.depth - 1) = some caller →
              caller.function.module = function_g.module → caller.module_state ≠ 0 →
              callee.module_state = caller.module_state)
          ∧ ((res.2.1.depth = 0
                ∨ ∃ caller, frame_at res.2.1.frames (res.2.1.depth - 1) = some caller
                  ∧ (caller.function.module ≠ function_g.module ∨ caller.module_state = 0)) →
              callee.module_state = (res.2.1.state_resolver.query_module_state
                res.2.1.state_resolver.self function_g.module).2)
          ∧ ∀ i : Int, i ≠ res.2.1.depth →
              frame_at r.stack.frames i = frame_at res.2.1.frames i :=
  ⟨_, rfl, _, rfl, by decide, by decide,
    enter_pushes_clean_frame resolver_ok 0 (IREE_STATUS_OK, 4096) ops_two_enters memory_zero _
      rfl function_g none (window 4352) _ rfl (by decide)⟩

end Iree
